import Mathlib

/-!
Shallow embedding of `metrics_calc_lite` and verified properties.

Embedding of the portable (`NO_IPP`) code path of `metrics_calc_lite.cpp` and
`metrics_calc_lite_utils.cpp`.

Conventions of the embedding.

* `double` values are real numbers (`ℝ`): rounding is idealised away, every
  other step of the source computation is kept (the norm is a square root that
  the caller squares again, `std::min` is the comparison it is written as).
  `sqrt` is `Real.sqrt`, which is `0` on a negative argument where the C
  library returns NaN; a negative argument arises only from wrapped products of
  16-bit samples, and the properties that use the value of the root establish
  that the sum is nonnegative.
* Sample arithmetic is machine arithmetic: samples are read modulo the width of
  their container and the `int` product of two sample differences wraps to
  32 bits (`wrapInt32`).
* The memory of a reader is an array of bytes and a pointer is a byte address
  in it.  Loads and stores through `uint16_t*` and `uint32_t*` are
  little-endian; `p + k` on such a pointer is the address `p + 2 * k` or
  `p + 4 * k`.  Byte strides are kept as the source passes them and halved
  exactly where the source does (`step >> 1`).
* Widths, heights, strides and offsets are natural numbers: the embedding covers
  the geometries whose 32-bit index arithmetic does not wrap, which is the case
  of every plane that lies inside a buffer `OpenReadFile` allocates.
* Pointers of the embedding are never null, so the null checks of the kernels
  are not represented.  Whether an allocation of an evaluator returns a buffer
  is a parameter of `main`.
* The parts of `metrics_calc_lite.cpp` that are compiled only when neither
  `NO_IPP` nor `LEGACY_IPP` is defined (the tokens and masks of the further
  metrics, `CUQIEvaluator`, `CMSSIMEvaluator`) are embedded with the values of
  the primitives of the library as parameters; a flag `full` of `parse_metrics`
  and `main` selects the build.  The kernel sizes `GetGaussianSize` returns are
  a parameter (`mc_ksz`), the conversions `ippiConvert_8u32f_C1R` and
  `ippiConvert_16u32f_C1R` are the kernels `mclConvert_*` that stand for them
  in the build without the library, and the value of `omp_get_max_threads()`
  is a parameter that is absent in a build without `_OPENMP`.  The extents
  `i_width`, `i_height` and the band heights of the MS-SSIM evaluator are
  integers, as in the source.
* The field index passed to `ReadRawFrame` is the value of its `uint32_t`
  parameter, a natural number below `2 ^ 32`.  The cast `(int32_t)field` of the
  comparison with `m_cur_frame` and of the assignment to it is the reduction to
  32 bits (`wrapInt32`): it changes nothing below `2 ^ 31` and maps
  `4294967295` to `-1`, the value the constructor gives `m_cur_frame`.
* The `int32_t` variables of `main` are integers reduced to 32 bits after every
  operation (`wrapInt32`); the source leaves signed overflow undefined.  The
  arguments are a list of strings, `argc` its length.  A division by zero and a
  read of `argv` at or past `argv[argc]` end a run as `undefined`.
* The header and `metrics_calc_lite_utils.cpp` declare and serve the tags up to
  `A2RGB10P` and the depths `D008` and `D010`; `metrics_calc_lite.cpp` also
  names the tags `Y416P`, `Y416I`, `ARGB16P` and the depths `D012`, `D016`.  The
  functions of `metrics_calc_lite_utils.cpp` are embedded as they are written;
  what they are to return for the further tags and depths is modelled from the
  spec in definitions of their own (`get_chromaclass_spec`, `mclMalloc_spec`,
  `mclNormDiff_L2_C1R_spec`, `mclConvert__u32f_C1R_spec`,
  `mclRShiftC_C1IR_spec`), and `OpenReadFile` takes the allocator as a
  parameter (`OpenReadFileWith`).
* `float` values are real numbers as well: what is proved of them is proved of
  the values in exact arithmetic, the rounding of single precision is not
  modelled.  Each `float` buffer of the SSIM evaluator is an array of its own,
  indexed by element; the extents `roi - (ksz & ~1)` are differences of natural
  numbers, so an extent that is negative in the source is `0` here, which every
  callee treats alike.
-/

namespace MCL

/-! ## Types of `metrics_calc_lite_utils.h` -/

inductive EErrorStatus where
  | MCL_ERR_NONE
  | MCL_ERR_UNKNOWN
  | MCL_ERR_NULL_PTR
  | MCL_ERR_INVALID_PARAM
  | MCL_ERR_MEMORY_ALLOC
  deriving DecidableEq, Repr

/-- Sequence tags.  The header under `src/` stops at `A2RGB10P`; the tags
`Y416P`, `Y416I` and `ARGB16P` are the further ones `metrics_calc_lite.cpp`
names. -/
inductive ESequenceType where
  | UNKNOWN
  | I420P | I420I | YV12P | YV12I | NV12P | NV12I
  | YUY2P | YUY2I | NV16P | NV16I | I422P | I422I
  | AYUVP | AYUVI | Y410P | Y410I | I444P | I444I | I410P | I410I
  | RGB32I | RGB32P | A2RGB10I | A2RGB10P
  | Y416P | Y416I | ARGB16P
  deriving DecidableEq, Repr

inductive EChromaType where
  | C420 | C422 | C444
  deriving DecidableEq, Repr

/-- Bit depths.  The header under `src/` declares `D008` and `D010`; `D012` and
`D016` are the further ones `metrics_calc_lite.cpp` names. -/
inductive EBitDepth where
  | D008 | D010 | D012 | D016
  deriving DecidableEq, Repr

structure ImageSize where
  width : Nat
  height : Nat
  deriving DecidableEq, Repr

/-- Plane view `SImage`: `data` is the byte offset of the first sample in the
buffer that owns the plane, `step` the byte stride. -/
structure SImage where
  data : Nat
  step : Nat
  roi : ImageSize
  deriving DecidableEq, Repr

/-- Contents of memory: byte address to byte value. -/
abbrev Mem := Nat → Nat

/-! ## Control-flow helpers -/

/-- Counted loop `for (i = 0; i < n; i++) s = body i s`. -/
def forLoop {σ : Type} : Nat → (Nat → σ → σ) → σ → σ
  | 0, _, s => s
  | n + 1, body, s => body n (forLoop n body s)

/-- Value of `std::min(a, b)`: `(b < a) ? b : a`. -/
noncomputable def stdMin (a b : ℝ) : ℝ := if b < a then b else a

/-- Two's-complement wrap of an integer to `int32_t`. -/
def wrapInt32 (x : Int) : Int := (x + 2 ^ 31) % 2 ^ 32 - 2 ^ 31

/-! ## `is_interlaced`, `get_chromaclass` -/

def is_interlaced : ESequenceType → Bool
  | .I420I | .YV12I | .NV12I | .YUY2I | .NV16I | .I422I
  | .AYUVI | .Y410I | .I444I | .I410I | .RGB32I | .A2RGB10I => true
  | _ => false

def get_chromaclass : ESequenceType → EChromaType
  | .AYUVP | .AYUVI | .Y410P | .Y410I | .I444P | .I444I | .I410P | .I410I
  | .RGB32I | .RGB32P | .A2RGB10I | .A2RGB10P => .C444
  | .YUY2P | .YUY2I | .NV16P | .NV16I | .I422P | .I422I => .C422
  | _ => .C420

/-! ## `MaxError`, `MSEToPSNR` -/

def MASK_PSNR : Nat := 1 <<< 0
def MASK_APSNR : Nat := 1 <<< 1
def MASK_MSE : Nat := 1 <<< 2
def MASK_SSIM : Nat := 1 <<< 3

def MAX_PSNR : ℝ := 1000

def MaxError : EBitDepth → ℝ
  | .D010 => 1023
  | .D012 => 4095
  | .D016 => 65535
  | _ => 255

noncomputable def MSEToPSNR (p_mse MaxErr : ℝ) : ℝ :=
  if p_mse < 0 then -1
  else if p_mse = 0 then MAX_PSNR
  else stdMin (10 * Real.logb 10 (MaxErr * MaxErr / p_mse)) MAX_PSNR

/-! ## Memory access

The memory of a reader is an array of bytes; multi-byte loads are
little-endian, as on the machines the tool is built for. -/

/-- Load through a `uint8_t*` at byte address `p`. -/
def read8 (m : Mem) (p : Nat) : Nat := m p % 256

/-- Load through a `uint16_t*` at byte address `p`. -/
def read16 (m : Mem) (p : Nat) : Nat := read8 m p + 256 * read8 m (p + 1)

/-- Load through a `uint32_t*` at byte address `p`. -/
def read32 (m : Mem) (p : Nat) : Nat :=
  read8 m p + 256 * read8 m (p + 1) + 65536 * read8 m (p + 2) + 16777216 * read8 m (p + 3)

/-- Store through a `uint8_t*` at byte address `p` (the value is truncated). -/
def write8 (m : Mem) (p v : Nat) : Mem := Function.update m p (v % 256)

/-- Store through a `uint16_t*` at byte address `p` (the value is truncated). -/
def write16 (m : Mem) (p v : Nat) : Mem := write8 (write8 m p v) (p + 1) (v / 256)

/-- The `int` expression `(a - b) * (a - b)` on two promoted samples. -/
def sqDiffInt32 (a b : Nat) : Int :=
  wrapInt32 (((a : Int) - (b : Int)) * ((a : Int) - (b : Int)))

/-! ## `mclNormDiff_L2_*` -/

/-- Kernel `mclNormDiff_L2_8u_C1R`; `pValue` is the value `*pValue` holds on
entry, the result is the status and the value it holds on return. -/
noncomputable def mclNormDiff_L2_8u_C1R (m1 : Mem) (pSrc1 src1Step : Nat) (m2 : Mem)
    (pSrc2 src2Step : Nat) (roiSize : ImageSize) (pValue : ℝ) : EErrorStatus × ℝ :=
  if roiSize.width < 1 ∨ roiSize.height < 1 then (.MCL_ERR_INVALID_PARAM, pValue)
  else
    let acc := forLoop roiSize.height (fun h acc =>
      let src1 := pSrc1 + h * src1Step
      let src2 := pSrc2 + h * src2Step
      forLoop roiSize.width (fun w acc =>
        acc + ((sqDiffInt32 (read8 m1 (src1 + w)) (read8 m2 (src2 + w)) : Int) : ℝ)) acc)
      (0 : ℝ)
    (.MCL_ERR_NONE, Real.sqrt acc)

/-- Kernel `mclNormDiff_L2_16u_C1R`: the strides are halved and the pointers
step in 2-byte elements. -/
noncomputable def mclNormDiff_L2_16u_C1R (m1 : Mem) (pSrc1 src1Step : Nat) (m2 : Mem)
    (pSrc2 src2Step : Nat) (roiSize : ImageSize) (pValue : ℝ) : EErrorStatus × ℝ :=
  if roiSize.width < 1 ∨ roiSize.height < 1 then (.MCL_ERR_INVALID_PARAM, pValue)
  else
    let src1Step := src1Step >>> 1
    let src2Step := src2Step >>> 1
    let acc := forLoop roiSize.height (fun h acc =>
      let src1 := pSrc1 + 2 * (h * src1Step)
      let src2 := pSrc2 + 2 * (h * src2Step)
      forLoop roiSize.width (fun w acc =>
        acc + ((sqDiffInt32 (read16 m1 (src1 + 2 * w)) (read16 m2 (src2 + 2 * w)) : Int) : ℝ))
        acc)
      (0 : ℝ)
    (.MCL_ERR_NONE, Real.sqrt acc)

/-- Dispatcher `mclNormDiff_L2_C1R` (`NO_IPP` branch): a bit depth other than
`D008` and `D010` falls through to `MCL_ERR_INVALID_PARAM` and leaves `value`
as it was. -/
noncomputable def mclNormDiff_L2_C1R (m1 : Mem) (pSrc1 src1Step : Nat) (m2 : Mem)
    (pSrc2 src2Step : Nat) (roiSize : ImageSize) (value : ℝ) (bd : EBitDepth) :
    EErrorStatus × ℝ :=
  match bd with
  | .D008 => mclNormDiff_L2_8u_C1R m1 pSrc1 src1Step m2 pSrc2 src2Step roiSize value
  | .D010 => mclNormDiff_L2_16u_C1R m1 pSrc1 src1Step m2 pSrc2 src2Step roiSize value
  | _ => (.MCL_ERR_INVALID_PARAM, value)

/-! ## Packed to planar conversions

Each kernel takes the memory it works on and returns its status and the memory
on return.  Pointer arrays (`PDst[3]`, `pDst[4]`) and stride arrays
(`dstStep[3]`) are functions of the index. -/

/-- Kernel `mclYCbCr420ToYCrCb420_8u_P2P3R`. -/
def mclYCbCr420ToYCrCb420_8u_P2P3R (m : Mem) (pSrcY srcYStep pSrcUV srcUVStep : Nat)
    (PDst dstStep : Nat → Nat) (roiSize : ImageSize) : EErrorStatus × Mem :=
  if roiSize.width < 2 ∨ roiSize.height < 2 then (.MCL_ERR_INVALID_PARAM, m)
  else
    let width := roiSize.width
    let height := roiSize.height
    let pDst_0 := PDst 0
    let pDst_2 := PDst 1
    let pDst_1 := PDst 2
    let m := forLoop height (fun h m =>
      forLoop width (fun w m =>
        write8 m (pDst_0 + h * dstStep 0 + w) (read8 m (pSrcY + h * srcYStep + w))) m) m
    let height := height >>> 1
    let width := width >>> 1
    let m := forLoop height (fun h m =>
      let srcu := pSrcUV + h * srcUVStep
      let dst2 := pDst_1 + h * dstStep 2
      let dst1 := pDst_2 + h * dstStep 1
      forLoop width (fun w m =>
        let m := write8 m (dst1 + w) (read8 m (srcu + 2 * w))
        write8 m (dst2 + w) (read8 m (srcu + 2 * w + 1))) m) m
    (.MCL_ERR_NONE, m)

/-- Kernel `mclYCbCr420ToYCrCb420_16u_P2P3R`. -/
def mclYCbCr420ToYCrCb420_16u_P2P3R (m : Mem) (pSrcY srcYStep pSrcUV srcUVStep : Nat)
    (PDst dstStep : Nat → Nat) (roiSize : ImageSize) : EErrorStatus × Mem :=
  if roiSize.width < 2 ∨ roiSize.height < 2 then (.MCL_ERR_INVALID_PARAM, m)
  else
    let srcYStep := srcYStep >>> 1
    let srcUVStep := srcUVStep >>> 1
    let dstStep := fun i => dstStep i >>> 1
    let width := roiSize.width
    let height := roiSize.height
    let pDst_0 := PDst 0
    let pDst_2 := PDst 1
    let pDst_1 := PDst 2
    let m := forLoop height (fun h m =>
      forLoop width (fun w m =>
        write16 m (pDst_0 + 2 * (h * dstStep 0) + 2 * w)
          (read16 m (pSrcY + 2 * (h * srcYStep) + 2 * w))) m) m
    let height := height >>> 1
    let width := width >>> 1
    let m := forLoop height (fun h m =>
      let srcu := pSrcUV + 2 * (h * srcUVStep)
      let dst2 := pDst_1 + 2 * (h * dstStep 2)
      let dst1 := pDst_2 + 2 * (h * dstStep 1)
      forLoop width (fun w m =>
        let m := write16 m (dst1 + 2 * w) (read16 m (srcu + 2 * (2 * w)))
        write16 m (dst2 + 2 * w) (read16 m (srcu + 2 * (2 * w + 1)))) m) m
    (.MCL_ERR_NONE, m)

/-- Dispatcher `mclYCbCr420ToYCrCb420_P2P3R` (`NO_IPP` branch); its status is
`MCL_ERR_INVALID_PARAM` whatever the kernel returned. -/
def mclYCbCr420ToYCrCb420_P2P3R (m : Mem) (pSrcY srcYStep pSrcUV srcUVStep : Nat)
    (PDst dstStep : Nat → Nat) (roiSize : ImageSize) (bd : EBitDepth) : EErrorStatus × Mem :=
  match bd with
  | .D008 => (.MCL_ERR_INVALID_PARAM,
      (mclYCbCr420ToYCrCb420_8u_P2P3R m pSrcY srcYStep pSrcUV srcUVStep PDst dstStep roiSize).2)
  | .D010 => (.MCL_ERR_INVALID_PARAM,
      (mclYCbCr420ToYCrCb420_16u_P2P3R m pSrcY srcYStep pSrcUV srcUVStep PDst dstStep roiSize).2)
  | _ => (.MCL_ERR_INVALID_PARAM, m)

/-- Kernel `mclYCbCr422_8u_C2P3R`; the inner loop `for (w = 0; w < width; w += 2)`
runs `(width + 1) / 2` times. -/
def mclYCbCr422_8u_C2P3R (m : Mem) (pSrc srcStep : Nat) (pDst dstStep : Nat → Nat)
    (roiSize : ImageSize) : EErrorStatus × Mem :=
  if roiSize.width < 2 ∨ roiSize.height < 1 then (.MCL_ERR_INVALID_PARAM, m)
  else
    let pDstU := pDst 1
    let pDstV := pDst 2
    let dstStepU := dstStep 1
    let dstStepV := dstStep 2
    let width := roiSize.width
    let height := roiSize.height
    let m := forLoop height (fun h m =>
      let src := pSrc + h * srcStep
      let dsty := pDst 0 + h * dstStep 0
      let dstu := pDstU + h * dstStepU
      let dstv := pDstV + h * dstStepV
      forLoop ((width + 1) / 2) (fun k m =>
        let m := write8 m (dsty + 2 * k) (read8 m (src + 4 * k))
        let m := write8 m (dstu + k) (read8 m (src + 4 * k + 1))
        let m := write8 m (dsty + 2 * k + 1) (read8 m (src + 4 * k + 2))
        write8 m (dstv + k) (read8 m (src + 4 * k + 3))) m) m
    (.MCL_ERR_NONE, m)

/-- Kernel `mclYCbCr422_16u_C2P3R`. -/
def mclYCbCr422_16u_C2P3R (m : Mem) (pSrc srcStep : Nat) (pDst dstStep : Nat → Nat)
    (roiSize : ImageSize) : EErrorStatus × Mem :=
  if roiSize.width < 2 ∨ roiSize.height < 1 then (.MCL_ERR_INVALID_PARAM, m)
  else
    let srcStep := srcStep >>> 1
    let dstStep := fun i => dstStep i >>> 1
    let pDstU := pDst 1
    let pDstV := pDst 2
    let dstStepU := dstStep 1
    let dstStepV := dstStep 2
    let width := roiSize.width
    let height := roiSize.height
    let m := forLoop height (fun h m =>
      let src := pSrc + 2 * (h * srcStep)
      let dsty := pDst 0 + 2 * (h * dstStep 0)
      let dstu := pDstU + 2 * (h * dstStepU)
      let dstv := pDstV + 2 * (h * dstStepV)
      forLoop ((width + 1) / 2) (fun k m =>
        let m := write16 m (dsty + 2 * (2 * k)) (read16 m (src + 2 * (4 * k)))
        let m := write16 m (dstu + 2 * k) (read16 m (src + 2 * (4 * k + 1)))
        let m := write16 m (dsty + 2 * (2 * k + 1)) (read16 m (src + 2 * (4 * k + 2)))
        write16 m (dstv + 2 * k) (read16 m (src + 2 * (4 * k + 3)))) m) m
    (.MCL_ERR_NONE, m)

/-- Dispatcher `mclYCbCr422_C2P3R` (`NO_IPP` branch). -/
def mclYCbCr422_C2P3R (m : Mem) (pSrc srcStep : Nat) (pDst dstStep : Nat → Nat)
    (roiSize : ImageSize) (bd : EBitDepth) : EErrorStatus × Mem :=
  match bd with
  | .D008 => (.MCL_ERR_INVALID_PARAM,
      (mclYCbCr422_8u_C2P3R m pSrc srcStep pDst dstStep roiSize).2)
  | .D010 => (.MCL_ERR_INVALID_PARAM,
      (mclYCbCr422_16u_C2P3R m pSrc srcStep pDst dstStep roiSize).2)
  | _ => (.MCL_ERR_INVALID_PARAM, m)

/-- Body of the inner loop of `mclY410ToYUV_10u16u_C4P4R` for column `w`, given
the row pointers `src`, `dstA`, `dstV`, `dstY`, `dstU` (byte addresses). -/
def y410Pixel (src dstA dstV dstY dstU : Nat) (w : Nat) (m : Mem) : Mem :=
  let A_mask := (0x0003 <<< 30) % 2 ^ 32
  let V_mask := 0x03ff <<< 20
  let Y_mask := 0x03ff <<< 10
  let U_mask := 0x03ff
  let A := (read32 m (src + 4 * w) &&& A_mask) >>> 30
  let V := (read32 m (src + 4 * w) &&& V_mask) >>> 20
  let Y := (read32 m (src + 4 * w) &&& Y_mask) >>> 10
  let U := read32 m (src + 4 * w) &&& U_mask
  let m := write16 m (dstA + 2 * w) A
  let m := write16 m (dstV + 2 * w) V
  let m := write16 m (dstY + 2 * w) Y
  write16 m (dstU + 2 * w) U

/-- Kernel `mclY410ToYUV_10u16u_C4P4R`: `pSrc` is read through a `uint32_t*`, the
four destinations are written through `uint16_t*`; row `h` starts `h` strides
after the pointers given. -/
def mclY410ToYUV_10u16u_C4P4R (m : Mem) (pSrc srcStep : Nat) (pDst : Nat → Nat)
    (dstStep : Nat) (roiSize : ImageSize) : EErrorStatus × Mem :=
  if srcStep = 0 ∨ dstStep = 0 then (.MCL_ERR_INVALID_PARAM, m)
  else if roiSize.width < 2 ∨ roiSize.height < 2 then (.MCL_ERR_INVALID_PARAM, m)
  else
    let srcStep := srcStep >>> 1
    let dstStep := dstStep >>> 1
    let dstY := pDst 0
    let dstU := pDst 1
    let dstV := pDst 2
    let dstA := pDst 3
    let m := forLoop roiSize.height (fun h m =>
      forLoop roiSize.width
        (y410Pixel (pSrc + 4 * (h * srcStep)) (dstA + 2 * (h * dstStep))
          (dstV + 2 * (h * dstStep)) (dstY + 2 * (h * dstStep)) (dstU + 2 * (h * dstStep))) m) m
    (.MCL_ERR_NONE, m)

/-- Dispatcher `mclY410ToYUV_C4P4R`. -/
def mclY410ToYUV_C4P4R (m : Mem) (pSrc srcStep : Nat) (pDst : Nat → Nat) (dstStep : Nat)
    (roiSize : ImageSize) (bd : EBitDepth) : EErrorStatus × Mem :=
  if bd = .D010 then mclY410ToYUV_10u16u_C4P4R m pSrc srcStep pDst dstStep roiSize
  else (.MCL_ERR_INVALID_PARAM, m)

/-- Kernel `mclNV16ToYCbCr422_8u_P2P3R`. -/
def mclNV16ToYCbCr422_8u_P2P3R (m : Mem) (pSrcY srcYStep pSrcUV srcUVStep : Nat)
    (pDst dstStep : Nat → Nat) (roiSize : ImageSize) : EErrorStatus × Mem :=
  if roiSize.width < 2 ∨ roiSize.height < 2 then (.MCL_ERR_INVALID_PARAM, m)
  else
    let width := roiSize.width
    let height := roiSize.height
    let m := forLoop height (fun h m =>
      let srcy := pSrcY + h * srcYStep
      let dst0 := pDst 0 + h * dstStep 0
      forLoop width (fun w m => write8 m (dst0 + w) (read8 m (srcy + w))) m) m
    let width := width >>> 1
    let m := forLoop height (fun h m =>
      let srcu := pSrcUV + h * srcUVStep
      let dst1 := pDst 1 + h * dstStep 1
      let dst2 := pDst 2 + h * dstStep 2
      forLoop width (fun w m =>
        let m := write8 m (dst1 + w) (read8 m (srcu + 2 * w))
        write8 m (dst2 + w) (read8 m (srcu + 2 * w + 1))) m) m
    (.MCL_ERR_NONE, m)

/-- Kernel `mclNV16ToYCbCr422_16u_P2P3R`. -/
def mclNV16ToYCbCr422_16u_P2P3R (m : Mem) (pSrcY srcYStep pSrcUV srcUVStep : Nat)
    (pDst dstStep : Nat → Nat) (roiSize : ImageSize) : EErrorStatus × Mem :=
  if roiSize.width < 2 ∨ roiSize.height < 2 then (.MCL_ERR_INVALID_PARAM, m)
  else
    let srcYStep := srcYStep >>> 1
    let srcUVStep := srcUVStep >>> 1
    let dstStep := fun i => dstStep i >>> 1
    let width := roiSize.width
    let height := roiSize.height
    let m := forLoop height (fun h m =>
      forLoop width (fun w m =>
        write16 m (pDst 0 + 2 * (h * dstStep 0) + 2 * w)
          (read16 m (pSrcY + 2 * (h * srcYStep) + 2 * w))) m) m
    let width := width >>> 1
    let m := forLoop height (fun h m =>
      let srcu := pSrcUV + 2 * (h * srcUVStep)
      let dst1 := pDst 1 + 2 * (h * dstStep 1)
      let dst2 := pDst 2 + 2 * (h * dstStep 2)
      forLoop width (fun w m =>
        let m := write16 m (dst1 + 2 * w) (read16 m (srcu + 2 * (2 * w)))
        write16 m (dst2 + 2 * w) (read16 m (srcu + 2 * (2 * w + 1)))) m) m
    (.MCL_ERR_NONE, m)

/-- Dispatcher `mclNV16ToYCbCr422_P2P3R`. -/
def mclNV16ToYCbCr422_P2P3R (m : Mem) (pSrcY srcYStep pSrcUV srcUVStep : Nat)
    (pDst dstStep : Nat → Nat) (roiSize : ImageSize) (bd : EBitDepth) : EErrorStatus × Mem :=
  match bd with
  | .D008 => (.MCL_ERR_INVALID_PARAM,
      (mclNV16ToYCbCr422_8u_P2P3R m pSrcY srcYStep pSrcUV srcUVStep pDst dstStep roiSize).2)
  | .D010 => (.MCL_ERR_INVALID_PARAM,
      (mclNV16ToYCbCr422_16u_P2P3R m pSrcY srcYStep pSrcUV srcUVStep pDst dstStep roiSize).2)
  | _ => (.MCL_ERR_INVALID_PARAM, m)

/-- Kernel `mclCopy_8u_C4P4R` (a zero `dstStep` is reported as a null pointer). -/
def mclCopy_8u_C4P4R (m : Mem) (pSrc srcStep : Nat) (pDst : Nat → Nat) (dstStep : Nat)
    (roiSize : ImageSize) : EErrorStatus × Mem :=
  if dstStep = 0 then (.MCL_ERR_NULL_PTR, m)
  else if roiSize.width < 1 ∨ roiSize.height < 1 then (.MCL_ERR_INVALID_PARAM, m)
  else
    let m := forLoop roiSize.height (fun h m =>
      let src := pSrc + h * srcStep
      let dst0 := pDst 0 + h * dstStep
      let dst1 := pDst 1 + h * dstStep
      let dst2 := pDst 2 + h * dstStep
      let dst3 := pDst 3 + h * dstStep
      forLoop roiSize.width (fun w m =>
        let m := write8 m (dst0 + w) (read8 m (src + 4 * w))
        let m := write8 m (dst1 + w) (read8 m (src + 4 * w + 1))
        let m := write8 m (dst2 + w) (read8 m (src + 4 * w + 2))
        write8 m (dst3 + w) (read8 m (src + 4 * w + 3))) m) m
    (.MCL_ERR_NONE, m)

/-- Kernel `mclCopy_16u_C4P4R`. -/
def mclCopy_16u_C4P4R (m : Mem) (pSrc srcStep : Nat) (pDst : Nat → Nat) (dstStep : Nat)
    (roiSize : ImageSize) : EErrorStatus × Mem :=
  if roiSize.width < 1 ∨ roiSize.height < 1 then (.MCL_ERR_INVALID_PARAM, m)
  else
    let srcStep := srcStep >>> 1
    let dstStep := dstStep >>> 1
    let m := forLoop roiSize.height (fun h m =>
      let src := pSrc + 2 * (h * srcStep)
      let dst0 := pDst 0 + 2 * (h * dstStep)
      let dst1 := pDst 1 + 2 * (h * dstStep)
      let dst2 := pDst 2 + 2 * (h * dstStep)
      let dst3 := pDst 3 + 2 * (h * dstStep)
      forLoop roiSize.width (fun w m =>
        let m := write16 m (dst0 + 2 * w) (read16 m (src + 2 * (4 * w)))
        let m := write16 m (dst1 + 2 * w) (read16 m (src + 2 * (4 * w + 1)))
        let m := write16 m (dst2 + 2 * w) (read16 m (src + 2 * (4 * w + 2)))
        write16 m (dst3 + 2 * w) (read16 m (src + 2 * (4 * w + 3)))) m) m
    (.MCL_ERR_NONE, m)

/-- Dispatcher `mclCopy_C4P4R` (`NO_IPP` branch). -/
def mclCopy_C4P4R (m : Mem) (pSrc srcStep : Nat) (pDst : Nat → Nat) (dstStep : Nat)
    (roiSize : ImageSize) (bd : EBitDepth) : EErrorStatus × Mem :=
  match bd with
  | .D008 => mclCopy_8u_C4P4R m pSrc srcStep pDst dstStep roiSize
  | .D010 => mclCopy_16u_C4P4R m pSrc srcStep pDst dstStep roiSize
  | _ => (.MCL_ERR_INVALID_PARAM, m)

/-! ## `mclRShiftC_*` -/

/-- Kernel `mclRShiftC_8u_C1IR`. -/
def mclRShiftC_8u_C1IR (value : Nat) (m : Mem) (pSrcDst srcDstStep : Nat)
    (roiSize : ImageSize) : EErrorStatus × Mem :=
  if value ≥ 8 then (.MCL_ERR_INVALID_PARAM, m)
  else if roiSize.width < 1 ∨ roiSize.height < 1 then (.MCL_ERR_INVALID_PARAM, m)
  else
    let m := forLoop roiSize.height (fun h m =>
      let srcDst := pSrcDst + h * srcDstStep
      forLoop roiSize.width (fun w m =>
        write8 m (srcDst + w) (read8 m (srcDst + w) >>> value)) m) m
    (.MCL_ERR_NONE, m)

/-- Kernel `mclRShiftC_16u_C1IR`. -/
def mclRShiftC_16u_C1IR (value : Nat) (m : Mem) (pSrcDst srcDstStep : Nat)
    (roiSize : ImageSize) : EErrorStatus × Mem :=
  if value ≥ 16 then (.MCL_ERR_INVALID_PARAM, m)
  else if roiSize.width < 1 ∨ roiSize.height < 1 then (.MCL_ERR_INVALID_PARAM, m)
  else
    let srcDstStep := srcDstStep >>> 1
    let m := forLoop roiSize.height (fun h m =>
      let srcDst := pSrcDst + 2 * (h * srcDstStep)
      forLoop roiSize.width (fun w m =>
        write16 m (srcDst + 2 * w) (read16 m (srcDst + 2 * w) >>> value)) m) m
    (.MCL_ERR_NONE, m)

/-- Dispatcher `mclRShiftC_C1IR` (`NO_IPP` branch). -/
def mclRShiftC_C1IR (value : Nat) (m : Mem) (pSrcDst srcDstStep : Nat) (roiSize : ImageSize)
    (bd : EBitDepth) : EErrorStatus × Mem :=
  if value = 0 then (.MCL_ERR_NONE, m)
  else
    match bd with
    | .D008 => mclRShiftC_8u_C1IR value m pSrcDst srcDstStep roiSize
    | .D010 => mclRShiftC_16u_C1IR value m pSrcDst srcDstStep roiSize
    | _ => (.MCL_ERR_INVALID_PARAM, m)

/-! ## Readers -/

/-- State of a `CReader` (`CYUVReader` and `CRGBReader` share these members and
have the same `GetFrame`); `mem` is the memory its buffers live in, `m_file` the
bytes of the open file and `m_file_size` their number. -/
structure CReader where
  mem : Mem
  m_file : Nat → Nat
  m_file_size : Nat
  m_num_fields : Nat
  m_cur_frame : Int
  m_intl : Bool
  m_type : ESequenceType
  m_field_order : Nat
  m_bottom : Nat
  m_bd : EBitDepth
  m_RShift : Nat
  m_source_pixel_size : Nat
  m_Meta : SImage
  m_planes : Nat → SImage

def CReader.GetBitDepth (r : CReader) : EBitDepth := r.m_bd

def CReader.GetSqType (r : CReader) : ESequenceType := r.m_type

/-- Method `GetFrame(idx, dst)`: the view written to `dst`. -/
def CReader.GetFrame (r : CReader) (idx : Nat) : SImage :=
  let destination := r.m_planes idx
  if r.m_intl then
    let destination :=
      if r.m_bottom ≠ 0 then { destination with data := destination.data + destination.step }
      else destination
    { destination with
      step := destination.step <<< 1
      roi := { destination.roi with height := destination.roi.height >>> 1 } }
  else destination

/-- Calls `_file_fseek(file, pos, SEEK_SET)` and `fread(ptr, size, count, file)`:
the memory after the read and the number of complete elements read. -/
def fread_at (file : Nat → Nat) (file_size pos : Nat) (m : Mem) (ptr size count : Nat) :
    Mem × Nat :=
  let res := if size = 0 then 0 else min count ((file_size - pos) / size)
  (forLoop (res * size) (fun k m => write8 m (ptr + k) (file (pos + k))) m, res)

/-- The `switch (m_type)` of `CYUVReader::ReadRawFrame` (lines 399-430): the
memory after the conversion of the frame just read. -/
def CYUVReader.demux (r : CReader) (m : Mem) : Mem :=
  let planes := fun i => (r.m_planes i).data
  let steps := fun i => (r.m_planes i).step
  let p0 := r.m_planes 0
  match r.m_type with
  | .NV12P | .NV12I =>
    (mclYCbCr420ToYCrCb420_P2P3R m r.m_Meta.data p0.step
      (r.m_Meta.data + p0.step * p0.roi.height) p0.step planes steps p0.roi r.m_bd).2
  | .YUY2P | .YUY2I =>
    (mclYCbCr422_C2P3R m r.m_Meta.data (p0.step <<< 1) planes steps p0.roi r.m_bd).2
  | .NV16P | .NV16I =>
    (mclNV16ToYCbCr422_P2P3R m r.m_Meta.data p0.step
      (r.m_Meta.data + p0.step * p0.roi.height) p0.step planes steps p0.roi r.m_bd).2
  | .AYUVP | .AYUVI =>
    let planes := Function.update planes 2 (r.m_planes 0).data
    let planes := Function.update planes 0 (r.m_planes 2).data
    (mclCopy_C4P4R m r.m_Meta.data (p0.step <<< 2) planes p0.step p0.roi r.m_bd).2
  | .Y416P | .Y416I =>
    let planes := Function.update planes 1 (r.m_planes 0).data
    let planes := Function.update planes 0 (r.m_planes 1).data
    (mclCopy_C4P4R m r.m_Meta.data (p0.step <<< 2) planes p0.step p0.roi r.m_bd).2
  | .Y410P | .Y410I =>
    (mclY410ToYUV_C4P4R m r.m_Meta.data p0.step planes p0.step p0.roi r.m_bd).2
  | _ => m

/-- Method `CYUVReader::ReadRawFrame(field)`: the reader afterwards and the
value returned.  `field` is the value of the `uint32_t` parameter and
`wrapInt32 field` is `(int32_t)field` (lines 396, 434). -/
def CYUVReader.ReadRawFrame (r : CReader) (field : Nat) : CReader × Bool :=
  let m_bottom := if r.m_intl then r.m_field_order ^^^ (field &&& 0x1) else r.m_bottom
  let field := if r.m_intl then field >>> 1 else field
  if r.m_cur_frame ≠ wrapInt32 (field : Int) then
    let rd := fread_at r.m_file r.m_file_size (field * (r.m_Meta.step * r.m_source_pixel_size))
      r.mem r.m_Meta.data r.m_source_pixel_size r.m_Meta.step
    let m := CYUVReader.demux r rd.1
    let m := (mclRShiftC_C1IR r.m_RShift m (r.m_planes 0).data (r.m_planes 0).step
      (r.m_planes 0).roi r.m_bd).2
    let m := (mclRShiftC_C1IR r.m_RShift m (r.m_planes 1).data (r.m_planes 1).step
      (r.m_planes 1).roi r.m_bd).2
    let m := (mclRShiftC_C1IR r.m_RShift m (r.m_planes 2).data (r.m_planes 2).step
      (r.m_planes 2).roi r.m_bd).2
    ({ r with mem := m, m_bottom := m_bottom, m_cur_frame := wrapInt32 (field : Int) },
      decide (rd.2 ≠ r.m_Meta.step))
  else ({ r with m_bottom := m_bottom }, false)

/-! ## `CPSNREvaluator` -/

/-- Members of `CMetricEvaluator` that `ComputeMetrics` reads. -/
structure CMetricEvaluator where
  m_num_planes : Nat
  c_mask : Nat → Nat
  m_i1 : CReader
  m_i2 : CReader

/-- Type `Component`: one `(letter, mask)` pair per plane, then one for overall. -/
abbrev Component := List (Char × Nat)

/-- Macro `INIT_YUV(a)`. -/
def INIT_YUV (a : Component) : Component :=
  a ++ [('Y', 0)] ++ [('U', 0)] ++ [('V', 0)] ++ [('O', 0)]

/-- Macro `INIT_RGB(a, alpha)`. -/
def INIT_RGB (a : Component) (alpha : Bool) : Component :=
  a ++ [('B', 0)] ++ [('G', 0)] ++ [('R', 0)] ++ (if alpha then [('A', 0)] else [])
    ++ [('O', 0)]

/-- One entry of the member `metrics`: name, `second.first`, `second.second`. -/
structure MetricEntry where
  name : String
  first : Nat
  second : Nat

/-- The `metrics` vector the constructor of `CPSNREvaluator` builds. -/
def CPSNREvaluator.metrics : List MetricEntry :=
  [ { name := "MSE", first := MASK_MSE, second := MASK_MSE },
    { name := "PSNR", first := MASK_PSNR, second := MASK_PSNR },
    { name := "APSNR", first := MASK_APSNR, second := MASK_APSNR } ]

/-- The array `c_mask` and the three output vectors of `InitComputationParams`. -/
structure InitState where
  c_mask : Nat → Nat
  st : List String
  oflag : List Bool
  avg : List ℝ

/-- Element `cmps[i]`. -/
def Component.at (cmps : Component) (i : Nat) : Char × Nat := cmps.getD i ('?', 0)

/-- Iteration `i` of the outer loop of `InitComputationParams` (lines 470-482). -/
def CMetricEvaluator.initMetric (cmps : Component) (m_num_planes : Nat) (m : MetricEntry)
    (s : InitState) : InitState :=
  let s := forLoop m_num_planes (fun j s =>
    if m.second &&& s.c_mask j ≠ 0 then
      { c_mask := Function.update s.c_mask j (s.c_mask j ||| m.second)
        st := s.st ++ [String.singleton (cmps.at j).1 ++ "-" ++ m.name]
        oflag := s.oflag ++ [decide (m.first &&& (cmps.at j).2 ≠ 0)]
        avg := s.avg ++ [0] }
    else s) s
  if m.first &&& s.c_mask m_num_planes ≠ 0 then
    { s with st := s.st ++ [m.name], oflag := s.oflag ++ [true], avg := s.avg ++ [0] }
  else s

/-- Method `CMetricEvaluator::InitComputationParams` for an evaluator whose
`metrics` vector is `metrics`: the evaluator with `m_num_planes` and `c_mask`
set, and the vectors `st`, `oflag`, `avg` on return. -/
def CMetricEvaluator.InitComputationParams (ev : CMetricEvaluator) (metrics : List MetricEntry)
    (cmps : Component) (st : List String) (oflag : List Bool) (avg : List ℝ) :
    CMetricEvaluator × List String × List Bool × List ℝ :=
  let m_num_planes := cmps.length - 1
  let c_mask := forLoop m_num_planes (fun i c_mask =>
    Function.update c_mask i ((cmps.at i).2 ||| (cmps.at m_num_planes).2)) ev.c_mask
  let c_mask := Function.update c_mask m_num_planes (cmps.at m_num_planes).2
  let s := forLoop metrics.length (fun i s =>
    CMetricEvaluator.initMetric cmps m_num_planes (metrics.getD i ⟨"", 0, 0⟩) s)
    { c_mask := c_mask, st := st, oflag := oflag, avg := avg }
  ({ ev with m_num_planes := m_num_planes, c_mask := s.c_mask }, s.st, s.oflag, s.avg)

/-- Statement `avg[j] += x`; an index past the end leaves the vector as it is. -/
def addAt : List ℝ → Nat → ℝ → List ℝ
  | [], _, _ => []
  | a :: as, 0, x => (a + x) :: as
  | a :: as, j + 1, x => a :: addAt as j x

/-- Locals of `CPSNREvaluator::ComputeMetrics` together with the two vectors it
updates. -/
structure PSNRState where
  sum : Nat → ℝ
  val : List ℝ
  avg : List ℝ
  j : Nat

/-- Statement pair `val.push_back(v); avg[j++] += inc;`. -/
def PSNRState.emit (st : PSNRState) (v inc : ℝ) : PSNRState :=
  { st with val := st.val ++ [v], avg := addAt st.avg st.j inc, j := st.j + 1 }

/-- Lines 508-510 of `ComputeMetrics`: the value left in `sum[i]`, given the
value `sum_i` it holds before the call of `mclNormDiff_L2_C1R`. -/
noncomputable def CPSNREvaluator.planeValue (ev : CMetricEvaluator) (i : Nat) (sum_i : ℝ) :
    ℝ :=
  let i1_p := ev.m_i1.GetFrame i
  let i2_p := ev.m_i2.GetFrame i
  let r := mclNormDiff_L2_C1R ev.m_i1.mem i1_p.data i1_p.step ev.m_i2.mem i2_p.data
    i2_p.step i1_p.roi sum_i ev.m_i1.GetBitDepth
  r.2 * r.2 / ((i1_p.roi.width * i1_p.roi.height : Nat) : ℝ)

/-- Body of the plane loop of `ComputeMetrics` (lines 507-512). -/
noncomputable def CPSNREvaluator.planeStep (ev : CMetricEvaluator) (i : Nat)
    (st : PSNRState) : PSNRState :=
  if ev.c_mask i &&& MASK_MSE ≠ 0 then
    let s := CPSNREvaluator.planeValue ev i (st.sum i)
    { st with sum := Function.update st.sum i s }.emit s s
  else st

/-- The `switch` on the chroma class (lines 515-523). -/
noncomputable def CPSNREvaluator.overallStep (ev : CMetricEvaluator) (st : PSNRState) :
    PSNRState :=
  match get_chromaclass ev.m_i1.GetSqType with
  | .C444 =>
    let v := (st.sum 0 + st.sum 1 + st.sum 2 + st.sum 3) / (ev.m_num_planes : ℝ)
    { st with sum := Function.update st.sum ev.m_num_planes v }
  | .C422 =>
    let v := (2 * st.sum 0 + st.sum 1 + st.sum 2) / 4
    { st with sum := Function.update st.sum 3 v }
  | .C420 =>
    let v := (4 * st.sum 0 + st.sum 1 + st.sum 2) / 6
    { st with sum := Function.update st.sum 3 v }

/-- Method `CPSNREvaluator::ComputeMetrics`, with its locals in the result. -/
noncomputable def CPSNREvaluator.ComputeMetricsState (ev : CMetricEvaluator)
    (val avg : List ℝ) : PSNRState :=
  let st : PSNRState := { sum := fun _ => 0, val := val, avg := avg, j := val.length }
  let st := forLoop ev.m_num_planes (CPSNREvaluator.planeStep ev) st
  let st := CPSNREvaluator.overallStep ev st
  let st :=
    if ev.c_mask ev.m_num_planes &&& MASK_MSE ≠ 0 then
      st.emit (st.sum ev.m_num_planes) (st.sum ev.m_num_planes)
    else st
  let st := forLoop (ev.m_num_planes + 1) (fun i st =>
    if ev.c_mask i &&& MASK_PSNR ≠ 0 then
      st.emit (MSEToPSNR (st.sum i) (MaxError ev.m_i1.GetBitDepth)) (st.sum i)
    else st) st
  forLoop (ev.m_num_planes + 1) (fun i st =>
    if ev.c_mask i &&& MASK_APSNR ≠ 0 then
      st.emit (MSEToPSNR (st.sum i) (MaxError ev.m_i1.GetBitDepth))
        (MSEToPSNR (st.sum i) (MaxError ev.m_i1.GetBitDepth))
    else st) st

/-- Method `CPSNREvaluator::ComputeMetrics`: the vectors `val` and `avg` on
return. -/
noncomputable def CPSNREvaluator.ComputeMetrics (ev : CMetricEvaluator)
    (val avg : List ℝ) : List ℝ × List ℝ :=
  let st := CPSNREvaluator.ComputeMetricsState ev val avg
  (st.val, st.avg)

/-! ## The frame loop and the averages of `main` -/

/-- Test `s.find(sub) != std::string::npos`. -/
def hasSubstr (s sub : String) : Bool :=
  s.data.tails.any (fun t => sub.data.isPrefixOf t)

/-- One call `mevs[j]->ComputeMetrics(val, avg)` with the readers where
`ReadRawFrame` left them: the vectors `val` and `avg` on return. -/
abbrev Compute := List ℝ → List ℝ → List ℝ × List ℝ

/-- Inner loop of the frame loop (line 1611): every evaluator in turn on the
same `all_values[i]` and `avg_values`. -/
def runEvaluators (mevs : List Compute) (val avg : List ℝ) : List ℝ × List ℝ :=
  mevs.foldl (fun s c => c s.1 s.2) (val, avg)

/-- Frame loop of `main` (lines 1607-1612); `frames` lists, for each scheduled
pair, the calls of that iteration.  The result is `all_values` and
`avg_values`. -/
def mainLoop (frames : List (List Compute)) (avg_values : List ℝ) :
    List (List ℝ) × List ℝ :=
  frames.foldl (fun s mevs =>
    let r := runEvaluators mevs [] s.2
    (s.1 ++ [r.1], r.2)) ([], avg_values)

/-- Lines 1637-1641 of `main`: `avg_values` after the averaging loop. -/
noncomputable def mainAverage (metric_names : List String) (avg_values : List ℝ)
    (fm_count : Nat) (bd : EBitDepth) : List ℝ :=
  let norm : ℝ := 1 / (fm_count : ℝ)
  forLoop avg_values.length (fun i avg_values =>
    let v := avg_values.getD i 0 * norm
    let name := metric_names.getD i ""
    if hasSubstr name "PSNR" = true ∧ hasSubstr name "APSNR" = false then
      avg_values.set i (MSEToPSNR v (MaxError bd))
    else avg_values.set i v) avg_values

/-! ## Vocabulary of the statements -/

/-- Entries `f i` for the indices `i < n` with `p i`, in increasing order. -/
def collect {α : Type} (n : Nat) (p : Nat → Bool) (f : Nat → α) : List α :=
  ((List.range n).filter p).map f

/-- Successive `avg[j++] += x` for the entries `x` of a list. -/
def addList (avg : List ℝ) (j : Nat) : List ℝ → List ℝ
  | [] => avg
  | x :: xs => addList (addAt avg j x) (j + 1) xs

/-- Whether bit mask `mask` is set for plane `i` of the evaluator. -/
def CMetricEvaluator.has (ev : CMetricEvaluator) (mask : Nat) (i : Nat) : Bool :=
  decide (ev.c_mask i &&& mask ≠ 0)

/-- Sample at column `x`, row `y` of the 8-bit view `img`. -/
def sample8 (m : Mem) (img : SImage) (x y : Nat) : Nat :=
  read8 m (img.data + y * img.step + x)

/-- Sample at column `x`, row `y` of the 16-bit view `img`, addressed the way
the 16-bit kernels do (element stride `step >> 1`). -/
def sample16 (m : Mem) (img : SImage) (x y : Nat) : Nat :=
  read16 m (img.data + 2 * (y * (img.step >>> 1)) + 2 * x)

/-- Sum over the `W x H` pixels of the squared difference of two sample maps. -/
def sumSqDiff (a b : Nat → Nat → Nat) (W H : Nat) : Int :=
  ∑ y in Finset.range H, ∑ x in Finset.range W, ((a x y : Int) - (b x y : Int)) ^ 2

/-- Array `sum[]` after the plane loop of `ComputeMetrics`. -/
noncomputable def CPSNREvaluator.planeSums (ev : CMetricEvaluator) : Nat → ℝ :=
  fun i =>
    if i < ev.m_num_planes ∧ ev.has MASK_MSE i = true then CPSNREvaluator.planeValue ev i 0
    else 0

/-- Array `sum[]` after the `switch` on the chroma class. -/
noncomputable def CPSNREvaluator.finalSums (ev : CMetricEvaluator) : Nat → ℝ :=
  (CPSNREvaluator.overallStep ev
    { sum := CPSNREvaluator.planeSums ev, val := [], avg := [], j := 0 }).sum

/-- Values one call of `ComputeMetrics` appends to `val`, in order. -/
noncomputable def CPSNREvaluator.outVals (ev : CMetricEvaluator) : List ℝ :=
  collect ev.m_num_planes (ev.has MASK_MSE) (CPSNREvaluator.planeSums ev)
  ++ (if ev.has MASK_MSE ev.m_num_planes then [CPSNREvaluator.finalSums ev ev.m_num_planes]
      else [])
  ++ collect (ev.m_num_planes + 1) (ev.has MASK_PSNR)
      (fun i => MSEToPSNR (CPSNREvaluator.finalSums ev i) (MaxError ev.m_i1.GetBitDepth))
  ++ collect (ev.m_num_planes + 1) (ev.has MASK_APSNR)
      (fun i => MSEToPSNR (CPSNREvaluator.finalSums ev i) (MaxError ev.m_i1.GetBitDepth))

/-- Increments one call of `ComputeMetrics` adds to `avg`, in order. -/
noncomputable def CPSNREvaluator.outIncs (ev : CMetricEvaluator) : List ℝ :=
  collect ev.m_num_planes (ev.has MASK_MSE) (CPSNREvaluator.planeSums ev)
  ++ (if ev.has MASK_MSE ev.m_num_planes then [CPSNREvaluator.finalSums ev ev.m_num_planes]
      else [])
  ++ collect (ev.m_num_planes + 1) (ev.has MASK_PSNR) (CPSNREvaluator.finalSums ev)
  ++ collect (ev.m_num_planes + 1) (ev.has MASK_APSNR)
      (fun i => MSEToPSNR (CPSNREvaluator.finalSums ev i) (MaxError ev.m_i1.GetBitDepth))

/-- Number of values `ComputeMetrics` appends before the MSE of plane `i`. -/
def CPSNREvaluator.mseIndex (ev : CMetricEvaluator) (i : Nat) : Nat :=
  ((List.range i).filter (ev.has MASK_MSE)).length

/-- Number of values `ComputeMetrics` appends before the PSNR of entry `i`
(`i = m_num_planes` is the overall entry). -/
def CPSNREvaluator.psnrIndex (ev : CMetricEvaluator) (i : Nat) : Nat :=
  ((List.range (ev.m_num_planes + 1)).filter (ev.has MASK_MSE)).length
    + ((List.range i).filter (ev.has MASK_PSNR)).length

/-- Number of values `ComputeMetrics` appends before the APSNR of entry `i`. -/
def CPSNREvaluator.apsnrIndex (ev : CMetricEvaluator) (i : Nat) : Nat :=
  ((List.range (ev.m_num_planes + 1)).filter (ev.has MASK_MSE)).length
    + ((List.range (ev.m_num_planes + 1)).filter (ev.has MASK_PSNR)).length
    + ((List.range i).filter (ev.has MASK_APSNR)).length

/-- Reader of scenario S2: a progressive 8-bit I420 8x8 frame whose every byte
is `v`. -/
def S2_reader (v : Nat) : CReader :=
  { mem := fun _ => v
    m_file := fun _ => v
    m_file_size := 96
    m_num_fields := 1
    m_cur_frame := 0
    m_intl := false
    m_type := .I420P
    m_field_order := 0
    m_bottom := 0
    m_bd := .D008
    m_RShift := 0
    m_source_pixel_size := 1
    m_Meta := { data := 0, step := 96, roi := { width := 1, height := 1 } }
    m_planes := fun i =>
      if i = 0 then { data := 0, step := 8, roi := { width := 8, height := 8 } }
      else if i = 1 then { data := 64, step := 4, roi := { width := 4, height := 4 } }
      else if i = 2 then { data := 80, step := 4, roi := { width := 4, height := 4 } }
      else { data := 0, step := 0, roi := { width := 0, height := 0 } } }

/-- Evaluator of scenario S2: reference all 0, test all 1, `psnr y`. -/
def S2_evaluator : CMetricEvaluator :=
  { m_num_planes := 3
    c_mask := fun i => if i = 0 then MASK_PSNR ||| MASK_MSE else 0
    m_i1 := S2_reader 0
    m_i2 := S2_reader 1 }

/-- Sample at column `x`, row `y` of view `img` for bit depth `bd`: an 8-bit
sample for `D008`, a 16-bit sample otherwise. -/
def sampleAt (bd : EBitDepth) (m : Mem) (img : SImage) (x y : Nat) : Nat :=
  match bd with
  | .D008 => sample8 m img x y
  | _ => sample16 m img x y

/-- The evaluator with its two sources exchanged. -/
def CMetricEvaluator.swap (ev : CMetricEvaluator) : CMetricEvaluator :=
  { ev with m_i1 := ev.m_i2, m_i2 := ev.m_i1 }

/-- Reader of scenario S1: a progressive 8-bit I420 4x4 frame of zeros. -/
def S1_reader : CReader :=
  { mem := fun _ => 0
    m_file := fun _ => 0
    m_file_size := 24
    m_num_fields := 1
    m_cur_frame := 0
    m_intl := false
    m_type := .I420P
    m_field_order := 0
    m_bottom := 0
    m_bd := .D008
    m_RShift := 0
    m_source_pixel_size := 1
    m_Meta := { data := 0, step := 24, roi := { width := 1, height := 1 } }
    m_planes := fun i =>
      if i = 0 then { data := 0, step := 4, roi := { width := 4, height := 4 } }
      else if i = 1 then { data := 16, step := 2, roi := { width := 2, height := 2 } }
      else if i = 2 then { data := 20, step := 2, roi := { width := 2, height := 2 } }
      else { data := 0, step := 0, roi := { width := 0, height := 0 } } }

/-- Evaluator of scenario S1: `psnr y` on two all-zero frames. -/
def S1_evaluator : CMetricEvaluator :=
  { m_num_planes := 3
    c_mask := fun i => if i = 0 then MASK_PSNR ||| MASK_MSE else 0
    m_i1 := S1_reader
    m_i2 := S1_reader }

/-- Progressive 10-bit 4:4:4 planar reader with 1x1 planes whose only sample has
low byte 0 and high byte `hi`. -/
def C8_reader (hi : Nat) : CReader :=
  { mem := fun p => if p = 1 then hi else 0
    m_file := fun p => if p = 1 then hi else 0
    m_file_size := 6
    m_num_fields := 1
    m_cur_frame := 0
    m_intl := false
    m_type := .I410P
    m_field_order := 0
    m_bottom := 0
    m_bd := .D010
    m_RShift := 0
    m_source_pixel_size := 2
    m_Meta := { data := 0, step := 3, roi := { width := 1, height := 1 } }
    m_planes := fun _ => { data := 0, step := 2, roi := { width := 1, height := 1 } } }

/-- Evaluator for `psnr y` on a 1x1 10-bit frame pair with luma samples 32768
and 0. -/
def C8_evaluator : CMetricEvaluator :=
  { m_num_planes := 3
    c_mask := fun i => if i = 0 then MASK_PSNR ||| MASK_MSE else 0
    m_i1 := C8_reader 128
    m_i2 := C8_reader 0 }

/-- Reader of scenario S4: an interlaced 8-bit I420 32x16 source opened with
`-btm_first`, no frame read yet. -/
def S4_reader : CReader :=
  { mem := fun _ => 0
    m_file := fun p => p % 7
    m_file_size := 768
    m_num_fields := 2
    m_cur_frame := -1
    m_intl := true
    m_type := .I420I
    m_field_order := 1
    m_bottom := 0
    m_bd := .D008
    m_RShift := 0
    m_source_pixel_size := 1
    m_Meta := { data := 0, step := 768, roi := { width := 1, height := 1 } }
    m_planes := fun i =>
      if i = 0 then { data := 0, step := 32, roi := { width := 32, height := 16 } }
      else if i = 1 then { data := 512, step := 16, roi := { width := 16, height := 8 } }
      else if i = 2 then { data := 640, step := 16, roi := { width := 16, height := 8 } }
      else { data := 0, step := 0, roi := { width := 0, height := 0 } } }

/-- The byte ranges `[a, a + la)` and `[b, b + lb)` do not overlap. -/
def disjointRanges (a la b lb : Nat) : Prop := a + la ≤ b ∨ b + lb ≤ a

/-- A progressive Y410 2x2 source (`-st y410p`), no frame read yet: the raw
frame buffer at byte 0, the four 16-bit planes from byte 16 on. -/
def Y410_reader : CReader :=
  { mem := fun _ => 0
    m_file := fun p => (p * 37 + 11) % 256
    m_file_size := 16
    m_num_fields := 1
    m_cur_frame := -1
    m_intl := false
    m_type := .Y410P
    m_field_order := 0
    m_bottom := 0
    m_bd := .D010
    m_RShift := 0
    m_source_pixel_size := 1
    m_Meta := { data := 0, step := 16, roi := { width := 1, height := 1 } }
    m_planes := fun k => { data := 16 + k * (2 * (2 * 2)), step := 2 * 2,
                           roi := { width := 2, height := 2 } } }

/-- Name `InitComputationParams` registers for entry `i` of a metric: the plane
letter, a dash and the metric for a plane, the bare metric for overall. -/
def entryName (cmps : Component) (metric : String) (i : Nat) : String :=
  if i < cmps.length - 1 then String.singleton (cmps.at i).1 ++ "-" ++ metric else metric

/-- The evaluator bound to the readers of one scheduled frame pair. -/
def CMetricEvaluator.onFrame (ev : CMetricEvaluator) (fr : CReader × CReader) :
    CMetricEvaluator :=
  { ev with m_i1 := fr.1, m_i2 := fr.2 }

/-- An evaluator that follows the `PSNR` evaluator in `mevs`: it leaves the
entries of `avg` below the size `val` has on entry alone and does not shrink
`val` (every `ComputeMetrics` of the source starts at `j = val.size()`, appends
to `val` and adds to `avg[j++]`). -/
def Compute.appendsOnly (c : Compute) : Prop :=
  ∀ (val avg : List ℝ) (k : Nat),
    val.length ≤ (c val avg).1.length ∧ (k < val.length → (c val avg).2[k]? = avg[k]?)

/-- The calls of one iteration of the frame loop: the `PSNR` evaluator, first
in `mevs`, then the evaluators that follow it. -/
noncomputable def frameCalls (ev : CMetricEvaluator)
    (fr : (CReader × CReader) × List Compute) : List Compute :=
  CPSNREvaluator.ComputeMetrics (ev.onFrame fr.1) :: fr.2

/-- The averaging step of `main` on one accumulated entry `a` registered under
`name`. -/
noncomputable def averageEntry (name : String) (fm_count : Nat) (bd : EBitDepth) (a : ℝ) : ℝ :=
  if hasSubstr name "PSNR" = true ∧ hasSubstr name "APSNR" = false then
    MSEToPSNR (a * (1 / (fm_count : ℝ))) (MaxError bd)
  else a * (1 / (fm_count : ℝ))

/-- Component vector of `psnr y` on a YUV source, as `parse_metrics` leaves it. -/
def psnr_y_cmps : Component :=
  [('Y', MASK_PSNR ||| MASK_MSE), ('U', 0), ('V', 0), ('O', 0)]

/-- A run of two frame pairs of scenario S2 with the `PSNR` evaluator alone. -/
def S2_frames : List ((CReader × CReader) × List Compute) :=
  [((S2_reader 0, S2_reader 1), []), ((S2_reader 0, S2_reader 1), [])]

/-- Width in bits of the sample container of a bit depth: 8 for `D008`, 16 for
the 16-bit container of the others. -/
def containerBits : EBitDepth → Nat
  | .D008 => 8
  | _ => 16

/-- The rows of view `img` do not overlap: the row stride, in samples of the
container of `bd`, is at least the width. -/
def rowsApart (bd : EBitDepth) (img : SImage) : Prop :=
  match bd with
  | .D008 => img.roi.width ≤ img.step
  | _ => img.roi.width ≤ img.step >>> 1

/-- Byte `p` belongs to the sample at column `x`, row `y` of view `img`. -/
def inSample (bd : EBitDepth) (img : SImage) (x y p : Nat) : Prop :=
  match bd with
  | .D008 => p = img.data + y * img.step + x
  | _ => p = img.data + 2 * (y * (img.step >>> 1)) + 2 * x
      ∨ p = img.data + 2 * (y * (img.step >>> 1)) + 2 * x + 1

/-- A 16-bit view of one sample, 1024, at byte 0. -/
def shift_mem : Mem := fun p => if p = 1 then 4 else 0

/-! ## `is_rgb`, `parse_fourcc`, `mclMalloc` -/

def is_rgb : ESequenceType → Bool
  | .RGB32P | .RGB32I | .A2RGB10P | .A2RGB10I => true
  | _ => false

/-- Function `parse_fourcc`: the values of `sq_type` and `bd` on return, given
the value `bd` holds on entry. -/
def parse_fourcc (str : String) (bd : EBitDepth) : ESequenceType × EBitDepth :=
  if str = "i420p" then (.I420P, bd)
  else if str = "i420i" then (.I420I, bd)
  else if str = "nv12p" then (.NV12P, bd)
  else if str = "nv12i" then (.NV12I, bd)
  else if str = "yv12p" then (.YV12P, bd)
  else if str = "yv12i" then (.YV12I, bd)
  else if str = "yuy2p" then (.YUY2P, bd)
  else if str = "yuy2i" then (.YUY2I, bd)
  else if str = "nv16p" then (.NV16P, bd)
  else if str = "nv16i" then (.NV16I, bd)
  else if str = "i422p" then (.I422P, bd)
  else if str = "i422i" then (.I422I, bd)
  else if str = "ayuvp" then (.AYUVP, bd)
  else if str = "ayuvi" then (.AYUVI, bd)
  else if str = "y410p" then (.Y410P, .D010)
  else if str = "y410i" then (.Y410I, .D010)
  else if str = "y416p" then (.Y416P, .D016)
  else if str = "y416i" then (.Y416I, .D016)
  else if str = "i444p" then (.I444P, bd)
  else if str = "i444i" then (.I444I, bd)
  else if str = "i410p" then (.I410P, .D010)
  else if str = "i410i" then (.I410I, .D010)
  else if str = "rgb32p" then (.RGB32P, bd)
  else if str = "rgb32i" then (.RGB32I, bd)
  else if str = "a2rgb10p" then (.A2RGB10P, .D010)
  else if str = "a2rgb10i" then (.A2RGB10I, .D010)
  else if str = "argb16p" then (.ARGB16P, .D016)
  else (.UNKNOWN, bd)

/-- Function `mclMalloc` (`NO_IPP` branch).  `fresh` is the address the
allocator hands out; the result is the pointer returned together with the
number of bytes behind it, `none` for `NULL`. -/
def mclMalloc (size : Nat) (bd : EBitDepth) (fresh : Nat) : Option (Nat × Nat) :=
  match bd with
  | .D008 => some (fresh, size)
  | .D010 => some (fresh, 2 * size)
  | _ => none

/-! ## `OpenReadFile` -/

/-- A reader as its constructor leaves it, in memory `mem`. -/
def CReader.fresh (mem : Mem) : CReader :=
  { mem := mem
    m_file := fun _ => 0
    m_file_size := 0
    m_num_fields := 0
    m_cur_frame := -1
    m_intl := false
    m_type := .UNKNOWN
    m_field_order := 0
    m_bottom := 0
    m_bd := .D008
    m_RShift := 0
    m_source_pixel_size := 0
    m_Meta := ⟨0, 0, ⟨0, 0⟩⟩
    m_planes := fun _ => ⟨0, 0, ⟨0, 0⟩⟩ }

/-- Statements `m_planes[k].data = m_planes[j].data + m_planes[j].roi.height *
m_planes[j].step`. -/
def planeAfter (planes : Nat → SImage) (k j : Nat) : Nat → SImage :=
  Function.update planes k
    { planes k with data := (planes j).data + (planes j).roi.height * (planes j).step }

/-- Method `CRGBReader::OpenReadFile` on a reader that has no file open, with
the function it calls as `mclMalloc` as the parameter `malloc`.  `file` is what
`fopen` finds (the bytes of the file and their number, `none` when it fails);
`a_meta` and `a_planes` are the addresses the allocator hands out for the two
requests.  The result is the status and the reader on return. -/
def CRGBReader.OpenReadFileWith (malloc : Nat → EBitDepth → Nat → Option (Nat × Nat))
    (r : CReader) (file : Option ((Nat → Nat) × Nat))
    (a_meta a_planes : Nat) (w h : Nat) (type : ESequenceType) (order : Nat) (bd : EBitDepth)
    (RShift : Nat) : EErrorStatus × CReader :=
  let r := { r with m_type := type, m_field_order := order, m_bd := bd, m_RShift := RShift }
  match file with
  | none => (.MCL_ERR_INVALID_PARAM, r)
  | some f =>
    let sps := if bd = .D008 ∨ type = .A2RGB10P ∨ type = .A2RGB10I then 1 else 2
    let r := { r with m_file := f.1, m_file_size := f.2, m_source_pixel_size := sps }
    let step := w * h * 4
    match malloc step bd a_meta with
    | none => (.MCL_ERR_MEMORY_ALLOC, { r with m_Meta := ⟨0, step, ⟨w, h⟩⟩ })
    | some pm =>
      let r := { r with m_Meta := ⟨pm.1, step, ⟨w, h⟩⟩ }
      let num_fields := f.2 / (step * sps)
      let intl := is_interlaced type
      let r := { r with m_intl := intl
                        m_num_fields := if intl then num_fields <<< 1 else num_fields }
      match malloc step bd a_planes with
      | none => (.MCL_ERR_MEMORY_ALLOC, r)
      | some pp =>
        let pstep :=
          w * (if type = .ARGB16P ∨ type = .A2RGB10P ∨ type = .A2RGB10I then 2 else sps)
        let planes : Nat → SImage := fun k =>
          if k = 0 then ⟨pp.1, pstep, ⟨w, h⟩⟩
          else if k < 4 then ⟨0, pstep, ⟨w, h⟩⟩
          else r.m_planes k
        let planes := planeAfter planes 1 0
        let planes := planeAfter planes 2 1
        let planes := planeAfter planes 3 2
        (.MCL_ERR_NONE, { r with m_planes := planes })

/-- Method `CRGBReader::OpenReadFile` with `mclMalloc` of
`metrics_calc_lite_utils.cpp`. -/
def CRGBReader.OpenReadFile (r : CReader) (file : Option ((Nat → Nat) × Nat))
    (a_meta a_planes : Nat) (w h : Nat) (type : ESequenceType) (order : Nat) (bd : EBitDepth)
    (RShift : Nat) : EErrorStatus × CReader :=
  CRGBReader.OpenReadFileWith mclMalloc r file a_meta a_planes w h type order bd RShift

/-- Method `CYUVReader::OpenReadFile` on a reader that has no file open, with
the function it calls as `mclMalloc` as the parameter `malloc`; the other
parameters are those of `CRGBReader.OpenReadFileWith`. -/
def CYUVReader.OpenReadFileWith (malloc : Nat → EBitDepth → Nat → Option (Nat × Nat))
    (r : CReader) (file : Option ((Nat → Nat) × Nat))
    (a_meta a_planes : Nat) (w h : Nat) (type : ESequenceType) (order : Nat) (bd : EBitDepth)
    (RShift : Nat) : EErrorStatus × CReader :=
  let r := { r with m_type := type, m_field_order := order, m_bd := bd, m_RShift := RShift }
  match file with
  | none => (.MCL_ERR_INVALID_PARAM, r)
  | some f =>
    let sps := if bd = .D008 ∨ type = .Y410P ∨ type = .Y410I then 1 else 2
    let r := { r with m_file := f.1, m_file_size := f.2, m_source_pixel_size := sps }
    let step :=
      match get_chromaclass type with
      | .C420 => w * h * 3 / 2
      | .C422 => w * h * 2
      | .C444 =>
        if type = .I444P ∨ type = .I444I ∨ type = .I410P ∨ type = .I410I then w * h * 3
        else w * h * 4
    match malloc step bd a_meta with
    | none => (.MCL_ERR_MEMORY_ALLOC, { r with m_Meta := ⟨0, step, ⟨1, 1⟩⟩ })
    | some pm =>
      let r := { r with m_Meta := ⟨pm.1, step, ⟨1, 1⟩⟩ }
      let num_fields := f.2 / (step * sps)
      let intl := is_interlaced type
      let r := { r with m_intl := intl
                        m_num_fields := if intl then num_fields <<< 1 else num_fields }
      match get_chromaclass type with
      | .C420 =>
        let step0 := w * sps
        let planes : Nat → SImage := fun k =>
          if k = 0 then ⟨pm.1, step0, ⟨w, h⟩⟩
          else if k = 1 ∨ k = 2 then ⟨(r.m_planes k).data, step0 >>> 1, ⟨w >>> 1, h >>> 1⟩⟩
          else r.m_planes k
        match type with
        | .YV12P | .YV12I =>
          let planes := planeAfter planes 2 0
          let planes := planeAfter planes 1 2
          (.MCL_ERR_NONE, { r with m_planes := planes })
        | .I420P | .I420I =>
          let planes := planeAfter planes 1 0
          let planes := planeAfter planes 2 1
          (.MCL_ERR_NONE, { r with m_planes := planes })
        | .NV12P | .NV12I =>
          match malloc step bd a_planes with
          | none =>
            (.MCL_ERR_MEMORY_ALLOC,
              { r with m_planes := Function.update planes 0 { planes 0 with data := 0 } })
          | some pp =>
            let planes := Function.update planes 0 { planes 0 with data := pp.1 }
            let planes := planeAfter planes 2 0
            let planes := planeAfter planes 1 2
            (.MCL_ERR_NONE, { r with m_planes := planes })
        | _ => (.MCL_ERR_NONE, { r with m_planes := planes })
      | .C422 =>
        let step0 := w * sps
        let planes : Nat → SImage := fun k =>
          if k = 0 then ⟨pm.1, step0, ⟨w, h⟩⟩
          else if k = 1 ∨ k = 2 then ⟨(r.m_planes k).data, step0 >>> 1, ⟨w >>> 1, h⟩⟩
          else r.m_planes k
        match type with
        | .I422P | .I422I =>
          let planes := planeAfter planes 1 0
          let planes := planeAfter planes 2 1
          (.MCL_ERR_NONE, { r with m_planes := planes })
        | .YUY2P | .YUY2I | .NV16P | .NV16I =>
          match malloc step bd a_planes with
          | none =>
            (.MCL_ERR_MEMORY_ALLOC,
              { r with m_planes := Function.update planes 0 { planes 0 with data := 0 } })
          | some pp =>
            let planes := Function.update planes 0 { planes 0 with data := pp.1 }
            let planes := planeAfter planes 1 0
            let planes := planeAfter planes 2 1
            (.MCL_ERR_NONE, { r with m_planes := planes })
        | _ => (.MCL_ERR_NONE, { r with m_planes := planes })
      | .C444 =>
        let pstep := w * (if type = .Y410P ∨ type = .Y410I then 2 else sps)
        let planes : Nat → SImage := fun k =>
          if k = 0 then ⟨pm.1, pstep, ⟨w, h⟩⟩
          else if k < 4 then ⟨(r.m_planes k).data, pstep, ⟨w, h⟩⟩
          else r.m_planes k
        match type with
        | .AYUVP | .AYUVI | .Y416P | .Y416I | .Y410P | .Y410I =>
          match malloc step bd a_planes with
          | none =>
            (.MCL_ERR_MEMORY_ALLOC,
              { r with m_planes := Function.update planes 0 { planes 0 with data := 0 } })
          | some pp =>
            let planes := Function.update planes 0 { planes 0 with data := pp.1 }
            let planes := planeAfter planes 1 0
            let planes := planeAfter planes 2 1
            let planes := planeAfter planes 3 2
            (.MCL_ERR_NONE, { r with m_planes := planes })
        | .I444P | .I444I | .I410P | .I410I =>
          let planes := planeAfter planes 1 0
          let planes := planeAfter planes 2 1
          let planes := Function.update planes 3 ⟨(planes 3).data, 0, ⟨0, 0⟩⟩
          (.MCL_ERR_NONE, { r with m_planes := planes })
        | _ => (.MCL_ERR_NONE, { r with m_planes := planes })

/-- Method `CYUVReader::OpenReadFile` with `mclMalloc` of
`metrics_calc_lite_utils.cpp`. -/
def CYUVReader.OpenReadFile (r : CReader) (file : Option ((Nat → Nat) × Nat))
    (a_meta a_planes : Nat) (w h : Nat) (type : ESequenceType) (order : Nat) (bd : EBitDepth)
    (RShift : Nat) : EErrorStatus × CReader :=
  CYUVReader.OpenReadFileWith mclMalloc r file a_meta a_planes w h type order bd RShift

/-! ## `CRGBReader::ReadRawFrame` -/

/-- Body of the inner loop of `mclA2RGB10ToRGB_10u16u_C4P4R` for column `w`,
given the row pointers `src`, `dstA`, `dstR`, `dstG`, `dstB` (byte addresses). -/
def a2rgb10Pixel (src dstA dstR dstG dstB : Nat) (w : Nat) (m : Mem) : Mem :=
  let A_mask := (0x0003 <<< 30) % 2 ^ 32
  let R_mask := 0x03ff <<< 20
  let G_mask := 0x03ff <<< 10
  let B_mask := 0x03ff
  let A := (read32 m (src + 4 * w) &&& A_mask) >>> 30
  let R := (read32 m (src + 4 * w) &&& R_mask) >>> 20
  let G := (read32 m (src + 4 * w) &&& G_mask) >>> 10
  let B := read32 m (src + 4 * w) &&& B_mask
  let m := write16 m (dstA + 2 * w) A
  let m := write16 m (dstR + 2 * w) R
  let m := write16 m (dstG + 2 * w) G
  write16 m (dstB + 2 * w) B

/-- Kernel `mclA2RGB10ToRGB_10u16u_C4P4R`: `pSrc` is read through a `uint32_t*`,
the four destinations are written through `uint16_t*`. -/
def mclA2RGB10ToRGB_10u16u_C4P4R (m : Mem) (pSrc srcStep : Nat) (pDst : Nat → Nat)
    (dstStep : Nat) (roiSize : ImageSize) : EErrorStatus × Mem :=
  if srcStep = 0 ∨ dstStep = 0 then (.MCL_ERR_INVALID_PARAM, m)
  else if roiSize.width < 2 ∨ roiSize.height < 2 then (.MCL_ERR_INVALID_PARAM, m)
  else
    let srcStep := srcStep >>> 1
    let dstStep := dstStep >>> 1
    let dstR := pDst 0
    let dstG := pDst 1
    let dstB := pDst 2
    let dstA := pDst 3
    let m := forLoop roiSize.height (fun h m =>
      forLoop roiSize.width
        (a2rgb10Pixel (pSrc + 4 * (h * srcStep)) (dstA + 2 * (h * dstStep))
          (dstR + 2 * (h * dstStep)) (dstG + 2 * (h * dstStep)) (dstB + 2 * (h * dstStep))) m) m
    (.MCL_ERR_NONE, m)

/-- Dispatcher `mclA2RGB10ToRGB_C4P4R`. -/
def mclA2RGB10ToRGB_C4P4R (m : Mem) (pSrc srcStep : Nat) (pDst : Nat → Nat) (dstStep : Nat)
    (roiSize : ImageSize) (bd : EBitDepth) : EErrorStatus × Mem :=
  if bd = .D010 then mclA2RGB10ToRGB_10u16u_C4P4R m pSrc srcStep pDst dstStep roiSize
  else (.MCL_ERR_INVALID_PARAM, m)

/-- The `switch (m_type)` of `CRGBReader::ReadRawFrame` (lines 181-194): the
memory after the conversion of the frame just read. -/
def CRGBReader.demux (r : CReader) (m : Mem) : Mem :=
  let planes := fun i => (r.m_planes i).data
  let roi := (r.m_planes 0).roi
  match r.m_type with
  | .RGB32P | .RGB32I | .ARGB16P =>
    (mclCopy_C4P4R m r.m_Meta.data ((r.m_planes 0).step <<< 2) planes (r.m_planes 0).step roi
      r.m_bd).2
  | .A2RGB10P | .A2RGB10I =>
    let planes := Function.update planes 0 (r.m_planes 2).data
    let planes := Function.update planes 2 (r.m_planes 0).data
    (mclA2RGB10ToRGB_C4P4R m r.m_Meta.data (r.m_planes 0).step planes (r.m_planes 0).step roi
      r.m_bd).2
  | _ => m

/-- Method `CRGBReader::ReadRawFrame(field)`: the reader afterwards and the
value returned.  `field` is the value of the `uint32_t` parameter and
`wrapInt32 field` is `(int32_t)field` (lines 178, 199). -/
def CRGBReader.ReadRawFrame (r : CReader) (field : Nat) : CReader × Bool :=
  let m_bottom := if r.m_intl then r.m_field_order ^^^ (field &&& 0x1) else r.m_bottom
  let field := if r.m_intl then field >>> 1 else field
  if r.m_cur_frame ≠ wrapInt32 (field : Int) then
    let rd := fread_at r.m_file r.m_file_size (field * (r.m_Meta.step * r.m_source_pixel_size))
      r.mem r.m_Meta.data r.m_source_pixel_size r.m_Meta.step
    let m := CRGBReader.demux r rd.1
    let m := (mclRShiftC_C1IR r.m_RShift m (r.m_planes 0).data (r.m_planes 0).step
      (r.m_planes 0).roi r.m_bd).2
    let m := (mclRShiftC_C1IR r.m_RShift m (r.m_planes 1).data (r.m_planes 1).step
      (r.m_planes 1).roi r.m_bd).2
    let m := (mclRShiftC_C1IR r.m_RShift m (r.m_planes 2).data (r.m_planes 2).step
      (r.m_planes 2).roi r.m_bd).2
    let m := (mclRShiftC_C1IR r.m_RShift m (r.m_planes 3).data (r.m_planes 3).step
      (r.m_planes 3).roi r.m_bd).2
    ({ r with mem := m, m_bottom := m_bottom, m_cur_frame := wrapInt32 (field : Int) },
      decide (rd.2 ≠ r.m_Meta.step))
  else ({ r with m_bottom := m_bottom }, false)

/-- Bytes of a file of 32-bit little-endian words whose word `k` is
`2052403211 + k`. -/
def a2rgb10_file : Nat → Nat := fun p =>
  (2052403211 + p / 4) / 256 ^ (p % 4) % 256

/-- A progressive A2RGB10 source of `w x h` pixels as `OpenReadFile` sets it
up (`-st a2rgb10p`), no frame read yet: the raw frame buffer at byte 0, the
planes behind it. -/
def A2RGB10_reader (w h : Nat) : CReader :=
  (CRGBReader.OpenReadFile (CReader.fresh (fun _ => 0)) (some (a2rgb10_file, 4 * (w * h)))
    0 (8 * (w * h)) w h .A2RGB10P 0 .D010 0).2

/-- Two bytes-per-sample planes for the norm kernel: samples 65535 and 1000 in
the first, the second all zero. -/
def overflow_mem : Mem := fun p =>
  if p = 0 then 255 else if p = 1 then 255 else if p = 2 then 232 else if p = 3 then 3 else 0

/-- Layout under which the NV12 kernels are considered: sample size `c` bytes,
strides in samples (`e k` of the destinations, `eY` and `eUV` of the sources) at
least the row widths, and the three destination planes apart from each other
and from the two source planes. -/
def nv12Layout (c pSrcY eY pSrcUV eUV : Nat) (PDst e : Nat → Nat) (W H : Nat) : Prop :=
  W ≤ e 0 ∧ W / 2 ≤ e 1 ∧ W / 2 ≤ e 2 ∧ W ≤ eY ∧ 2 * (W / 2) ≤ eUV
  ∧ disjointRanges (PDst 0) (c * (H * e 0)) (PDst 1) (c * (H / 2 * e 1))
  ∧ disjointRanges (PDst 0) (c * (H * e 0)) (PDst 2) (c * (H / 2 * e 2))
  ∧ disjointRanges (PDst 1) (c * (H / 2 * e 1)) (PDst 2) (c * (H / 2 * e 2))
  ∧ disjointRanges (PDst 0) (c * (H * e 0)) pSrcY (c * (H * eY))
  ∧ disjointRanges (PDst 0) (c * (H * e 0)) pSrcUV (c * (H / 2 * eUV))
  ∧ disjointRanges (PDst 1) (c * (H / 2 * e 1)) pSrcUV (c * (H / 2 * eUV))
  ∧ disjointRanges (PDst 2) (c * (H / 2 * e 2)) pSrcUV (c * (H / 2 * eUV))

/-- Memory of the NV12 check: a 4x2 luma plane at byte 0 and its interleaved
chroma row at byte 8, each byte its own address plus 1. -/
def nv12_mem : Mem := fun p => p + 1

/-- Destination pointers of the NV12 check: planes at bytes 16, 24 and 26. -/
def nv12_dst : Nat → Nat := fun k => if k = 0 then 16 else if k = 1 then 24 else 26

/-- Destination strides of the NV12 check. -/
def nv12_steps : Nat → Nat := fun k => if k = 0 then 4 else 2

/-- Entries of the `PSNR` evaluator in registration order: for each metric in
the order MSE, PSNR, APSNR the planes whose mask has the metric bit, in plane
order, then the overall entry (`i = m_num_planes`) if its mask has the bit. -/
def CPSNREvaluator.keys (ev : CMetricEvaluator) : List (String × Nat) :=
  collect (ev.m_num_planes + 1) (ev.has MASK_MSE) (fun i => ("MSE", i))
  ++ collect (ev.m_num_planes + 1) (ev.has MASK_PSNR) (fun i => ("PSNR", i))
  ++ collect (ev.m_num_planes + 1) (ev.has MASK_APSNR) (fun i => ("APSNR", i))

/-- Value `ComputeMetrics` appends for an entry: `sum[i]` as it is when the
MSE is pushed, `MSEToPSNR(sum[i])` for a PSNR or APSNR entry. -/
noncomputable def CPSNREvaluator.keyValue (ev : CMetricEvaluator) (k : String × Nat) : ℝ :=
  if k.1 = "MSE" then
    (if k.2 < ev.m_num_planes then CPSNREvaluator.planeSums ev k.2
     else CPSNREvaluator.finalSums ev ev.m_num_planes)
  else MSEToPSNR (CPSNREvaluator.finalSums ev k.2) (MaxError ev.m_i1.GetBitDepth)

/-- Amount `ComputeMetrics` adds to the running average of an entry: the MSE
`sum[i]` for a PSNR entry, the appended value for an MSE or APSNR entry. -/
noncomputable def CPSNREvaluator.keyInc (ev : CMetricEvaluator) (k : String × Nat) : ℝ :=
  if k.1 = "PSNR" then CPSNREvaluator.finalSums ev k.2 else CPSNREvaluator.keyValue ev k

/-! ## `float` kernels of the SSIM evaluator

A `float` is a real number.  The buffers of `CSSIMEvaluator` are separate
allocations: each is an array of its own (`FBuf`), a `float*` into one is an
element index, and a kernel returns the contents of its destination array. -/

/-- Contents of a `float` array: element index to value. -/
abbrev FBuf := Nat → ℝ

/-- Constant `FLT_EPSILON` of `<float.h>`. -/
noncomputable def FLT_EPSILON : ℝ := 1 / 2 ^ 23

/-- Kernel `mclConvert_8u32f_C1R`. -/
noncomputable def mclConvert_8u32f_C1R (m : Mem) (pSrc srcStep : Nat) (dst : FBuf)
    (pDst dstStep : Nat) (roiSize : ImageSize) : EErrorStatus × FBuf :=
  if roiSize.width < 1 ∨ roiSize.height < 1 then (.MCL_ERR_INVALID_PARAM, dst)
  else
    let dstStep := dstStep >>> 2
    (.MCL_ERR_NONE, forLoop roiSize.height (fun h d =>
      forLoop roiSize.width (fun w d =>
        Function.update d (pDst + h * dstStep + w) ((read8 m (pSrc + h * srcStep + w) : Nat) : ℝ))
        d) dst)

/-- Kernel `mclConvert_16u32f_C1R`. -/
noncomputable def mclConvert_16u32f_C1R (m : Mem) (pSrc srcStep : Nat) (dst : FBuf)
    (pDst dstStep : Nat) (roiSize : ImageSize) : EErrorStatus × FBuf :=
  if roiSize.width < 1 ∨ roiSize.height < 1 then (.MCL_ERR_INVALID_PARAM, dst)
  else
    let srcStep := srcStep >>> 1
    let dstStep := dstStep >>> 2
    (.MCL_ERR_NONE, forLoop roiSize.height (fun h d =>
      forLoop roiSize.width (fun w d =>
        Function.update d (pDst + h * dstStep + w)
          ((read16 m (pSrc + 2 * (h * srcStep) + 2 * w) : Nat) : ℝ)) d) dst)

/-- Dispatcher `mclConvert__u32f_C1R` (`NO_IPP` branch). -/
noncomputable def mclConvert__u32f_C1R (m : Mem) (pSrc srcStep : Nat) (dst : FBuf)
    (pDst dstStep : Nat) (roiSize : ImageSize) (bd : EBitDepth) : EErrorStatus × FBuf :=
  match bd with
  | .D008 => mclConvert_8u32f_C1R m pSrc srcStep dst pDst dstStep roiSize
  | .D010 => mclConvert_16u32f_C1R m pSrc srcStep dst pDst dstStep roiSize
  | _ => (.MCL_ERR_INVALID_PARAM, dst)

/-- Function `mclSqr_32f_C1R` (`NO_IPP` branch). -/
noncomputable def mclSqr_32f_C1R (src : FBuf) (pSrc srcStep : Nat) (dst : FBuf)
    (pDst dstStep : Nat) (roiSize : ImageSize) : EErrorStatus × FBuf :=
  if roiSize.width < 1 ∨ roiSize.height < 1 then (.MCL_ERR_INVALID_PARAM, dst)
  else
    let srcStep := srcStep >>> 2
    let dstStep := dstStep >>> 2
    (.MCL_ERR_NONE, forLoop roiSize.height (fun h d =>
      forLoop roiSize.width (fun w d =>
        Function.update d (pDst + h * dstStep + w)
          (src (pSrc + h * srcStep + w) * src (pSrc + h * srcStep + w))) d) dst)

/-- Function `mclMul_32f_C1R` (`NO_IPP` branch). -/
noncomputable def mclMul_32f_C1R (src1 : FBuf) (pSrc1 srcStep1 : Nat) (src2 : FBuf)
    (pSrc2 srcStep2 : Nat) (dst : FBuf) (pDst dstStep : Nat) (roiSize : ImageSize) :
    EErrorStatus × FBuf :=
  if roiSize.width < 1 ∨ roiSize.height < 1 then (.MCL_ERR_INVALID_PARAM, dst)
  else
    let srcStep1 := srcStep1 >>> 2
    let srcStep2 := srcStep2 >>> 2
    let dstStep := dstStep >>> 2
    (.MCL_ERR_NONE, forLoop roiSize.height (fun h d =>
      forLoop roiSize.width (fun w d =>
        Function.update d (pDst + h * dstStep + w)
          (src1 (pSrc1 + h * srcStep1 + w) * src2 (pSrc2 + h * srcStep2 + w))) d) dst)

/-- Function `mclMean_32f_C1R` (`NO_IPP` branch); `value` is what the reference
parameter holds on entry, the result is the status and what it holds on return. -/
noncomputable def mclMean_32f_C1R (src : FBuf) (pSrc srcStep : Nat) (roiSize : ImageSize)
    (value : ℝ) : EErrorStatus × ℝ :=
  if roiSize.width < 1 ∨ roiSize.height < 1 then (.MCL_ERR_INVALID_PARAM, value)
  else
    let srcStep := srcStep >>> 2
    let value := forLoop roiSize.height (fun h value =>
      forLoop roiSize.width (fun w value => value + src (pSrc + h * srcStep + w)) value) (0 : ℝ)
    (.MCL_ERR_NONE, value / ((roiSize.width * roiSize.height : Nat) : ℝ))

/-- Function `mclFilterRow_32f_C1R` (`NO_IPP` branch).  `krn` is the array the
kernel lives in and `pKernel` the index of its first tap; the element
`src[w - (kernelSize >> 1) + i]` is at index `src + w + i - (kernelSize >> 1)`. -/
noncomputable def mclFilterRow_32f_C1R (src : FBuf) (pSrc srcStep : Nat) (dst : FBuf)
    (pDst dstStep : Nat) (dstRoiSize : ImageSize) (krn : FBuf) (pKernel kernelSize : Nat)
    (_xAnchor : Nat) : EErrorStatus × FBuf :=
  if dstRoiSize.width < 1 ∨ dstRoiSize.height < 1 then (.MCL_ERR_INVALID_PARAM, dst)
  else if kernelSize < 1 ∨ kernelSize &&& 0x1 = 0 then (.MCL_ERR_INVALID_PARAM, dst)
  else
    let srcStep := srcStep >>> 2
    let dstStep := dstStep >>> 2
    (.MCL_ERR_NONE, forLoop dstRoiSize.height (fun h d =>
      forLoop dstRoiSize.width (fun w d =>
        Function.update d (pDst + h * dstStep + w)
          (forLoop kernelSize (fun i value =>
            value + krn (pKernel + i) * src (pSrc + h * srcStep + w + i - (kernelSize >>> 1)))
            (0 : ℝ))) d) dst)

/-- Function `mclFilterColumn_32f_C1R` (`NO_IPP` branch); the element
`src[w - (kernelSize >> 1) * srcStep + i * srcStep]` is at index
`src + w + i * srcStep - (kernelSize >> 1) * srcStep`. -/
noncomputable def mclFilterColumn_32f_C1R (src : FBuf) (pSrc srcStep : Nat) (dst : FBuf)
    (pDst dstStep : Nat) (dstRoiSize : ImageSize) (krn : FBuf) (pKernel kernelSize : Nat)
    (_xAnchor : Nat) : EErrorStatus × FBuf :=
  if dstRoiSize.width < 1 ∨ dstRoiSize.height < 1 then (.MCL_ERR_INVALID_PARAM, dst)
  else if kernelSize < 1 ∨ kernelSize &&& 0x1 = 0 then (.MCL_ERR_INVALID_PARAM, dst)
  else
    let srcStep := srcStep >>> 2
    let dstStep := dstStep >>> 2
    (.MCL_ERR_NONE, forLoop dstRoiSize.height (fun h d =>
      forLoop dstRoiSize.width (fun w d =>
        Function.update d (pDst + h * dstStep + w)
          (forLoop kernelSize (fun i value =>
            value + krn (pKernel + i)
              * src (pSrc + h * srcStep + w + i * srcStep - (kernelSize >>> 1) * srcStep))
            (0 : ℝ))) d) dst)

/-! ## `CSSIMEvaluator` -/

/-- Members of `CSSIMEvaluator` that stay fixed during `ComputeMetrics`: those
of the base class, the stride of the buffers, the kernel table (`mc_krn[k]` is
the index of the first tap of kernel `k` in `m_kernel_values`) and the two
constants. -/
structure CSSIMEvaluator where
  base : CMetricEvaluator
  m_step : Nat
  mc_ksz : Nat → Nat
  m_xkidx : Nat → Nat
  m_ykidx : Nat → Nat
  m_ssim_c1 : ℝ
  m_ssim_c2 : ℝ
  m_kernel_values : FBuf
  mc_krn : Nat → Nat

/-- The six buffers of `CSSIMEvaluator`. -/
structure SSIMBuffers where
  m_mu1 : FBuf
  m_mu2 : FBuf
  m_mu1_sq : FBuf
  m_mu2_sq : FBuf
  m_mu1_mu2 : FBuf
  m_tmp : FBuf

/-- Method `GaussianKernel(KernelSize, sigma, pKernel)` on the array `a`. -/
noncomputable def CSSIMEvaluator.GaussianKernel (KernelSize : Nat) (sigma : ℝ) (pKernel : Nat)
    (a : FBuf) : FBuf :=
  let s := forLoop KernelSize (fun i (s : FBuf × ℝ) =>
    let val : ℝ := (((i : Int) - ((KernelSize / 2 : Nat) : Int) : Int) : ℝ)
    let a := Function.update s.1 (pKernel + i)
      (Real.exp (-(val * val) / (2 * sigma * sigma)))
    (a, s.2 + a (pKernel + i))) (a, (0 : ℝ))
  forLoop KernelSize (fun i a => Function.update a (pKernel + i) (a (pKernel + i) / s.2)) s.1

/-- Constructor of `CSSIMEvaluator`: the kernel table and the index arrays, for
the members `base` of the base class and the array `kv` the kernels are written
to. -/
noncomputable def CSSIMEvaluator.create (base : CMetricEvaluator) (kv : FBuf) :
    CSSIMEvaluator :=
  let kv := CSSIMEvaluator.GaussianKernel 11 (3 / 2) 0 kv
  let kv := CSSIMEvaluator.GaussianKernel 7 (3 / 4) 11 kv
  let kv := CSSIMEvaluator.GaussianKernel 5 (3 / 8) 18 kv
  { base := base
    m_step := 0
    mc_ksz := fun k => if k = 0 then 11 else if k = 1 then 7 else if k = 2 then 5 else 0
    m_xkidx := fun _ => 0
    m_ykidx := fun _ => 0
    m_ssim_c1 := 0
    m_ssim_c2 := 0
    m_kernel_values := kv
    mc_krn := fun k => if k = 0 then 0 else if k = 1 then 11 else if k = 2 then 18 else 0 }

/-- Method `GetInterlaced`. -/
def CReader.GetInterlaced (r : CReader) : Bool := r.m_intl

/-- Method `CSSIMEvaluator::AllocateResourses`: the evaluator afterwards; the
six buffers it allocates hold whatever the allocator left in them. -/
noncomputable def CSSIMEvaluator.AllocateResourses (ev : CSSIMEvaluator) : CSSIMEvaluator :=
  let ref := ev.base.m_i1.GetFrame 0
  let m_step := ref.roi.width <<< 2
  let idx := forLoop 4 (fun i (s : (Nat → Nat) × (Nat → Nat)) =>
    let s :=
      if i ≠ 0 then
        match get_chromaclass ev.base.m_i1.GetSqType with
        | .C444 => s
        | .C422 => (Function.update s.1 i (s.1 i + 1), s.2)
        | .C420 => (Function.update s.1 i (s.1 i + 1), Function.update s.2 i (s.2 i + 1))
      else s
    if ev.base.m_i1.GetInterlaced then (s.1, Function.update s.2 i (s.2 i + 1)) else s)
    (ev.m_xkidx, ev.m_ykidx)
  let max_e := MaxError ev.base.m_i1.GetBitDepth
  { ev with
    m_step := m_step
    m_xkidx := idx.1
    m_ykidx := idx.2
    m_ssim_c1 := 1 / 10000 * max_e * max_e
    m_ssim_c2 := 9 / 10000 * max_e * max_e }

/-- Body of the inner loop of `testFastSSIM_32f`: the value written to `*pDi`
for the five values read, with `C2` already increased by `C1`.  The terms and
the quotient are evaluated in exact arithmetic; the source evaluates them in
single precision, where the difference `t4` is rounded. -/
noncomputable def CSSIMEvaluator.ssimPixel (Mx My Sx2 Sy2 Sxy C1 C2 : ℝ) : ℝ :=
  let t1 := Mx * My
  let t1 := t1 + t1 + C1
  let t2 := Sxy + Sxy - t1 + C2
  let t3 := Mx * Mx + My * My + C1
  let t4 := Sx2 + Sy2 - t3 + C2
  let t2 := t2 * t1
  let t4 := t4 * t3
  if t4 ≥ FLT_EPSILON then t2 / t4 else if t3 ≥ FLT_EPSILON then t1 / t3 else 1

/-- Method `testFastSSIM_32f`: the contents of the destination array on return.
Row `j` of an array starts `j * step` bytes, that is `j * step / 4` elements,
after the pointer given. -/
noncomputable def CSSIMEvaluator.testFastSSIM_32f (src1 : FBuf) (pSrc1 src1Step : Nat)
    (src2 : FBuf) (pSrc2 src2Step : Nat) (src3 : FBuf) (pSrc3 src3Step : Nat) (src4 : FBuf)
    (pSrc4 src4Step : Nat) (src5 : FBuf) (pSrc5 src5Step : Nat) (dst : FBuf)
    (pDst dstStep : Nat) (roiSize : ImageSize) (C1 C2 : ℝ) : FBuf :=
  let C2 := C2 + C1
  forLoop roiSize.height (fun j d =>
    forLoop roiSize.width (fun i d =>
      Function.update d (pDst + j * dstStep / 4 + i)
        (CSSIMEvaluator.ssimPixel (src1 (pSrc1 + j * src1Step / 4 + i))
          (src2 (pSrc2 + j * src2Step / 4 + i)) (src3 (pSrc3 + j * src3Step / 4 + i))
          (src4 (pSrc4 + j * src4Step / 4 + i)) (src5 (pSrc5 + j * src5Step / 4 + i)) C1 C2))
      d) dst

/-- Locals of `CSSIMEvaluator::ComputeMetrics` together with the buffers and the
two vectors it updates. -/
structure SSIMState where
  bufs : SSIMBuffers
  idx : Nat → ℝ
  val : List ℝ
  avg : List ℝ
  j : Nat

/-- The expression `n & ~1` on an `int` holding `n`. -/
def clearBit0 (n : Nat) : Nat := n &&& 0xFFFFFFFE

/-- One filter pass of `ComputeMetrics`: `mclFilterRow_32f_C1R` from `buf` into
`tmp`, then `mclFilterColumn_32f_C1R` from `tmp` back into `buf`; the result is
`buf` and `tmp` afterwards. -/
noncomputable def CSSIMEvaluator.filterPass (ev : CSSIMEvaluator) (i : Nat) (roi : ImageSize)
    (buf tmp : FBuf) : FBuf × FBuf :=
  let kx := ev.mc_ksz (ev.m_xkidx i)
  let ky := ev.mc_ksz (ev.m_ykidx i)
  let flt : ImageSize := ⟨roi.width - clearBit0 kx, roi.height - clearBit0 ky⟩
  let shift := (kx >>> 1) + (ky >>> 1) * ev.m_step / 4
  let flt_h : ImageSize := ⟨roi.width - clearBit0 kx, roi.height⟩
  let shift_h := kx >>> 1
  let tmp := (mclFilterRow_32f_C1R buf shift_h ev.m_step tmp shift_h ev.m_step flt_h
    ev.m_kernel_values (ev.mc_krn (ev.m_xkidx i)) kx (kx >>> 1)).2
  let buf := (mclFilterColumn_32f_C1R tmp shift ev.m_step buf shift ev.m_step flt
    ev.m_kernel_values (ev.mc_krn (ev.m_ykidx i)) ky (ky >>> 1)).2
  (buf, tmp)

/-- Body of the plane loop of `CSSIMEvaluator::ComputeMetrics` (lines 637-668).
The extents `flt` are differences of `int`s in the source; a negative extent
and the extent 0 of the natural-number difference behave alike in every callee
(each tests `extent < 1` or loops while `index < extent`). -/
noncomputable def CSSIMEvaluator.planeStep (ev : CSSIMEvaluator) (i : Nat) (st : SSIMState) :
    SSIMState :=
  if ev.base.c_mask i &&& MASK_SSIM ≠ 0 then
    let i1_p := ev.base.m_i1.GetFrame i
    let i2_p := ev.base.m_i2.GetFrame i
    let bd := ev.base.m_i1.GetBitDepth
    let mu1 := (mclConvert__u32f_C1R ev.base.m_i1.mem i1_p.data i1_p.step st.bufs.m_mu1 0
      ev.m_step i1_p.roi bd).2
    let mu2 := (mclConvert__u32f_C1R ev.base.m_i2.mem i2_p.data i2_p.step st.bufs.m_mu2 0
      ev.m_step i2_p.roi bd).2
    let mu1_sq := (mclSqr_32f_C1R mu1 0 ev.m_step st.bufs.m_mu1_sq 0 ev.m_step i1_p.roi).2
    let mu2_sq := (mclSqr_32f_C1R mu2 0 ev.m_step st.bufs.m_mu2_sq 0 ev.m_step i1_p.roi).2
    let mu1_mu2 := (mclMul_32f_C1R mu1 0 ev.m_step mu2 0 ev.m_step st.bufs.m_mu1_mu2 0
      ev.m_step i1_p.roi).2
    let kx := ev.mc_ksz (ev.m_xkidx i)
    let ky := ev.mc_ksz (ev.m_ykidx i)
    let flt : ImageSize := ⟨i1_p.roi.width - clearBit0 kx, i1_p.roi.height - clearBit0 ky⟩
    let shift := (kx >>> 1) + (ky >>> 1) * ev.m_step / 4
    let p1 := CSSIMEvaluator.filterPass ev i i1_p.roi mu1 st.bufs.m_tmp
    let p2 := CSSIMEvaluator.filterPass ev i i1_p.roi mu2 p1.2
    let p3 := CSSIMEvaluator.filterPass ev i i1_p.roi mu1_sq p2.2
    let p4 := CSSIMEvaluator.filterPass ev i i1_p.roi mu2_sq p3.2
    let p5 := CSSIMEvaluator.filterPass ev i i1_p.roi mu1_mu2 p4.2
    let tmp := CSSIMEvaluator.testFastSSIM_32f p1.1 shift ev.m_step p2.1 shift ev.m_step
      p3.1 shift ev.m_step p4.1 shift ev.m_step p5.1 shift ev.m_step p5.2 shift ev.m_step flt
      ev.m_ssim_c1 ev.m_ssim_c2
    let v := (mclMean_32f_C1R tmp shift ev.m_step flt (st.idx i)).2
    { bufs := ⟨p1.1, p2.1, p3.1, p4.1, p5.1, tmp⟩
      idx := Function.update st.idx i v
      val := st.val ++ [v]
      avg := addAt st.avg st.j v
      j := st.j + 1 }
  else st

/-- Method `CSSIMEvaluator::ComputeMetrics` on the buffers `bufs`, with its
locals in the result. -/
noncomputable def CSSIMEvaluator.ComputeMetricsState (ev : CSSIMEvaluator) (bufs : SSIMBuffers)
    (val avg : List ℝ) : SSIMState :=
  let st : SSIMState :=
    { bufs := bufs, idx := fun _ => 0, val := val, avg := avg, j := val.length }
  let st := forLoop ev.base.m_num_planes (CSSIMEvaluator.planeStep ev) st
  if ev.base.c_mask ev.base.m_num_planes &&& MASK_SSIM ≠ 0 then
    let n := ev.base.m_num_planes
    let idx :=
      match get_chromaclass ev.base.m_i1.GetSqType with
      | .C444 =>
        Function.update st.idx n ((st.idx 0 + st.idx 1 + st.idx 2 + st.idx 3) / (n : ℝ))
      | .C422 => Function.update st.idx 3 ((2 * st.idx 0 + st.idx 1 + st.idx 2) / 4)
      | .C420 => Function.update st.idx 3 ((4 * st.idx 0 + st.idx 1 + st.idx 2) / 6)
    { st with
      idx := idx
      val := st.val ++ [idx n]
      avg := addAt st.avg st.j (idx n)
      j := st.j + 1 }
  else st

/-- Method `CSSIMEvaluator::ComputeMetrics`: the vectors `val` and `avg` on
return. -/
noncomputable def CSSIMEvaluator.ComputeMetrics (ev : CSSIMEvaluator) (bufs : SSIMBuffers)
    (val avg : List ℝ) : List ℝ × List ℝ :=
  let st := CSSIMEvaluator.ComputeMetricsState ev bufs val avg
  (st.val, st.avg)

/-- Sample at column `x`, row `y` of view `img` as the `float` the conversion
kernels produce. -/
noncomputable def sampleR (bd : EBitDepth) (m : Mem) (img : SImage) (x y : Nat) : ℝ :=
  ((sampleAt bd m img x y : Nat) : ℝ)

/-- Weighted sum over the `kx x ky` window whose top left corner is `(x, y)`:
the column filter (taps `wy`) applied to the row filter (taps `wx`) of `z`. -/
noncomputable def windowSum (kx ky : Nat) (wx wy : Nat → ℝ) (z : Nat → Nat → ℝ) (x y : Nat) : ℝ :=
  ∑ j in Finset.range ky, wy j * ∑ i in Finset.range kx, wx i * z (x + i) (y + j)

/-- Taps of the horizontal kernel of plane `i`. -/
def CSSIMEvaluator.wx (ev : CSSIMEvaluator) (i : Nat) : Nat → ℝ :=
  fun t => ev.m_kernel_values (ev.mc_krn (ev.m_xkidx i) + t)

/-- Taps of the vertical kernel of plane `i`. -/
def CSSIMEvaluator.wy (ev : CSSIMEvaluator) (i : Nat) : Nat → ℝ :=
  fun t => ev.m_kernel_values (ev.mc_krn (ev.m_ykidx i) + t)

/-- Value `testFastSSIM_32f` computes for output pixel `(x, y)` of plane `i`:
`ssimPixel` of the five window sums of the two planes. -/
noncomputable def CSSIMEvaluator.pixelValue (ev : CSSIMEvaluator) (i x y : Nat) : ℝ :=
  let bd := ev.base.m_i1.GetBitDepth
  let A := sampleR bd ev.base.m_i1.mem (ev.base.m_i1.GetFrame i)
  let B := sampleR bd ev.base.m_i2.mem (ev.base.m_i2.GetFrame i)
  let kx := ev.mc_ksz (ev.m_xkidx i)
  let ky := ev.mc_ksz (ev.m_ykidx i)
  let G := windowSum kx ky (ev.wx i) (ev.wy i)
  CSSIMEvaluator.ssimPixel (G A x y) (G B x y) (G (fun u v => A u v * A u v) x y)
    (G (fun u v => B u v * B u v) x y) (G (fun u v => A u v * B u v) x y)
    ev.m_ssim_c1 (ev.m_ssim_c2 + ev.m_ssim_c1)

/-- Number of values the SSIM evaluator appends before that of plane `i`. -/
def CSSIMEvaluator.ssimIndex (ev : CSSIMEvaluator) (i : Nat) : Nat :=
  ((List.range i).filter (ev.base.has MASK_SSIM)).length

/-- Mean of the values `pixelValue` over the filtered region of plane `i`: the
region is the plane less `kx - 1` columns and `ky - 1` rows. -/
noncomputable def CSSIMEvaluator.planeSSIM (ev : CSSIMEvaluator) (i : Nat) : ℝ :=
  let roi := (ev.base.m_i1.GetFrame i).roi
  let fw := roi.width - (ev.mc_ksz (ev.m_xkidx i) - 1)
  let fh := roi.height - (ev.mc_ksz (ev.m_ykidx i) - 1)
  (∑ y in Finset.range fh, ∑ x in Finset.range fw, ev.pixelValue i x y)
    / ((fw * fh : Nat) : ℝ)

/-- Evaluator of scenario S1 with `ssim y`: two all-zero 8-bit I420 4x4 frames,
the SSIM bit set for plane Y only. -/
def S1_ssim_evaluator : CMetricEvaluator :=
  { S1_evaluator with c_mask := fun i => if i = 0 then MASK_SSIM else 0 }

/-- Six buffers of zeros. -/
def zeroBuffers : SSIMBuffers :=
  ⟨fun _ => 0, fun _ => 0, fun _ => 0, fun _ => 0, fun _ => 0, fun _ => 0⟩

/-- Progressive 8-bit I444 11x11 reader whose samples are 255 in column `c` of
every plane and 0 elsewhere. -/
def column_reader (c : Nat) : CReader :=
  { mem := fun a => if a % 11 = c then 255 else 0
    m_file := fun a => if a % 11 = c then 255 else 0
    m_file_size := 363
    m_num_fields := 1
    m_cur_frame := 0
    m_intl := false
    m_type := .I444P
    m_field_order := 0
    m_bottom := 0
    m_bd := .D008
    m_RShift := 0
    m_source_pixel_size := 1
    m_Meta := { data := 0, step := 363, roi := { width := 1, height := 1 } }
    m_planes := fun i =>
      if i < 3 then { data := 121 * i, step := 11, roi := { width := 11, height := 11 } }
      else { data := 0, step := 0, roi := { width := 0, height := 0 } } }

/-- Evaluator for `ssim y` on the column readers `c1` and `c2`. -/
def column_evaluator (c1 c2 : Nat) : CMetricEvaluator :=
  { m_num_planes := 3
    c_mask := fun i => if i = 0 then MASK_SSIM else 0
    m_i1 := column_reader c1
    m_i2 := column_reader c2 }

/-- Tap `t` of `GaussianKernel(K, sigma, ..)` before the normalisation. -/
noncomputable def gaussTap (K : Nat) (sigma : ℝ) (t : Nat) : ℝ :=
  let val : ℝ := (((t : Int) - ((K / 2 : Nat) : Int) : Int) : ℝ)
  Real.exp (-(val * val) / (2 * sigma * sigma))

/-! ## Masks and evaluators of the build with the primitives library

These are the parts of `metrics_calc_lite.cpp` that are compiled when neither
`NO_IPP` nor `LEGACY_IPP` is defined.  What the primitives of the library
(`ippi...`) compute is a parameter of the definitions. -/

def MASK_ARTIFACTS : Nat := 1 <<< 4
def MASK_MWDVQM : Nat := 1 <<< 5
def MASK_UQI : Nat := 1 <<< 6
def MASK_MSSIM : Nat := 1 <<< 7

/-- The `metrics` vector the constructor of `CUQIEvaluator` builds. -/
def CUQIEvaluator.metrics : List MetricEntry :=
  [ { name := "UQI", first := MASK_UQI, second := MASK_UQI } ]

/-- Locals of `CUQIEvaluator::ComputeMetrics` together with the two vectors it
updates. -/
structure UQIState where
  sum : Nat → ℝ
  val : List ℝ
  avg : List ℝ
  j : Nat

/-- Method `CUQIEvaluator::ComputeMetrics`: the vectors `val` and `avg` on
return.  `Q i` is the value `ippiQualityIndex_8u32f_C1R` or
`ippiQualityIndex_16u32f_C1R` stores in `sum[i]` for plane `i`. -/
noncomputable def CUQIEvaluator.ComputeMetrics (ev : CMetricEvaluator) (Q : Nat → ℝ)
    (val avg : List ℝ) : List ℝ × List ℝ :=
  let st : UQIState := { sum := fun _ => 0, val := val, avg := avg, j := val.length }
  let st := forLoop 3 (fun i st =>
    if ev.c_mask i &&& MASK_UQI ≠ 0 then
      let sum := Function.update st.sum i (Q i)
      { sum := sum
        val := st.val ++ [sum i]
        avg := addAt st.avg st.j (sum i)
        j := st.j + 1 }
    else st) st
  let n := ev.m_num_planes
  let sum :=
    match get_chromaclass ev.m_i1.GetSqType with
    | .C444 =>
      Function.update st.sum n ((st.sum 0 + st.sum 1 + st.sum 2 + st.sum 3) / (n : ℝ))
    | .C422 => Function.update st.sum 3 ((2 * st.sum 0 + st.sum 1 + st.sum 2) / 4)
    | .C420 => Function.update st.sum 3 ((4 * st.sum 0 + st.sum 1 + st.sum 2) / 6)
  if ev.c_mask n &&& MASK_UQI ≠ 0 then (st.val ++ [sum n], addAt st.avg st.j (sum n))
  else (st.val, st.avg)

/-- Constant `artifacts_threshold` (`0.3f`). -/
noncomputable def artifacts_threshold : ℝ := 3 / 10

/-- The three accumulators of the pixel loop of `getSSIMIndexes_32f_R`. -/
structure SSIMAcc where
  mssim : ℝ
  mcs : ℝ
  artf : Int

/-- Body of the pixel loop of `CMSSIMEvaluator::getSSIMIndexes_32f_R` (lines
812-824) for the five values read through `pMx`, `pMy`, `pSx2`, `pSy2`, `pSxy`. -/
noncomputable def CMSSIMEvaluator.pixelStep (Mx My Sx2 Sy2 Sxy C1 C2 : ℝ) (a : SSIMAcc) :
    SSIMAcc :=
  let t1 := Mx * My
  let t1 := t1 + t1 + C1
  let t2 := Sxy + Sxy - t1 + C2
  let t3 := Mx * Mx + My * My + C1
  let t4 := Sx2 + Sy2 - t3 + C2
  let mcs := a.mcs + t2 / t4
  let tmp := (t1 * t2) / (t3 * t4)
  let mssim := a.mssim + tmp
  let artf := if tmp < artifacts_threshold then a.artf + 1 else a.artf
  { mssim := mssim, mcs := mcs, artf := artf }

/-- Pixel loop of `getSSIMIndexes_32f_R` (lines 811-826) over one output row of
`width` pixels; `pMx j` is what `pMx` points to in iteration `j`, that is
element `j` of the row the column filter left in `pTmp[0]`, likewise the
others. -/
noncomputable def CMSSIMEvaluator.pixelLoop (pMx pMy pSx2 pSy2 pSxy : Nat → ℝ) (width : Nat)
    (C1 C2 : ℝ) (a : SSIMAcc) : SSIMAcc :=
  forLoop width (fun j a =>
    CMSSIMEvaluator.pixelStep (pMx j) (pMy j) (pSx2 j) (pSy2 j) (pSxy j) C1 C2 a) a

/-- The terms `t1`, `t2`, `t3`, `t4` of a pixel. -/
noncomputable def ssimTerms (Mx My Sx2 Sy2 Sxy C1 C2 : ℝ) : ℝ × ℝ × ℝ × ℝ :=
  (Mx * My + Mx * My + C1,
   Sxy + Sxy - (Mx * My + Mx * My + C1) + C2,
   Mx * Mx + My * My + C1,
   Sx2 + Sy2 - (Mx * Mx + My * My + C1) + C2)

/-! ## `parse_metrics` -/

/-- Statement `cmps[i].second |= cm`. -/
def Component.orAt : Component → Nat → Nat → Component
  | [], _, _ => []
  | (c, m) :: t, 0, cm => (c, m ||| cm) :: t
  | x :: t, i + 1, cm => x :: Component.orAt t i cm

/-- The character `*s` of a C string: its first character, NUL for the empty
string. -/
def firstChar (s : String) : Char := s.data.headD (Char.ofNat 0)

/-- The metric tokens of `parse_metrics` and the bits each adds to `cm`; `full`
tells whether the build has the tokens under `#if !defined(NO_IPP) &&
!defined(LEGACY_IPP)`. -/
def metricToken (full : Bool) (s : String) : Option Nat :=
  if s = "psnr" then some (MASK_PSNR ||| MASK_MSE)
  else if s = "apsnr" then some (MASK_APSNR ||| MASK_MSE)
  else if s = "ssim" then some MASK_SSIM
  else if full = true ∧ s = "artifacts" then some MASK_ARTIFACTS
  else if full = true ∧ s = "mwdvqm" then some MASK_MWDVQM
  else if full = true ∧ s = "uqi" then some MASK_UQI
  else if full = true ∧ s = "mssim" then some MASK_MSSIM
  else none

/-- First inner loop of `parse_metrics` (lines 1312-1324) on the arguments from
`argv[curc]` on: the arguments left, `cm` and `not_metric` when it ends.  A
token counts only when another argument follows it (`curc + 1 < argc`). -/
def parse_metrics.metricLoop (full : Bool) : List String → Nat → Bool → List String × Nat × Bool
  | tok :: nxt :: rest, cm, not_metric =>
    match metricToken full tok with
    | some m => parse_metrics.metricLoop full (nxt :: rest) (cm ||| m) false
    | none => (tok :: nxt :: rest, cm, not_metric)
  | args, cm, not_metric => (args, cm, not_metric)

/-- Second inner loop of `parse_metrics` (lines 1327-1335): the arguments left,
`cmps` and `not_plane` when it ends. -/
def parse_metrics.planeLoop (cm : Nat) : List String → Component → Bool →
    List String × Component × Bool
  | tok :: rest, cmps, not_plane =>
    if firstChar tok = (cmps.at 0).1.toLower then
      parse_metrics.planeLoop cm rest (cmps.orAt 0 cm) false
    else if firstChar tok = (cmps.at 1).1.toLower then
      parse_metrics.planeLoop cm rest (cmps.orAt 1 cm) false
    else if firstChar tok = (cmps.at 2).1.toLower then
      parse_metrics.planeLoop cm rest (cmps.orAt 2 cm) false
    else if tok = "overall" then
      parse_metrics.planeLoop cm rest (cmps.orAt (cmps.length - 1) cm) false
    else if tok = "all" then
      parse_metrics.planeLoop cm rest (cmps.map (fun p => (p.1, p.2 ||| cm))) false
    else (tok :: rest, cmps, not_plane)
  | [], cmps, not_plane => ([], cmps, not_plane)

/-- Outer loop of `parse_metrics`, at most `fuel` iterations: the value returned
and `cmps` on return, `none` when the iterations do not suffice. -/
def parse_metrics.loop (full : Bool) : Nat → Component → List String → Option (Int × Component)
  | _, cmps, [] => some (0, cmps)
  | 0, _, _ :: _ => none
  | fuel + 1, cmps, tok :: rest =>
    let m := parse_metrics.metricLoop full (tok :: rest) 0 true
    if m.2.2 = true then some (-1, cmps)
    else
      let p := parse_metrics.planeLoop m.2.1 m.1 cmps true
      if p.2.2 = true then some (-1, p.2.1)
      else parse_metrics.loop full fuel p.2.1 p.1

/-- Function `parse_metrics(cmps, argc, argv, curc)` with `argc` the length of
`argv`.  Every iteration of the outer loop that does not return consumes an
argument, so `argc` iterations suffice. -/
def parse_metrics (full : Bool) (cmps : Component) (argv : List String) (curc : Nat) :
    Option (Int × Component) :=
  parse_metrics.loop full argv.length cmps (argv.drop curc)

/-! ## Vocabulary of the plane layout -/

/-- Plane view `p` with samples of `sampleSize` bytes lies inside the buffer of
`size` bytes at address `buf`: its first byte is not before the buffer and
`data + (height - 1) * step + width * sampleSize` is not past its end. -/
def planeInBuffer (buf size sampleSize : Nat) (p : SImage) : Prop :=
  buf ≤ p.data ∧ p.data + (p.roi.height - 1) * p.step + p.roi.width * sampleSize ≤ buf + size

/-! ## `main`

The embedding of `main` follows its text stage by stage: the option loop, the
checks up to the two calls of `OpenReadFile`, the frame schedule, the
construction and initialisation of the evaluators and the frame loop.  What a
run shows from outside is recorded in a `Run`: the value returned, the entries
of `errors_table` printed, the metric names registered, the evaluators
constructed, the values their `AllocateResourses` returned and the pair of
indexes passed to `ReadRawFrame` in each iteration of the frame loop (every
iteration calls `ComputeMetrics` of every evaluator once).

The `int32_t` variables of `main` are integers reduced to 32 bits after every
operation (`wrapInt32`); the source leaves signed overflow undefined. -/

/-- Numeric values of `EErrorStatus`. -/
def EErrorStatus.toInt : EErrorStatus → Int
  | .MCL_ERR_NONE => 0
  | .MCL_ERR_UNKNOWN => -1
  | .MCL_ERR_NULL_PTR => -2
  | .MCL_ERR_INVALID_PARAM => -3
  | .MCL_ERR_MEMORY_ALLOC => -4

/-- Library function `isspace` in the C locale. -/
def isspace (c : Char) : Bool := c = ' ' ∨ (9 ≤ c.toNat ∧ c.toNat ≤ 13)

/-- The digits `atoi` converts: the value of the longest prefix of decimal
digits, accumulated from `acc`. -/
def atoi.digits : List Char → Int → Int
  | [], acc => acc
  | c :: cs, acc =>
    if c.isDigit then atoi.digits cs (acc * 10 + ((c.toNat : Int) - 48)) else acc

/-- Library function `atoi`: white space, an optional sign, decimal digits.  A
value outside the range of `int`, for which the library leaves the result
undefined, is reduced to 32 bits. -/
def atoi (s : String) : Int :=
  match s.data.dropWhile isspace with
  | '-' :: t => wrapInt32 (-(atoi.digits t 0))
  | '+' :: t => wrapInt32 (atoi.digits t 0)
  | cs => wrapInt32 (atoi.digits cs 0)

/-- Function `std::min` on `int32_t`. -/
def stdMinI (a b : Int) : Int := if b < a then b else a

/-- The local variables of `main` that the option loop sets. -/
structure MainVars where
  cur_param : Nat
  w : Int
  h : Int
  order1 : Nat
  order2 : Nat
  fm1_cntr : Int
  fm1_frst : Int
  fm1_step : Int
  fm2_cntr : Int
  fm2_frst : Int
  fm2_step : Int
  seek_from1 : Int
  seek_to1 : Int
  seek_num1 : Int
  seek_from2 : Int
  seek_to2 : Int
  seek_num2 : Int
  input_name1 : String
  input_name2 : String
  no_pfm : Bool
  alpha_channel : Bool
  sq1_type : ESequenceType
  sq2_type : ESequenceType
  bd : EBitDepth
  rshift1 : Nat
  rshift2 : Nat
  is_fs_set : Bool
  is_fs1_set : Bool
  is_fs2_set : Bool
  deriving DecidableEq

/-- The values lines 1388-1396 give the variables. -/
def main.init : MainVars :=
  { cur_param := 1
    w := 0
    h := 0
    order1 := 0
    order2 := 0
    fm1_cntr := -1
    fm1_frst := 0
    fm1_step := 1
    fm2_cntr := -1
    fm2_frst := 0
    fm2_step := 1
    seek_from1 := -1
    seek_to1 := -1
    seek_num1 := 0
    seek_from2 := -1
    seek_to2 := -1
    seek_num2 := 0
    input_name1 := ""
    input_name2 := ""
    no_pfm := false
    alpha_channel := false
    sq1_type := .I420P
    sq2_type := .I420P
    bd := .D008
    rshift1 := 0
    rshift2 := 0
    is_fs_set := false
    is_fs1_set := false
    is_fs2_set := false }

/-- What one iteration of the option loop does: go on with new values, leave
the loop (`break`), return from `main` with a code after printing entries of
`errors_table`, or read `argv` at or past `argv[argc]`. -/
inductive OptionStep where
  | next (a : MainVars)
  | stop (a : MainVars)
  | exit (code : Int) (printed : List Nat)
  | undefined
  deriving DecidableEq

/-- Conversion of an `int` to `uint32_t`. -/
def toUInt32 (x : Int) : Nat := (x % 2 ^ 32).toNat

/-- Argument `argv[cur_param + k]`. -/
def MainVars.arg (a : MainVars) (argv : List String) (k : Nat) : String :=
  argv.getD (a.cur_param + k) ""

/-- Branch `-st` of the option loop (lines 1466-1476). -/
def main.optionSt (argv : List String) (a : MainVars) : OptionStep :=
  let p1 := parse_fourcc (a.arg argv 1) a.bd
  if p1.1 = .UNKNOWN then .exit (-7) [7]
  else
    let p2 := parse_fourcc (a.arg argv 2) p1.2
    let sq2 : ESequenceType × EBitDepth × Nat :=
      if a.cur_param + 2 < argv.length then
        if p2.1 = .UNKNOWN then (p1.1, p2.2, a.cur_param + 2) else (p2.1, p2.2, a.cur_param + 3)
      else (a.sq2_type, p1.2, a.cur_param + 2)
    if is_interlaced p1.1 ≠ is_interlaced sq2.1 then .exit (-8) [8]
    else .next { a with sq1_type := p1.1, sq2_type := sq2.1, bd := sq2.2.1, cur_param := sq2.2.2 }

/-- Body of the option loop of `main` (lines 1398-1477), entered with
`cur_param < argc`. -/
def main.optionStep (argv : List String) (a : MainVars) : OptionStep :=
  if a.arg argv 0 = "-i1" ∧ a.cur_param + 1 < argv.length then
    .next { a with input_name1 := a.arg argv 1, cur_param := a.cur_param + 2 }
  else if a.arg argv 0 = "-i2" ∧ a.cur_param + 1 < argv.length then
    .next { a with input_name2 := a.arg argv 1, cur_param := a.cur_param + 2 }
  else if a.arg argv 0 = "-w" ∧ a.cur_param + 1 < argv.length then
    .next { a with w := atoi (a.arg argv 1), cur_param := a.cur_param + 2 }
  else if a.arg argv 0 = "-h" ∧ a.cur_param + 1 < argv.length then
    .next { a with h := atoi (a.arg argv 1), cur_param := a.cur_param + 2 }
  else if a.arg argv 0 = "-rshift1" ∧ a.cur_param + 1 < argv.length then
    .next { a with rshift1 := toUInt32 (atoi (a.arg argv 1)), cur_param := a.cur_param + 2 }
  else if a.arg argv 0 = "-rshift2" ∧ a.cur_param + 1 < argv.length then
    .next { a with rshift2 := toUInt32 (atoi (a.arg argv 1)), cur_param := a.cur_param + 2 }
  else if a.arg argv 0 = "-fs" ∧ a.cur_param + 3 < argv.length then
    .next { a with
      is_fs_set := true
      fm1_cntr := atoi (a.arg argv 1)
      fm2_cntr := atoi (a.arg argv 1)
      fm1_frst := atoi (a.arg argv 2)
      fm2_frst := atoi (a.arg argv 2)
      fm1_step := atoi (a.arg argv 3)
      fm2_step := atoi (a.arg argv 3)
      cur_param := a.cur_param + 4 }
  else if a.arg argv 0 = "-fs1" ∧ a.cur_param + 3 < argv.length then
    if ¬ a.is_fs_set then
      .next { a with
        is_fs1_set := true
        fm1_cntr := atoi (a.arg argv 1)
        fm1_frst := atoi (a.arg argv 2)
        fm1_step := atoi (a.arg argv 3)
        cur_param := a.cur_param + 4 }
    else .next { a with cur_param := a.cur_param + 4 }
  else if a.arg argv 0 = "-fs2" ∧ a.cur_param + 3 < argv.length then
    if ¬ a.is_fs_set then
      .next { a with
        is_fs2_set := true
        fm2_cntr := atoi (a.arg argv 1)
        fm2_frst := atoi (a.arg argv 2)
        fm2_step := atoi (a.arg argv 3)
        cur_param := a.cur_param + 4 }
    else .next { a with cur_param := a.cur_param + 4 }
  else if a.arg argv 0 = "-nopfm" then
    .next { a with no_pfm := true, cur_param := a.cur_param + 1 }
  else if a.arg argv 0 = "-alpha" then
    .next { a with alpha_channel := true, cur_param := a.cur_param + 1 }
  else if a.arg argv 0 = "-btm_first" then
    .next { a with order1 := 1, order2 := 1, cur_param := a.cur_param + 1 }
  else if a.arg argv 0 = "-btm_first1" then
    .next { a with order1 := 1, cur_param := a.cur_param + 1 }
  else if a.arg argv 0 = "-btm_first2" then
    .next { a with order2 := 1, cur_param := a.cur_param + 1 }
  else if a.arg argv 0 = "-numseekframe1" then
    if ¬ a.is_fs_set ∧ ¬ a.is_fs1_set ∧ ¬ a.is_fs2_set then
      if a.cur_param + 3 < argv.length then
        .next { a with
          seek_from1 := atoi (a.arg argv 1)
          seek_to1 := atoi (a.arg argv 2)
          seek_num1 := atoi (a.arg argv 3)
          cur_param := a.cur_param + 4 }
      else .undefined
    else .exit (-11) [11]
  else if a.arg argv 0 = "-numseekframe2" then
    if ¬ a.is_fs_set ∧ ¬ a.is_fs1_set ∧ ¬ a.is_fs2_set then
      if a.cur_param + 3 < argv.length then
        .next { a with
          seek_from2 := atoi (a.arg argv 1)
          seek_to2 := atoi (a.arg argv 2)
          seek_num2 := atoi (a.arg argv 3)
          cur_param := a.cur_param + 4 }
      else .undefined
    else .exit (-11) [11]
  else if a.arg argv 0 = "-bd" ∧ a.cur_param + 1 < argv.length then
    if a.arg argv 1 = "8" then .next { a with bd := .D008, cur_param := a.cur_param + 2 }
    else if a.arg argv 1 = "10" then .next { a with bd := .D010, cur_param := a.cur_param + 2 }
    else if a.arg argv 1 = "12" then .next { a with bd := .D012, cur_param := a.cur_param + 2 }
    else if a.arg argv 1 = "16" then .next { a with bd := .D016, cur_param := a.cur_param + 2 }
    else .exit (-14) [14]
  else if a.arg argv 0 = "-st" ∧ a.cur_param + 1 < argv.length then main.optionSt argv a
  else .stop a

/-- How the option loop ends: with the variables set, with a return from
`main`, with a read past the arguments, or with its iterations used up. -/
inductive OptionResult where
  | done (a : MainVars)
  | exit (code : Int) (printed : List Nat)
  | undefined
  | fuel
  deriving DecidableEq

/-- The option loop of `main` (lines 1397-1478), at most `fuel` iterations. -/
def main.optionLoop (argv : List String) : Nat → MainVars → OptionResult
  | fuel, a =>
    if a.cur_param < argv.length then
      match fuel with
      | 0 => .fuel
      | fuel + 1 =>
        match main.optionStep argv a with
        | .next a => main.optionLoop argv fuel a
        | .stop a => .done a
        | .exit code printed => .exit code printed
        | .undefined => .undefined
    else .done a

/-- Division of `int32_t` values: `none` where the source leaves it undefined
(a zero divisor, or the one quotient that does not fit). -/
def divI (x y : Int) : Option Int :=
  if y = 0 ∨ (x = -2 ^ 31 ∧ y = -1) then none else some (Int.tdiv x y)

/-- Lines 1524-1529 (and 1531-1536): the new value of `fm_cntr` of a source with
`framesK` frames, `frames` being the smaller of the two frame counts. -/
def main.clamp (cntr frst step frames framesK : Int) : Option Int :=
  if cntr < 0 then some frames
  else
    let last := stdMinI
      (wrapInt32 (wrapInt32 (frst + wrapInt32 (wrapInt32 (cntr - 1) * step)) + 1)) framesK
    match divI (wrapInt32 (wrapInt32 (last - frst) - 1)) step with
    | none => none
    | some q => some (wrapInt32 (q + 1))

/-- How the schedule stage ends: with a return from `main`, with an undefined
division, or with the variables of the frame loop set and `fm_count`
computed. -/
inductive Sched where
  | exit (code : Int) (printed : List Nat)
  | undefined
  | ready (a : MainVars) (fm_count : Int) (printed : List Nat)
  deriving DecidableEq

/-- Lines 1538-1543 (and 1544-1549): the new value of `seek_num` and whether the
warning is printed. -/
def main.seekCheck (seek_from seek_to seek_num framesK : Int) : Int × List Nat :=
  if seek_num > 0 then
    if (seek_from < 1 ∨ seek_from > framesK) ∨ (seek_to < 0 ∨ seek_to ≥ framesK) then (0, [12])
    else (seek_num, [])
  else (seek_num, [])

/-- Lines 1551-1557: the schedule of a seek specification of the first
source. -/
def main.seekSchedule1 (a : MainVars) (frames2 : Int) : MainVars :=
  if a.seek_num1 > 0 then
    let a := { a with
      fm1_cntr := wrapInt32 (wrapInt32 (a.seek_from1 - a.seek_to1) * wrapInt32 (a.seek_num1 + 1))
      fm1_frst := a.seek_to1 }
    if a.seek_num2 = 0 then { a with fm2_cntr := frames2 } else a
  else a

/-- Lines 1558-1564: the schedule of a seek specification of the second
source. -/
def main.seekSchedule2 (a : MainVars) (frames1 : Int) : MainVars :=
  if a.seek_num2 > 0 then
    let a := { a with
      fm2_cntr := wrapInt32 (wrapInt32 (a.seek_from2 - a.seek_to2) * wrapInt32 (a.seek_num2 + 1))
      fm2_frst := a.seek_to2 }
    if a.seek_num1 = 0 then { a with fm1_cntr := frames1 } else a
  else a

/-- Lines 1538-1564: the variables after the checks and the schedules of the
seek specifications, for the counts `c1`, `c2` of lines 1524-1536. -/
def main.seekStage (a : MainVars) (c1 c2 frames1 frames2 : Int) : MainVars :=
  main.seekSchedule2
    (main.seekSchedule1
      { a with
        fm1_cntr := c1
        fm2_cntr := c2
        seek_num1 := (main.seekCheck a.seek_from1 a.seek_to1 a.seek_num1 frames1).1
        seek_num2 := (main.seekCheck a.seek_from2 a.seek_to2 a.seek_num2 frames2).1 }
      frames2)
    frames1

/-- Lines 1516-1566 of `main`, for the frame counts `frames1` and `frames2` the
two readers report. -/
def main.schedule (a : MainVars) (frames1 frames2 : Int) : Sched :=
  let frames := stdMinI frames1 frames2
  if frames = 0 then .exit (-6) [5]
  else if a.fm1_frst ≥ frames1 then .exit 0 [6]
  else if a.fm2_frst ≥ frames2 then .exit 0 [6]
  else
    match main.clamp a.fm1_cntr a.fm1_frst a.fm1_step frames frames1 with
    | none => .undefined
    | some c1 =>
      match main.clamp a.fm2_cntr a.fm2_frst a.fm2_step frames frames2 with
      | none => .undefined
      | some c2 =>
        .ready (main.seekStage a c1 c2 frames1 frames2)
          (stdMinI (main.seekStage a c1 c2 frames1 frames2).fm1_cntr
            (main.seekStage a c1 c2 frames1 frames2).fm2_cntr)
          ((main.seekCheck a.seek_from1 a.seek_to1 a.seek_num1 frames1).2
            ++ (main.seekCheck a.seek_from2 a.seek_to2 a.seek_num2 frames2).2)

/-- The frame loop of `main` (lines 1607-1612), `k` iterations from the values
`f1`, `f2` of `fm1_frst`, `fm2_frst`: the pair of indexes passed to the two calls
of `ReadRawFrame` in each iteration. -/
def main.frameLoop (a : MainVars) : Nat → Int → Int → List (Int × Int)
  | 0, _, _ => []
  | k + 1, f1, f2 =>
    let f1 := if f1 = a.seek_from1 then a.seek_to1 else f1
    let f2 := if f2 = a.seek_from2 then a.seek_to2 else f2
    (f1, f2) :: main.frameLoop a k (wrapInt32 (f1 + a.fm1_step)) (wrapInt32 (f2 + a.fm2_step))

/-- The evaluator classes. -/
inductive EvaluatorKind where
  | PSNR | SSIM | MSSIM | MWDVQM | UQI
  deriving DecidableEq, Repr

/-- The `metrics` vector the constructor of `CSSIMEvaluator` builds. -/
def CSSIMEvaluator.metrics : List MetricEntry :=
  [ { name := "SSIM", first := MASK_SSIM, second := MASK_SSIM } ]

/-- The `metrics` vector the constructor of `CMSSIMEvaluator` builds. -/
def CMSSIMEvaluator.metrics : List MetricEntry :=
  [ { name := "MSSIM", first := MASK_MSSIM, second := MASK_MSSIM },
    { name := "SSIM", first := MASK_SSIM, second := MASK_SSIM },
    { name := "ARTIFACTS", first := MASK_ARTIFACTS, second := MASK_ARTIFACTS } ]

/-- The `metrics` vector the constructor of `CMWDVQMEvaluator` builds. -/
def CMWDVQMEvaluator.metrics : List MetricEntry :=
  [ { name := "MWDVQM", first := MASK_MWDVQM, second := MASK_MWDVQM } ]

def EvaluatorKind.metrics : EvaluatorKind → List MetricEntry
  | .PSNR => CPSNREvaluator.metrics
  | .SSIM => CSSIMEvaluator.metrics
  | .MSSIM => CMSSIMEvaluator.metrics
  | .MWDVQM => CMWDVQMEvaluator.metrics
  | .UQI => CUQIEvaluator.metrics

/-- Lines 1581-1598 of `main`: the evaluators pushed to `mevs`.  `full` tells
whether the build has neither `NO_IPP` nor `LEGACY_IPP`. -/
def main.evaluators (full : Bool) (cmps : Component) : List EvaluatorKind :=
  let all_metrics := (cmps.at 0).2 ||| (cmps.at 1).2 ||| (cmps.at 2).2 ||| (cmps.at 3).2
  (if all_metrics &&& (MASK_PSNR ||| MASK_APSNR) ≠ 0 then [.PSNR] else [])
  ++ (if full then
        (if all_metrics &&& (MASK_SSIM ||| MASK_MSSIM ||| MASK_ARTIFACTS) ≠ 0 then [.MSSIM]
          else [])
        ++ (if all_metrics &&& MASK_MWDVQM ≠ 0 then [.MWDVQM] else [])
        ++ (if all_metrics &&& MASK_UQI ≠ 0 then [.UQI] else [])
      else
        (if all_metrics &&& MASK_SSIM ≠ 0 then [.SSIM] else []))

/-- The value `CSSIMEvaluator::AllocateResourses` returns; `bufs k` tells whether
the `k`-th of its six calls of `mclMalloc_32f_C1` returns a buffer (in the
`NO_IPP` build every call does, `new` does not return a null pointer). -/
def CSSIMEvaluator.AllocateResourses.status (bufs : Nat → Bool) : Int :=
  if ¬ bufs 0 ∨ ¬ bufs 1 ∨ ¬ bufs 2 ∨ ¬ bufs 3 ∨ ¬ bufs 4 ∨ ¬ bufs 5 then
    EErrorStatus.MCL_ERR_MEMORY_ALLOC.toInt
  else EErrorStatus.MCL_ERR_NONE.toInt

/-- The value `CMSSIMEvaluator::AllocateResourses` returns; `im1`, `pSpec`,
`pBuffer` tell whether the allocations of `m_im1`, `m_pSpec`, `m_pBuffer` return
a buffer. -/
def CMSSIMEvaluator.AllocateResourses.status (ev : CMetricEvaluator) (im1 pSpec pBuffer : Bool) :
    Int :=
  let ref := ev.m_i1.GetFrame 0
  if ¬ im1 then -2
  else
    let mSize : ImageSize := ⟨176, 176⟩
    let mSize :=
      if ev.c_mask 1 &&& (MASK_MSSIM ||| MASK_SSIM ||| MASK_ARTIFACTS) ≠ 0
          ∨ ev.c_mask 2 &&& (MASK_MSSIM ||| MASK_SSIM ||| MASK_ARTIFACTS) ≠ 0 then
        match get_chromaclass ev.m_i1.GetSqType with
        | .C422 => { mSize with width := mSize.width * 2 }
        | .C444 => { width := mSize.width * 2, height := mSize.height * 2 }
        | .C420 => mSize
      else mSize
    if ref.roi.width < mSize.width ∨ ref.roi.height < mSize.height then -3
    else if ¬ pSpec then -2
    else if ¬ pBuffer then -2
    else 0

/-- What a run of `main` takes from outside: the build (`full` when neither
`NO_IPP` nor `LEGACY_IPP` is defined), the memory, what `fopen` finds under a
name, the addresses the allocator hands to the readers, and whether the
allocations of the evaluators return a buffer. -/
structure Env where
  full : Bool
  mem : Mem
  fopen : String → Option ((Nat → Nat) × Nat)
  a_meta1 : Nat
  a_planes1 : Nat
  a_meta2 : Nat
  a_planes2 : Nat
  ssim_bufs : Nat → Bool
  im1 : Bool
  pSpec : Bool
  pBuffer : Bool

/-- The value `AllocateResourses` of an evaluator of class `k` returns. -/
def EvaluatorKind.AllocateResourses (env : Env) (ev : CMetricEvaluator) : EvaluatorKind → Int
  | .PSNR => 0
  | .SSIM => CSSIMEvaluator.AllocateResourses.status env.ssim_bufs
  | .MSSIM => CMSSIMEvaluator.AllocateResourses.status ev env.im1 env.pSpec env.pBuffer
  | .MWDVQM => 0
  | .UQI => 0

/-- What a run of `main` shows. -/
structure Run where
  code : Int
  printed : List Nat
  metric_names : List String
  mevs : List EvaluatorKind
  alloc : List Int
  frames : List (Int × Int)
  deriving DecidableEq, Repr

/-- How a run of `main` ends: it returns, an exception leaves it
(`std::length_error` from the constructor of `all_values` when `fm_count` is
negative), its behaviour is undefined, or the iterations granted to a loop are
used up. -/
inductive Outcome where
  | returned (r : Run)
  | exception
  | undefined
  | fuel
  deriving DecidableEq, Repr

/-- State of the loop over `mevs` of lines 1600-1605. -/
structure InitLoop where
  metric_names : List String
  out_flags : List Bool
  avg_values : List ℝ
  alloc : List Int
  failed : Bool

/-- The loop of lines 1600-1605: `InitFrameParams`, `InitComputationParams` and
`AllocateResourses` of each evaluator, until one returns `-2`. -/
def main.initLoop (env : Env) (reader1 reader2 : CReader) (cmps : Component) :
    List EvaluatorKind → InitLoop → InitLoop
  | [], s => s
  | k :: ks, s =>
    let ev : CMetricEvaluator :=
      { m_num_planes := 0, c_mask := fun _ => 0, m_i1 := reader1, m_i2 := reader2 }
    let r := ev.InitComputationParams k.metrics cmps s.metric_names s.out_flags s.avg_values
    let err := k.AllocateResourses env r.1
    let s := { s with
      metric_names := r.2.1, out_flags := r.2.2.1, avg_values := r.2.2.2
      alloc := s.alloc ++ [err] }
    if err = -2 then { s with failed := true } else main.initLoop env reader1 reader2 cmps ks s

/-- The reader `main` constructs for a source and its call of `OpenReadFile`:
a `CRGBReader` when the first sequence type is an RGB one, a `CYUVReader`
otherwise. -/
def main.openReader (rgb : Bool) (mem : Mem) (file : Option ((Nat → Nat) × Nat))
    (a_meta a_planes : Nat) (w h : Int) (type : ESequenceType) (order : Nat) (bd : EBitDepth)
    (RShift : Nat) : EErrorStatus × CReader :=
  if rgb then
    CRGBReader.OpenReadFile (CReader.fresh mem) file a_meta a_planes (toUInt32 w) (toUInt32 h)
      type order bd RShift
  else
    CYUVReader.OpenReadFile (CReader.fresh mem) file a_meta a_planes (toUInt32 w) (toUInt32 h)
      type order bd RShift

/-- Lines 1572-1649 of `main`: the result vectors, the evaluators and the frame
loop, for the schedule `a`, `fm_count` and the entries printed so far. -/
def main.compute (env : Env) (reader1 reader2 : CReader) (cmps : Component) (a : MainVars)
    (fm_count : Int) (printed : List Nat) : Outcome :=
  if fm_count < 0 then .exception
  else
    let mevs := main.evaluators env.full cmps
    let s := main.initLoop env reader1 reader2 cmps mevs ⟨[], [], [], [], false⟩
    if s.failed then .returned ⟨-13, printed ++ [13], s.metric_names, mevs, s.alloc, []⟩
    else
      .returned ⟨0, printed, s.metric_names, mevs, s.alloc,
        main.frameLoop a fm_count.toNat a.fm1_frst a.fm2_frst⟩

/-- Lines 1508-1566 of `main`: the two calls of `OpenReadFile` and the
schedule, followed by the rest of `main`. -/
def main.sources (env : Env) (cmps : Component) (a : MainVars) : Outcome :=
  let open1 := main.openReader (is_rgb a.sq1_type) env.mem (env.fopen a.input_name1)
    env.a_meta1 env.a_planes1 a.w a.h a.sq1_type a.order1 a.bd a.rshift1
  if open1.1 = .MCL_ERR_INVALID_PARAM then .returned ⟨-3, [2], [], [], [], []⟩
  else if open1.1 = .MCL_ERR_MEMORY_ALLOC then .returned ⟨-13, [13], [], [], [], []⟩
  else
    let open2 := main.openReader (is_rgb a.sq1_type) env.mem (env.fopen a.input_name2)
      env.a_meta2 env.a_planes2 a.w a.h a.sq2_type a.order2 a.bd a.rshift2
    if open2.1 = .MCL_ERR_INVALID_PARAM then .returned ⟨-4, [3], [], [], [], []⟩
    else if open2.1 = .MCL_ERR_MEMORY_ALLOC then .returned ⟨-13, [13], [], [], [], []⟩
    else
      match main.schedule a open1.2.m_num_fields open2.2.m_num_fields with
      | .undefined => .undefined
      | .exit code printed => .returned ⟨code, printed, [], [], [], []⟩
      | .ready a fm_count printed => main.compute env open1.2 open2.2 cmps a fm_count printed

/-- Lines 1480-1506 of `main`: the checks between the option loop and the calls
of `OpenReadFile`, followed by the rest of `main`. -/
def main.checks (env : Env) (argv : List String) (a : MainVars) : Outcome :=
  if is_rgb a.sq1_type ≠ is_rgb a.sq2_type then .returned ⟨-10, [10], [], [], [], []⟩
  else
    let cmps := if is_rgb a.sq1_type then INIT_RGB [] a.alpha_channel else INIT_YUV []
    if a.input_name1.isEmpty ∨ a.input_name2.isEmpty ∨ a.w ≤ 0 ∨ a.h ≤ 0 then
      .returned ⟨-1, [], [], [], [], []⟩
    else
      match parse_metrics env.full cmps argv a.cur_param with
      | none => .fuel
      | some (err, cmps) =>
        if err = -1 then .returned ⟨-1, [0], [], [], [], []⟩
        else if (cmps.foldl (fun m c => (m ||| c.2) % 256) 0) = 0 then
          .returned ⟨-2, [1], [], [], [], []⟩
        else if get_chromaclass a.sq1_type ≠ get_chromaclass a.sq2_type
            ∧ ((cmps.at 1).2 ≠ 0 ∨ (cmps.at 2).2 ≠ 0) then
          .returned ⟨-9, [9], [], [], [], []⟩
        else main.sources env cmps a

/-- Function `main` on the arguments `argv` (`argc` is their number). -/
def main (env : Env) (argv : List String) : Outcome :=
  match main.optionLoop argv argv.length main.init with
  | .fuel => .fuel
  | .undefined => .undefined
  | .exit code printed => .returned ⟨code, printed, [], [], [], []⟩
  | .done a => main.checks env argv a

/-- The environment of the scenarios: sources `a.yuv` of `size1` and `b.yuv` of
`size2` zero bytes, every allocation of an evaluator succeeds. -/
def scenarioEnv (full : Bool) (size1 size2 : Nat) : Env :=
  { full := full
    mem := fun _ => 0
    fopen := fun name =>
      if name = "a.yuv" then some (fun _ => 0, size1)
      else if name = "b.yuv" then some (fun _ => 0, size2)
      else none
    a_meta1 := 0
    a_planes1 := 100000
    a_meta2 := 200000
    a_planes2 := 300000
    ssim_bufs := fun _ => true
    im1 := true
    pSpec := true
    pBuffer := true }

/-- The indexes the frame loop passes to `ReadRawFrame` of one source: `k`
iterations from the value `f` of `fm_frst`, with the source's `seek_from`,
`seek_to` and `fm_step`. -/
def indexStream (seek_from seek_to step : Int) : Nat → Int → List Int
  | 0, _ => []
  | k + 1, f =>
    let f := if f = seek_from then seek_to else f
    f :: indexStream seek_from seek_to step k (wrapInt32 (f + step))

/-- The `-fs` values of a source of `n` frames: `count >= 1`, `step >= 1`,
`0 <= first < n`, with `n` and `first + (count - 1) * step + 1` values an `int`
holds. -/
def stridedWindow (count first step n : Int) : Prop :=
  1 ≤ count ∧ 1 ≤ step ∧ 0 ≤ first ∧ first < n ∧ n < 2 ^ 31
    ∧ first + (count - 1) * step + 1 < 2 ^ 31

/-- The `-numseekframe` values of a source of `n` frames: `1 <= from <= n`,
`0 <= to < from`, `iterations >= 1`, with `n` and
`(from - to) * (iterations + 1)` values an `int` holds. -/
def seekSpec (sfrom sto num n : Int) : Prop :=
  1 ≤ sfrom ∧ sfrom ≤ n ∧ 0 ≤ sto ∧ sto < sfrom ∧ 1 ≤ num ∧ n < 2 ^ 31
    ∧ (sfrom - sto) * (num + 1) < 2 ^ 31

/-- The environment of the scenarios in which the fourth buffer of
`CSSIMEvaluator::AllocateResourses` cannot be allocated. -/
def failingEnv (size1 size2 : Nat) : Env :=
  { scenarioEnv false size1 size2 with ssim_bufs := fun k => decide (k ≠ 3) }

/-- The variables of `main` after the options `-fs 1000 0 1`. -/
def fs_vars : MainVars :=
  { main.init with
    is_fs_set := true
    fm1_cntr := 1000, fm1_frst := 0, fm1_step := 1
    fm2_cntr := 1000, fm2_frst := 0, fm2_step := 1 }

/-- The variables of `main` after the option `-numseekframe1 4 0 1073741823`. -/
def seek_overflow_vars : MainVars :=
  { main.init with seek_from1 := 4, seek_to1 := 0, seek_num1 := 1073741823 }

/-- The variables of `main` after the option `-numseekframe1 5 2 1`. -/
def seek_vars : MainVars :=
  { main.init with seek_from1 := 5, seek_to1 := 2, seek_num1 := 1 }

/-- The iteration of the option loop goes on only with a larger `cur_param`. -/
def OptionStep.advances (cur : Nat) : OptionStep → Prop
  | .next a => cur < a.cur_param
  | _ => True

/-! ## `CMSSIMEvaluator`: kernel indexes and bands -/

/-- The loop of lines 908-921 of `CMSSIMEvaluator::AllocateResourses`: the
arrays `m_xkidx`, `m_ykidx` afterwards, from the arrays `idx` before the call
(the constructor sets every entry of both to 0). -/
def CMSSIMEvaluator.AllocateResourses.kidx (ev : CMetricEvaluator)
    (idx : (Nat → Nat) × (Nat → Nat)) : (Nat → Nat) × (Nat → Nat) :=
  forLoop ev.m_num_planes (fun i (s : (Nat → Nat) × (Nat → Nat)) =>
    let s :=
      if i ≠ 0 then
        match get_chromaclass ev.m_i1.GetSqType with
        | .C444 => s
        | .C422 => (Function.update s.1 i (s.1 i + 1), s.2)
        | .C420 => (Function.update s.1 i (s.1 i + 1), Function.update s.2 i (s.2 i + 1))
      else s
    if ev.m_i1.GetInterlaced then (s.1, Function.update s.2 i (s.2 i + 1)) else s) idx

/-- Constant `min_patch_height`. -/
def min_patch_height : Int := 64

/-- Lines 1019-1025 of `CMSSIMEvaluator::ComputeMetrics`: `patch_cnt` for the
height `i_height` of the valid region.  `ctx_cnt` is the constant
`ssim_ctx_cnt` (1, and 8 in a build with `_OPENMP`); `threads` is the value of
`omp_get_max_threads()` in a build with `_OPENMP`, `none` in a build without. -/
def CMSSIMEvaluator.patch_cnt (ctx_cnt : Int) (threads : Option Int) (i_height : Int) : Int :=
  let patch_cnt := Int.tdiv i_height min_patch_height
  let patch_cnt := if patch_cnt = 0 then 1 else patch_cnt
  let patch_cnt := if patch_cnt > ctx_cnt then ctx_cnt else patch_cnt
  match threads with
  | some t => if patch_cnt > t then t else patch_cnt
  | none => patch_cnt

/-- Line 1026: `patch_height = i_height / patch_cnt`. -/
def CMSSIMEvaluator.patch_height (ctx_cnt : Int) (threads : Option Int) (i_height : Int) : Int :=
  Int.tdiv i_height (CMSSIMEvaluator.patch_cnt ctx_cnt threads i_height)

/-- Line 1035: `y_offset` of band `r`, the row of the plane under the centre of
the filter window of the first row of the band. -/
def CMSSIMEvaluator.y_offset (ksz_y patch_height r : Int) : Int :=
  (ksz_y >>> 1) + r * patch_height

/-- Line 1040: `p_roi.height` of band `r`, the number of rows of the valid
region the band takes. -/
def CMSSIMEvaluator.band_height (ds_height ksz_y patch_cnt patch_height r : Int) : Int :=
  if r ≠ patch_cnt - 1 then patch_height else ds_height - ksz_y + 1 - r * patch_height

/-- Evaluator over two interlaced 8-bit I420 32x16 sources (reader of scenario
S4) with `ssim all` selected. -/
def S4_evaluator : CMetricEvaluator :=
  { m_num_planes := 3
    c_mask := fun _ => MASK_SSIM
    m_i1 := S4_reader
    m_i2 := S4_reader }

/-! ## Vocabulary of the metric masks -/

/-- A mask that has the MSE bit whenever it has the PSNR or the APSNR bit. -/
def mseWithPsnr (m : Nat) : Prop :=
  (m &&& MASK_PSNR ≠ 0 ∨ m &&& MASK_APSNR ≠ 0) → m &&& MASK_MSE ≠ 0

/-- The variables of `main` after the option `-numseekframe1 2 5 1`. -/
def seek_forward_vars : MainVars :=
  { main.init with seek_from1 := 2, seek_to1 := 5, seek_num1 := 1 }

/-! ## `CMSSIMEvaluator`: the scales -/

/-- The size `ds_roi` in iteration `k` of the loop over the scales of
`CMSSIMEvaluator::ComputeMetrics` (lines 996-1015), for a plane of size `roi`:
the size of the plane in iteration 0, half the size of the iteration before
(`>> 1`) in the others. -/
def CMSSIMEvaluator.ds_roi (roi : ImageSize) : Nat → ImageSize
  | 0 => roi
  | k + 1 =>
    { width := (CMSSIMEvaluator.ds_roi roi k).width >>> 1
      height := (CMSSIMEvaluator.ds_roi roi k).height >>> 1 }

/-- Line 1017: `i_width` of plane `i` in iteration `k`, for the kernel sizes
`mc_ksz` (the values `GetGaussianSize` returned) and the indexes `m_xkidx`. -/
def CMSSIMEvaluator.i_width (ev : CMetricEvaluator) (mc_ksz : Nat → Int) (m_xkidx : Nat → Nat)
    (i k : Nat) : Int :=
  ((CMSSIMEvaluator.ds_roi (ev.m_i1.GetFrame i).roi k).width : Int) - mc_ksz (m_xkidx i) + 1

/-- Line 1018: `i_height` of plane `i` in iteration `k`. -/
def CMSSIMEvaluator.i_height (ev : CMetricEvaluator) (mc_ksz : Nat → Int) (m_ykidx : Nat → Nat)
    (i k : Nat) : Int :=
  ((CMSSIMEvaluator.ds_roi (ev.m_i1.GetFrame i).roi k).height : Int) - mc_ksz (m_ykidx i) + 1

/-- The evaluator `main` initialises for two 8-bit sources of type `type` and
176x176 pixels (one frame of `size` zero bytes each) and the component vector
`cmps`, in the build with the MS-SSIM evaluator. -/
def mssim_evaluator (type : ESequenceType) (size : Nat) (cmps : Component) : CMetricEvaluator :=
  (({ m_num_planes := 0
      c_mask := fun _ => 0
      m_i1 := (main.openReader false (fun _ => 0) (some (fun _ => 0, size)) 0 100000 176 176
        type 0 .D008 0).2
      m_i2 := (main.openReader false (fun _ => 0) (some (fun _ => 0, size)) 200000 300000 176 176
        type 0 .D008 0).2 } : CMetricEvaluator).InitComputationParams
    CMSSIMEvaluator.metrics cmps [] [] []).1

/-! ## `CMWDVQMEvaluator` -/

/-- The pointer `i1_p.data + ((m * i1_p.step + k) << 3)` of lines 1156-1160. -/
def CMWDVQMEvaluator.blockPtr (img : SImage) (m k : Nat) : Nat :=
  img.data + ((m * img.step + k) <<< 3)

/-- Lines 1155-1161 of `CMWDVQMEvaluator::ComputeMetrics`: the array `fb1` after
the conversion of block `(m, k)` of the view `img`.  The primitives
`ippiConvert_8u32f_C1R` and `ippiConvert_16u32f_C1R` are the ones the kernels
`mclConvert_8u32f_C1R` and `mclConvert_16u32f_C1R` replace in the build without
the library (`mclConvert__u32f_C1R` calls the one or the other). -/
noncomputable def CMWDVQMEvaluator.convertBlock (bd : EBitDepth) (mem : Mem) (img : SImage)
    (m k : Nat) (fb : FBuf) : FBuf :=
  match bd with
  | .D008 =>
    (mclConvert_8u32f_C1R mem (CMWDVQMEvaluator.blockPtr img m k) img.step fb 0 (8 * 4)
      ⟨8, 8⟩).2
  | _ =>
    (mclConvert_16u32f_C1R mem (CMWDVQMEvaluator.blockPtr img m k) img.step fb 0 (8 * 4)
      ⟨8, 8⟩).2

/-! ## Scenario of the UQI evaluator with four planes -/

/-- The component vector of the selection `uqi b overall` on an RGB source with
`-alpha`. -/
def uqi_b_overall_cmps : Component :=
  [('B', MASK_UQI), ('G', 0), ('R', 0), ('A', 0), ('O', MASK_UQI)]

/-- The UQI evaluator `main` initialises for two RGB32 sources of 8x8 pixels
(10 frames of zero bytes each) with `-alpha` and `uqi b overall`. -/
def uqi_rgba_evaluator : CMetricEvaluator :=
  (({ m_num_planes := 0
      c_mask := fun _ => 0
      m_i1 := (main.openReader true (fun _ => 0) (some (fun _ => 0, 2560)) 0 100000 8 8
        .RGB32P 0 .D008 0).2
      m_i2 := (main.openReader true (fun _ => 0) (some (fun _ => 0, 2560)) 200000 300000 8 8
        .RGB32P 0 .D008 0).2 } : CMetricEvaluator).InitComputationParams
    CUQIEvaluator.metrics uqi_b_overall_cmps [] [] []).1

/-- A mask `parse_metrics` can build in the build `full`: the MSE bit comes with
the PSNR or the APSNR bit, no bit above bit 7 is set, and in the build without
the further metrics no bit above bit 3. -/
def tokenMask (full : Bool) (m : Nat) : Prop :=
  (m.testBit 2 = true → m.testBit 0 = true ∨ m.testBit 1 = true)
    ∧ m < 2 ^ 8 ∧ (full = false → m < 2 ^ 4)

/-- Reader 1 of a run with `-i1 a.yuv -w 8 -h 8` on a file of 960 zero bytes: a
`CYUVReader` as the constructor and `OpenReadFile` leave it, no frame read
yet. -/
def fresh_I420_reader : CReader :=
  (CYUVReader.OpenReadFile (CReader.fresh (fun _ => 0)) (some (fun _ => 0, 960)) 0 100000 8 8
    .I420P 0 .D008 0).2

/-- Reader of a progressive 8-bit 4:4:4 source of 2x2 pixels with the tag
`type`, its frame loaded: four planes of 4 bytes from byte 0, every sample of
plane `k` is `(k + 1) * v`. -/
def C4_reader (type : ESequenceType) (v : Nat) : CReader :=
  { mem := fun p => (p / 4 + 1) * v
    m_file := fun p => (p / 4 + 1) * v
    m_file_size := 16
    m_num_fields := 1
    m_cur_frame := 0
    m_intl := false
    m_type := type
    m_field_order := 0
    m_bottom := 0
    m_bd := .D008
    m_RShift := 0
    m_source_pixel_size := 1
    m_Meta := { data := 16, step := 16, roi := { width := 1, height := 1 } }
    m_planes := fun k => { data := 4 * k, step := 2, roi := { width := 2, height := 2 } } }

/-- Evaluator over two sources of `C4_reader`, samples 0 against samples 1, 2,
3, 4 in the planes 0, 1, 2, 3, before `InitComputationParams`. -/
def C4_evaluator (type : ESequenceType) : CMetricEvaluator :=
  { m_num_planes := 0
    c_mask := fun _ => 0
    m_i1 := C4_reader type 0
    m_i2 := C4_reader type 1 }

/-- The vector `cmps` of `psnr all` on YUV sources. -/
def C4_cmps_yuv : Component :=
  [('Y', MASK_PSNR ||| MASK_MSE), ('U', MASK_PSNR ||| MASK_MSE), ('V', MASK_PSNR ||| MASK_MSE),
    ('O', MASK_PSNR ||| MASK_MSE)]

/-- The vector `cmps` of `-alpha psnr all` on RGB sources. -/
def C4_cmps_rgba : Component :=
  [('B', MASK_PSNR ||| MASK_MSE), ('G', MASK_PSNR ||| MASK_MSE), ('R', MASK_PSNR ||| MASK_MSE),
    ('A', MASK_PSNR ||| MASK_MSE), ('O', MASK_PSNR ||| MASK_MSE)]

theorem stdMin_eq_min (a b : ℝ) : stdMin a b = min a b := by
  unfold stdMin
  split_ifs with h
  · exact (min_eq_right h.le).symm
  · exact (min_eq_left (not_lt.mp h)).symm

theorem MAX_PSNR_eq : MAX_PSNR = 1000 := rfl

/-! ## Loops, lists and machine arithmetic -/

theorem forLoop_succ {σ : Type} (n : Nat) (body : Nat → σ → σ) (s : σ) :
    forLoop (n + 1) body s = body n (forLoop n body s) := rfl

theorem forLoop_add_sum (n : Nat) (f : Nat → ℝ) (a : ℝ) :
    forLoop n (fun w acc => acc + f w) a = a + ∑ w in Finset.range n, f w := by
  induction n with
  | zero => simp [forLoop]
  | succ n ih => rw [forLoop_succ, ih, Finset.sum_range_succ]; ring

theorem collect_succ {α : Type} (n : Nat) (p : Nat → Bool) (f : Nat → α) :
    collect (n + 1) p f = collect n p f ++ (if p n then [f n] else []) := by
  unfold collect
  rw [List.range_succ, List.filter_append, List.map_append]
  cases h : p n <;> simp [List.filter, h]

theorem collect_zero {α : Type} (p : Nat → Bool) (f : Nat → α) : collect 0 p f = [] := rfl

theorem collect_length {α β : Type} (n : Nat) (p : Nat → Bool) (f : Nat → α) (g : Nat → β) :
    (collect n p f).length = (collect n p g).length := by
  simp [collect]

theorem collect_congr {α : Type} (n : Nat) (p : Nat → Bool) (f g : Nat → α)
    (h : ∀ i, i < n → p i = true → f i = g i) : collect n p f = collect n p g := by
  induction n with
  | zero => rfl
  | succ n ih =>
    rw [collect_succ, collect_succ, ih (fun i hi hp => h i (Nat.lt_succ_of_lt hi) hp)]
    cases hp : p n
    · simp
    · simp [h n (Nat.lt_succ_self n) hp]

theorem addList_append (avg : List ℝ) (j : Nat) (xs : List ℝ) (x : ℝ) :
    addList avg j (xs ++ [x]) = addAt (addList avg j xs) (j + xs.length) x := by
  induction xs generalizing avg j with
  | nil => simp [addList]
  | cons y ys ih =>
    show addList (addAt avg j y) (j + 1) (ys ++ [x]) = _
    rw [ih]
    simp only [addList, List.length_cons]
    congr 1
    omega

theorem addList_append_list (avg : List ℝ) (j : Nat) (xs ys : List ℝ) :
    addList avg j (xs ++ ys) = addList (addList avg j xs) (j + xs.length) ys := by
  induction xs generalizing avg j with
  | nil => simp [addList]
  | cons y ys' ih =>
    show addList (addAt avg j y) (j + 1) (ys' ++ ys) = _
    rw [ih]
    simp only [addList, List.length_cons]
    congr 1
    omega

theorem addList_singleton (avg : List ℝ) (j : Nat) (x : ℝ) :
    addList avg j [x] = addAt avg j x := rfl

theorem addList_nil (avg : List ℝ) (j : Nat) : addList avg j [] = avg := rfl

theorem collect_length_filter {α : Type} (n : Nat) (p : Nat → Bool) (f : Nat → α) :
    (collect n p f).length = ((List.range n).filter p).length := by
  simp [collect]

theorem wrapInt32_of_range (x : Int) (h0 : -2 ^ 31 ≤ x) (h1 : x < 2 ^ 31) : wrapInt32 x = x := by
  unfold wrapInt32
  have : (x + 2 ^ 31) % 2 ^ 32 = x + 2 ^ 31 := Int.emod_eq_of_lt (by omega) (by omega)
  omega

theorem sqDiffInt32_comm (a b : Nat) : sqDiffInt32 a b = sqDiffInt32 b a := by
  unfold sqDiffInt32
  congr 1
  ring

theorem sqDiffInt32_self (a : Nat) : sqDiffInt32 a a = 0 := by
  unfold sqDiffInt32
  simp [wrapInt32]

/-- The product does not wrap when both samples are at most `m <= 46340`. -/
theorem sqDiffInt32_exact (a b m : Nat) (ha : a ≤ m) (hb : b ≤ m) (hm : m ≤ 46340) :
    sqDiffInt32 a b = ((a : Int) - (b : Int)) ^ 2 := by
  unfold sqDiffInt32
  rw [pow_two]
  apply wrapInt32_of_range
  · have : 0 ≤ ((a : Int) - b) * ((a : Int) - b) := mul_self_nonneg _
    omega
  · have h1 : ((a : Int) - b) ≤ 46340 := by omega
    have h2 : -46340 ≤ ((a : Int) - b) := by omega
    nlinarith

theorem sqDiffInt32_bounds (a b m : Nat) (ha : a ≤ m) (hb : b ≤ m) (hm : m ≤ 46340) :
    0 ≤ sqDiffInt32 a b ∧ sqDiffInt32 a b ≤ (m : Int) ^ 2 := by
  rw [sqDiffInt32_exact a b m ha hb hm]
  refine ⟨sq_nonneg _, ?_⟩
  have h1 : ((a : Int) - b) ≤ m := by omega
  have h2 : -(m : Int) ≤ ((a : Int) - b) := by omega
  nlinarith

theorem read8_lt (m : Mem) (p : Nat) : read8 m p < 256 := Nat.mod_lt _ (by norm_num)

theorem read8_le (m : Mem) (p : Nat) : read8 m p ≤ 255 := by
  have := read8_lt m p
  omega

/-! ## The norm kernels -/

theorem forLoop_rows_cols_sum (H W : Nat) (f : Nat → Nat → ℝ) (a : ℝ) :
    forLoop H (fun h acc => forLoop W (fun w acc => acc + f h w) acc) a
      = a + ∑ h in Finset.range H, ∑ w in Finset.range W, f h w := by
  induction H with
  | zero => simp [forLoop]
  | succ n ih => rw [forLoop_succ, ih, forLoop_add_sum, Finset.sum_range_succ]; ring

theorem mclNormDiff_L2_8u_C1R_eq (m1 : Mem) (p1 s1 : Nat) (m2 : Mem) (p2 s2 : Nat)
    (roi : ImageSize) (v : ℝ) (hW : 1 ≤ roi.width) (hH : 1 ≤ roi.height) :
    mclNormDiff_L2_8u_C1R m1 p1 s1 m2 p2 s2 roi v =
      (.MCL_ERR_NONE, Real.sqrt (∑ h in Finset.range roi.height, ∑ w in Finset.range roi.width,
        ((sqDiffInt32 (read8 m1 (p1 + h * s1 + w)) (read8 m2 (p2 + h * s2 + w)) : Int) : ℝ))) := by
  unfold mclNormDiff_L2_8u_C1R
  have hc : ¬ (roi.width < 1 ∨ roi.height < 1) := by omega
  rw [if_neg hc]
  simp only []
  rw [forLoop_rows_cols_sum roi.height roi.width
    (fun h w => ((sqDiffInt32 (read8 m1 (p1 + h * s1 + w)) (read8 m2 (p2 + h * s2 + w)) : Int) : ℝ))]
  rw [zero_add]

theorem mclNormDiff_L2_16u_C1R_eq (m1 : Mem) (p1 s1 : Nat) (m2 : Mem) (p2 s2 : Nat)
    (roi : ImageSize) (v : ℝ) (hW : 1 ≤ roi.width) (hH : 1 ≤ roi.height) :
    mclNormDiff_L2_16u_C1R m1 p1 s1 m2 p2 s2 roi v =
      (.MCL_ERR_NONE, Real.sqrt (∑ h in Finset.range roi.height, ∑ w in Finset.range roi.width,
        ((sqDiffInt32 (read16 m1 (p1 + 2 * (h * (s1 >>> 1)) + 2 * w))
          (read16 m2 (p2 + 2 * (h * (s2 >>> 1)) + 2 * w)) : Int) : ℝ))) := by
  unfold mclNormDiff_L2_16u_C1R
  have hc : ¬ (roi.width < 1 ∨ roi.height < 1) := by omega
  rw [if_neg hc]
  simp only []
  rw [forLoop_rows_cols_sum roi.height roi.width
    (fun h w => ((sqDiffInt32 (read16 m1 (p1 + 2 * (h * (s1 >>> 1)) + 2 * w))
          (read16 m2 (p2 + 2 * (h * (s2 >>> 1)) + 2 * w)) : Int) : ℝ))]
  rw [zero_add]

/-! ## What one call of `ComputeMetrics` does -/

theorem has_iff (ev : CMetricEvaluator) (mask i : Nat) :
    ev.has mask i = true ↔ ev.c_mask i &&& mask ≠ 0 := by
  simp [CMetricEvaluator.has]

theorem emitLoop_eq (ev : CMetricEvaluator) (mask : Nat) (V C : ℝ → ℝ) (k : Nat)
    (st : PSNRState) :
    forLoop k (fun i st =>
        if ev.c_mask i &&& mask ≠ 0 then st.emit (V (st.sum i)) (C (st.sum i)) else st) st
      = { sum := st.sum
          val := st.val ++ collect k (ev.has mask) (fun i => V (st.sum i))
          avg := addList st.avg st.j (collect k (ev.has mask) (fun i => C (st.sum i)))
          j := st.j + (collect k (ev.has mask) (fun i => V (st.sum i))).length } := by
  induction k with
  | zero => simp [forLoop, collect_zero, addList]
  | succ k ih =>
    rw [forLoop_succ, ih, collect_succ, collect_succ]
    by_cases h : ev.c_mask k &&& mask ≠ 0
    · have hb : ev.has mask k = true := (has_iff ev mask k).mpr h
      simp only [h, hb, if_true, PSNRState.emit, ne_eq, not_false_eq_true]
      rw [addList_append, collect_length k (ev.has mask) (fun i => C (st.sum i))
        (fun i => V (st.sum i))]
      simp [List.append_assoc, Nat.add_assoc]
    · have hb : ev.has mask k = false := by
        cases hh : ev.has mask k
        · rfl
        · exact absurd ((has_iff ev mask k).mp hh) h
      simp [h, hb]

theorem planeLoop_eq (ev : CMetricEvaluator) (k : Nat) (val avg : List ℝ) (j : Nat) :
    forLoop k (CPSNREvaluator.planeStep ev)
        { sum := fun _ => 0, val := val, avg := avg, j := j }
      = { sum := fun i =>
            if i < k ∧ ev.has MASK_MSE i = true then CPSNREvaluator.planeValue ev i 0 else 0
          val := val ++ collect k (ev.has MASK_MSE) (fun i => CPSNREvaluator.planeValue ev i 0)
          avg := addList avg j
            (collect k (ev.has MASK_MSE) (fun i => CPSNREvaluator.planeValue ev i 0))
          j := j + (collect k (ev.has MASK_MSE)
            (fun i => CPSNREvaluator.planeValue ev i 0)).length } := by
  induction k with
  | zero => simp [forLoop, collect_zero, addList]
  | succ k ih =>
    rw [forLoop_succ, ih, collect_succ]
    unfold CPSNREvaluator.planeStep
    by_cases h : ev.c_mask k &&& MASK_MSE ≠ 0
    · have hb : ev.has MASK_MSE k = true := (has_iff ev MASK_MSE k).mpr h
      simp only [h, hb, if_true, PSNRState.emit, ne_eq, not_false_eq_true, lt_self_iff_false,
        false_and, if_false]
      rw [addList_append]
      simp only [List.append_assoc, List.length_append, List.length_singleton, Nat.add_assoc,
        PSNRState.mk.injEq, and_true, true_and]
      funext i
      by_cases hik : i = k
      · subst hik
        simp [hb]
      · rw [Function.update_noteq hik]
        have : (i < k + 1) ↔ (i < k) := by omega
        simp only [this]
    · have hb : ev.has MASK_MSE k = false := by
        cases hh : ev.has MASK_MSE k
        · rfl
        · exact absurd ((has_iff ev MASK_MSE k).mp hh) h
      have hsum : (fun i => if i < k + 1 ∧ ev.has MASK_MSE i = true
          then CPSNREvaluator.planeValue ev i 0 else 0)
          = (fun i => if i < k ∧ ev.has MASK_MSE i = true
          then CPSNREvaluator.planeValue ev i 0 else 0) := by
        funext i
        by_cases hik : i = k
        · subst hik
          simp [hb]
        · have : (i < k + 1) ↔ (i < k) := by omega
          simp only [this]
      simp [h, hb, hsum]

theorem collect_planeValue (ev : CMetricEvaluator) :
    collect ev.m_num_planes (ev.has MASK_MSE) (fun i => CPSNREvaluator.planeValue ev i 0)
      = collect ev.m_num_planes (ev.has MASK_MSE) (CPSNREvaluator.planeSums ev) := by
  apply collect_congr
  intro i hi hp
  simp [CPSNREvaluator.planeSums, hi, hp]

theorem overallStep_fields (ev : CMetricEvaluator) (st : PSNRState) :
    (CPSNREvaluator.overallStep ev st).val = st.val ∧
    (CPSNREvaluator.overallStep ev st).avg = st.avg ∧
    (CPSNREvaluator.overallStep ev st).j = st.j ∧
    (CPSNREvaluator.overallStep ev st).sum =
      (CPSNREvaluator.overallStep ev { sum := st.sum, val := [], avg := [], j := 0 }).sum := by
  unfold CPSNREvaluator.overallStep
  cases get_chromaclass ev.m_i1.GetSqType <;> simp

/-- One call of `ComputeMetrics`: final locals, appended values, increments. -/
theorem ComputeMetricsState_eq (ev : CMetricEvaluator) (val avg : List ℝ) :
    CPSNREvaluator.ComputeMetricsState ev val avg
      = { sum := CPSNREvaluator.finalSums ev
          val := val ++ CPSNREvaluator.outVals ev
          avg := addList avg val.length (CPSNREvaluator.outIncs ev)
          j := val.length + (CPSNREvaluator.outVals ev).length } := by
  unfold CPSNREvaluator.ComputeMetricsState
  simp only []
  rw [planeLoop_eq, collect_planeValue]
  obtain ⟨hv, ha, hj, hs⟩ := overallStep_fields ev
    { sum := fun i =>
        if i < ev.m_num_planes ∧ ev.has MASK_MSE i = true then CPSNREvaluator.planeValue ev i 0
        else 0
      val := val ++ collect ev.m_num_planes (ev.has MASK_MSE) (CPSNREvaluator.planeSums ev)
      avg := addList avg val.length
        (collect ev.m_num_planes (ev.has MASK_MSE) (CPSNREvaluator.planeSums ev))
      j := val.length + (collect ev.m_num_planes (ev.has MASK_MSE)
        (CPSNREvaluator.planeSums ev)).length }
  have hs' : (CPSNREvaluator.overallStep ev
    { sum := fun i =>
        if i < ev.m_num_planes ∧ ev.has MASK_MSE i = true then CPSNREvaluator.planeValue ev i 0
        else 0
      val := val ++ collect ev.m_num_planes (ev.has MASK_MSE) (CPSNREvaluator.planeSums ev)
      avg := addList avg val.length
        (collect ev.m_num_planes (ev.has MASK_MSE) (CPSNREvaluator.planeSums ev))
      j := val.length + (collect ev.m_num_planes (ev.has MASK_MSE)
        (CPSNREvaluator.planeSums ev)).length }).sum = CPSNREvaluator.finalSums ev := hs
  generalize CPSNREvaluator.overallStep ev _ = st1 at hv ha hj hs'
  obtain ⟨sum1, val1, avg1, j1⟩ := st1
  simp only at hv ha hj hs'
  subst hv ha hj hs'
  rw [emitLoop_eq ev MASK_APSNR (fun x => MSEToPSNR x (MaxError ev.m_i1.GetBitDepth))
    (fun x => MSEToPSNR x (MaxError ev.m_i1.GetBitDepth))]
  rw [emitLoop_eq ev MASK_PSNR (fun x => MSEToPSNR x (MaxError ev.m_i1.GetBitDepth))
    (fun x => x)]
  unfold CPSNREvaluator.outVals CPSNREvaluator.outIncs
  by_cases h : ev.c_mask ev.m_num_planes &&& MASK_MSE ≠ 0
  · have hb : ev.has MASK_MSE ev.m_num_planes = true := (has_iff ev MASK_MSE _).mpr h
    simp only [h, hb, if_true, PSNRState.emit, ne_eq, not_false_eq_true, List.append_assoc,
      List.length_append, List.length_singleton, addList_append_list, addList_singleton,
      Nat.add_assoc, collect_length_filter]
  · have hb : ev.has MASK_MSE ev.m_num_planes = false := by
      cases hh : ev.has MASK_MSE ev.m_num_planes
      · rfl
      · exact absurd ((has_iff ev MASK_MSE _).mp hh) h
    simp only [h, hb, if_false, List.append_nil, List.append_assoc, List.length_append,
      addList_append_list, addList_nil, Nat.add_assoc, Bool.false_eq_true, List.length_nil,
      Nat.zero_add, Nat.add_zero, collect_length_filter]

/-! ## Positions of the appended values -/

theorem filter_range_length_lt (p : Nat → Bool) (i n : Nat) (hi : i < n) (hp : p i = true) :
    ((List.range i).filter p).length < ((List.range n).filter p).length := by
  induction n with
  | zero => omega
  | succ n ih =>
    rw [List.range_succ, List.filter_append, List.length_append]
    by_cases hin : i = n
    · subst hin
      simp [List.filter, hp]
    · have := ih (by omega)
      omega

theorem collect_getElem? {α : Type} (n : Nat) (p : Nat → Bool) (f : Nat → α) (i : Nat)
    (hi : i < n) (hp : p i = true) :
    (collect n p f)[((List.range i).filter p).length]? = some (f i) := by
  induction n with
  | zero => omega
  | succ n ih =>
    rw [collect_succ]
    by_cases hin : i = n
    · subst hin
      rw [List.getElem?_append_right (by rw [collect_length_filter])]
      simp [collect_length_filter, hp]
    · have hlt : i < n := by omega
      rw [List.getElem?_append_left
        (by rw [collect_length_filter]; exact filter_range_length_lt p i n hlt hp)]
      exact ih hlt

theorem ComputeMetrics_val (ev : CMetricEvaluator) (val avg : List ℝ) :
    (CPSNREvaluator.ComputeMetrics ev val avg).1 = val ++ CPSNREvaluator.outVals ev := by
  unfold CPSNREvaluator.ComputeMetrics
  simp only []
  rw [ComputeMetricsState_eq]

theorem ComputeMetrics_avg (ev : CMetricEvaluator) (val avg : List ℝ) :
    (CPSNREvaluator.ComputeMetrics ev val avg).2
      = addList avg val.length (CPSNREvaluator.outIncs ev) := by
  unfold CPSNREvaluator.ComputeMetrics
  simp only []
  rw [ComputeMetricsState_eq]

theorem ComputeMetricsState_sum (ev : CMetricEvaluator) (val avg : List ℝ) :
    (CPSNREvaluator.ComputeMetricsState ev val avg).sum = CPSNREvaluator.finalSums ev := by
  rw [ComputeMetricsState_eq]

theorem mse_block_length (ev : CMetricEvaluator) :
    (collect ev.m_num_planes (ev.has MASK_MSE) (CPSNREvaluator.planeSums ev)
      ++ (if ev.has MASK_MSE ev.m_num_planes then [CPSNREvaluator.finalSums ev ev.m_num_planes]
          else [])).length
      = ((List.range (ev.m_num_planes + 1)).filter (ev.has MASK_MSE)).length := by
  rw [List.range_succ, List.filter_append, List.length_append, List.length_append,
    collect_length_filter]
  cases h : ev.has MASK_MSE ev.m_num_planes <;> simp [List.filter, h]

/-- The MSE of plane `i` is appended at position `mseIndex`. -/
theorem outVals_mse (ev : CMetricEvaluator) (val avg : List ℝ) (i : Nat)
    (hi : i < ev.m_num_planes) (hm : ev.has MASK_MSE i = true) :
    (CPSNREvaluator.ComputeMetrics ev val avg).1[val.length + CPSNREvaluator.mseIndex ev i]?
      = some (CPSNREvaluator.planeSums ev i) := by
  rw [ComputeMetrics_val, List.getElem?_append_right (by omega)]
  have hk : val.length + CPSNREvaluator.mseIndex ev i - val.length
      = CPSNREvaluator.mseIndex ev i := by omega
  rw [hk]
  unfold CPSNREvaluator.outVals CPSNREvaluator.mseIndex
  have hlt := filter_range_length_lt (ev.has MASK_MSE) i ev.m_num_planes hi hm
  rw [List.append_assoc, List.append_assoc, List.getElem?_append_left
    (by rw [collect_length_filter]; exact hlt)]
  exact collect_getElem? _ _ _ i hi hm

/-- The PSNR of entry `i` is appended at position `psnrIndex`. -/
theorem outVals_psnr (ev : CMetricEvaluator) (val avg : List ℝ) (i : Nat)
    (hi : i ≤ ev.m_num_planes) (hm : ev.has MASK_PSNR i = true) :
    (CPSNREvaluator.ComputeMetrics ev val avg).1[val.length + CPSNREvaluator.psnrIndex ev i]?
      = some (MSEToPSNR (CPSNREvaluator.finalSums ev i) (MaxError ev.m_i1.GetBitDepth)) := by
  rw [ComputeMetrics_val, List.getElem?_append_right (by omega)]
  have hk : val.length + CPSNREvaluator.psnrIndex ev i - val.length
      = CPSNREvaluator.psnrIndex ev i := by omega
  rw [hk]
  unfold CPSNREvaluator.outVals CPSNREvaluator.psnrIndex
  have hlt := filter_range_length_lt (ev.has MASK_PSNR) i (ev.m_num_planes + 1) (by omega) hm
  rw [List.append_assoc, List.getElem?_append_right (by rw [mse_block_length]; omega),
    mse_block_length, Nat.add_sub_cancel_left,
    List.getElem?_append_left (by rw [collect_length_filter]; exact hlt)]
  exact collect_getElem? _ _ _ i (by omega) hm

/-- The APSNR of entry `i` is appended at position `apsnrIndex`. -/
theorem outVals_apsnr (ev : CMetricEvaluator) (val avg : List ℝ) (i : Nat)
    (hi : i ≤ ev.m_num_planes) (hm : ev.has MASK_APSNR i = true) :
    (CPSNREvaluator.ComputeMetrics ev val avg).1[val.length + CPSNREvaluator.apsnrIndex ev i]?
      = some (MSEToPSNR (CPSNREvaluator.finalSums ev i) (MaxError ev.m_i1.GetBitDepth)) := by
  rw [ComputeMetrics_val, List.getElem?_append_right (by omega)]
  have hk : val.length + CPSNREvaluator.apsnrIndex ev i - val.length
      = CPSNREvaluator.apsnrIndex ev i := by omega
  rw [hk]
  unfold CPSNREvaluator.outVals CPSNREvaluator.apsnrIndex
  rw [List.getElem?_append_right
    (by rw [List.length_append, mse_block_length, collect_length_filter]; omega)]
  have hk2 : ((List.range (ev.m_num_planes + 1)).filter (ev.has MASK_MSE)).length
      + ((List.range (ev.m_num_planes + 1)).filter (ev.has MASK_PSNR)).length
      + ((List.range i).filter (ev.has MASK_APSNR)).length
      - (collect ev.m_num_planes (ev.has MASK_MSE) (CPSNREvaluator.planeSums ev)
        ++ (if ev.has MASK_MSE ev.m_num_planes then [CPSNREvaluator.finalSums ev ev.m_num_planes]
            else [])
        ++ collect (ev.m_num_planes + 1) (ev.has MASK_PSNR)
          (fun i => MSEToPSNR (CPSNREvaluator.finalSums ev i)
            (MaxError ev.m_i1.GetBitDepth))).length
      = ((List.range i).filter (ev.has MASK_APSNR)).length := by
    rw [List.length_append, mse_block_length, collect_length_filter]
    omega
  rw [hk2]
  exact collect_getElem? _ _ _ i (by omega) hm

/-! ## Plane MSE -/

theorem sumSqDiff_cast (a b : Nat → Nat → Nat) (W H : Nat) :
    ((sumSqDiff a b W H : Int) : ℝ)
      = ∑ y in Finset.range H, ∑ x in Finset.range W,
          ((((a x y : Int) - (b x y : Int)) ^ 2 : Int) : ℝ) := by
  unfold sumSqDiff
  push_cast
  rfl

theorem sumSqDiff_nonneg (a b : Nat → Nat → Nat) (W H : Nat) : 0 ≤ sumSqDiff a b W H := by
  unfold sumSqDiff
  exact Finset.sum_nonneg (fun y _ => Finset.sum_nonneg (fun x _ => sq_nonneg _))

theorem sumSqDiff_cast_nonneg (a b : Nat → Nat → Nat) (W H : Nat) :
    (0 : ℝ) ≤ ((sumSqDiff a b W H : Int) : ℝ) :=
  Int.cast_nonneg.mpr (sumSqDiff_nonneg a b W H)

/-- The 8-bit norm is the square root of the sum of squared differences. -/
theorem norm8_eq_sqrt (m1 : Mem) (f1 : SImage) (m2 : Mem) (f2 : SImage) (W H : Nat) (v : ℝ)
    (hW : 1 ≤ W) (hH : 1 ≤ H) :
    mclNormDiff_L2_8u_C1R m1 f1.data f1.step m2 f2.data f2.step ⟨W, H⟩ v
      = (.MCL_ERR_NONE, Real.sqrt ((sumSqDiff (sample8 m1 f1) (sample8 m2 f2) W H : Int) : ℝ)) := by
  rw [mclNormDiff_L2_8u_C1R_eq _ _ _ _ _ _ _ _ hW hH, sumSqDiff_cast]
  congr 2
  apply Finset.sum_congr rfl
  intro y _
  apply Finset.sum_congr rfl
  intro x _
  unfold sample8
  rw [sqDiffInt32_exact _ _ 255 (read8_le _ _) (read8_le _ _) (by norm_num)]

/-- Lines 508-510 for an 8-bit plane pair. -/
theorem planeValue_D008 (ev : CMetricEvaluator) (i W H : Nat) (v : ℝ)
    (hbd : ev.m_i1.GetBitDepth = .D008)
    (hroi : (ev.m_i1.GetFrame i).roi = ⟨W, H⟩) (hW : 1 ≤ W) (hH : 1 ≤ H) :
    CPSNREvaluator.planeValue ev i v
      = ((sumSqDiff (sample8 ev.m_i1.mem (ev.m_i1.GetFrame i))
          (sample8 ev.m_i2.mem (ev.m_i2.GetFrame i)) W H : Int) : ℝ) / ((W : ℝ) * (H : ℝ)) := by
  unfold CPSNREvaluator.planeValue
  simp only [hbd, hroi, mclNormDiff_L2_C1R]
  rw [norm8_eq_sqrt _ _ _ _ _ _ _ hW hH]
  simp only []
  rw [Real.mul_self_sqrt (sumSqDiff_cast_nonneg _ _ W H)]
  push_cast
  rfl

theorem planeSums_of_has (ev : CMetricEvaluator) (i : Nat) (hi : i < ev.m_num_planes)
    (hm : ev.has MASK_MSE i = true) :
    CPSNREvaluator.planeSums ev i = CPSNREvaluator.planeValue ev i 0 := by
  simp [CPSNREvaluator.planeSums, hi, hm]

/-! ## The overall entry -/

theorem planeSums_of_ge (ev : CMetricEvaluator) (i : Nat) (hi : ev.m_num_planes ≤ i) :
    CPSNREvaluator.planeSums ev i = 0 := by
  have : ¬ i < ev.m_num_planes := by omega
  simp [CPSNREvaluator.planeSums, this]

theorem finalSums_C420 (ev : CMetricEvaluator)
    (hc : get_chromaclass ev.m_i1.GetSqType = .C420) :
    CPSNREvaluator.finalSums ev = Function.update (CPSNREvaluator.planeSums ev) 3
      ((4 * CPSNREvaluator.planeSums ev 0 + CPSNREvaluator.planeSums ev 1
        + CPSNREvaluator.planeSums ev 2) / 6) := by
  simp [CPSNREvaluator.finalSums, CPSNREvaluator.overallStep, hc]

theorem finalSums_C422 (ev : CMetricEvaluator)
    (hc : get_chromaclass ev.m_i1.GetSqType = .C422) :
    CPSNREvaluator.finalSums ev = Function.update (CPSNREvaluator.planeSums ev) 3
      ((2 * CPSNREvaluator.planeSums ev 0 + CPSNREvaluator.planeSums ev 1
        + CPSNREvaluator.planeSums ev 2) / 4) := by
  simp [CPSNREvaluator.finalSums, CPSNREvaluator.overallStep, hc]

theorem finalSums_C444 (ev : CMetricEvaluator)
    (hc : get_chromaclass ev.m_i1.GetSqType = .C444) :
    CPSNREvaluator.finalSums ev = Function.update (CPSNREvaluator.planeSums ev) ev.m_num_planes
      ((CPSNREvaluator.planeSums ev 0 + CPSNREvaluator.planeSums ev 1
        + CPSNREvaluator.planeSums ev 2 + CPSNREvaluator.planeSums ev 3)
          / (ev.m_num_planes : ℝ)) := by
  simp [CPSNREvaluator.finalSums, CPSNREvaluator.overallStep, hc]

/-- The `switch` leaves the plane entries alone when it writes `sum[m_num_planes]`. -/
theorem finalSums_plane (ev : CMetricEvaluator) (i : Nat) (hi : i < ev.m_num_planes)
    (hn : ev.m_num_planes ≤ 3 ∨ get_chromaclass ev.m_i1.GetSqType = .C444) :
    CPSNREvaluator.finalSums ev i = CPSNREvaluator.planeSums ev i := by
  cases hc : get_chromaclass ev.m_i1.GetSqType with
  | C444 =>
    rw [finalSums_C444 ev hc, Function.update_noteq (by omega)]
  | C422 =>
    have h3 : ev.m_num_planes ≤ 3 := by
      rcases hn with h | h
      · exact h
      · rw [hc] at h; cases h
    rw [finalSums_C422 ev hc, Function.update_noteq (by omega)]
  | C420 =>
    have h3 : ev.m_num_planes ≤ 3 := by
      rcases hn with h | h
      · exact h
      · rw [hc] at h; cases h
    rw [finalSums_C420 ev hc, Function.update_noteq (by omega)]

/-- The overall MSE is appended after the plane MSEs. -/
theorem outVals_mse_overall (ev : CMetricEvaluator) (val avg : List ℝ)
    (hm : ev.has MASK_MSE ev.m_num_planes = true) :
    (CPSNREvaluator.ComputeMetrics ev val avg).1[
        val.length + CPSNREvaluator.mseIndex ev ev.m_num_planes]?
      = some (CPSNREvaluator.finalSums ev ev.m_num_planes) := by
  rw [ComputeMetrics_val, List.getElem?_append_right (by omega)]
  have hk : val.length + CPSNREvaluator.mseIndex ev ev.m_num_planes - val.length
      = CPSNREvaluator.mseIndex ev ev.m_num_planes := by omega
  rw [hk]
  unfold CPSNREvaluator.outVals CPSNREvaluator.mseIndex
  rw [List.append_assoc, List.append_assoc,
    List.getElem?_append_right (by rw [collect_length_filter]), collect_length_filter,
    Nat.sub_self, hm]
  simp

theorem MSEToPSNR_zero (M : ℝ) : MSEToPSNR 0 M = 1000 := by
  simp [MSEToPSNR, MAX_PSNR_eq]

theorem MSEToPSNR_pos (m M : ℝ) (hm : 0 < m) :
    MSEToPSNR m M = min (10 * Real.logb 10 (M * M / m)) 1000 := by
  have h1 : ¬ m < 0 := not_lt.mpr hm.le
  have h2 : ¬ m = 0 := ne_of_gt hm
  simp only [MSEToPSNR, h1, h2, if_false, stdMin_eq_min, MAX_PSNR_eq]

/-! ## Identity and symmetry of the norm -/

theorem norm8_of_same (m1 : Mem) (f1 : SImage) (m2 : Mem) (f2 : SImage) (W H : Nat) (v : ℝ)
    (hW : 1 ≤ W) (hH : 1 ≤ H)
    (hsame : ∀ x y, x < W → y < H → sample8 m1 f1 x y = sample8 m2 f2 x y) :
    mclNormDiff_L2_8u_C1R m1 f1.data f1.step m2 f2.data f2.step ⟨W, H⟩ v
      = (.MCL_ERR_NONE, 0) := by
  rw [mclNormDiff_L2_8u_C1R_eq _ _ _ _ _ _ _ _ hW hH]
  have hz : (∑ h in Finset.range H, ∑ w in Finset.range W,
      ((sqDiffInt32 (read8 m1 (f1.data + h * f1.step + w))
        (read8 m2 (f2.data + h * f2.step + w)) : Int) : ℝ)) = 0 := by
    apply Finset.sum_eq_zero
    intro y hy
    apply Finset.sum_eq_zero
    intro x hx
    have := hsame x y (Finset.mem_range.mp hx) (Finset.mem_range.mp hy)
    unfold sample8 at this
    rw [this, sqDiffInt32_self]
    simp
  show (EErrorStatus.MCL_ERR_NONE, Real.sqrt (∑ h in Finset.range H, ∑ w in Finset.range W,
      ((sqDiffInt32 (read8 m1 (f1.data + h * f1.step + w))
        (read8 m2 (f2.data + h * f2.step + w)) : Int) : ℝ))) = _
  rw [hz, Real.sqrt_zero]

theorem norm16_of_same (m1 : Mem) (f1 : SImage) (m2 : Mem) (f2 : SImage) (W H : Nat) (v : ℝ)
    (hW : 1 ≤ W) (hH : 1 ≤ H)
    (hsame : ∀ x y, x < W → y < H → sample16 m1 f1 x y = sample16 m2 f2 x y) :
    mclNormDiff_L2_16u_C1R m1 f1.data f1.step m2 f2.data f2.step ⟨W, H⟩ v
      = (.MCL_ERR_NONE, 0) := by
  rw [mclNormDiff_L2_16u_C1R_eq _ _ _ _ _ _ _ _ hW hH]
  have hz : (∑ h in Finset.range H, ∑ w in Finset.range W,
      ((sqDiffInt32 (read16 m1 (f1.data + 2 * (h * (f1.step >>> 1)) + 2 * w))
        (read16 m2 (f2.data + 2 * (h * (f2.step >>> 1)) + 2 * w)) : Int) : ℝ)) = 0 := by
    apply Finset.sum_eq_zero
    intro y hy
    apply Finset.sum_eq_zero
    intro x hx
    have := hsame x y (Finset.mem_range.mp hx) (Finset.mem_range.mp hy)
    unfold sample16 at this
    rw [this, sqDiffInt32_self]
    simp
  show (EErrorStatus.MCL_ERR_NONE, Real.sqrt (∑ h in Finset.range H, ∑ w in Finset.range W,
      ((sqDiffInt32 (read16 m1 (f1.data + 2 * (h * (f1.step >>> 1)) + 2 * w))
        (read16 m2 (f2.data + 2 * (h * (f2.step >>> 1)) + 2 * w)) : Int) : ℝ))) = _
  rw [hz, Real.sqrt_zero]

theorem mclNormDiff_L2_8u_C1R_comm (m1 : Mem) (p1 s1 : Nat) (m2 : Mem) (p2 s2 : Nat)
    (roi : ImageSize) (v : ℝ) :
    mclNormDiff_L2_8u_C1R m1 p1 s1 m2 p2 s2 roi v
      = mclNormDiff_L2_8u_C1R m2 p2 s2 m1 p1 s1 roi v := by
  unfold mclNormDiff_L2_8u_C1R
  simp only [sqDiffInt32_comm (read8 m1 _) (read8 m2 _)]

theorem mclNormDiff_L2_16u_C1R_comm (m1 : Mem) (p1 s1 : Nat) (m2 : Mem) (p2 s2 : Nat)
    (roi : ImageSize) (v : ℝ) :
    mclNormDiff_L2_16u_C1R m1 p1 s1 m2 p2 s2 roi v
      = mclNormDiff_L2_16u_C1R m2 p2 s2 m1 p1 s1 roi v := by
  unfold mclNormDiff_L2_16u_C1R
  simp only [sqDiffInt32_comm (read16 m1 _) (read16 m2 _)]

theorem mclNormDiff_L2_C1R_comm (m1 : Mem) (p1 s1 : Nat) (m2 : Mem) (p2 s2 : Nat)
    (roi : ImageSize) (v : ℝ) (bd : EBitDepth) :
    mclNormDiff_L2_C1R m1 p1 s1 m2 p2 s2 roi v bd
      = mclNormDiff_L2_C1R m2 p2 s2 m1 p1 s1 roi v bd := by
  unfold mclNormDiff_L2_C1R
  cases bd
  · exact mclNormDiff_L2_8u_C1R_comm _ _ _ _ _ _ _ _
  · exact mclNormDiff_L2_16u_C1R_comm _ _ _ _ _ _ _ _
  · rfl
  · rfl

theorem planeValue_swap (ev : CMetricEvaluator) (i : Nat) (v : ℝ)
    (hbd : ev.m_i1.GetBitDepth = ev.m_i2.GetBitDepth)
    (hroi : (ev.m_i1.GetFrame i).roi = (ev.m_i2.GetFrame i).roi) :
    CPSNREvaluator.planeValue ev.swap i v = CPSNREvaluator.planeValue ev i v := by
  unfold CPSNREvaluator.planeValue CMetricEvaluator.swap
  simp only []
  rw [mclNormDiff_L2_C1R_comm, ← hbd, ← hroi]

theorem planeSums_swap (ev : CMetricEvaluator)
    (hbd : ev.m_i1.GetBitDepth = ev.m_i2.GetBitDepth)
    (hroi : ∀ i, (ev.m_i1.GetFrame i).roi = (ev.m_i2.GetFrame i).roi) :
    CPSNREvaluator.planeSums ev.swap = CPSNREvaluator.planeSums ev := by
  funext i
  unfold CPSNREvaluator.planeSums
  rw [planeValue_swap ev i 0 hbd (hroi i)]
  rfl

theorem finalSums_swap (ev : CMetricEvaluator)
    (hbd : ev.m_i1.GetBitDepth = ev.m_i2.GetBitDepth)
    (hty : get_chromaclass ev.m_i1.GetSqType = get_chromaclass ev.m_i2.GetSqType)
    (hroi : ∀ i, (ev.m_i1.GetFrame i).roi = (ev.m_i2.GetFrame i).roi) :
    CPSNREvaluator.finalSums ev.swap = CPSNREvaluator.finalSums ev := by
  unfold CPSNREvaluator.finalSums CPSNREvaluator.overallStep
  rw [planeSums_swap ev hbd hroi]
  have h1 : get_chromaclass ev.swap.m_i1.GetSqType = get_chromaclass ev.m_i1.GetSqType :=
    hty.symm
  rw [h1]
  rfl

theorem ComputeMetricsState_swap (ev : CMetricEvaluator) (val avg : List ℝ)
    (hbd : ev.m_i1.GetBitDepth = ev.m_i2.GetBitDepth)
    (hty : get_chromaclass ev.m_i1.GetSqType = get_chromaclass ev.m_i2.GetSqType)
    (hroi : ∀ i, (ev.m_i1.GetFrame i).roi = (ev.m_i2.GetFrame i).roi) :
    CPSNREvaluator.ComputeMetricsState ev.swap val avg
      = CPSNREvaluator.ComputeMetricsState ev val avg := by
  rw [ComputeMetricsState_eq, ComputeMetricsState_eq]
  have hf := finalSums_swap ev hbd hty hroi
  have hp := planeSums_swap ev hbd hroi
  have hb : ev.swap.m_i1.GetBitDepth = ev.m_i1.GetBitDepth := hbd.symm
  have hv : CPSNREvaluator.outVals ev.swap = CPSNREvaluator.outVals ev := by
    unfold CPSNREvaluator.outVals
    rw [hf, hp, hb]
    rfl
  have hi : CPSNREvaluator.outIncs ev.swap = CPSNREvaluator.outIncs ev := by
    unfold CPSNREvaluator.outIncs
    rw [hf, hp, hb]
    rfl
  rw [hf, hv, hi]

/-! ## Range of the PSNR values -/

theorem MSEToPSNR_le (m M : ℝ) : MSEToPSNR m M ≤ 1000 := by
  unfold MSEToPSNR
  split_ifs
  · norm_num
  · rw [MAX_PSNR_eq]
  · rw [stdMin_eq_min, MAX_PSNR_eq]
    exact min_le_right _ _

theorem MSEToPSNR_ge (m M : ℝ) (hM : 0 < M) (hm : m ≤ M * M) : -1 ≤ MSEToPSNR m M := by
  unfold MSEToPSNR
  split_ifs with h1 h2
  · norm_num
  · rw [MAX_PSNR_eq]; norm_num
  · rw [stdMin_eq_min, MAX_PSNR_eq]
    have hpos : 0 < m := lt_of_le_of_ne (not_lt.mp h1) (Ne.symm h2)
    have hq : 1 ≤ M * M / m := by
      rw [le_div_iff₀ hpos]
      linarith
    have hl : 0 ≤ Real.logb 10 (M * M / m) := Real.logb_nonneg (by norm_num) hq
    have _ := hM
    apply le_min
    · linarith
    · norm_num

theorem sum_rows_cols_bounds (H W : Nat) (f : Nat → Nat → ℝ) (B : ℝ)
    (hf : ∀ h w, h < H → w < W → 0 ≤ f h w ∧ f h w ≤ B) :
    0 ≤ ∑ h in Finset.range H, ∑ w in Finset.range W, f h w
    ∧ ∑ h in Finset.range H, ∑ w in Finset.range W, f h w ≤ (H : ℝ) * ((W : ℝ) * B) := by
  constructor
  · exact Finset.sum_nonneg (fun h hh => Finset.sum_nonneg (fun w hw =>
      (hf h w (Finset.mem_range.mp hh) (Finset.mem_range.mp hw)).1))
  · have hrow : ∀ h ∈ Finset.range H, ∑ w in Finset.range W, f h w ≤ (W : ℝ) * B := by
      intro h hh
      have := Finset.sum_le_card_nsmul (Finset.range W) (fun w => f h w) B
        (fun w hw => (hf h w (Finset.mem_range.mp hh) (Finset.mem_range.mp hw)).2)
      simpa using this
    have := Finset.sum_le_card_nsmul (Finset.range H)
      (fun h => ∑ w in Finset.range W, f h w) ((W : ℝ) * B) hrow
    simpa using this

/-- A squared norm divided by the sample count lies between 0 and the bound of
one term. -/
theorem sqrt_sq_div_bounds (S B : ℝ) (W H : Nat) (hW : 1 ≤ W) (hH : 1 ≤ H) (h0 : 0 ≤ S)
    (h1 : S ≤ (H : ℝ) * ((W : ℝ) * B)) :
    0 ≤ Real.sqrt S * Real.sqrt S / ((W * H : Nat) : ℝ)
    ∧ Real.sqrt S * Real.sqrt S / ((W * H : Nat) : ℝ) ≤ B := by
  rw [Real.mul_self_sqrt h0]
  have hWr : (1 : ℝ) ≤ (W : ℝ) := by exact_mod_cast hW
  have hHr : (1 : ℝ) ≤ (H : ℝ) := by exact_mod_cast hH
  have hpos : (0 : ℝ) < ((W * H : Nat) : ℝ) := by
    push_cast
    nlinarith
  constructor
  · exact div_nonneg h0 hpos.le
  · rw [div_le_iff₀ hpos]
    push_cast
    linarith

theorem sqDiffInt32_real_bounds (a b m : Nat) (M : ℝ) (hM : (m : ℝ) = M) (ha : a ≤ m)
    (hb : b ≤ m) (hm : m ≤ 46340) :
    (0 : ℝ) ≤ ((sqDiffInt32 a b : Int) : ℝ) ∧ ((sqDiffInt32 a b : Int) : ℝ) ≤ M * M := by
  have h := sqDiffInt32_bounds a b m ha hb hm
  constructor
  · exact Int.cast_nonneg.mpr h.1
  · have h2 : ((sqDiffInt32 a b : Int) : ℝ) ≤ (((m : Int) ^ 2 : Int) : ℝ) := Int.cast_le.mpr h.2
    rw [← hM]
    push_cast at h2
    linarith [h2, pow_two (m : ℝ)]

theorem planeValue_bounds (ev : CMetricEvaluator) (i W H : Nat)
    (hroi : (ev.m_i1.GetFrame i).roi = ⟨W, H⟩) (hW : 1 ≤ W) (hH : 1 ≤ H)
    (hs : ∀ x y, x < W → y < H →
      (sampleAt ev.m_i1.GetBitDepth ev.m_i1.mem (ev.m_i1.GetFrame i) x y : ℝ)
          ≤ MaxError ev.m_i1.GetBitDepth
      ∧ (sampleAt ev.m_i1.GetBitDepth ev.m_i2.mem (ev.m_i2.GetFrame i) x y : ℝ)
          ≤ MaxError ev.m_i1.GetBitDepth) :
    0 ≤ CPSNREvaluator.planeValue ev i 0
    ∧ CPSNREvaluator.planeValue ev i 0
        ≤ MaxError ev.m_i1.GetBitDepth * MaxError ev.m_i1.GetBitDepth := by
  unfold CPSNREvaluator.planeValue
  simp only [hroi]
  cases hbd : ev.m_i1.GetBitDepth with
  | D008 =>
    simp only [mclNormDiff_L2_C1R]
    rw [mclNormDiff_L2_8u_C1R_eq _ _ _ _ _ _ _ _ hW hH]
    simp only [MaxError]
    have hb := sum_rows_cols_bounds H W (fun h w =>
      ((sqDiffInt32 (read8 ev.m_i1.mem ((ev.m_i1.GetFrame i).data
          + h * (ev.m_i1.GetFrame i).step + w))
        (read8 ev.m_i2.mem ((ev.m_i2.GetFrame i).data
          + h * (ev.m_i2.GetFrame i).step + w)) : Int) : ℝ)) (255 * 255)
      (fun h w _ _ => sqDiffInt32_real_bounds _ _ 255 255 (by norm_num) (read8_le _ _)
        (read8_le _ _) (by norm_num))
    exact sqrt_sq_div_bounds _ _ W H hW hH hb.1 hb.2
  | D010 =>
    simp only [mclNormDiff_L2_C1R]
    rw [mclNormDiff_L2_16u_C1R_eq _ _ _ _ _ _ _ _ hW hH]
    simp only [MaxError]
    rw [hbd] at hs
    have hterm : ∀ h w, h < H → w < W →
        (0 : ℝ) ≤ ((sqDiffInt32 (read16 ev.m_i1.mem ((ev.m_i1.GetFrame i).data
            + 2 * (h * ((ev.m_i1.GetFrame i).step >>> 1)) + 2 * w))
          (read16 ev.m_i2.mem ((ev.m_i2.GetFrame i).data
            + 2 * (h * ((ev.m_i2.GetFrame i).step >>> 1)) + 2 * w)) : Int) : ℝ)
        ∧ ((sqDiffInt32 (read16 ev.m_i1.mem ((ev.m_i1.GetFrame i).data
            + 2 * (h * ((ev.m_i1.GetFrame i).step >>> 1)) + 2 * w))
          (read16 ev.m_i2.mem ((ev.m_i2.GetFrame i).data
            + 2 * (h * ((ev.m_i2.GetFrame i).step >>> 1)) + 2 * w)) : Int) : ℝ)
          ≤ 1023 * 1023 := by
      intro h w hh hw
      have hsw := hs w h hw hh
      simp only [sampleAt, sample16, MaxError] at hsw
      have ha : read16 ev.m_i1.mem ((ev.m_i1.GetFrame i).data
          + 2 * (h * ((ev.m_i1.GetFrame i).step >>> 1)) + 2 * w) ≤ 1023 := by
        exact_mod_cast hsw.1
      have hb : read16 ev.m_i2.mem ((ev.m_i2.GetFrame i).data
          + 2 * (h * ((ev.m_i2.GetFrame i).step >>> 1)) + 2 * w) ≤ 1023 := by
        exact_mod_cast hsw.2
      exact sqDiffInt32_real_bounds _ _ 1023 1023 (by norm_num) ha hb (by norm_num)
    have hb := sum_rows_cols_bounds H W (fun h w =>
      ((sqDiffInt32 (read16 ev.m_i1.mem ((ev.m_i1.GetFrame i).data
          + 2 * (h * ((ev.m_i1.GetFrame i).step >>> 1)) + 2 * w))
        (read16 ev.m_i2.mem ((ev.m_i2.GetFrame i).data
          + 2 * (h * ((ev.m_i2.GetFrame i).step >>> 1)) + 2 * w)) : Int) : ℝ)) (1023 * 1023)
      hterm
    exact sqrt_sq_div_bounds _ _ W H hW hH hb.1 hb.2
  | D012 =>
    simp [mclNormDiff_L2_C1R, MaxError]
  | D016 =>
    simp [mclNormDiff_L2_C1R, MaxError]

theorem MaxError_pos (bd : EBitDepth) : 0 < MaxError bd := by
  cases bd <;> simp [MaxError]

theorem finalSums_bounds (ev : CMetricEvaluator) (B : ℝ) (hB : 0 ≤ B)
    (hn : ev.m_num_planes = 3 ∨ ev.m_num_planes = 4)
    (hp : ∀ i, i < ev.m_num_planes → ev.has MASK_MSE i = true →
      0 ≤ CPSNREvaluator.planeValue ev i 0 ∧ CPSNREvaluator.planeValue ev i 0 ≤ B) (i : Nat) :
    0 ≤ CPSNREvaluator.finalSums ev i ∧ CPSNREvaluator.finalSums ev i ≤ B := by
  have hps : ∀ k, 0 ≤ CPSNREvaluator.planeSums ev k ∧ CPSNREvaluator.planeSums ev k ≤ B := by
    intro k
    unfold CPSNREvaluator.planeSums
    split_ifs with h
    · exact hp k h.1 h.2
    · exact ⟨le_refl _, hB⟩
  have h0 := hps 0
  have h1 := hps 1
  have h2 := hps 2
  have h3 := hps 3
  cases hc : get_chromaclass ev.m_i1.GetSqType with
  | C420 =>
    rw [finalSums_C420 ev hc]
    by_cases hi : i = 3
    · subst hi
      rw [Function.update_same]
      constructor
      · apply div_nonneg <;> linarith
      · rw [div_le_iff₀ (by norm_num)]
        linarith
    · rw [Function.update_noteq hi]
      exact hps i
  | C422 =>
    rw [finalSums_C422 ev hc]
    by_cases hi : i = 3
    · subst hi
      rw [Function.update_same]
      constructor
      · apply div_nonneg <;> linarith
      · rw [div_le_iff₀ (by norm_num)]
        linarith
    · rw [Function.update_noteq hi]
      exact hps i
  | C444 =>
    rw [finalSums_C444 ev hc]
    by_cases hi : i = ev.m_num_planes
    · subst hi
      rw [Function.update_same]
      rcases hn with h | h
      · rw [h]
        have hz : CPSNREvaluator.planeSums ev 3 = 0 := planeSums_of_ge ev 3 (by omega)
        rw [hz]
        constructor
        · exact div_nonneg (by linarith) (by norm_num)
        · rw [div_le_iff₀ (by norm_num)]
          push_cast
          linarith
      · rw [h]
        constructor
        · exact div_nonneg (by linarith) (by norm_num)
        · rw [div_le_iff₀ (by norm_num)]
          push_cast
          linarith
    · rw [Function.update_noteq hi]
      exact hps i

/-! ## Field views -/

theorem ReadRawFrame_planes (r : CReader) (f : Nat) :
    (CYUVReader.ReadRawFrame r f).1.m_planes = r.m_planes
    ∧ (CYUVReader.ReadRawFrame r f).1.m_intl = r.m_intl
    ∧ (CYUVReader.ReadRawFrame r f).1.m_field_order = r.m_field_order
    ∧ (CYUVReader.ReadRawFrame r f).1.m_bd = r.m_bd
    ∧ (CYUVReader.ReadRawFrame r f).1.m_type = r.m_type := by
  unfold CYUVReader.ReadRawFrame
  simp only []
  split_ifs <;> exact ⟨rfl, rfl, rfl, rfl, rfl⟩

theorem ReadRawFrame_bottom (r : CReader) (f : Nat) (hi : r.m_intl = true) :
    (CYUVReader.ReadRawFrame r f).1.m_bottom = r.m_field_order ^^^ (f % 2) := by
  unfold CYUVReader.ReadRawFrame
  simp only [hi, if_true, Nat.and_one_is_mod]
  split_ifs <;> rfl

theorem ReadRawFrame_cur_frame (r : CReader) (f : Nat) :
    (CYUVReader.ReadRawFrame r f).1.m_cur_frame
      = wrapInt32 ((if r.m_intl then f / 2 else f : Nat) : Int) := by
  unfold CYUVReader.ReadRawFrame
  simp only [Nat.shiftRight_eq_div_pow, pow_one]
  split_ifs with h1 h2 h3
  · rfl
  · simp only [ne_eq, not_not] at h2
    exact h2
  · rfl
  · simp only [ne_eq, not_not] at h3
    exact h3

theorem xor_bit (o f : Nat) (ho : o = 0 ∨ o = 1) :
    o ^^^ (f % 2) = 0 ∨ o ^^^ (f % 2) = 1 := by
  rcases ho with h | h <;> rcases Nat.mod_two_eq_zero_or_one f with h2 | h2 <;>
    rw [h, h2] <;> decide

/-! ## Memory -/

theorem write8_apply (m : Mem) (p v a : Nat) :
    write8 m p v a = if a = p then v % 256 else m a := by
  unfold write8
  by_cases h : a = p
  · subst h
    simp
  · simp [Function.update_noteq h, h]

theorem write16_apply (m : Mem) (p v a : Nat) :
    write16 m p v a
      = if a = p + 1 then v / 256 % 256 else if a = p then v % 256 else m a := by
  unfold write16
  rw [write8_apply, write8_apply]

theorem write16_other (m : Mem) (p v a : Nat) (h : a < p ∨ p + 2 ≤ a) :
    write16 m p v a = m a := by
  rw [write16_apply, if_neg (by omega), if_neg (by omega)]

theorem read8_congr (m m' : Mem) (a : Nat) (h : m' a = m a) : read8 m' a = read8 m a := by
  unfold read8
  rw [h]

theorem read16_congr (m m' : Mem) (a : Nat) (h0 : m' a = m a) (h1 : m' (a + 1) = m (a + 1)) :
    read16 m' a = read16 m a := by
  unfold read16
  rw [read8_congr m m' a h0, read8_congr m m' (a + 1) h1]

theorem read32_congr (m m' : Mem) (a : Nat) (h : ∀ k, k < 4 → m' (a + k) = m (a + k)) :
    read32 m' a = read32 m a := by
  unfold read32
  rw [read8_congr m m' a (h 0 (by norm_num)), read8_congr m m' (a + 1) (h 1 (by norm_num)),
    read8_congr m m' (a + 2) (h 2 (by norm_num)), read8_congr m m' (a + 3) (h 3 (by norm_num))]

theorem read16_write16_same (m : Mem) (p v : Nat) : read16 (write16 m p v) p = v % 65536 := by
  unfold read16 read8
  rw [write16_apply, write16_apply]
  simp only [if_true, if_neg (show ¬ p = p + 1 by omega)]
  omega

theorem read16_write16_other (m : Mem) (p v a : Nat) (h : a + 2 ≤ p ∨ p + 2 ≤ a) :
    read16 (write16 m p v) a = read16 m a :=
  read16_congr _ _ _ (write16_other m p v a (by omega)) (write16_other m p v (a + 1) (by omega))

theorem read32_lt (m : Mem) (a : Nat) : read32 m a < 2 ^ 32 := by
  unfold read32
  have h0 := read8_lt m a
  have h1 := read8_lt m (a + 1)
  have h2 := read8_lt m (a + 2)
  have h3 := read8_lt m (a + 3)
  omega

theorem and_shiftLeft_shiftRight (v mask s : Nat) :
    (v &&& (mask <<< s)) >>> s = (v >>> s) &&& mask := by
  apply Nat.eq_of_testBit_eq
  intro j
  simp [Nat.testBit_shiftRight, Nat.testBit_shiftLeft]

theorem field_10_19 (v : Nat) : (v &&& (0x03ff <<< 10)) >>> 10 = v / 2 ^ 10 % 2 ^ 10 := by
  rw [and_shiftLeft_shiftRight, Nat.shiftRight_eq_div_pow]
  exact Nat.and_pow_two_sub_one_eq_mod _ 10

theorem field_20_29 (v : Nat) : (v &&& (0x03ff <<< 20)) >>> 20 = v / 2 ^ 20 % 2 ^ 10 := by
  rw [and_shiftLeft_shiftRight, Nat.shiftRight_eq_div_pow]
  exact Nat.and_pow_two_sub_one_eq_mod _ 10

theorem field_0_9 (v : Nat) : v &&& 0x03ff = v % 2 ^ 10 :=
  Nat.and_pow_two_sub_one_eq_mod v 10

theorem field_30_31 (v : Nat) (hv : v < 2 ^ 32) :
    (v &&& ((0x0003 <<< 30) % 2 ^ 32)) >>> 30 = v / 2 ^ 30 := by
  have h : ((0x0003 <<< 30) % 2 ^ 32 : Nat) = 3 <<< 30 := by decide
  rw [h, and_shiftLeft_shiftRight, Nat.shiftRight_eq_div_pow]
  have := Nat.and_pow_two_sub_one_eq_mod (v / 2 ^ 30) 2
  rw [show (3 : Nat) = 2 ^ 2 - 1 from rfl, this]
  omega

/-! ## Y410 demux -/

/-- One pixel step changes only the four cells it writes. -/
theorem y410Pixel_frame (src dA dV dY dU w : Nat) (m : Mem) (a : Nat)
    (hA : a < dA + 2 * w ∨ dA + 2 * w + 2 ≤ a) (hV : a < dV + 2 * w ∨ dV + 2 * w + 2 ≤ a)
    (hY : a < dY + 2 * w ∨ dY + 2 * w + 2 ≤ a) (hU : a < dU + 2 * w ∨ dU + 2 * w + 2 ≤ a) :
    y410Pixel src dA dV dY dU w m a = m a := by
  unfold y410Pixel
  rw [write16_other _ _ _ _ hU, write16_other _ _ _ _ hY, write16_other _ _ _ _ hV,
    write16_other _ _ _ _ hA]

/-- The four cells written by one pixel step, for pairwise separated cells. -/
theorem y410Pixel_value (src dA dV dY dU w : Nat) (m : Mem)
    (hAV : dA + 2 ≤ dV ∨ dV + 2 ≤ dA) (hAY : dA + 2 ≤ dY ∨ dY + 2 ≤ dA)
    (hAU : dA + 2 ≤ dU ∨ dU + 2 ≤ dA) (hVY : dV + 2 ≤ dY ∨ dY + 2 ≤ dV)
    (hVU : dV + 2 ≤ dU ∨ dU + 2 ≤ dV) (hYU : dY + 2 ≤ dU ∨ dU + 2 ≤ dY) :
    let v := read32 m (src + 4 * w)
    let m' := y410Pixel src dA dV dY dU w m
    read16 m' (dY + 2 * w) = v / 2 ^ 10 % 2 ^ 10
    ∧ read16 m' (dU + 2 * w) = v % 2 ^ 10
    ∧ read16 m' (dV + 2 * w) = v / 2 ^ 20 % 2 ^ 10
    ∧ read16 m' (dA + 2 * w) = v / 2 ^ 30 := by
  intro v m'
  have hv : v < 2 ^ 32 := read32_lt m _
  have hm' : m' = write16 (write16 (write16 (write16 m (dA + 2 * w) (v / 2 ^ 30))
      (dV + 2 * w) (v / 2 ^ 20 % 2 ^ 10)) (dY + 2 * w) (v / 2 ^ 10 % 2 ^ 10))
      (dU + 2 * w) (v % 2 ^ 10) := by
    show y410Pixel src dA dV dY dU w m = _
    unfold y410Pixel
    dsimp only
    rw [field_10_19, field_20_29, field_0_9, field_30_31 _ hv]
  rw [hm']
  refine ⟨?_, ?_, ?_, ?_⟩
  · rw [read16_write16_other _ _ _ _ (by omega), read16_write16_same]
    omega
  · rw [read16_write16_same]
    omega
  · rw [read16_write16_other _ _ _ _ (by omega), read16_write16_other _ _ _ _ (by omega),
      read16_write16_same]
    omega
  · rw [read16_write16_other _ _ _ _ (by omega), read16_write16_other _ _ _ _ (by omega),
      read16_write16_other _ _ _ _ (by omega), read16_write16_same]
    omega

theorem mul_step (a b c : Nat) (h : a < b) : a * c + c ≤ b * c := by
  have := Nat.mul_le_mul_right c (Nat.succ_le_of_lt h)
  rw [Nat.succ_mul] at this
  exact this

/-- One row of the Y410 demux changes only the four destination rows. -/
theorem y410Row_frame (src dA dV dY dU n : Nat) (m : Mem) (a : Nat)
    (hA : a < dA ∨ dA + 2 * n ≤ a) (hV : a < dV ∨ dV + 2 * n ≤ a)
    (hY : a < dY ∨ dY + 2 * n ≤ a) (hU : a < dU ∨ dU + 2 * n ≤ a) :
    forLoop n (y410Pixel src dA dV dY dU) m a = m a := by
  induction n with
  | zero => rfl
  | succ n ih =>
    rw [forLoop_succ, y410Pixel_frame _ _ _ _ _ _ _ _ (by omega) (by omega) (by omega)
      (by omega)]
    exact ih (by omega) (by omega) (by omega) (by omega)

theorem disjointRanges_symm (a la b lb : Nat) (h : disjointRanges a la b lb) :
    disjointRanges b lb a la := by
  unfold disjointRanges at h ⊢
  omega

theorem disjointRanges_sub (a la b lb a' la' b' lb' : Nat) (h : disjointRanges a la b lb)
    (ha : a ≤ a') (ha' : a' + la' ≤ a + la) (hb : b ≤ b') (hb' : b' + lb' ≤ b + lb) :
    disjointRanges a' la' b' lb' := by
  unfold disjointRanges at h ⊢
  omega

theorem disjointRanges_outside (a la b lb x n : Nat) (h : disjointRanges a la b lb)
    (hx : a ≤ x) (hx' : x < a + la) (hn : n ≤ lb) : x < b ∨ b + n ≤ x := by
  unfold disjointRanges at h
  omega

/-- A byte of cell `x` of the row at `d` lies outside cell `n` of the row at
`d'`, when `x < n` and the rows are the same or do not overlap. -/
theorem cell_outside (d d' W n x a : Nat) (h : d = d' ∨ disjointRanges d (2 * W) d' (2 * W))
    (hx : x < n) (hn : n < W) (ha : d + 2 * x ≤ a) (ha' : a ≤ d + 2 * x + 1) :
    a < d' + 2 * n ∨ d' + 2 * n + 2 ≤ a := by
  rcases h with h | h
  · omega
  · unfold disjointRanges at h
    omega

/-- One row of the Y410 demux: the cells of the columns done hold the fields of
the source words, for rows that do not overlap. -/
theorem y410Row_value (src dA dV dY dU W : Nat) (m : Mem)
    (hAV : disjointRanges dA (2 * W) dV (2 * W)) (hAY : disjointRanges dA (2 * W) dY (2 * W))
    (hAU : disjointRanges dA (2 * W) dU (2 * W)) (hVY : disjointRanges dV (2 * W) dY (2 * W))
    (hVU : disjointRanges dV (2 * W) dU (2 * W)) (hYU : disjointRanges dY (2 * W) dU (2 * W))
    (hsA : disjointRanges src (4 * W) dA (2 * W)) (hsV : disjointRanges src (4 * W) dV (2 * W))
    (hsY : disjointRanges src (4 * W) dY (2 * W)) (hsU : disjointRanges src (4 * W) dU (2 * W))
    (n : Nat) (hn : n ≤ W) (x : Nat) (hx : x < n) :
    read16 (forLoop n (y410Pixel src dA dV dY dU) m) (dY + 2 * x)
        = read32 m (src + 4 * x) / 2 ^ 10 % 2 ^ 10
    ∧ read16 (forLoop n (y410Pixel src dA dV dY dU) m) (dU + 2 * x)
        = read32 m (src + 4 * x) % 2 ^ 10
    ∧ read16 (forLoop n (y410Pixel src dA dV dY dU) m) (dV + 2 * x)
        = read32 m (src + 4 * x) / 2 ^ 20 % 2 ^ 10
    ∧ read16 (forLoop n (y410Pixel src dA dV dY dU) m) (dA + 2 * x)
        = read32 m (src + 4 * x) / 2 ^ 30 := by
  induction n with
  | zero => omega
  | succ n ih =>
    rw [forLoop_succ]
    by_cases hxn : x = n
    · subst hxn
      have hsrc : read32 (forLoop x (y410Pixel src dA dV dY dU) m) (src + 4 * x)
          = read32 m (src + 4 * x) := by
        apply read32_congr
        intro k hk
        exact y410Row_frame _ _ _ _ _ _ _ _
          (disjointRanges_outside _ _ _ _ _ _ hsA (by omega) (by omega) (by omega))
          (disjointRanges_outside _ _ _ _ _ _ hsV (by omega) (by omega) (by omega))
          (disjointRanges_outside _ _ _ _ _ _ hsY (by omega) (by omega) (by omega))
          (disjointRanges_outside _ _ _ _ _ _ hsU (by omega) (by omega) (by omega))
      have hp := y410Pixel_value src dA dV dY dU x (forLoop x (y410Pixel src dA dV dY dU) m)
        (by unfold disjointRanges at hAV; omega) (by unfold disjointRanges at hAY; omega)
        (by unfold disjointRanges at hAU; omega) (by unfold disjointRanges at hVY; omega)
        (by unfold disjointRanges at hVU; omega) (by unfold disjointRanges at hYU; omega)
      simp only [] at hp
      rw [hsrc] at hp
      exact hp
    · have hlt : x < n := by omega
      have hnW : n < W := by omega
      have ih' := ih (by omega) hlt
      have hkeep : ∀ d,
          (d = dA ∨ disjointRanges d (2 * W) dA (2 * W)) →
          (d = dV ∨ disjointRanges d (2 * W) dV (2 * W)) →
          (d = dY ∨ disjointRanges d (2 * W) dY (2 * W)) →
          (d = dU ∨ disjointRanges d (2 * W) dU (2 * W)) →
          read16 (y410Pixel src dA dV dY dU n (forLoop n (y410Pixel src dA dV dY dU) m))
              (d + 2 * x)
            = read16 (forLoop n (y410Pixel src dA dV dY dU) m) (d + 2 * x) := by
        intro d h1 h2 h3 h4
        apply read16_congr
        · exact y410Pixel_frame _ _ _ _ _ _ _ _
            (cell_outside d dA W n x _ h1 hlt hnW (le_refl _) (Nat.le_succ _))
            (cell_outside d dV W n x _ h2 hlt hnW (le_refl _) (Nat.le_succ _))
            (cell_outside d dY W n x _ h3 hlt hnW (le_refl _) (Nat.le_succ _))
            (cell_outside d dU W n x _ h4 hlt hnW (le_refl _) (Nat.le_succ _))
        · exact y410Pixel_frame _ _ _ _ _ _ _ _
            (cell_outside d dA W n x _ h1 hlt hnW (Nat.le_succ _) (le_refl _))
            (cell_outside d dV W n x _ h2 hlt hnW (Nat.le_succ _) (le_refl _))
            (cell_outside d dY W n x _ h3 hlt hnW (Nat.le_succ _) (le_refl _))
            (cell_outside d dU W n x _ h4 hlt hnW (Nat.le_succ _) (le_refl _))
      exact ⟨(hkeep dY (Or.inr (disjointRanges_symm _ _ _ _ hAY))
            (Or.inr (disjointRanges_symm _ _ _ _ hVY)) (Or.inl rfl) (Or.inr hYU)).trans ih'.1,
        (hkeep dU (Or.inr (disjointRanges_symm _ _ _ _ hAU))
            (Or.inr (disjointRanges_symm _ _ _ _ hVU))
            (Or.inr (disjointRanges_symm _ _ _ _ hYU)) (Or.inl rfl)).trans ih'.2.1,
        (hkeep dV (Or.inr (disjointRanges_symm _ _ _ _ hAV)) (Or.inl rfl) (Or.inr hVY)
            (Or.inr hVU)).trans ih'.2.2.1,
        (hkeep dA (Or.inl rfl) (Or.inr hAV) (Or.inr hAY) (Or.inr hAU)).trans ih'.2.2.2⟩

/-- The row loop of the Y410 demux changes only the rows done of the four
destination planes. -/
theorem y410Rows_frame (S ss pA pV pY pU ds W n : Nat) (hW : W ≤ ds) (m : Mem) (a : Nat)
    (hA : a < pA ∨ pA + 2 * (n * ds) ≤ a) (hV : a < pV ∨ pV + 2 * (n * ds) ≤ a)
    (hY : a < pY ∨ pY + 2 * (n * ds) ≤ a) (hU : a < pU ∨ pU + 2 * (n * ds) ≤ a) :
    forLoop n (fun h m => forLoop W
        (y410Pixel (S + 4 * (h * ss)) (pA + 2 * (h * ds)) (pV + 2 * (h * ds))
          (pY + 2 * (h * ds)) (pU + 2 * (h * ds))) m) m a = m a := by
  induction n with
  | zero => rfl
  | succ n ih =>
    rw [forLoop_succ]
    have hstep : n * ds + ds ≤ (n + 1) * ds := mul_step n (n + 1) ds (by omega)
    rw [y410Row_frame _ _ _ _ _ _ _ _ (by omega) (by omega) (by omega) (by omega)]
    have hle : n * ds ≤ (n + 1) * ds := by omega
    exact ih (by omega) (by omega) (by omega) (by omega)

/-- A byte of a cell of row `y` of the plane at `p` lies outside row `n` of the
plane at `p'`, when `y < n < H` and the planes are the same or do not overlap. -/
theorem row_outside (p p' ds W H n y x a : Nat)
    (h : p = p' ∨ disjointRanges p (2 * (H * ds)) p' (2 * (H * ds)))
    (hW : W ≤ ds) (hy : y < n) (hn : n < H) (hx : x < W)
    (ha : p + 2 * (y * ds) + 2 * x ≤ a) (ha' : a ≤ p + 2 * (y * ds) + 2 * x + 1) :
    a < p' + 2 * (n * ds) ∨ p' + 2 * (n * ds) + 2 * W ≤ a := by
  have h1 : y * ds + ds ≤ n * ds := mul_step y n ds hy
  have h2 : n * ds + ds ≤ H * ds := mul_step n H ds hn
  rcases h with h | h
  · omega
  · unfold disjointRanges at h
    omega

/-- The row loop of the Y410 demux: after `n` rows, every cell of those rows
holds the field of its source word, for planes that do not overlap. -/
theorem y410Rows_value (S ss pA pV pY pU ds W H : Nat) (hWd : W ≤ ds) (hWs : W ≤ ss)
    (m : Mem)
    (hAV : disjointRanges pA (2 * (H * ds)) pV (2 * (H * ds)))
    (hAY : disjointRanges pA (2 * (H * ds)) pY (2 * (H * ds)))
    (hAU : disjointRanges pA (2 * (H * ds)) pU (2 * (H * ds)))
    (hVY : disjointRanges pV (2 * (H * ds)) pY (2 * (H * ds)))
    (hVU : disjointRanges pV (2 * (H * ds)) pU (2 * (H * ds)))
    (hYU : disjointRanges pY (2 * (H * ds)) pU (2 * (H * ds)))
    (hsA : disjointRanges S (4 * (H * ss)) pA (2 * (H * ds)))
    (hsV : disjointRanges S (4 * (H * ss)) pV (2 * (H * ds)))
    (hsY : disjointRanges S (4 * (H * ss)) pY (2 * (H * ds)))
    (hsU : disjointRanges S (4 * (H * ss)) pU (2 * (H * ds)))
    (n : Nat) (hn : n ≤ H) (x y : Nat) (hx : x < W) (hy : y < n) :
    read16 (forLoop n (fun h m => forLoop W
        (y410Pixel (S + 4 * (h * ss)) (pA + 2 * (h * ds)) (pV + 2 * (h * ds))
          (pY + 2 * (h * ds)) (pU + 2 * (h * ds))) m) m) (pY + 2 * (y * ds) + 2 * x)
      = read32 m (S + 4 * (y * ss) + 4 * x) / 2 ^ 10 % 2 ^ 10
    ∧ read16 (forLoop n (fun h m => forLoop W
        (y410Pixel (S + 4 * (h * ss)) (pA + 2 * (h * ds)) (pV + 2 * (h * ds))
          (pY + 2 * (h * ds)) (pU + 2 * (h * ds))) m) m) (pU + 2 * (y * ds) + 2 * x)
      = read32 m (S + 4 * (y * ss) + 4 * x) % 2 ^ 10
    ∧ read16 (forLoop n (fun h m => forLoop W
        (y410Pixel (S + 4 * (h * ss)) (pA + 2 * (h * ds)) (pV + 2 * (h * ds))
          (pY + 2 * (h * ds)) (pU + 2 * (h * ds))) m) m) (pV + 2 * (y * ds) + 2 * x)
      = read32 m (S + 4 * (y * ss) + 4 * x) / 2 ^ 20 % 2 ^ 10
    ∧ read16 (forLoop n (fun h m => forLoop W
        (y410Pixel (S + 4 * (h * ss)) (pA + 2 * (h * ds)) (pV + 2 * (h * ds))
          (pY + 2 * (h * ds)) (pU + 2 * (h * ds))) m) m) (pA + 2 * (y * ds) + 2 * x)
      = read32 m (S + 4 * (y * ss) + 4 * x) / 2 ^ 30 := by
  induction n with
  | zero => omega
  | succ n ih =>
    rw [forLoop_succ]
    have hnH : n < H := by omega
    have hnd : n * ds + ds ≤ H * ds := mul_step n H ds hnH
    have hns : n * ss + ss ≤ H * ss := mul_step n H ss hnH
    by_cases hyn : y = n
    · subst hyn
      have hsrc : read32 (forLoop y (fun h m => forLoop W
            (y410Pixel (S + 4 * (h * ss)) (pA + 2 * (h * ds)) (pV + 2 * (h * ds))
              (pY + 2 * (h * ds)) (pU + 2 * (h * ds))) m) m) (S + 4 * (y * ss) + 4 * x)
          = read32 m (S + 4 * (y * ss) + 4 * x) := by
        apply read32_congr
        intro k hk
        exact y410Rows_frame _ _ _ _ _ _ _ _ _ hWd _ _
          (disjointRanges_outside _ _ _ _ _ _ hsA (by omega) (by omega) (by omega))
          (disjointRanges_outside _ _ _ _ _ _ hsV (by omega) (by omega) (by omega))
          (disjointRanges_outside _ _ _ _ _ _ hsY (by omega) (by omega) (by omega))
          (disjointRanges_outside _ _ _ _ _ _ hsU (by omega) (by omega) (by omega))
      have hr := y410Row_value (S + 4 * (y * ss)) (pA + 2 * (y * ds)) (pV + 2 * (y * ds))
        (pY + 2 * (y * ds)) (pU + 2 * (y * ds)) W
        (forLoop y (fun h m => forLoop W
            (y410Pixel (S + 4 * (h * ss)) (pA + 2 * (h * ds)) (pV + 2 * (h * ds))
              (pY + 2 * (h * ds)) (pU + 2 * (h * ds))) m) m)
        (disjointRanges_sub _ _ _ _ _ _ _ _ hAV (by omega) (by omega) (by omega) (by omega))
        (disjointRanges_sub _ _ _ _ _ _ _ _ hAY (by omega) (by omega) (by omega) (by omega))
        (disjointRanges_sub _ _ _ _ _ _ _ _ hAU (by omega) (by omega) (by omega) (by omega))
        (disjointRanges_sub _ _ _ _ _ _ _ _ hVY (by omega) (by omega) (by omega) (by omega))
        (disjointRanges_sub _ _ _ _ _ _ _ _ hVU (by omega) (by omega) (by omega) (by omega))
        (disjointRanges_sub _ _ _ _ _ _ _ _ hYU (by omega) (by omega) (by omega) (by omega))
        (disjointRanges_sub _ _ _ _ _ _ _ _ hsA (by omega) (by omega) (by omega) (by omega))
        (disjointRanges_sub _ _ _ _ _ _ _ _ hsV (by omega) (by omega) (by omega) (by omega))
        (disjointRanges_sub _ _ _ _ _ _ _ _ hsY (by omega) (by omega) (by omega) (by omega))
        (disjointRanges_sub _ _ _ _ _ _ _ _ hsU (by omega) (by omega) (by omega) (by omega))
        W (le_refl W) x hx
      rw [hsrc] at hr
      exact hr
    · have hlt : y < n := by omega
      have ih' := ih (by omega) hlt
      have hkeep : ∀ p,
          (p = pA ∨ disjointRanges p (2 * (H * ds)) pA (2 * (H * ds))) →
          (p = pV ∨ disjointRanges p (2 * (H * ds)) pV (2 * (H * ds))) →
          (p = pY ∨ disjointRanges p (2 * (H * ds)) pY (2 * (H * ds))) →
          (p = pU ∨ disjointRanges p (2 * (H * ds)) pU (2 * (H * ds))) →
          read16 (forLoop W
              (y410Pixel (S + 4 * (n * ss)) (pA + 2 * (n * ds)) (pV + 2 * (n * ds))
                (pY + 2 * (n * ds)) (pU + 2 * (n * ds)))
              (forLoop n (fun h m => forLoop W
                (y410Pixel (S + 4 * (h * ss)) (pA + 2 * (h * ds)) (pV + 2 * (h * ds))
                  (pY + 2 * (h * ds)) (pU + 2 * (h * ds))) m) m)) (p + 2 * (y * ds) + 2 * x)
            = read16 (forLoop n (fun h m => forLoop W
                (y410Pixel (S + 4 * (h * ss)) (pA + 2 * (h * ds)) (pV + 2 * (h * ds))
                  (pY + 2 * (h * ds)) (pU + 2 * (h * ds))) m) m) (p + 2 * (y * ds) + 2 * x) := by
        intro p h1 h2 h3 h4
        apply read16_congr
        · exact y410Row_frame _ _ _ _ _ _ _ _
            (row_outside p pA ds W H n y x _ h1 hWd hlt hnH hx (le_refl _) (Nat.le_succ _))
            (row_outside p pV ds W H n y x _ h2 hWd hlt hnH hx (le_refl _) (Nat.le_succ _))
            (row_outside p pY ds W H n y x _ h3 hWd hlt hnH hx (le_refl _) (Nat.le_succ _))
            (row_outside p pU ds W H n y x _ h4 hWd hlt hnH hx (le_refl _) (Nat.le_succ _))
        · exact y410Row_frame _ _ _ _ _ _ _ _
            (row_outside p pA ds W H n y x _ h1 hWd hlt hnH hx (Nat.le_succ _) (le_refl _))
            (row_outside p pV ds W H n y x _ h2 hWd hlt hnH hx (Nat.le_succ _) (le_refl _))
            (row_outside p pY ds W H n y x _ h3 hWd hlt hnH hx (Nat.le_succ _) (le_refl _))
            (row_outside p pU ds W H n y x _ h4 hWd hlt hnH hx (Nat.le_succ _) (le_refl _))
      exact ⟨(hkeep pY (Or.inr (disjointRanges_symm _ _ _ _ hAY))
            (Or.inr (disjointRanges_symm _ _ _ _ hVY)) (Or.inl rfl) (Or.inr hYU)).trans ih'.1,
        (hkeep pU (Or.inr (disjointRanges_symm _ _ _ _ hAU))
            (Or.inr (disjointRanges_symm _ _ _ _ hVU))
            (Or.inr (disjointRanges_symm _ _ _ _ hYU)) (Or.inl rfl)).trans ih'.2.1,
        (hkeep pV (Or.inr (disjointRanges_symm _ _ _ _ hAV)) (Or.inl rfl) (Or.inr hVY)
            (Or.inr hVU)).trans ih'.2.2.1,
        (hkeep pA (Or.inl rfl) (Or.inr hAV) (Or.inr hAY) (Or.inr hAU)).trans ih'.2.2.2⟩

theorem mclY410ToYUV_10u16u_C4P4R_eq (m : Mem) (pSrc srcStep : Nat) (pDst : Nat → Nat)
    (dstStep : Nat) (roi : ImageSize) (h1 : srcStep ≠ 0) (h2 : dstStep ≠ 0)
    (hw : 2 ≤ roi.width) (hh : 2 ≤ roi.height) :
    mclY410ToYUV_10u16u_C4P4R m pSrc srcStep pDst dstStep roi
      = (.MCL_ERR_NONE, forLoop roi.height (fun h m => forLoop roi.width
          (y410Pixel (pSrc + 4 * (h * (srcStep >>> 1))) (pDst 3 + 2 * (h * (dstStep >>> 1)))
            (pDst 2 + 2 * (h * (dstStep >>> 1))) (pDst 0 + 2 * (h * (dstStep >>> 1)))
            (pDst 1 + 2 * (h * (dstStep >>> 1)))) m) m) := by
  unfold mclY410ToYUV_10u16u_C4P4R
  rw [if_neg (by omega), if_neg (by omega)]

theorem demux_Y410 (r : CReader) (m : Mem)
    (hty : r.m_type = .Y410P ∨ r.m_type = .Y410I) (hbd : r.m_bd = .D010) :
    CYUVReader.demux r m
      = (mclY410ToYUV_10u16u_C4P4R m r.m_Meta.data (r.m_planes 0).step
          (fun i => (r.m_planes i).data) (r.m_planes 0).step (r.m_planes 0).roi).2 := by
  unfold CYUVReader.demux mclY410ToYUV_C4P4R
  rcases hty with h | h <;> simp [h, hbd]

theorem mclRShiftC_C1IR_zero (m : Mem) (p step : Nat) (roi : ImageSize) (bd : EBitDepth) :
    mclRShiftC_C1IR 0 m p step roi bd = (.MCL_ERR_NONE, m) := by
  simp [mclRShiftC_C1IR]

/-- Memory after a `ReadRawFrame` that loads a frame, for `m_RShift = 0`. -/
theorem ReadRawFrame_mem_miss (r : CReader) (f : Nat) (hrs : r.m_RShift = 0)
    (hmiss : r.m_cur_frame ≠ wrapInt32 ((if r.m_intl then f / 2 else f : Nat) : Int)) :
    (CYUVReader.ReadRawFrame r f).1.mem
      = CYUVReader.demux r (fread_at r.m_file r.m_file_size
          ((if r.m_intl then f / 2 else f) * (r.m_Meta.step * r.m_source_pixel_size))
          r.mem r.m_Meta.data r.m_source_pixel_size r.m_Meta.step).1 := by
  unfold CYUVReader.ReadRawFrame
  simp only [Nat.shiftRight_eq_div_pow, pow_one]
  rw [if_pos hmiss]
  simp only [hrs, mclRShiftC_C1IR_zero]

/-! ## `InitComputationParams` of the PSNR evaluator -/

theorem or_two_pow_of_and_ne_zero (x k : Nat) (h : 2 ^ k &&& x ≠ 0) : x ||| 2 ^ k = x := by
  have hb : x.testBit k = true := by
    by_contra hc
    apply h
    apply Nat.eq_of_testBit_eq
    intro j
    simp only [Nat.testBit_and, Nat.zero_testBit, Nat.testBit_two_pow]
    by_cases hj : k = j
    · subst hj; simp [hc]
    · simp [hj]
  apply Nat.eq_of_testBit_eq
  intro j
  simp only [Nat.testBit_or, Nat.testBit_two_pow]
  by_cases hj : k = j
  · subst hj; simp [hb]
  · simp [hj]

/-- A mask whose `|=` is void whenever its `&` test passes (a single bit). -/
theorem mask_absorb_MSE (x : Nat) (h : MASK_MSE &&& x ≠ 0) : x ||| MASK_MSE = x :=
  or_two_pow_of_and_ne_zero x 2 h

theorem mask_absorb_PSNR (x : Nat) (h : MASK_PSNR &&& x ≠ 0) : x ||| MASK_PSNR = x :=
  or_two_pow_of_and_ne_zero x 0 h

theorem mask_absorb_APSNR (x : Nat) (h : MASK_APSNR &&& x ≠ 0) : x ||| MASK_APSNR = x :=
  or_two_pow_of_and_ne_zero x 1 h

theorem initMetric_planes (cmps : Component) (n mask : Nat) (name : String)
    (hP : ∀ x, mask &&& x ≠ 0 → x ||| mask = x) (s : InitState) (k : Nat) :
    forLoop k (fun j s =>
        if mask &&& s.c_mask j ≠ 0 then
          ({ c_mask := Function.update s.c_mask j (s.c_mask j ||| mask)
             st := s.st ++ [String.singleton (cmps.at j).1 ++ "-" ++ name]
             oflag := s.oflag ++ [decide (mask &&& (cmps.at j).2 ≠ 0)]
             avg := s.avg ++ [0] } : InitState)
        else s) s
      = { c_mask := s.c_mask
          st := s.st ++ collect k (fun j => decide (s.c_mask j &&& mask ≠ 0))
            (fun j => String.singleton (cmps.at j).1 ++ "-" ++ name)
          oflag := s.oflag ++ collect k (fun j => decide (s.c_mask j &&& mask ≠ 0))
            (fun j => decide (mask &&& (cmps.at j).2 ≠ 0))
          avg := s.avg ++ collect k (fun j => decide (s.c_mask j &&& mask ≠ 0))
            (fun _ => (0 : ℝ)) } := by
  have _ := n
  induction k with
  | zero => simp [forLoop, collect_zero]
  | succ k ih =>
    rw [forLoop_succ, ih, collect_succ, collect_succ, collect_succ]
    by_cases h : mask &&& s.c_mask k ≠ 0
    · have h' : s.c_mask k &&& mask ≠ 0 := by rw [Nat.land_comm]; exact h
      have hup : Function.update s.c_mask k (s.c_mask k ||| mask) = s.c_mask := by
        rw [hP _ h]
        exact Function.update_eq_self k s.c_mask
      simp only [h, h', if_true, ne_eq, not_false_eq_true, decide_True, hup,
        List.append_assoc]
    · have h' : ¬ s.c_mask k &&& mask ≠ 0 := by rw [Nat.land_comm]; exact h
      simp only [h, h', if_false, decide_False, Bool.false_eq_true, List.append_nil]

theorem initMetric_eq (cmps : Component) (mask : Nat) (name : String)
    (hP : ∀ x, mask &&& x ≠ 0 → x ||| mask = x) (s : InitState) :
    CMetricEvaluator.initMetric cmps (cmps.length - 1) ⟨name, mask, mask⟩ s
      = { c_mask := s.c_mask
          st := s.st ++ collect (cmps.length - 1 + 1)
            (fun j => decide (s.c_mask j &&& mask ≠ 0)) (entryName cmps name)
          oflag := s.oflag ++ collect (cmps.length - 1 + 1)
            (fun j => decide (s.c_mask j &&& mask ≠ 0))
            (fun j => if j < cmps.length - 1 then decide (mask &&& (cmps.at j).2 ≠ 0) else true)
          avg := s.avg ++ collect (cmps.length - 1 + 1)
            (fun j => decide (s.c_mask j &&& mask ≠ 0)) (fun _ => (0 : ℝ)) } := by
  unfold CMetricEvaluator.initMetric
  simp only []
  rw [initMetric_planes cmps (cmps.length - 1) mask name hP s (cmps.length - 1)]
  rw [collect_succ, collect_succ, collect_succ]
  have e1 : collect (cmps.length - 1) (fun j => decide (s.c_mask j &&& mask ≠ 0))
      (entryName cmps name)
      = collect (cmps.length - 1) (fun j => decide (s.c_mask j &&& mask ≠ 0))
        (fun j => String.singleton (cmps.at j).1 ++ "-" ++ name) :=
    collect_congr _ _ _ _ (fun i hi _ => by simp [entryName, hi])
  have e2 : collect (cmps.length - 1) (fun j => decide (s.c_mask j &&& mask ≠ 0))
      (fun j => if j < cmps.length - 1 then decide (mask &&& (cmps.at j).2 ≠ 0) else true)
      = collect (cmps.length - 1) (fun j => decide (s.c_mask j &&& mask ≠ 0))
        (fun j => decide (mask &&& (cmps.at j).2 ≠ 0)) :=
    collect_congr _ _ _ _ (fun i hi _ => by simp [hi])
  rw [e1, e2]
  by_cases h : mask &&& s.c_mask (cmps.length - 1) ≠ 0
  · have h' : s.c_mask (cmps.length - 1) &&& mask ≠ 0 := by rw [Nat.land_comm]; exact h
    simp only [h, h', if_true, ne_eq, not_false_eq_true, decide_True, List.append_assoc,
      entryName, lt_self_iff_false, if_false]
  · have h' : ¬ s.c_mask (cmps.length - 1) &&& mask ≠ 0 := by rw [Nat.land_comm]; exact h
    simp only [h, h', if_false, decide_False, Bool.false_eq_true, List.append_nil]

theorem initMask_eq (cmps : Component) (c0 : Nat → Nat) (k : Nat) :
    forLoop k (fun i c_mask =>
        Function.update c_mask i ((cmps.at i).2 ||| (cmps.at (cmps.length - 1)).2)) c0
      = fun i => if i < k then (cmps.at i).2 ||| (cmps.at (cmps.length - 1)).2 else c0 i := by
  induction k with
  | zero => funext i; simp [forLoop]
  | succ k ih =>
    rw [forLoop_succ, ih]
    funext i
    by_cases hik : i = k
    · subst hik
      simp
    · rw [Function.update_noteq hik]
      have : (i < k + 1) ↔ (i < k) := by omega
      simp only [this]

/-- What `InitComputationParams` of the PSNR evaluator leaves: the masks, the
names in registration order and one zero average per name. -/
theorem InitComputationParams_PSNR (ev0 : CMetricEvaluator) (cmps : Component)
    (st : List String) (oflag : List Bool) (avg : List ℝ) :
    let r := ev0.InitComputationParams CPSNREvaluator.metrics cmps st oflag avg
    r.1.m_num_planes = cmps.length - 1
    ∧ (∀ i, r.1.c_mask i
        = if i = cmps.length - 1 then (cmps.at (cmps.length - 1)).2
          else if i < cmps.length - 1 then (cmps.at i).2 ||| (cmps.at (cmps.length - 1)).2
          else ev0.c_mask i)
    ∧ r.2.1 = st ++ collect (cmps.length - 1 + 1) (r.1.has MASK_MSE) (entryName cmps "MSE")
        ++ collect (cmps.length - 1 + 1) (r.1.has MASK_PSNR) (entryName cmps "PSNR")
        ++ collect (cmps.length - 1 + 1) (r.1.has MASK_APSNR) (entryName cmps "APSNR")
    ∧ r.2.2.2 = avg ++ collect (cmps.length - 1 + 1) (r.1.has MASK_MSE) (fun _ => (0 : ℝ))
        ++ collect (cmps.length - 1 + 1) (r.1.has MASK_PSNR) (fun _ => (0 : ℝ))
        ++ collect (cmps.length - 1 + 1) (r.1.has MASK_APSNR) (fun _ => (0 : ℝ)) := by
  intro r
  have hr : r = ev0.InitComputationParams CPSNREvaluator.metrics cmps st oflag avg := rfl
  unfold CMetricEvaluator.InitComputationParams at hr
  simp only [CPSNREvaluator.metrics, List.length_cons, List.length_nil, forLoop,
    List.getD_cons_zero, List.getD_cons_succ] at hr
  rw [initMetric_eq cmps MASK_MSE "MSE" mask_absorb_MSE,
    initMetric_eq cmps MASK_PSNR "PSNR" mask_absorb_PSNR,
    initMetric_eq cmps MASK_APSNR "APSNR" mask_absorb_APSNR, initMask_eq] at hr
  rw [hr]
  refine ⟨rfl, ?_, rfl, rfl⟩
  intro i
  simp only []
  by_cases hi : i = cmps.length - 1
  · subst hi
    simp
  · rw [Function.update_noteq hi]
    simp [hi]

/-! ## Accumulation over the frames of a run -/

theorem getElem?_block2 {α : Type} (A B C : List α) (k : Nat) (hk : k < B.length) :
    (A ++ B ++ C)[A.length + k]? = B[k]? := by
  rw [List.append_assoc, List.getElem?_append_right (by omega), Nat.add_sub_cancel_left,
    List.getElem?_append_left hk]

theorem getElem?_block3 {α : Type} (A B C D : List α) (k : Nat) (hk : k < C.length) :
    (A ++ B ++ C ++ D)[A.length + B.length + k]? = C[k]? := by
  have := getElem?_block2 (A ++ B) C D k hk
  rw [List.length_append] at this
  exact this

theorem getElem?_last3 {α : Type} (A B C : List α) (k : Nat) (hk : k < C.length) :
    (A ++ B ++ C)[A.length + B.length + k]? = C[k]? := by
  have _ := hk
  rw [List.getElem?_append_right (by rw [List.length_append]; omega), List.length_append,
    Nat.add_sub_cancel_left]

theorem addAt_getElem? (avg : List ℝ) (j : Nat) (x : ℝ) (k : Nat) :
    (addAt avg j x)[k]? = if k = j then avg[k]?.map (fun a => a + x) else avg[k]? := by
  induction avg generalizing j k with
  | nil => simp [addAt]
  | cons a as ih =>
    cases j with
    | zero =>
      cases k with
      | zero => simp [addAt]
      | succ k => simp [addAt]
    | succ j =>
      cases k with
      | zero => simp [addAt]
      | succ k =>
        simp only [addAt, List.getElem?_cons_succ, ih, Nat.succ_eq_add_one,
          Nat.add_right_cancel_iff]

theorem addList_getElem? (avg : List ℝ) (j : Nat) (xs : List ℝ) (k : Nat) :
    (addList avg j xs)[k]?
      = if j ≤ k ∧ k < j + xs.length then avg[k]?.map (fun a => a + xs.getD (k - j) 0)
        else avg[k]? := by
  induction xs generalizing avg j with
  | nil =>
    have : ¬ (j ≤ k ∧ k < j + ([] : List ℝ).length) := by simp
    rw [if_neg this]
    rfl
  | cons x xs ih =>
    rw [addList, ih, addAt_getElem?]
    by_cases h1 : k = j
    · subst h1
      simp
    · by_cases h2 : j + 1 ≤ k ∧ k < j + 1 + xs.length
      · have h3 : j ≤ k ∧ k < j + (x :: xs).length := by
          simp only [List.length_cons]; omega
        rw [if_pos h2, if_pos h3, if_neg h1]
        have : k - j = (k - (j + 1)) + 1 := by omega
        rw [this, List.getD_cons_succ]
      · have h3 : ¬ (j ≤ k ∧ k < j + (x :: xs).length) := by
          simp only [List.length_cons]; omega
        rw [if_neg h2, if_neg h3, if_neg h1]

theorem outIncs_blocks (ev : CMetricEvaluator) :
    CPSNREvaluator.outIncs ev
      = (collect ev.m_num_planes (ev.has MASK_MSE) (CPSNREvaluator.planeSums ev)
          ++ (if ev.has MASK_MSE ev.m_num_planes
              then [CPSNREvaluator.finalSums ev ev.m_num_planes] else []))
        ++ collect (ev.m_num_planes + 1) (ev.has MASK_PSNR) (CPSNREvaluator.finalSums ev)
        ++ collect (ev.m_num_planes + 1) (ev.has MASK_APSNR)
            (fun i => MSEToPSNR (CPSNREvaluator.finalSums ev i)
              (MaxError ev.m_i1.GetBitDepth)) := rfl

/-- Number of values one call of `ComputeMetrics` appends. -/
theorem outIncs_length (ev : CMetricEvaluator) :
    (CPSNREvaluator.outIncs ev).length
      = ((List.range (ev.m_num_planes + 1)).filter (ev.has MASK_MSE)).length
        + ((List.range (ev.m_num_planes + 1)).filter (ev.has MASK_PSNR)).length
        + ((List.range (ev.m_num_planes + 1)).filter (ev.has MASK_APSNR)).length := by
  rw [outIncs_blocks, List.length_append, List.length_append, mse_block_length,
    collect_length_filter, collect_length_filter]

theorem outVals_length (ev : CMetricEvaluator) :
    (CPSNREvaluator.outVals ev).length = (CPSNREvaluator.outIncs ev).length := by
  unfold CPSNREvaluator.outVals CPSNREvaluator.outIncs
  simp only [List.length_append, collect_length_filter]

theorem outIncs_psnr (ev : CMetricEvaluator) (i : Nat) (hi : i ≤ ev.m_num_planes)
    (hm : ev.has MASK_PSNR i = true) :
    (CPSNREvaluator.outIncs ev)[CPSNREvaluator.psnrIndex ev i]?
      = some (CPSNREvaluator.finalSums ev i) := by
  rw [outIncs_blocks]
  unfold CPSNREvaluator.psnrIndex
  rw [← mse_block_length ev, getElem?_block2 _ _ _ _
    (by rw [collect_length_filter]
        exact filter_range_length_lt _ i _ (by omega) hm)]
  exact collect_getElem? _ _ _ i (by omega) hm

theorem outIncs_apsnr (ev : CMetricEvaluator) (i : Nat) (hi : i ≤ ev.m_num_planes)
    (hm : ev.has MASK_APSNR i = true) :
    (CPSNREvaluator.outIncs ev)[CPSNREvaluator.apsnrIndex ev i]?
      = some (MSEToPSNR (CPSNREvaluator.finalSums ev i) (MaxError ev.m_i1.GetBitDepth)) := by
  rw [outIncs_blocks]
  unfold CPSNREvaluator.apsnrIndex
  rw [← mse_block_length ev,
    ← collect_length_filter (ev.m_num_planes + 1) (ev.has MASK_PSNR)
      (CPSNREvaluator.finalSums ev),
    getElem?_last3 _ _ _ _
      (by rw [collect_length_filter]
          exact filter_range_length_lt _ i _ (by omega) hm)]
  exact collect_getElem? _ _ _ i (by omega) hm

theorem runEvaluators_cons (c : Compute) (cs : List Compute) (val avg : List ℝ) :
    runEvaluators (c :: cs) val avg = runEvaluators cs (c val avg).1 (c val avg).2 := rfl

theorem runEvaluators_appendsOnly (cs : List Compute) (hcs : ∀ c ∈ cs, c.appendsOnly)
    (val avg : List ℝ) (k : Nat) :
    val.length ≤ (runEvaluators cs val avg).1.length
    ∧ (k < val.length → (runEvaluators cs val avg).2[k]? = avg[k]?) := by
  induction cs generalizing val avg with
  | nil => exact ⟨le_refl _, fun _ => rfl⟩
  | cons c cs ih =>
    rw [runEvaluators_cons]
    have hc := hcs c (List.mem_cons_self c cs) val avg k
    have ih' := ih (fun c' hc' => hcs c' (List.mem_cons_of_mem c hc')) (c val avg).1
      (c val avg).2
    refine ⟨le_trans hc.1 ih'.1, fun hk => ?_⟩
    rw [ih'.2 (lt_of_lt_of_le hk hc.1)]
    exact hc.2 hk

/-- One iteration of the frame loop adds the increments of the `PSNR` evaluator
to its entries of `avg_values`. -/
theorem frame_step (ev : CMetricEvaluator) (cs : List Compute)
    (hcs : ∀ c ∈ cs, c.appendsOnly) (avg : List ℝ) (k : Nat)
    (hk : k < (CPSNREvaluator.outIncs ev).length) :
    (runEvaluators (CPSNREvaluator.ComputeMetrics ev :: cs) [] avg).2[k]?
      = avg[k]?.map (fun a => a + (CPSNREvaluator.outIncs ev).getD k 0) := by
  rw [runEvaluators_cons]
  have h := runEvaluators_appendsOnly cs hcs (CPSNREvaluator.ComputeMetrics ev [] avg).1
    (CPSNREvaluator.ComputeMetrics ev [] avg).2 k
  have hlen : k < (CPSNREvaluator.ComputeMetrics ev [] avg).1.length := by
    rw [ComputeMetrics_val, List.nil_append, outVals_length]
    exact hk
  rw [h.2 hlen, ComputeMetrics_avg, addList_getElem?]
  have hc : 0 ≤ k ∧ k < 0 + (CPSNREvaluator.outIncs ev).length := ⟨Nat.zero_le _, by omega⟩
  simp only [List.length_nil]
  rw [if_pos hc, Nat.sub_zero]

theorem outIncs_length_onFrame (ev : CMetricEvaluator) (fr : CReader × CReader) :
    (CPSNREvaluator.outIncs (ev.onFrame fr)).length = (CPSNREvaluator.outIncs ev).length := by
  rw [outIncs_length, outIncs_length]
  rfl

theorem mainLoop_fold (ev : CMetricEvaluator)
    (frames : List ((CReader × CReader) × List Compute))
    (hcs : ∀ fr ∈ frames, ∀ c ∈ fr.2, Compute.appendsOnly c) (k : Nat)
    (hk : k < (CPSNREvaluator.outIncs ev).length) (acc : List (List ℝ) × List ℝ) :
    ((frames.map (frameCalls ev)).foldl (fun s mevs =>
        let r := runEvaluators mevs [] s.2
        (s.1 ++ [r.1], r.2)) acc).2[k]?
      = acc.2[k]?.map (fun a => a + (frames.map (fun fr =>
          (CPSNREvaluator.outIncs (ev.onFrame fr.1)).getD k 0)).sum) := by
  induction frames generalizing acc with
  | nil =>
    simp only [List.map_nil, List.foldl_nil, List.sum_nil, add_zero]
    cases acc.2[k]? <;> rfl
  | cons fr frs ih =>
    rw [List.map_cons, List.foldl_cons, ih (fun f hf => hcs f (List.mem_cons_of_mem fr hf))]
    simp only [frameCalls]
    rw [frame_step (ev.onFrame fr.1) fr.2 (hcs fr (List.mem_cons_self fr frs)) acc.2 k
      (by rw [outIncs_length_onFrame]; exact hk)]
    rw [List.map_cons, List.sum_cons]
    cases acc.2[k]? with
    | none => rfl
    | some a =>
      simp only [Option.map_some']
      congr 1
      ring

/-- Entries of `avg_values` after the frame loop of `main`. -/
theorem mainLoop_avg (ev : CMetricEvaluator)
    (frames : List ((CReader × CReader) × List Compute))
    (hcs : ∀ fr ∈ frames, ∀ c ∈ fr.2, Compute.appendsOnly c) (avg : List ℝ) (k : Nat)
    (hk : k < (CPSNREvaluator.outIncs ev).length) :
    (mainLoop (frames.map (frameCalls ev)) avg).2[k]?
      = avg[k]?.map (fun a => a + (frames.map (fun fr =>
          (CPSNREvaluator.outIncs (ev.onFrame fr.1)).getD k 0)).sum) :=
  mainLoop_fold ev frames hcs k hk ([], avg)

theorem averageLoop_getElem? (g : Nat → ℝ → ℝ) (l : List ℝ) (m k : Nat) :
    (forLoop m (fun i l => l.set i (g i (l.getD i 0))) l)[k]?
      = if k < m then l[k]?.map (g k) else l[k]? := by
  induction m with
  | zero => simp [forLoop]
  | succ m ih =>
    rw [forLoop_succ, List.getElem?_set]
    have hlen : ∀ n, (forLoop n (fun i l => l.set i (g i (l.getD i 0))) l).length = l.length := by
      intro n
      induction n with
      | zero => rfl
      | succ n ihn => rw [forLoop_succ, List.length_set, ihn]
    by_cases hkm : m = k
    · subst hkm
      rw [if_pos rfl, if_pos (Nat.lt_succ_self m), hlen]
      have hmm : (forLoop m (fun i l => l.set i (g i (l.getD i 0))) l)[m]? = l[m]? := by
        rw [ih, if_neg (Nat.lt_irrefl m)]
      rw [List.getD_eq_getElem?_getD, hmm]
      by_cases hl : m < l.length
      · rw [if_pos hl, List.getElem?_eq_getElem hl]
        rfl
      · rw [if_neg hl, List.getElem?_eq_none (by omega)]
        rfl
    · rw [if_neg hkm, ih]
      have : (k < m + 1) ↔ (k < m) := by omega
      simp only [this]

theorem mainAverage_getElem? (names : List String) (avg : List ℝ) (N : Nat) (bd : EBitDepth)
    (k : Nat) :
    (mainAverage names avg N bd)[k]? = avg[k]?.map (averageEntry (names.getD k "") N bd) := by
  unfold mainAverage
  simp only []
  have hbody : (fun (i : Nat) (avg_values : List ℝ) =>
      if hasSubstr (names.getD i "") "PSNR" = true ∧ hasSubstr (names.getD i "") "APSNR" = false
      then avg_values.set i (MSEToPSNR (avg_values.getD i 0 * (1 / (N : ℝ))) (MaxError bd))
      else avg_values.set i (avg_values.getD i 0 * (1 / (N : ℝ))))
      = (fun (i : Nat) (l : List ℝ) =>
          l.set i (averageEntry (names.getD i "") N bd (l.getD i 0))) := by
    funext i l
    unfold averageEntry
    split_ifs <;> rfl
  rw [hbody, averageLoop_getElem? (fun i => averageEntry (names.getD i "") N bd)]
  by_cases hk : k < avg.length
  · rw [if_pos hk]
  · rw [if_neg hk, List.getElem?_eq_none (by omega)]
    rfl

theorem entryName_PSNR (cmps : Component) (i : Nat) :
    hasSubstr (entryName cmps "PSNR" i) "PSNR" = true
    ∧ hasSubstr (entryName cmps "PSNR" i) "APSNR" = false := by
  unfold entryName
  split_ifs
  · constructor <;>
      simp [hasSubstr, String.singleton, List.tails, List.isPrefixOf]
  · constructor <;> decide

theorem entryName_APSNR (cmps : Component) (i : Nat) :
    hasSubstr (entryName cmps "APSNR" i) "APSNR" = true := by
  unfold entryName
  split_ifs
  · simp [hasSubstr, String.singleton, List.tails, List.isPrefixOf]
  · decide

theorem psnrIndex_lt (ev : CMetricEvaluator) (i : Nat) (hi : i ≤ ev.m_num_planes)
    (hm : ev.has MASK_PSNR i = true) :
    CPSNREvaluator.psnrIndex ev i < (CPSNREvaluator.outIncs ev).length := by
  rw [outIncs_length]
  unfold CPSNREvaluator.psnrIndex
  have := filter_range_length_lt (ev.has MASK_PSNR) i (ev.m_num_planes + 1) (by omega) hm
  omega

theorem apsnrIndex_lt (ev : CMetricEvaluator) (i : Nat) (hi : i ≤ ev.m_num_planes)
    (hm : ev.has MASK_APSNR i = true) :
    CPSNREvaluator.apsnrIndex ev i < (CPSNREvaluator.outIncs ev).length := by
  rw [outIncs_length]
  unfold CPSNREvaluator.apsnrIndex
  have := filter_range_length_lt (ev.has MASK_APSNR) i (ev.m_num_planes + 1) (by omega) hm
  omega

/-- Names and initial averages at the position of a PSNR or APSNR entry. -/
theorem init_entries (ev0 : CMetricEvaluator) (cmps : Component) (otherNames : List String)
    (otherAvg : List ℝ) (i : Nat) :
    let init := ev0.InitComputationParams CPSNREvaluator.metrics cmps [] [] []
    i ≤ init.1.m_num_planes →
    (init.1.has MASK_PSNR i = true →
      (init.2.1 ++ otherNames)[CPSNREvaluator.psnrIndex init.1 i]?
          = some (entryName cmps "PSNR" i)
      ∧ (init.2.2.2 ++ otherAvg)[CPSNREvaluator.psnrIndex init.1 i]? = some 0)
    ∧ (init.1.has MASK_APSNR i = true →
      (init.2.1 ++ otherNames)[CPSNREvaluator.apsnrIndex init.1 i]?
          = some (entryName cmps "APSNR" i)
      ∧ (init.2.2.2 ++ otherAvg)[CPSNREvaluator.apsnrIndex init.1 i]? = some 0) := by
  intro init hi
  obtain ⟨hn, _, hnames, havg⟩ := InitComputationParams_PSNR ev0 cmps [] [] []
  have hnames' : init.2.1 = _ := hnames
  have havg' : init.2.2.2 = _ := havg
  have hn' : init.1.m_num_planes = cmps.length - 1 := hn
  rw [hnames', havg']
  simp only [List.nil_append]
  rw [← hn']
  constructor
  · intro hm
    have hlt := filter_range_length_lt (init.1.has MASK_PSNR) i (init.1.m_num_planes + 1)
      (by omega) hm
    unfold CPSNREvaluator.psnrIndex
    constructor
    · rw [← collect_length_filter (init.1.m_num_planes + 1) (init.1.has MASK_MSE)
          (entryName cmps "MSE"), List.append_assoc _ _ otherNames,
        getElem?_block2 _ _ _ _ (by rw [collect_length_filter]; exact hlt)]
      exact collect_getElem? _ _ _ i (by omega) hm
    · rw [← collect_length_filter (init.1.m_num_planes + 1) (init.1.has MASK_MSE)
          (fun _ => (0 : ℝ)), List.append_assoc _ _ otherAvg,
        getElem?_block2 _ _ _ _ (by rw [collect_length_filter]; exact hlt)]
      exact collect_getElem? _ _ _ i (by omega) hm
  · intro hm
    have hlt := filter_range_length_lt (init.1.has MASK_APSNR) i (init.1.m_num_planes + 1)
      (by omega) hm
    unfold CPSNREvaluator.apsnrIndex
    constructor
    · rw [← collect_length_filter (init.1.m_num_planes + 1) (init.1.has MASK_MSE)
          (entryName cmps "MSE"),
        ← collect_length_filter (init.1.m_num_planes + 1) (init.1.has MASK_PSNR)
          (entryName cmps "PSNR"),
        getElem?_block3 _ _ _ _ _ (by rw [collect_length_filter]; exact hlt)]
      exact collect_getElem? _ _ _ i (by omega) hm
    · rw [← collect_length_filter (init.1.m_num_planes + 1) (init.1.has MASK_MSE)
          (fun _ => (0 : ℝ)),
        ← collect_length_filter (init.1.m_num_planes + 1) (init.1.has MASK_PSNR)
          (fun _ => (0 : ℝ)),
        getElem?_block3 _ _ _ _ _ (by rw [collect_length_filter]; exact hlt)]
      exact collect_getElem? _ _ _ i (by omega) hm

/-- C2: `MSEToPSNR(m, MaxErr)` is `-1` for `m < 0`, `1000` for `m = 0`, and
`min(10*log10(MaxErr^2 / m), 1000)` for `m > 0`, for every real `m` and every
`MaxErr > 0`. -/
theorem C2_MSEToPSNR_cases (m MaxErr : ℝ) (hM : 0 < MaxErr) :
    (m < 0 → MSEToPSNR m MaxErr = -1) ∧
    (m = 0 → MSEToPSNR m MaxErr = 1000) ∧
    (0 < m → MSEToPSNR m MaxErr = min (10 * Real.logb 10 (MaxErr ^ 2 / m)) 1000) := by
  have _ := hM
  refine ⟨fun h => ?_, fun h => ?_, fun h => ?_⟩
  · simp [MSEToPSNR, h]
  · subst h
    simp [MSEToPSNR, MAX_PSNR_eq]
  · have h1 : ¬ m < 0 := not_lt.mpr h.le
    have h2 : ¬ m = 0 := ne_of_gt h
    simp only [MSEToPSNR, h1, h2, if_false, stdMin_eq_min, MAX_PSNR_eq, pow_two]

theorem C2_MSEToPSNR_cases_witness :
    (0 : ℝ) < 255 ∧ MSEToPSNR 0 255 = 1000 :=
  ⟨by norm_num, (C2_MSEToPSNR_cases 0 255 (by norm_num)).2.1 rfl⟩

/-- C1: for two 8-bit planes of equal size `W x H` (`W, H >= 1`) the plane MSE
that `CPSNREvaluator::ComputeMetrics` appends is the sum over all pixels of
`(a - b)^2` divided by `W*H`, and it is the value of `mclNormDiff_L2_8u_C1R`
(the square root of that sum) squared and divided by `W*H`. -/
theorem C1_plane_mse (ev : CMetricEvaluator) (val avg : List ℝ) (i W H : Nat)
    (hi : i < ev.m_num_planes) (hmask : ev.c_mask i &&& MASK_MSE ≠ 0)
    (hbd : ev.m_i1.GetBitDepth = .D008)
    (hroi1 : (ev.m_i1.GetFrame i).roi = ⟨W, H⟩) (hroi2 : (ev.m_i2.GetFrame i).roi = ⟨W, H⟩)
    (hW : 1 ≤ W) (hH : 1 ≤ H) :
    let f1 := ev.m_i1.GetFrame i
    let f2 := ev.m_i2.GetFrame i
    let S : ℝ := ((sumSqDiff (sample8 ev.m_i1.mem f1) (sample8 ev.m_i2.mem f2) W H : Int) : ℝ)
    let norm := mclNormDiff_L2_8u_C1R ev.m_i1.mem f1.data f1.step ev.m_i2.mem f2.data f2.step
      ⟨W, H⟩ 0
    (CPSNREvaluator.ComputeMetrics ev val avg).1[val.length + CPSNREvaluator.mseIndex ev i]?
        = some (S / ((W : ℝ) * (H : ℝ)))
      ∧ norm = (.MCL_ERR_NONE, Real.sqrt S)
      ∧ S / ((W : ℝ) * (H : ℝ)) = norm.2 * norm.2 / ((W * H : Nat) : ℝ) := by
  have _ := hroi2
  intro f1 f2 S norm
  have hm : ev.has MASK_MSE i = true := (has_iff ev MASK_MSE i).mpr hmask
  have hnorm : norm = (.MCL_ERR_NONE, Real.sqrt S) := norm8_eq_sqrt _ _ _ _ _ _ _ hW hH
  refine ⟨?_, hnorm, ?_⟩
  · rw [outVals_mse ev val avg i hi hm, planeSums_of_has ev i hi hm,
      planeValue_D008 ev i W H 0 hbd hroi1 hW hH]
  · rw [hnorm]
    simp only []
    rw [Real.mul_self_sqrt (sumSqDiff_cast_nonneg _ _ W H)]
    push_cast
    rfl

theorem C1_plane_mse_witness :
    (0 < S2_evaluator.m_num_planes ∧ S2_evaluator.c_mask 0 &&& MASK_MSE ≠ 0
      ∧ S2_evaluator.m_i1.GetBitDepth = .D008
      ∧ (S2_evaluator.m_i1.GetFrame 0).roi = ⟨8, 8⟩ ∧ (S2_evaluator.m_i2.GetFrame 0).roi = ⟨8, 8⟩)
    ∧ (CPSNREvaluator.ComputeMetrics S2_evaluator [] []).1[0]? = some 1 := by
  have h := (C1_plane_mse S2_evaluator [] [] 0 8 8 (by decide) (by decide) rfl rfl rfl
    (by norm_num) (by norm_num)).1
  refine ⟨⟨by decide, by decide, rfl, rfl, rfl⟩, ?_⟩
  have hS : sumSqDiff (sample8 S2_evaluator.m_i1.mem (S2_evaluator.m_i1.GetFrame 0))
      (sample8 S2_evaluator.m_i2.mem (S2_evaluator.m_i2.GetFrame 0)) 8 8 = 64 := by
    decide
  rw [hS] at h
  have hidx : ([] : List ℝ).length + CPSNREvaluator.mseIndex S2_evaluator 0 = 0 := by decide
  rw [hidx] at h
  rw [h]
  norm_num

/-- C3: for a C420 source the overall MSE of `CPSNREvaluator` is
`(4*m_y + m_u + m_v)/6`, for a C422 source `(2*m_y + m_u + m_v)/4`, where
`m_y, m_u, m_v` are the plane MSEs (the values appended for the planes); the
overall MSE and the per-frame overall PSNR appended are that combined value and
`MSEToPSNR` of it, which is not the mean of the plane PSNRs (it differs from the
mean at plane MSEs `(0, 65025, 65025)`). -/
theorem C3_overall_mse_420_422 (ev : CMetricEvaluator) (val avg : List ℝ)
    (h3 : ev.m_num_planes = 3) :
    let st := CPSNREvaluator.ComputeMetricsState ev val avg
    let out := (CPSNREvaluator.ComputeMetrics ev val avg).1
    (∀ i, i < 3 → ev.c_mask i &&& MASK_MSE ≠ 0 →
        out[val.length + CPSNREvaluator.mseIndex ev i]? = some (st.sum i))
    ∧ (get_chromaclass ev.m_i1.GetSqType = .C420 →
        st.sum 3 = (4 * st.sum 0 + st.sum 1 + st.sum 2) / 6)
    ∧ (get_chromaclass ev.m_i1.GetSqType = .C422 →
        st.sum 3 = (2 * st.sum 0 + st.sum 1 + st.sum 2) / 4)
    ∧ (ev.c_mask 3 &&& MASK_MSE ≠ 0 →
        out[val.length + CPSNREvaluator.mseIndex ev 3]? = some (st.sum 3))
    ∧ (ev.c_mask 3 &&& MASK_PSNR ≠ 0 →
        out[val.length + CPSNREvaluator.psnrIndex ev 3]?
          = some (MSEToPSNR (st.sum 3) (MaxError ev.m_i1.GetBitDepth)))
    ∧ MSEToPSNR ((4 * 0 + 65025 + 65025) / 6) 255
        ≠ (MSEToPSNR 0 255 + MSEToPSNR 65025 255 + MSEToPSNR 65025 255) / 3 := by
  intro st out
  have hsum : st.sum = CPSNREvaluator.finalSums ev := ComputeMetricsState_sum ev val avg
  have hpl : ∀ i, i < 3 → CPSNREvaluator.finalSums ev i = CPSNREvaluator.planeSums ev i :=
    fun i hi => finalSums_plane ev i (by omega) (Or.inl (by omega))
  refine ⟨?_, ?_, ?_, ?_, ?_, ?_⟩
  · intro i hi hm
    rw [hsum, hpl i hi]
    exact outVals_mse ev val avg i (by omega) ((has_iff ev MASK_MSE i).mpr hm)
  · intro hc
    rw [hsum, hpl 0 (by norm_num), hpl 1 (by norm_num), hpl 2 (by norm_num),
      finalSums_C420 ev hc, Function.update_same]
  · intro hc
    rw [hsum, hpl 0 (by norm_num), hpl 1 (by norm_num), hpl 2 (by norm_num),
      finalSums_C422 ev hc, Function.update_same]
  · intro hm
    have := outVals_mse_overall ev val avg (by rw [h3]; exact (has_iff ev MASK_MSE 3).mpr hm)
    rw [h3] at this
    rw [hsum]
    exact this
  · intro hm
    rw [hsum]
    exact outVals_psnr ev val avg 3 (by omega) ((has_iff ev MASK_PSNR 3).mpr hm)
  · rw [MSEToPSNR_zero, MSEToPSNR_pos _ _ (by norm_num), MSEToPSNR_pos _ _ (by norm_num)]
    have h1 : (255 : ℝ) * 255 / 65025 = 1 := by norm_num
    have h2 : (255 : ℝ) * 255 / ((4 * 0 + 65025 + 65025) / 6) = 3 := by norm_num
    rw [h1, h2, Real.logb_one]
    have h3' : Real.logb 10 3 < 1 := by
      rw [Real.logb_lt_iff_lt_rpow (by norm_num) (by norm_num)]
      norm_num
    have h4 : min (10 * Real.logb 10 3) 1000 ≤ 10 * Real.logb 10 3 := min_le_left _ _
    have h5 : min (10 * (0 : ℝ)) 1000 = 0 := by norm_num
    rw [h5]
    intro heq
    have : min (10 * Real.logb 10 3) 1000 < 10 := by linarith
    rw [heq] at this
    norm_num at this

theorem C3_overall_mse_420_422_witness :
    S2_evaluator.m_num_planes = 3
    ∧ (CPSNREvaluator.ComputeMetricsState S2_evaluator [] []).sum 3
        = (4 * (CPSNREvaluator.ComputeMetricsState S2_evaluator [] []).sum 0
            + (CPSNREvaluator.ComputeMetricsState S2_evaluator [] []).sum 1
            + (CPSNREvaluator.ComputeMetricsState S2_evaluator [] []).sum 2) / 6 :=
  ⟨rfl, (C3_overall_mse_420_422 S2_evaluator [] [] rfl).2.1 rfl⟩

/-- Plane MSE of plane `i` of the evaluators `C4_evaluator` with all masks
set. -/
theorem plane_value_444_fixture (type : ESequenceType) (cmps : Component) (i : Nat) (S : Int)
    (hi : i < cmps.length - 1)
    (hm : ((C4_evaluator type).InitComputationParams CPSNREvaluator.metrics cmps [] []
      []).1.has MASK_MSE i = true)
    (hS : sumSqDiff (sample8 (C4_reader type 0).mem ((C4_reader type 0).GetFrame i))
      (sample8 (C4_reader type 1).mem ((C4_reader type 1).GetFrame i)) 2 2 = S)
    (hc : get_chromaclass type = .C444) :
    (CPSNREvaluator.ComputeMetricsState
      ((C4_evaluator type).InitComputationParams CPSNREvaluator.metrics cmps [] [] []).1
      [] []).sum i = (S : ℝ) / 4 := by
  have h1 := finalSums_plane
    ((C4_evaluator type).InitComputationParams CPSNREvaluator.metrics cmps [] [] []).1 i hi
    (Or.inr hc)
  have h2 := planeSums_of_has
    ((C4_evaluator type).InitComputationParams CPSNREvaluator.metrics cmps [] [] []).1 i hi hm
  have h3 := planeValue_D008
    ((C4_evaluator type).InitComputationParams CPSNREvaluator.metrics cmps [] [] []).1 i 2 2 0
    rfl rfl (by norm_num) (by norm_num)
  rw [ComputeMetricsState_sum, h1, h2, h3]
  have : sumSqDiff
      (sample8 ((C4_evaluator type).InitComputationParams CPSNREvaluator.metrics cmps [] []
        []).1.m_i1.mem
        (((C4_evaluator type).InitComputationParams CPSNREvaluator.metrics cmps [] []
          []).1.m_i1.GetFrame i))
      (sample8 ((C4_evaluator type).InitComputationParams CPSNREvaluator.metrics cmps [] []
        []).1.m_i2.mem
        (((C4_evaluator type).InitComputationParams CPSNREvaluator.metrics cmps [] []
          []).1.m_i2.GetFrame i)) 2 2 = S := hS
  rw [this]
  norm_num

/-- C4: for a C444 source the overall MSE of `CPSNREvaluator` is the sum of the
MSEs of the selectable planes divided by their number: `(m0 + m1 + m2)/3` for
YUV 4:4:4 and for RGB without `-alpha`, `(m0 + m1 + m2 + m3)/4` for RGB with
`-alpha`; the `m_i` are the plane MSEs appended for the planes and the quotient
is the overall MSE appended. -/
theorem C4_overall_mse_444 (ev0 : CMetricEvaluator) (cmps : Component) (st : List String)
    (oflag : List Bool) (avg0 val avg : List ℝ)
    (h444 : get_chromaclass ev0.m_i1.GetSqType = .C444) :
    let ev := (ev0.InitComputationParams CPSNREvaluator.metrics cmps st oflag avg0).1
    let s := (CPSNREvaluator.ComputeMetricsState ev val avg).sum
    let out := (CPSNREvaluator.ComputeMetrics ev val avg).1
    (∀ i, i < ev.m_num_planes → ev.c_mask i &&& MASK_MSE ≠ 0 →
        out[val.length + CPSNREvaluator.mseIndex ev i]? = some (s i))
    ∧ (ev.c_mask ev.m_num_planes &&& MASK_MSE ≠ 0 →
        out[val.length + CPSNREvaluator.mseIndex ev ev.m_num_planes]?
          = some (s ev.m_num_planes))
    ∧ (cmps.map Prod.fst = (INIT_YUV []).map Prod.fst →
        ev.m_num_planes = 3 ∧ s 3 = (s 0 + s 1 + s 2) / 3)
    ∧ (cmps.map Prod.fst = (INIT_RGB [] false).map Prod.fst →
        ev.m_num_planes = 3 ∧ s 3 = (s 0 + s 1 + s 2) / 3)
    ∧ (cmps.map Prod.fst = (INIT_RGB [] true).map Prod.fst →
        ev.m_num_planes = 4 ∧ s 4 = (s 0 + s 1 + s 2 + s 3) / 4) := by
  intro ev s out
  have hs : s = CPSNREvaluator.finalSums ev := ComputeMetricsState_sum ev val avg
  have hc : get_chromaclass ev.m_i1.GetSqType = .C444 := h444
  have hn : ev.m_num_planes = cmps.length - 1 := rfl
  have hpl : ∀ i, i < ev.m_num_planes →
      CPSNREvaluator.finalSums ev i = CPSNREvaluator.planeSums ev i :=
    fun i hi => finalSums_plane ev i hi (Or.inr hc)
  have h3 : ev.m_num_planes = 3 → s 3 = (s 0 + s 1 + s 2) / 3 := by
    intro hn3
    rw [hs, hpl 0 (by omega), hpl 1 (by omega), hpl 2 (by omega), finalSums_C444 ev hc, hn3,
      Function.update_same, planeSums_of_ge ev 3 (by omega)]
    norm_num
  have h4 : ev.m_num_planes = 4 → s 4 = (s 0 + s 1 + s 2 + s 3) / 4 := by
    intro hn4
    rw [hs, hpl 0 (by omega), hpl 1 (by omega), hpl 2 (by omega), hpl 3 (by omega),
      finalSums_C444 ev hc, hn4, Function.update_same]
    norm_num
  refine ⟨?_, ?_, ?_, ?_, ?_⟩
  · intro i hi hm
    rw [hs, hpl i hi]
    exact outVals_mse ev val avg i hi ((has_iff ev MASK_MSE i).mpr hm)
  · intro hm
    rw [hs]
    exact outVals_mse_overall ev val avg ((has_iff ev MASK_MSE _).mpr hm)
  · intro hl
    have hlen : cmps.length = 4 := by
      have := congrArg List.length hl
      simpa [INIT_YUV] using this
    have hn3 : ev.m_num_planes = 3 := by rw [hn, hlen]
    exact ⟨hn3, h3 hn3⟩
  · intro hl
    have hlen : cmps.length = 4 := by
      have := congrArg List.length hl
      simpa [INIT_RGB] using this
    have hn3 : ev.m_num_planes = 3 := by rw [hn, hlen]
    exact ⟨hn3, h3 hn3⟩
  · intro hl
    have hlen : cmps.length = 5 := by
      have := congrArg List.length hl
      simpa [INIT_RGB] using this
    have hn4 : ev.m_num_planes = 4 := by rw [hn, hlen]
    exact ⟨hn4, h4 hn4⟩

theorem C4_overall_mse_444_witness :
    get_chromaclass (C4_evaluator .I444P).m_i1.GetSqType = .C444
    ∧ get_chromaclass (C4_evaluator .RGB32P).m_i1.GetSqType = .C444
    ∧ C4_cmps_yuv.map Prod.fst = (INIT_YUV []).map Prod.fst
    ∧ C4_cmps_rgba.map Prod.fst = (INIT_RGB [] true).map Prod.fst
    ∧ (CPSNREvaluator.ComputeMetricsState
          ((C4_evaluator .I444P).InitComputationParams CPSNREvaluator.metrics C4_cmps_yuv [] []
            []).1 [] []).sum 0 = 1
    ∧ (CPSNREvaluator.ComputeMetricsState
          ((C4_evaluator .I444P).InitComputationParams CPSNREvaluator.metrics C4_cmps_yuv [] []
            []).1 [] []).sum 1 = 4
    ∧ (CPSNREvaluator.ComputeMetricsState
          ((C4_evaluator .I444P).InitComputationParams CPSNREvaluator.metrics C4_cmps_yuv [] []
            []).1 [] []).sum 2 = 9
    ∧ (CPSNREvaluator.ComputeMetricsState
          ((C4_evaluator .I444P).InitComputationParams CPSNREvaluator.metrics C4_cmps_yuv [] []
            []).1 [] []).sum 3 = 14 / 3
    ∧ (CPSNREvaluator.ComputeMetricsState
          ((C4_evaluator .RGB32P).InitComputationParams CPSNREvaluator.metrics C4_cmps_rgba []
            [] []).1 [] []).sum 3 = 16
    ∧ (CPSNREvaluator.ComputeMetricsState
          ((C4_evaluator .RGB32P).InitComputationParams CPSNREvaluator.metrics C4_cmps_rgba []
            [] []).1 [] []).sum 4 = 30 / 4 := by
  have y0 := plane_value_444_fixture .I444P C4_cmps_yuv 0 4 (by decide) (by decide) (by decide) rfl
  have y1 := plane_value_444_fixture .I444P C4_cmps_yuv 1 16 (by decide) (by decide) (by decide) rfl
  have y2 := plane_value_444_fixture .I444P C4_cmps_yuv 2 36 (by decide) (by decide) (by decide) rfl
  have r0 := plane_value_444_fixture .RGB32P C4_cmps_rgba 0 4 (by decide) (by decide) (by decide) rfl
  have r1 := plane_value_444_fixture .RGB32P C4_cmps_rgba 1 16 (by decide) (by decide) (by decide) rfl
  have r2 := plane_value_444_fixture .RGB32P C4_cmps_rgba 2 36 (by decide) (by decide) (by decide) rfl
  have r3 := plane_value_444_fixture .RGB32P C4_cmps_rgba 3 64 (by decide) (by decide) (by decide) rfl
  have hy := ((C4_overall_mse_444 (C4_evaluator .I444P) C4_cmps_yuv [] [] [] [] [] rfl).2.2.1
    rfl).2
  have hr := ((C4_overall_mse_444 (C4_evaluator .RGB32P) C4_cmps_rgba [] [] [] [] []
    rfl).2.2.2.2 rfl).2
  simp only [] at hy hr
  rw [y0, y1, y2] at hy
  rw [r0, r1, r2, r3] at hr
  refine ⟨rfl, rfl, rfl, rfl, ?_, ?_, ?_, ?_, ?_, ?_⟩
  · rw [y0]; norm_num
  · rw [y1]; norm_num
  · rw [y2]; norm_num
  · rw [hy]; norm_num
  · rw [r3]; norm_num
  · rw [hr]; norm_num

/-- C6: a plane of any size `W x H` (`W, H >= 1`, 8-bit or 16-bit container)
compared against a plane with the same samples gives `mclNormDiff_L2 = 0` (with
status `MCL_ERR_NONE` for the bit depths `D008` and `D010` the dispatcher
serves), plane MSE `0` and a per-frame PSNR value of exactly `1000`. -/
theorem C6_identity (ev : CMetricEvaluator) (val avg : List ℝ) (i W H : Nat)
    (hi : i < ev.m_num_planes)
    (hn : ev.m_num_planes ≤ 3 ∨ get_chromaclass ev.m_i1.GetSqType = .C444)
    (hroi : (ev.m_i1.GetFrame i).roi = ⟨W, H⟩) (hW : 1 ≤ W) (hH : 1 ≤ H)
    (hsame : ∀ x y, x < W → y < H →
      sampleAt ev.m_i1.GetBitDepth ev.m_i1.mem (ev.m_i1.GetFrame i) x y
        = sampleAt ev.m_i1.GetBitDepth ev.m_i2.mem (ev.m_i2.GetFrame i) x y) :
    let f1 := ev.m_i1.GetFrame i
    let f2 := ev.m_i2.GetFrame i
    let out := (CPSNREvaluator.ComputeMetrics ev val avg).1
    let norm := mclNormDiff_L2_C1R ev.m_i1.mem f1.data f1.step ev.m_i2.mem f2.data f2.step
      ⟨W, H⟩ 0 ev.m_i1.GetBitDepth
    norm.2 = 0
    ∧ (ev.m_i1.GetBitDepth = .D008 ∨ ev.m_i1.GetBitDepth = .D010 → norm.1 = .MCL_ERR_NONE)
    ∧ (ev.c_mask i &&& MASK_MSE ≠ 0 →
        out[val.length + CPSNREvaluator.mseIndex ev i]? = some 0)
    ∧ (ev.c_mask i &&& MASK_PSNR ≠ 0 →
        out[val.length + CPSNREvaluator.psnrIndex ev i]? = some 1000) := by
  intro f1 f2 out norm
  have hnorm : norm.2 = 0
      ∧ (ev.m_i1.GetBitDepth = .D008 ∨ ev.m_i1.GetBitDepth = .D010
          → norm.1 = .MCL_ERR_NONE) := by
    show (mclNormDiff_L2_C1R ev.m_i1.mem f1.data f1.step ev.m_i2.mem f2.data f2.step
        ⟨W, H⟩ 0 ev.m_i1.GetBitDepth).2 = 0
      ∧ (ev.m_i1.GetBitDepth = .D008 ∨ ev.m_i1.GetBitDepth = .D010
          → (mclNormDiff_L2_C1R ev.m_i1.mem f1.data f1.step ev.m_i2.mem f2.data f2.step
              ⟨W, H⟩ 0 ev.m_i1.GetBitDepth).1 = .MCL_ERR_NONE)
    cases hbd : ev.m_i1.GetBitDepth with
    | D008 =>
      rw [hbd] at hsame
      have := norm8_of_same _ _ _ _ _ _ (0 : ℝ) hW hH hsame
      simp only [mclNormDiff_L2_C1R, this, implies_true, and_self]
    | D010 =>
      rw [hbd] at hsame
      have := norm16_of_same _ _ _ _ _ _ (0 : ℝ) hW hH hsame
      simp only [mclNormDiff_L2_C1R, this, implies_true, and_self]
    | D012 => simp [mclNormDiff_L2_C1R]
    | D016 => simp [mclNormDiff_L2_C1R]
  have hpv : CPSNREvaluator.planeValue ev i 0 = 0 := by
    unfold CPSNREvaluator.planeValue
    simp only [hroi]
    have h2 : (mclNormDiff_L2_C1R ev.m_i1.mem (ev.m_i1.GetFrame i).data
        (ev.m_i1.GetFrame i).step ev.m_i2.mem (ev.m_i2.GetFrame i).data
        (ev.m_i2.GetFrame i).step ⟨W, H⟩ 0 ev.m_i1.GetBitDepth).2 = 0 := hnorm.1
    rw [h2]
    simp
  have hps : CPSNREvaluator.planeSums ev i = 0 := by
    unfold CPSNREvaluator.planeSums
    split_ifs
    · exact hpv
    · rfl
  refine ⟨hnorm.1, hnorm.2, ?_, ?_⟩
  · intro hm
    rw [outVals_mse ev val avg i hi ((has_iff ev MASK_MSE i).mpr hm), hps]
  · intro hm
    rw [outVals_psnr ev val avg i (by omega) ((has_iff ev MASK_PSNR i).mpr hm),
      finalSums_plane ev i hi hn, hps, MSEToPSNR_zero]

theorem C6_identity_witness :
    (0 < S1_evaluator.m_num_planes
      ∧ (S1_evaluator.m_i1.GetFrame 0).roi = ⟨4, 4⟩
      ∧ S1_evaluator.c_mask 0 &&& MASK_MSE ≠ 0 ∧ S1_evaluator.c_mask 0 &&& MASK_PSNR ≠ 0)
    ∧ (CPSNREvaluator.ComputeMetrics S1_evaluator [] []).1[0]? = some 0
    ∧ (CPSNREvaluator.ComputeMetrics S1_evaluator [] []).1[1]? = some 1000 := by
  have h := C6_identity S1_evaluator [] [] 0 4 4 (by decide) (Or.inl (by decide))
    rfl (by norm_num) (by norm_num) (fun _ _ _ _ => rfl)
  refine ⟨⟨by decide, rfl, by decide, by decide⟩, ?_, ?_⟩
  · have h1 := h.2.2.1 (by decide)
    have hidx : ([] : List ℝ).length + CPSNREvaluator.mseIndex S1_evaluator 0 = 0 := by decide
    rw [hidx] at h1
    exact h1
  · have h2 := h.2.2.2 (by decide)
    have hidx : ([] : List ℝ).length + CPSNREvaluator.psnrIndex S1_evaluator 0 = 1 := by decide
    rw [hidx] at h2
    exact h2

/-- C7: for equal-size planes (8-bit or 16-bit container) `mclNormDiff_L2(A, B)
= mclNormDiff_L2(B, A)`, hence every value `CPSNREvaluator::ComputeMetrics`
appends and accumulates for `(A, B)` equals the one for `(B, A)`. -/
theorem C7_symmetry (ev : CMetricEvaluator) (val avg : List ℝ)
    (hbd : ev.m_i1.GetBitDepth = ev.m_i2.GetBitDepth)
    (hty : get_chromaclass ev.m_i1.GetSqType = get_chromaclass ev.m_i2.GetSqType)
    (hroi : ∀ i, (ev.m_i1.GetFrame i).roi = (ev.m_i2.GetFrame i).roi) :
    (∀ (m1 : Mem) (p1 s1 : Nat) (m2 : Mem) (p2 s2 : Nat) (roi : ImageSize) (v : ℝ)
        (bd : EBitDepth),
        mclNormDiff_L2_C1R m1 p1 s1 m2 p2 s2 roi v bd
          = mclNormDiff_L2_C1R m2 p2 s2 m1 p1 s1 roi v bd)
    ∧ (∀ i v, CPSNREvaluator.planeValue ev.swap i v = CPSNREvaluator.planeValue ev i v)
    ∧ CPSNREvaluator.ComputeMetrics ev.swap val avg
        = CPSNREvaluator.ComputeMetrics ev val avg := by
  refine ⟨mclNormDiff_L2_C1R_comm, fun i v => planeValue_swap ev i v hbd (hroi i), ?_⟩
  unfold CPSNREvaluator.ComputeMetrics
  rw [ComputeMetricsState_swap ev val avg hbd hty hroi]

theorem C7_symmetry_witness :
    (S2_evaluator.m_i1.GetBitDepth = S2_evaluator.m_i2.GetBitDepth
      ∧ get_chromaclass S2_evaluator.m_i1.GetSqType
          = get_chromaclass S2_evaluator.m_i2.GetSqType)
    ∧ CPSNREvaluator.ComputeMetrics S2_evaluator.swap [] []
        = CPSNREvaluator.ComputeMetrics S2_evaluator [] [] :=
  ⟨⟨rfl, rfl⟩, (C7_symmetry S2_evaluator [] [] rfl rfl (fun _ => rfl)).2.2⟩

/-- C8 as stated fails: a 10-bit source (`D010`, `MaxError = 1023`) whose 16-bit
container holds the sample 32768 against a sample 0 gets a per-frame PSNR value
below `-1`. -/
theorem C8_counterexample :
    sampleAt .D010 C8_evaluator.m_i1.mem (C8_evaluator.m_i1.GetFrame 0) 0 0 = 32768
    ∧ sampleAt .D010 C8_evaluator.m_i2.mem (C8_evaluator.m_i2.GetFrame 0) 0 0 = 0
    ∧ ∃ v : ℝ, (CPSNREvaluator.ComputeMetrics C8_evaluator [] []).1[1]? = some v
        ∧ ¬ (-1 ≤ v ∧ v ≤ 1000) := by
  refine ⟨by decide, by decide, ?_⟩
  have h := outVals_psnr C8_evaluator [] [] 0 (by decide) (by decide)
  have hidx : ([] : List ℝ).length + CPSNREvaluator.psnrIndex C8_evaluator 0 = 1 := by decide
  rw [hidx] at h
  refine ⟨_, h, ?_⟩
  rw [finalSums_plane C8_evaluator 0 (by decide) (Or.inl (by decide)),
    planeSums_of_has C8_evaluator 0 (by decide) (by decide)]
  have hv : CPSNREvaluator.planeValue C8_evaluator 0 0 = 1073741824 := by
    unfold CPSNREvaluator.planeValue
    have hroi : (C8_evaluator.m_i1.GetFrame 0).roi = ⟨1, 1⟩ := rfl
    have hbd : C8_evaluator.m_i1.GetBitDepth = .D010 := rfl
    simp only [hroi, hbd, mclNormDiff_L2_C1R]
    rw [mclNormDiff_L2_16u_C1R_eq _ _ _ _ _ _ _ _ (by norm_num) (by norm_num)]
    simp only [Finset.sum_range_one]
    have hsq : sqDiffInt32
        (read16 C8_evaluator.m_i1.mem ((C8_evaluator.m_i1.GetFrame 0).data
          + 2 * (0 * ((C8_evaluator.m_i1.GetFrame 0).step >>> 1)) + 2 * 0))
        (read16 C8_evaluator.m_i2.mem ((C8_evaluator.m_i2.GetFrame 0).data
          + 2 * (0 * ((C8_evaluator.m_i2.GetFrame 0).step >>> 1)) + 2 * 0)) = 1073741824 := by
      decide
    rw [hsq, Real.mul_self_sqrt (by norm_num)]
    norm_num
  rw [hv]
  have hbd : MaxError C8_evaluator.m_i1.GetBitDepth = 1023 := rfl
  rw [hbd, MSEToPSNR_pos _ _ (by norm_num)]
  have hlog : Real.logb 10 (1023 * 1023 / 1073741824) < -1 := by
    have h1 : Real.logb 10 (1023 * 1023 / 1073741824) < Real.logb 10 (10⁻¹) :=
      Real.logb_lt_logb (by norm_num) (by norm_num) (by norm_num)
    rw [Real.logb_inv, Real.logb_self_eq_one (by norm_num)] at h1
    exact h1
  intro hcon
  have hmin : min (10 * Real.logb 10 (1023 * 1023 / 1073741824)) 1000
      ≤ 10 * Real.logb 10 (1023 * 1023 / 1073741824) := min_le_left _ _
  linarith [hcon.1]

/-- C8 (amended): when every sample of the compared planes lies within the bit
depth's range `0 .. MaxError(bd)` (planes of at least 1x1), every per-frame PSNR
and APSNR value `CPSNREvaluator::ComputeMetrics` appends, for a plane or
overall, lies in `[-1, 1000]`. -/
theorem C8_psnr_range (ev : CMetricEvaluator) (val avg : List ℝ)
    (hn : ev.m_num_planes = 3 ∨ ev.m_num_planes = 4)
    (hpl : ∀ i, i < ev.m_num_planes → ev.c_mask i &&& MASK_MSE ≠ 0 →
      1 ≤ (ev.m_i1.GetFrame i).roi.width ∧ 1 ≤ (ev.m_i1.GetFrame i).roi.height
      ∧ ∀ x y, x < (ev.m_i1.GetFrame i).roi.width → y < (ev.m_i1.GetFrame i).roi.height →
        (sampleAt ev.m_i1.GetBitDepth ev.m_i1.mem (ev.m_i1.GetFrame i) x y : ℝ)
            ≤ MaxError ev.m_i1.GetBitDepth
        ∧ (sampleAt ev.m_i1.GetBitDepth ev.m_i2.mem (ev.m_i2.GetFrame i) x y : ℝ)
            ≤ MaxError ev.m_i1.GetBitDepth) :
    ∀ i, i ≤ ev.m_num_planes →
      (ev.c_mask i &&& MASK_PSNR ≠ 0 →
        ∃ v : ℝ, (CPSNREvaluator.ComputeMetrics ev val avg).1[
            val.length + CPSNREvaluator.psnrIndex ev i]? = some v ∧ -1 ≤ v ∧ v ≤ 1000)
      ∧ (ev.c_mask i &&& MASK_APSNR ≠ 0 →
        ∃ v : ℝ, (CPSNREvaluator.ComputeMetrics ev val avg).1[
            val.length + CPSNREvaluator.apsnrIndex ev i]? = some v ∧ -1 ≤ v ∧ v ≤ 1000) := by
  intro i hi
  have hM := MaxError_pos ev.m_i1.GetBitDepth
  have hb := finalSums_bounds ev (MaxError ev.m_i1.GetBitDepth * MaxError ev.m_i1.GetBitDepth)
    (mul_nonneg hM.le hM.le) hn (by
      intro k hk hm
      obtain ⟨hW, hH, hs⟩ := hpl k hk ((has_iff ev MASK_MSE k).mp hm)
      exact planeValue_bounds ev k _ _ rfl hW hH hs) i
  constructor
  · intro hm
    exact ⟨_, outVals_psnr ev val avg i hi ((has_iff ev MASK_PSNR i).mpr hm),
      MSEToPSNR_ge _ _ hM hb.2, MSEToPSNR_le _ _⟩
  · intro hm
    exact ⟨_, outVals_apsnr ev val avg i hi ((has_iff ev MASK_APSNR i).mpr hm),
      MSEToPSNR_ge _ _ hM hb.2, MSEToPSNR_le _ _⟩

theorem C8_psnr_range_witness :
    S2_evaluator.m_num_planes = 3
    ∧ ∃ v : ℝ, (CPSNREvaluator.ComputeMetrics S2_evaluator [] []).1[1]? = some v
        ∧ -1 ≤ v ∧ v ≤ 1000 := by
  refine ⟨rfl, ?_⟩
  have h := (C8_psnr_range S2_evaluator [] [] (Or.inl rfl) (by
    intro i _ hm
    have hi0 : i = 0 := by
      by_contra hne
      simp [S2_evaluator, hne] at hm
    subst hi0
    refine ⟨by decide, by decide, ?_⟩
    intro x y _ _
    have h1 : sampleAt S2_evaluator.m_i1.GetBitDepth S2_evaluator.m_i1.mem
        (S2_evaluator.m_i1.GetFrame 0) x y = 0 := rfl
    have h2 : sampleAt S2_evaluator.m_i1.GetBitDepth S2_evaluator.m_i2.mem
        (S2_evaluator.m_i2.GetFrame 0) x y = 1 := rfl
    have h3 : MaxError S2_evaluator.m_i1.GetBitDepth = 255 := rfl
    rw [h1, h2, h3]
    norm_num) 0 (by decide)).1 (by decide)
  have hidx : ([] : List ℝ).length + CPSNREvaluator.psnrIndex S2_evaluator 0 = 1 := by decide
  rw [hidx] at h
  exact h

/-- C9: for an interlaced source with field order `o` (0 or 1), after
`ReadRawFrame(f)` the view `GetFrame(p)` of a plane stored as `(data, step,
width, height)` has the same width, height `height / 2`, step `2 * step` and
starts at `data + b * step` with `b = o XOR (f mod 2)`; the cached frame is
`(int32_t)(f / 2)`, which is `f / 2` for every value `f` of the `uint32_t`
parameter, and view row `r` is row `2 * r + b` of the stored plane, a row below
`height`.  For a progressive source `GetFrame` returns the stored view. -/
theorem C9_field_view (r : CReader) (f p : Nat)
    (ho : r.m_field_order = 0 ∨ r.m_field_order = 1) :
    let r' := (CYUVReader.ReadRawFrame r f).1
    let d := r.m_planes p
    let b := r.m_field_order ^^^ (f % 2)
    (r.m_intl = true →
      (b = 0 ∨ b = 1)
      ∧ r'.m_bottom = b
      ∧ (r'.m_cur_frame = wrapInt32 ((f / 2 : Nat) : Int)
          ∧ (f < 2 ^ 32 → r'.m_cur_frame = ((f / 2 : Nat) : Int)))
      ∧ r'.GetFrame p = { data := d.data + b * d.step, step := 2 * d.step,
                          roi := { width := d.roi.width, height := d.roi.height / 2 } }
      ∧ ∀ row, row < (r'.GetFrame p).roi.height →
          (r'.GetFrame p).data + row * (r'.GetFrame p).step = d.data + (2 * row + b) * d.step
          ∧ 2 * row + b < d.roi.height
          ∧ (2 * row + b) % 2 = b)
    ∧ (r.m_intl = false → r'.GetFrame p = d) := by
  intro r' d b
  obtain ⟨hpl, hintl, _, _, _⟩ := ReadRawFrame_planes r f
  constructor
  · intro hi
    have hb : b = 0 ∨ b = 1 := xor_bit _ _ ho
    have hbot : r'.m_bottom = b := ReadRawFrame_bottom r f hi
    have hcur : r'.m_cur_frame = wrapInt32 ((f / 2 : Nat) : Int)
        ∧ (f < 2 ^ 32 → r'.m_cur_frame = ((f / 2 : Nat) : Int)) := by
      have := ReadRawFrame_cur_frame r f
      rw [hi] at this
      refine ⟨this, fun hf => ?_⟩
      have e : ((if true = true then f / 2 else f : Nat) : Int) = ((f / 2 : Nat) : Int) := rfl
      rw [e] at this
      rw [show r'.m_cur_frame = _ from this]
      exact wrapInt32_of_range _ (by omega) (by omega)
    have hview : r'.GetFrame p
        = ⟨d.data + b * d.step, 2 * d.step, ⟨d.roi.width, d.roi.height / 2⟩⟩ := by
      unfold CReader.GetFrame
      have hi' : r'.m_intl = true := by rw [← hi]; exact hintl
      have hd : r'.m_planes p = d := by rw [show r'.m_planes = r.m_planes from hpl]
      simp only [hi', if_true, hbot, hd, Nat.shiftLeft_eq, Nat.shiftRight_eq_div_pow, pow_one]
      rcases hb with h0 | h1
      · rw [h0]
        simp [Nat.mul_comm]
      · rw [h1]
        simp [Nat.mul_comm]
    refine ⟨hb, hbot, hcur, hview, ?_⟩
    intro row hrow
    rw [hview] at hrow ⊢
    simp only at hrow ⊢
    refine ⟨by ring, by omega, by omega⟩
  · intro hi
    unfold CReader.GetFrame
    have hi' : r'.m_intl = false := by rw [← hi]; exact hintl
    have hd : r'.m_planes p = d := by rw [show r'.m_planes = r.m_planes from hpl]
    simp [hi', hd]

theorem C9_field_view_witness :
    (S4_reader.m_field_order = 0 ∨ S4_reader.m_field_order = 1)
    ∧ (CYUVReader.ReadRawFrame S4_reader 0).1.GetFrame 0
        = { data := 32, step := 64, roi := { width := 32, height := 8 } }
    ∧ (CYUVReader.ReadRawFrame S4_reader 1).1.GetFrame 0
        = { data := 0, step := 64, roi := { width := 32, height := 8 } } :=
  ⟨Or.inr rfl,
    ((C9_field_view S4_reader 0 0 (Or.inr rfl)).1 rfl).2.2.2.1.trans (by decide),
    ((C9_field_view S4_reader 1 0 (Or.inr rfl)).1 rfl).2.2.2.1.trans (by decide)⟩

/-- C10: Y410 demux as `CYUVReader::ReadRawFrame` invokes it (source and
destination stride `2*w` bytes, bit depth `D010`, no right shift) on a `w x h`
frame, `w, h >= 2`: for every pixel `(x, y)` with packed word `v = word[y*w + x]`
of the raw frame buffer, plane 0 (Y) holds bits 10..19 of `v`, plane 1 (U) bits
0..9, plane 2 (V) bits 20..29 and plane 3 (A) bits 30..31, so
`v = U + Y*2^10 + V*2^20 + A*2^30`. -/
theorem C10_y410_demux (r : CReader) (f w h : Nat)
    (hty : r.m_type = .Y410P ∨ r.m_type = .Y410I) (hbd : r.m_bd = .D010)
    (hrs : r.m_RShift = 0) (hw : 2 ≤ w) (hh : 2 ≤ h)
    (hpl : ∀ k, k < 4 →
      r.m_planes k = ⟨(r.m_planes 0).data + k * (h * (2 * w)), 2 * w, ⟨w, h⟩⟩)
    (hdisj : disjointRanges r.m_Meta.data (4 * (w * h)) (r.m_planes 0).data (8 * (w * h)))
    (hmiss : r.m_cur_frame ≠ wrapInt32 ((if r.m_intl then f / 2 else f : Nat) : Int)) :
    let r' := (CYUVReader.ReadRawFrame r f).1
    ∀ x y, x < w → y < h →
      let v := read32 r'.mem (r.m_Meta.data + 4 * (y * w + x))
      let Y := sample16 r'.mem (r'.m_planes 0) x y
      let U := sample16 r'.mem (r'.m_planes 1) x y
      let V := sample16 r'.mem (r'.m_planes 2) x y
      let A := sample16 r'.mem (r'.m_planes 3) x y
      Y = v / 2 ^ 10 % 2 ^ 10 ∧ U = v % 2 ^ 10 ∧ V = v / 2 ^ 20 % 2 ^ 10 ∧ A = v / 2 ^ 30
      ∧ v = U + Y * 2 ^ 10 + V * 2 ^ 20 + A * 2 ^ 30 := by
  intro r' x y hx hy
  have hplanes : r'.m_planes = r.m_planes := (ReadRawFrame_planes r f).1
  have h0 := hpl 0 (by norm_num)
  have h1 := hpl 1 (by norm_num)
  have h2 := hpl 2 (by norm_num)
  have h3 := hpl 3 (by norm_num)
  have hstep : (r.m_planes 0).step = 2 * w := by rw [h0]
  have hroi : (r.m_planes 0).roi = ⟨w, h⟩ := by rw [h0]
  have hsh : (2 * w) >>> 1 = w := by
    rw [Nat.shiftRight_eq_div_pow]
    omega
  have hmem : r'.mem = forLoop h (fun hh m => forLoop w
      (y410Pixel (r.m_Meta.data + 4 * (hh * w)) ((r.m_planes 3).data + 2 * (hh * w))
        ((r.m_planes 2).data + 2 * (hh * w)) ((r.m_planes 0).data + 2 * (hh * w))
        ((r.m_planes 1).data + 2 * (hh * w))) m)
      (fread_at r.m_file r.m_file_size
        ((if r.m_intl then f / 2 else f) * (r.m_Meta.step * r.m_source_pixel_size))
        r.mem r.m_Meta.data r.m_source_pixel_size r.m_Meta.step).1 := by
    show (CYUVReader.ReadRawFrame r f).1.mem = _
    rw [ReadRawFrame_mem_miss r f hrs hmiss, demux_Y410 r _ hty hbd,
      mclY410ToYUV_10u16u_C4P4R_eq _ _ _ _ _ _ (by omega) (by omega)
        (by rw [hroi]; exact hw) (by rw [hroi]; exact hh)]
    simp only [hstep, hroi, hsh]
  generalize (fread_at r.m_file r.m_file_size
        ((if r.m_intl then f / 2 else f) * (r.m_Meta.step * r.m_source_pixel_size))
        r.mem r.m_Meta.data r.m_source_pixel_size r.m_Meta.step).1 = m1 at hmem
  have e1 : h * (2 * w) = 2 * (h * w) := by ring
  have e2 : w * h = h * w := Nat.mul_comm w h
  have d0 : (r.m_planes 0).data = (r.m_planes 0).data := rfl
  have d1 : (r.m_planes 1).data = (r.m_planes 0).data + 2 * (h * w) := by rw [h1]; simp [e1]
  have d2 : (r.m_planes 2).data = (r.m_planes 0).data + 4 * (h * w) := by
    rw [h2]; simp only [e1]; ring
  have d3 : (r.m_planes 3).data = (r.m_planes 0).data + 6 * (h * w) := by
    rw [h3]; simp only [e1]; ring
  have hd : r.m_Meta.data + 4 * (h * w) ≤ (r.m_planes 0).data
      ∨ (r.m_planes 0).data + 8 * (h * w) ≤ r.m_Meta.data := by
    unfold disjointRanges at hdisj
    rw [e2] at hdisj
    exact hdisj
  have hyw : y * w + w ≤ h * w := mul_step y h w hy
  have hval := y410Rows_value r.m_Meta.data w (r.m_planes 3).data (r.m_planes 2).data
    (r.m_planes 0).data (r.m_planes 1).data w w h (le_refl w) (le_refl w) m1
    (by unfold disjointRanges; omega) (by unfold disjointRanges; omega)
    (by unfold disjointRanges; omega) (by unfold disjointRanges; omega)
    (by unfold disjointRanges; omega) (by unfold disjointRanges; omega)
    (by unfold disjointRanges; omega) (by unfold disjointRanges; omega)
    (by unfold disjointRanges; omega) (by unfold disjointRanges; omega)
    h (le_refl h) x y hx hy
  rw [← hmem] at hval
  have hsrc : read32 r'.mem (r.m_Meta.data + 4 * (y * w + x))
      = read32 m1 (r.m_Meta.data + 4 * (y * w) + 4 * x) := by
    have ea : r.m_Meta.data + 4 * (y * w + x) = r.m_Meta.data + 4 * (y * w) + 4 * x := by ring
    rw [ea, hmem]
    apply read32_congr
    intro k hk
    exact y410Rows_frame _ _ _ _ _ _ _ _ _ (le_refl w) _ _ (by omega) (by omega) (by omega)
      (by omega)
  have hs : ∀ k, k < 4 → sample16 r'.mem (r'.m_planes k) x y
      = read16 r'.mem ((r.m_planes k).data + 2 * (y * w) + 2 * x) := by
    intro k hk
    unfold sample16
    rw [hplanes]
    have : (r.m_planes k).step = 2 * w := by rw [hpl k hk]
    rw [this, hsh]
  intro v Y U V A
  have hY : Y = v / 2 ^ 10 % 2 ^ 10 := by
    show sample16 r'.mem (r'.m_planes 0) x y = _
    rw [hs 0 (by norm_num), hval.1]
    show _ = read32 r'.mem (r.m_Meta.data + 4 * (y * w + x)) / 2 ^ 10 % 2 ^ 10
    rw [hsrc]
  have hU : U = v % 2 ^ 10 := by
    show sample16 r'.mem (r'.m_planes 1) x y = _
    rw [hs 1 (by norm_num), hval.2.1]
    show _ = read32 r'.mem (r.m_Meta.data + 4 * (y * w + x)) % 2 ^ 10
    rw [hsrc]
  have hV : V = v / 2 ^ 20 % 2 ^ 10 := by
    show sample16 r'.mem (r'.m_planes 2) x y = _
    rw [hs 2 (by norm_num), hval.2.2.1]
    show _ = read32 r'.mem (r.m_Meta.data + 4 * (y * w + x)) / 2 ^ 20 % 2 ^ 10
    rw [hsrc]
  have hA : A = v / 2 ^ 30 := by
    show sample16 r'.mem (r'.m_planes 3) x y = _
    rw [hs 3 (by norm_num), hval.2.2.2]
    show _ = read32 r'.mem (r.m_Meta.data + 4 * (y * w + x)) / 2 ^ 30
    rw [hsrc]
  refine ⟨hY, hU, hV, hA, ?_⟩
  have hv : v < 2 ^ 32 := read32_lt _ _
  rw [hY, hU, hV, hA]
  omega

theorem C10_y410_demux_witness :
    ((Y410_reader.m_type = .Y410P ∨ Y410_reader.m_type = .Y410I)
      ∧ Y410_reader.m_bd = .D010 ∧ Y410_reader.m_RShift = 0
      ∧ disjointRanges Y410_reader.m_Meta.data (4 * (2 * 2)) (Y410_reader.m_planes 0).data
          (8 * (2 * 2)))
    ∧ sample16 (CYUVReader.ReadRawFrame Y410_reader 0).1.mem
          ((CYUVReader.ReadRawFrame Y410_reader 0).1.m_planes 0) 1 1
        = read32 (CYUVReader.ReadRawFrame Y410_reader 0).1.mem
            (Y410_reader.m_Meta.data + 4 * (1 * 2 + 1)) / 2 ^ 10 % 2 ^ 10 :=
  ⟨⟨Or.inl rfl, rfl, rfl, Or.inl (by decide)⟩,
    (C10_y410_demux Y410_reader 0 2 2 (Or.inl rfl) rfl rfl (by norm_num) (by norm_num)
      (fun k _ => by simp [Y410_reader]) (Or.inl (by decide)) (by decide) 1 1 (by norm_num)
      (by norm_num)).1⟩

/-- C5: for a run over `N >= 1` scheduled frame pairs, with `e_f` the value of
`sum[i]` (the MSE of plane `i`, or overall for `i = m_num_planes`) in frame `f`,
the average reported under the name of the PSNR entry `i` (a name containing
"PSNR" but not "APSNR") is `MSEToPSNR((e_1 + ... + e_N)/N, MaxError(bd))`, and the
average reported under the name of the APSNR entry `i` is
`(MSEToPSNR(e_1) + ... + MSEToPSNR(e_N))/N`.  The evaluators that follow the PSNR
evaluator in `mevs` are arbitrary calls that only append. -/
theorem C5_average (ev0 : CMetricEvaluator) (cmps : Component) (bd : EBitDepth)
    (frames : List ((CReader × CReader) × List Compute)) (otherNames : List String)
    (otherAvg : List ℝ) (hN : 1 ≤ frames.length)
    (hbd : ∀ fr ∈ frames, fr.1.1.GetBitDepth = bd)
    (hcs : ∀ fr ∈ frames, ∀ c ∈ fr.2, Compute.appendsOnly c) :
    let init := ev0.InitComputationParams CPSNREvaluator.metrics cmps [] [] []
    let ev := init.1
    let names := init.2.1 ++ otherNames
    let run := mainLoop (frames.map (frameCalls ev)) (init.2.2.2 ++ otherAvg)
    let final := mainAverage names run.2 frames.length bd
    let e := fun (fr : (CReader × CReader) × List Compute) (i : Nat) =>
      (CPSNREvaluator.ComputeMetricsState (ev.onFrame fr.1) [] []).sum i
    ∀ i, i ≤ ev.m_num_planes →
      (ev.c_mask i &&& MASK_PSNR ≠ 0 →
        names[CPSNREvaluator.psnrIndex ev i]? = some (entryName cmps "PSNR" i)
        ∧ hasSubstr (entryName cmps "PSNR" i) "PSNR" = true
        ∧ hasSubstr (entryName cmps "PSNR" i) "APSNR" = false
        ∧ final[CPSNREvaluator.psnrIndex ev i]?
            = some (MSEToPSNR ((frames.map (fun fr => e fr i)).sum / (frames.length : ℝ))
                (MaxError bd)))
      ∧ (ev.c_mask i &&& MASK_APSNR ≠ 0 →
        names[CPSNREvaluator.apsnrIndex ev i]? = some (entryName cmps "APSNR" i)
        ∧ hasSubstr (entryName cmps "APSNR" i) "APSNR" = true
        ∧ final[CPSNREvaluator.apsnrIndex ev i]?
            = some ((frames.map (fun fr => MSEToPSNR (e fr i) (MaxError bd))).sum
                / (frames.length : ℝ))) := by
  have _ := hN
  intro init ev names run final e i hi
  have hent := init_entries ev0 cmps otherNames otherAvg i hi
  have he : ∀ fr : (CReader × CReader) × List Compute,
      e fr i = CPSNREvaluator.finalSums (ev.onFrame fr.1) i := by
    intro fr
    show (CPSNREvaluator.ComputeMetricsState (ev.onFrame fr.1) [] []).sum i = _
    rw [ComputeMetricsState_sum]
  constructor
  · intro hm
    have hb : ev.has MASK_PSNR i = true := (has_iff ev MASK_PSNR i).mpr hm
    obtain ⟨hname, havg⟩ := hent.1 hb
    have hname' : names[CPSNREvaluator.psnrIndex ev i]? = some (entryName cmps "PSNR" i) :=
      hname
    refine ⟨hname', (entryName_PSNR cmps i).1, (entryName_PSNR cmps i).2, ?_⟩
    show (mainAverage names run.2 frames.length bd)[CPSNREvaluator.psnrIndex ev i]? = _
    rw [mainAverage_getElem?, List.getD_eq_getElem?_getD, hname']
    show Option.map _ (mainLoop (frames.map (frameCalls ev))
      (init.2.2.2 ++ otherAvg)).2[CPSNREvaluator.psnrIndex ev i]? = _
    rw [mainLoop_avg ev frames hcs _ _ (psnrIndex_lt ev i hi hb), havg]
    simp only [Option.map_some', Option.getD_some, averageEntry, entryName_PSNR, and_self,
      if_true, zero_add]
    have hsum : (frames.map (fun fr =>
        (CPSNREvaluator.outIncs (ev.onFrame fr.1)).getD (CPSNREvaluator.psnrIndex ev i) 0))
        = frames.map (fun fr => e fr i) := by
      apply List.map_congr_left
      intro fr _
      rw [List.getD_eq_getElem?_getD, he fr]
      have := outIncs_psnr (ev.onFrame fr.1) i hi hb
      have hidx : CPSNREvaluator.psnrIndex (ev.onFrame fr.1) i
          = CPSNREvaluator.psnrIndex ev i := rfl
      rw [hidx] at this
      rw [this]
      rfl
    rw [hsum, mul_one_div]
  · intro hm
    have hb : ev.has MASK_APSNR i = true := (has_iff ev MASK_APSNR i).mpr hm
    obtain ⟨hname, havg⟩ := hent.2 hb
    have hname' : names[CPSNREvaluator.apsnrIndex ev i]? = some (entryName cmps "APSNR" i) :=
      hname
    refine ⟨hname', entryName_APSNR cmps i, ?_⟩
    show (mainAverage names run.2 frames.length bd)[CPSNREvaluator.apsnrIndex ev i]? = _
    rw [mainAverage_getElem?, List.getD_eq_getElem?_getD, hname']
    show Option.map _ (mainLoop (frames.map (frameCalls ev))
      (init.2.2.2 ++ otherAvg)).2[CPSNREvaluator.apsnrIndex ev i]? = _
    rw [mainLoop_avg ev frames hcs _ _ (apsnrIndex_lt ev i hi hb), havg]
    have hA : hasSubstr (entryName cmps "APSNR" i) "APSNR" = true := entryName_APSNR cmps i
    have hcond : ¬ (hasSubstr (entryName cmps "APSNR" i) "PSNR" = true
        ∧ hasSubstr (entryName cmps "APSNR" i) "APSNR" = false) := by
      rw [hA]
      simp
    simp only [Option.map_some', Option.getD_some, averageEntry, hcond, if_false, zero_add]
    have hsum : (frames.map (fun fr =>
        (CPSNREvaluator.outIncs (ev.onFrame fr.1)).getD (CPSNREvaluator.apsnrIndex ev i) 0))
        = frames.map (fun fr => MSEToPSNR (e fr i) (MaxError bd)) := by
      apply List.map_congr_left
      intro fr hfr
      rw [List.getD_eq_getElem?_getD, he fr]
      have := outIncs_apsnr (ev.onFrame fr.1) i hi hb
      have hidx : CPSNREvaluator.apsnrIndex (ev.onFrame fr.1) i
          = CPSNREvaluator.apsnrIndex ev i := rfl
      have hbd' : (ev.onFrame fr.1).m_i1.GetBitDepth = bd := hbd fr hfr
      rw [hidx, hbd'] at this
      rw [this]
      rfl
    rw [hsum, mul_one_div]

theorem C5_average_witness :
    (1 ≤ S2_frames.length ∧ ∀ fr ∈ S2_frames, fr.1.1.GetBitDepth = .D008)
    ∧ (mainAverage
          (S2_evaluator.InitComputationParams CPSNREvaluator.metrics psnr_y_cmps [] [] []).2.1
          (mainLoop (S2_frames.map (frameCalls
              (S2_evaluator.InitComputationParams CPSNREvaluator.metrics psnr_y_cmps
                [] [] []).1))
            (S2_evaluator.InitComputationParams CPSNREvaluator.metrics psnr_y_cmps
              [] [] []).2.2.2).2
          S2_frames.length .D008)[1]?
        = some (MSEToPSNR ((S2_frames.map (fun fr =>
            (CPSNREvaluator.ComputeMetricsState
              ((S2_evaluator.InitComputationParams CPSNREvaluator.metrics psnr_y_cmps
                [] [] []).1.onFrame fr.1) [] []).sum 0)).sum / (S2_frames.length : ℝ))
            (MaxError .D008)) := by
  have hb : ∀ fr ∈ S2_frames, fr.1.1.GetBitDepth = .D008 := by
    intro fr hfr
    simp only [S2_frames, List.mem_cons, List.mem_singleton, List.not_mem_nil, or_false,
      or_self] at hfr
    rw [hfr]
    rfl
  have hc : ∀ fr ∈ S2_frames, ∀ c ∈ fr.2, Compute.appendsOnly c := by
    intro fr hfr c hcm
    simp only [S2_frames, List.mem_cons, List.mem_singleton, List.not_mem_nil, or_false,
      or_self] at hfr
    rw [hfr] at hcm
    cases hcm
  have h := ((C5_average S2_evaluator psnr_y_cmps .D008 S2_frames [] [] (by decide) hb hc
    0 (by decide)).1 (by decide)).2.2.2
  simp only [List.append_nil] at h
  have hidx : CPSNREvaluator.psnrIndex
      (S2_evaluator.InitComputationParams CPSNREvaluator.metrics psnr_y_cmps [] [] []).1 0
      = 1 := by decide
  rw [hidx] at h
  exact ⟨⟨by decide, hb⟩, h⟩

/-! ## `mclRShiftC` -/

theorem read16_lt (m : Mem) (p : Nat) : read16 m p < 65536 := by
  unfold read16
  have h0 := read8_lt m p
  have h1 := read8_lt m (p + 1)
  omega

theorem shiftRight_le_self (a v : Nat) : a >>> v ≤ a := by
  rw [Nat.shiftRight_eq_div_pow]
  exact Nat.div_le_self _ _

theorem read8_write8_same (m : Mem) (p v : Nat) : read8 (write8 m p v) p = v % 256 := by
  unfold read8
  rw [write8_apply, if_pos rfl, Nat.mod_mod]

/-- One row of the 8-bit shift: bytes outside the row keep their value. -/
theorem rshift8Row_frame (v b W : Nat) (m : Mem) (p : Nat) (hp : p < b ∨ b + W ≤ p) :
    forLoop W (fun w m => write8 m (b + w) (read8 m (b + w) >>> v)) m p = m p := by
  induction W with
  | zero => rfl
  | succ n ih =>
    rw [forLoop_succ, write8_apply, if_neg (by omega)]
    exact ih (by omega)

/-- One row of the 8-bit shift: every sample of the row is shifted once. -/
theorem rshift8Row_value (v b W : Nat) (m : Mem) (x : Nat) (hx : x < W) :
    read8 (forLoop W (fun w m => write8 m (b + w) (read8 m (b + w) >>> v)) m) (b + x)
      = read8 m (b + x) >>> v := by
  induction W with
  | zero => omega
  | succ n ih =>
    rw [forLoop_succ]
    by_cases hxn : x = n
    · subst hxn
      rw [read8_write8_same]
      have hsame : read8 (forLoop x
          (fun w m => write8 m (b + w) (read8 m (b + w) >>> v)) m) (b + x) = read8 m (b + x) :=
        read8_congr _ _ _ (rshift8Row_frame v b x m (b + x) (Or.inr (le_refl _)))
      rw [hsame]
      have h1 := shiftRight_le_self (read8 m (b + x)) v
      have h2 := read8_lt m (b + x)
      exact Nat.mod_eq_of_lt (by omega)
    · have := ih (by omega)
      rw [← this]
      apply read8_congr
      rw [write8_apply, if_neg (by omega)]

/-- The row loop of the 8-bit shift: bytes outside the rows done keep their
value. -/
theorem rshift8Rows_frame (v P s W n : Nat) (m : Mem) (p : Nat)
    (hp : ∀ y, y < n → p < P + y * s ∨ P + y * s + W ≤ p) :
    forLoop n (fun h m => forLoop W
      (fun w m => write8 m (P + h * s + w) (read8 m (P + h * s + w) >>> v)) m) m p = m p := by
  induction n with
  | zero => rfl
  | succ n ih =>
    rw [forLoop_succ, rshift8Row_frame v (P + n * s) W _ p (hp n (by omega))]
    exact ih (fun y hy => hp y (by omega))

/-- The row loop of the 8-bit shift: every sample of the rows done is shifted
once, for rows that do not overlap. -/
theorem rshift8Rows_value (v P s W n : Nat) (hW : W ≤ s) (m : Mem) (x y : Nat)
    (hx : x < W) (hy : y < n) :
    read8 (forLoop n (fun h m => forLoop W
      (fun w m => write8 m (P + h * s + w) (read8 m (P + h * s + w) >>> v)) m) m)
        (P + y * s + x)
      = read8 m (P + y * s + x) >>> v := by
  induction n with
  | zero => omega
  | succ n ih =>
    rw [forLoop_succ]
    by_cases hyn : y = n
    · subst hyn
      rw [rshift8Row_value v (P + y * s) W _ x hx]
      congr 1
      apply read8_congr
      apply rshift8Rows_frame
      intro y' hy'
      have := mul_step y' y s hy'
      omega
    · have hlt : y < n := by omega
      rw [← ih hlt]
      apply read8_congr
      apply rshift8Row_frame
      have := mul_step y n s hlt
      omega

/-- One row of the 16-bit shift: bytes outside the row keep their value. -/
theorem rshift16Row_frame (v b W : Nat) (m : Mem) (p : Nat) (hp : p < b ∨ b + 2 * W ≤ p) :
    forLoop W (fun w m => write16 m (b + 2 * w) (read16 m (b + 2 * w) >>> v)) m p = m p := by
  induction W with
  | zero => rfl
  | succ n ih =>
    rw [forLoop_succ, write16_other _ _ _ _ (by omega)]
    exact ih (by omega)

/-- One row of the 16-bit shift: every sample of the row is shifted once. -/
theorem rshift16Row_value (v b W : Nat) (m : Mem) (x : Nat) (hx : x < W) :
    read16 (forLoop W (fun w m => write16 m (b + 2 * w) (read16 m (b + 2 * w) >>> v)) m)
        (b + 2 * x)
      = read16 m (b + 2 * x) >>> v := by
  induction W with
  | zero => omega
  | succ n ih =>
    rw [forLoop_succ]
    by_cases hxn : x = n
    · subst hxn
      rw [read16_write16_same]
      have hsame : read16 (forLoop x
          (fun w m => write16 m (b + 2 * w) (read16 m (b + 2 * w) >>> v)) m) (b + 2 * x)
          = read16 m (b + 2 * x) :=
        read16_congr _ _ _ (rshift16Row_frame v b x m _ (by omega))
          (rshift16Row_frame v b x m _ (by omega))
      rw [hsame]
      have h1 := shiftRight_le_self (read16 m (b + 2 * x)) v
      have h2 := read16_lt m (b + 2 * x)
      exact Nat.mod_eq_of_lt (by omega)
    · rw [← ih (by omega)]
      exact read16_write16_other _ _ _ _ (by omega)

/-- The row loop of the 16-bit shift: bytes outside the rows done keep their
value. -/
theorem rshift16Rows_frame (v P s W n : Nat) (m : Mem) (p : Nat)
    (hp : ∀ y, y < n → p < P + 2 * (y * s) ∨ P + 2 * (y * s) + 2 * W ≤ p) :
    forLoop n (fun h m => forLoop W
      (fun w m => write16 m (P + 2 * (h * s) + 2 * w)
        (read16 m (P + 2 * (h * s) + 2 * w) >>> v)) m) m p = m p := by
  induction n with
  | zero => rfl
  | succ n ih =>
    rw [forLoop_succ, rshift16Row_frame v (P + 2 * (n * s)) W _ p (hp n (by omega))]
    exact ih (fun y hy => hp y (by omega))

/-- The row loop of the 16-bit shift: every sample of the rows done is shifted
once, for rows that do not overlap. -/
theorem rshift16Rows_value (v P s W n : Nat) (hW : W ≤ s) (m : Mem) (x y : Nat)
    (hx : x < W) (hy : y < n) :
    read16 (forLoop n (fun h m => forLoop W
      (fun w m => write16 m (P + 2 * (h * s) + 2 * w)
        (read16 m (P + 2 * (h * s) + 2 * w) >>> v)) m) m) (P + 2 * (y * s) + 2 * x)
      = read16 m (P + 2 * (y * s) + 2 * x) >>> v := by
  induction n with
  | zero => omega
  | succ n ih =>
    rw [forLoop_succ]
    by_cases hyn : y = n
    · subst hyn
      rw [rshift16Row_value v (P + 2 * (y * s)) W _ x hx]
      congr 1
      have hfr : ∀ p, P + 2 * (y * s) + 2 * x ≤ p → p ≤ P + 2 * (y * s) + 2 * x + 1 →
          forLoop y (fun h m => forLoop W
            (fun w m => write16 m (P + 2 * (h * s) + 2 * w)
              (read16 m (P + 2 * (h * s) + 2 * w) >>> v)) m) m p = m p := by
        intro p hp1 hp2
        apply rshift16Rows_frame
        intro y' hy'
        have := mul_step y' y s hy'
        omega
      exact read16_congr _ _ _ (hfr _ (le_refl _) (Nat.le_succ _))
        (hfr _ (Nat.le_succ _) (le_refl _))
    · have hlt : y < n := by omega
      rw [← ih hlt]
      have := mul_step y n s hlt
      exact read16_congr _ _ _ (rshift16Row_frame _ _ _ _ _ (by omega))
        (rshift16Row_frame _ _ _ _ _ (by omega))

/-! ## `mclRShiftC_C1IR` as a whole -/

theorem rshift8_eq (v : Nat) (m : Mem) (p step : Nat) (roi : ImageSize) (hv : v < 8)
    (hW : 1 ≤ roi.width) (hH : 1 ≤ roi.height) :
    mclRShiftC_8u_C1IR v m p step roi
      = (.MCL_ERR_NONE, forLoop roi.height (fun h m => forLoop roi.width
          (fun w m => write8 m (p + h * step + w) (read8 m (p + h * step + w) >>> v)) m) m) := by
  unfold mclRShiftC_8u_C1IR
  rw [if_neg (by omega), if_neg (by omega)]

theorem rshift16_eq (v : Nat) (m : Mem) (p step : Nat) (roi : ImageSize) (hv : v < 16)
    (hW : 1 ≤ roi.width) (hH : 1 ≤ roi.height) :
    mclRShiftC_16u_C1IR v m p step roi
      = (.MCL_ERR_NONE, forLoop roi.height (fun h m => forLoop roi.width
          (fun w m => write16 m (p + 2 * (h * (step >>> 1)) + 2 * w)
            (read16 m (p + 2 * (h * (step >>> 1)) + 2 * w) >>> v)) m) m) := by
  unfold mclRShiftC_16u_C1IR
  rw [if_neg (by omega), if_neg (by omega)]

/-- C13: `mclRShiftC_C1IR` on a view of at least 1x1 samples whose rows do not
overlap, container width `B` (8 for `D008`, 16 for `D010`): for `1 <= v < B` it
returns `MCL_ERR_NONE`, every sample inside the ROI becomes `floor(s / 2^v)` and
every byte outside the ROI keeps its value; for `v >= B` it returns
`MCL_ERR_INVALID_PARAM` and changes nothing; for `v = 0` it returns
`MCL_ERR_NONE` and changes nothing. -/
theorem C13_rshift (v : Nat) (m : Mem) (img : SImage) (bd : EBitDepth)
    (hbd : bd = .D008 ∨ bd = .D010) (hW : 1 ≤ img.roi.width) (hH : 1 ≤ img.roi.height)
    (hrows : rowsApart bd img) :
    let r := mclRShiftC_C1IR v m img.data img.step img.roi bd
    (1 ≤ v ∧ v < containerBits bd →
      r.1 = .MCL_ERR_NONE
      ∧ (∀ x y, x < img.roi.width → y < img.roi.height →
          sampleAt bd r.2 img x y = sampleAt bd m img x y / 2 ^ v)
      ∧ (∀ p, (∀ x y, x < img.roi.width → y < img.roi.height → ¬ inSample bd img x y p) →
          r.2 p = m p))
    ∧ (containerBits bd ≤ v → r = (.MCL_ERR_INVALID_PARAM, m))
    ∧ (v = 0 → r = (.MCL_ERR_NONE, m)) := by
  intro r
  refine ⟨?_, ?_, ?_⟩
  · rintro ⟨hv1, hv2⟩
    have hv0 : ¬ v = 0 := by omega
    rcases hbd with hbd | hbd
    · subst hbd
      have hr : r = (.MCL_ERR_NONE, forLoop img.roi.height (fun h m => forLoop img.roi.width
          (fun w m => write8 m (img.data + h * img.step + w)
            (read8 m (img.data + h * img.step + w) >>> v)) m) m) := by
        show mclRShiftC_C1IR v m img.data img.step img.roi .D008 = _
        unfold mclRShiftC_C1IR
        rw [if_neg hv0]
        exact rshift8_eq v m _ _ _ hv2 hW hH
      rw [hr]
      refine ⟨rfl, ?_, ?_⟩
      · intro x y hx hy
        show read8 _ (img.data + y * img.step + x) = read8 m (img.data + y * img.step + x) / 2 ^ v
        rw [rshift8Rows_value v img.data img.step img.roi.width img.roi.height hrows m x y hx hy,
          Nat.shiftRight_eq_div_pow]
      · intro p hp
        apply rshift8Rows_frame
        intro y hy
        by_contra hcon
        exact hp (p - (img.data + y * img.step)) y (by omega) hy
          (show p = img.data + y * img.step + (p - (img.data + y * img.step)) by omega)
    · subst hbd
      have hr : r = (.MCL_ERR_NONE, forLoop img.roi.height (fun h m => forLoop img.roi.width
          (fun w m => write16 m (img.data + 2 * (h * (img.step >>> 1)) + 2 * w)
            (read16 m (img.data + 2 * (h * (img.step >>> 1)) + 2 * w) >>> v)) m) m) := by
        show mclRShiftC_C1IR v m img.data img.step img.roi .D010 = _
        unfold mclRShiftC_C1IR
        rw [if_neg hv0]
        exact rshift16_eq v m _ _ _ hv2 hW hH
      rw [hr]
      refine ⟨rfl, ?_, ?_⟩
      · intro x y hx hy
        show read16 _ (img.data + 2 * (y * (img.step >>> 1)) + 2 * x)
          = read16 m (img.data + 2 * (y * (img.step >>> 1)) + 2 * x) / 2 ^ v
        rw [rshift16Rows_value v img.data (img.step >>> 1) img.roi.width img.roi.height hrows
          m x y hx hy, Nat.shiftRight_eq_div_pow]
      · intro p hp
        apply rshift16Rows_frame
        intro y hy
        by_contra hcon
        have hx : (p - (img.data + 2 * (y * (img.step >>> 1)))) / 2 < img.roi.width := by omega
        have := hp ((p - (img.data + 2 * (y * (img.step >>> 1)))) / 2) y hx hy
        apply this
        show p = _ ∨ p = _
        omega
  · intro hv
    have hv0 : ¬ v = 0 := by
      intro h0
      rw [h0] at hv
      cases bd <;> simp [containerBits] at hv
    show mclRShiftC_C1IR v m img.data img.step img.roi bd = _
    unfold mclRShiftC_C1IR
    rw [if_neg hv0]
    rcases hbd with hbd | hbd
    · subst hbd
      show mclRShiftC_8u_C1IR v m img.data img.step img.roi = _
      unfold mclRShiftC_8u_C1IR
      rw [if_pos (show v ≥ 8 from hv)]
    · subst hbd
      show mclRShiftC_16u_C1IR v m img.data img.step img.roi = _
      unfold mclRShiftC_16u_C1IR
      rw [if_pos (show v ≥ 16 from hv)]
  · intro hv
    show mclRShiftC_C1IR v m img.data img.step img.roi bd = _
    rw [hv]
    exact mclRShiftC_C1IR_zero m _ _ _ _

theorem C13_rshift_witness :
    (1 ≤ 2 ∧ 2 < containerBits .D010)
    ∧ sampleAt .D010 (mclRShiftC_C1IR 2 shift_mem 0 2 ⟨1, 1⟩ .D010).2 ⟨0, 2, ⟨1, 1⟩⟩ 0 0
        = sampleAt .D010 shift_mem ⟨0, 2, ⟨1, 1⟩⟩ 0 0 / 2 ^ 2 :=
  ⟨by decide,
    ((C13_rshift 2 shift_mem ⟨0, 2, ⟨1, 1⟩⟩ .D010 (Or.inr rfl) (le_refl 1) (le_refl 1)
      (show (1 : Nat) ≤ 2 >>> 1 by decide)).1 (by decide)).2.1 0 0 (by decide) (by decide)⟩

/-- C14 as stated fails: with bit depth 10 and `rshift = 10` the call returns
`MCL_ERR_NONE` and the sample 1024 becomes 1. -/
theorem C14_counterexample :
    (mclRShiftC_C1IR 10 shift_mem 0 2 ⟨1, 1⟩ .D010).1 = .MCL_ERR_NONE
    ∧ read16 shift_mem 0 = 1024
    ∧ read16 (mclRShiftC_C1IR 10 shift_mem 0 2 ⟨1, 1⟩ .D010).2 0 = 1 := by
  decide

/-- C14 (amended): for every bit depth and every shift amount at least the
width of the sample container (8 for `D008`, 16 for the 16-bit container)
`mclRShiftC_C1IR` returns `MCL_ERR_INVALID_PARAM` and leaves the samples
unchanged; `rshift = 0` is a no-op. -/
theorem C14_rshift_container (v : Nat) (m : Mem) (p step : Nat) (roi : ImageSize)
    (bd : EBitDepth) (hv : containerBits bd ≤ v) :
    mclRShiftC_C1IR v m p step roi bd = (.MCL_ERR_INVALID_PARAM, m)
    ∧ mclRShiftC_C1IR 0 m p step roi bd = (.MCL_ERR_NONE, m) := by
  refine ⟨?_, mclRShiftC_C1IR_zero m p step roi bd⟩
  have hv0 : ¬ v = 0 := by
    intro h0
    rw [h0] at hv
    cases bd <;> simp [containerBits] at hv
  unfold mclRShiftC_C1IR
  rw [if_neg hv0]
  cases bd with
  | D008 =>
    show mclRShiftC_8u_C1IR v m p step roi = _
    unfold mclRShiftC_8u_C1IR
    rw [if_pos (show v ≥ 8 from hv)]
  | D010 =>
    show mclRShiftC_16u_C1IR v m p step roi = _
    unfold mclRShiftC_16u_C1IR
    rw [if_pos (show v ≥ 16 from hv)]
  | D012 => rfl
  | D016 => rfl

theorem C14_rshift_container_witness :
    containerBits .D010 ≤ 16
    ∧ mclRShiftC_C1IR 16 shift_mem 0 2 ⟨1, 1⟩ .D010 = (.MCL_ERR_INVALID_PARAM, shift_mem) :=
  ⟨by decide, (C14_rshift_container 16 shift_mem 0 2 ⟨1, 1⟩ .D010 (by decide)).1⟩

/-! ## A2RGB10 demux -/

theorem a2rgb10Pixel_eq : a2rgb10Pixel = y410Pixel := rfl

theorem RGBReadRawFrame_planes (r : CReader) (f : Nat) :
    (CRGBReader.ReadRawFrame r f).1.m_planes = r.m_planes := by
  unfold CRGBReader.ReadRawFrame
  simp only []
  split_ifs <;> rfl

theorem mclA2RGB10ToRGB_10u16u_C4P4R_eq (m : Mem) (pSrc srcStep : Nat) (pDst : Nat → Nat)
    (dstStep : Nat) (roi : ImageSize) (h1 : srcStep ≠ 0) (h2 : dstStep ≠ 0)
    (hw : 2 ≤ roi.width) (hh : 2 ≤ roi.height) :
    mclA2RGB10ToRGB_10u16u_C4P4R m pSrc srcStep pDst dstStep roi
      = (.MCL_ERR_NONE, forLoop roi.height (fun h m => forLoop roi.width
          (y410Pixel (pSrc + 4 * (h * (srcStep >>> 1))) (pDst 3 + 2 * (h * (dstStep >>> 1)))
            (pDst 0 + 2 * (h * (dstStep >>> 1))) (pDst 1 + 2 * (h * (dstStep >>> 1)))
            (pDst 2 + 2 * (h * (dstStep >>> 1)))) m) m) := by
  unfold mclA2RGB10ToRGB_10u16u_C4P4R
  rw [if_neg (by omega), if_neg (by omega), a2rgb10Pixel_eq]

theorem demux_A2RGB10 (r : CReader) (m : Mem)
    (hty : r.m_type = .A2RGB10P ∨ r.m_type = .A2RGB10I) (hbd : r.m_bd = .D010) :
    CRGBReader.demux r m
      = (mclA2RGB10ToRGB_10u16u_C4P4R m r.m_Meta.data (r.m_planes 0).step
          (Function.update (Function.update (fun i => (r.m_planes i).data) 0
            (r.m_planes 2).data) 2 (r.m_planes 0).data)
          (r.m_planes 0).step (r.m_planes 0).roi).2 := by
  unfold CRGBReader.demux mclA2RGB10ToRGB_C4P4R
  rcases hty with h | h <;> simp [h, hbd]

/-- Memory after a `CRGBReader::ReadRawFrame` that loads a frame, for
`m_RShift = 0`. -/
theorem RGBReadRawFrame_mem_miss (r : CReader) (f : Nat) (hrs : r.m_RShift = 0)
    (hmiss : r.m_cur_frame ≠ wrapInt32 ((if r.m_intl then f / 2 else f : Nat) : Int)) :
    (CRGBReader.ReadRawFrame r f).1.mem
      = CRGBReader.demux r (fread_at r.m_file r.m_file_size
          ((if r.m_intl then f / 2 else f) * (r.m_Meta.step * r.m_source_pixel_size))
          r.mem r.m_Meta.data r.m_source_pixel_size r.m_Meta.step).1 := by
  unfold CRGBReader.ReadRawFrame
  simp only [Nat.shiftRight_eq_div_pow, pow_one]
  rw [if_pos hmiss]
  simp only [hrs, mclRShiftC_C1IR_zero]

/-- C11 as stated fails: on a 1x1 A2RGB10 frame the kernel rejects the ROI and
plane 0 does not receive bits 0..9 of the packed word. -/
theorem C11_counterexample :
    read32 (CRGBReader.ReadRawFrame (A2RGB10_reader 1 1) 0).1.mem
        ((A2RGB10_reader 1 1).m_Meta.data + 4 * (0 * 1 + 0)) = 2052403211
    ∧ sample16 (CRGBReader.ReadRawFrame (A2RGB10_reader 1 1) 0).1.mem
        ((CRGBReader.ReadRawFrame (A2RGB10_reader 1 1) 0).1.m_planes 0) 0 0
        ≠ 2052403211 % 2 ^ 10 := by
  decide

/-- C11 (amended): A2RGB10 demux as `CRGBReader::ReadRawFrame` invokes it (bit
depth `D010`, no right shift) on a `w x h` frame, `w, h >= 2`: for every pixel
`(x, y)` with packed word `v = word[y*w + x]` of the raw frame buffer, plane 0
holds `B`, bits 0..9 of `v`, plane 1 holds `G`, bits 10..19, plane 2 holds `R`,
bits 20..29, and plane 3 holds `A`, bits 30..31. -/
theorem C11_a2rgb10_demux (r : CReader) (f w h : Nat)
    (hty : r.m_type = .A2RGB10P ∨ r.m_type = .A2RGB10I) (hbd : r.m_bd = .D010)
    (hrs : r.m_RShift = 0) (hw : 2 ≤ w) (hh : 2 ≤ h)
    (hpl : ∀ k, k < 4 →
      r.m_planes k = ⟨(r.m_planes 0).data + k * (h * (2 * w)), 2 * w, ⟨w, h⟩⟩)
    (hdisj : disjointRanges r.m_Meta.data (4 * (w * h)) (r.m_planes 0).data (8 * (w * h)))
    (hmiss : r.m_cur_frame ≠ wrapInt32 ((if r.m_intl then f / 2 else f : Nat) : Int)) :
    let r' := (CRGBReader.ReadRawFrame r f).1
    ∀ x y, x < w → y < h →
      let v := read32 r'.mem (r.m_Meta.data + 4 * (y * w + x))
      sample16 r'.mem (r'.m_planes 0) x y = v % 2 ^ 10
      ∧ sample16 r'.mem (r'.m_planes 1) x y = v / 2 ^ 10 % 2 ^ 10
      ∧ sample16 r'.mem (r'.m_planes 2) x y = v / 2 ^ 20 % 2 ^ 10
      ∧ sample16 r'.mem (r'.m_planes 3) x y = v / 2 ^ 30 := by
  intro r' x y hx hy
  have hplanes : r'.m_planes = r.m_planes := RGBReadRawFrame_planes r f
  have h0 := hpl 0 (by norm_num)
  have h1 := hpl 1 (by norm_num)
  have h2 := hpl 2 (by norm_num)
  have h3 := hpl 3 (by norm_num)
  have hstep : (r.m_planes 0).step = 2 * w := by rw [h0]
  have hroi : (r.m_planes 0).roi = ⟨w, h⟩ := by rw [h0]
  have hsh : (2 * w) >>> 1 = w := by
    rw [Nat.shiftRight_eq_div_pow]
    omega
  have hmem : r'.mem = forLoop h (fun hh m => forLoop w
      (y410Pixel (r.m_Meta.data + 4 * (hh * w)) ((r.m_planes 3).data + 2 * (hh * w))
        ((r.m_planes 2).data + 2 * (hh * w)) ((r.m_planes 1).data + 2 * (hh * w))
        ((r.m_planes 0).data + 2 * (hh * w))) m)
      (fread_at r.m_file r.m_file_size
        ((if r.m_intl then f / 2 else f) * (r.m_Meta.step * r.m_source_pixel_size))
        r.mem r.m_Meta.data r.m_source_pixel_size r.m_Meta.step).1 := by
    show (CRGBReader.ReadRawFrame r f).1.mem = _
    rw [RGBReadRawFrame_mem_miss r f hrs hmiss, demux_A2RGB10 r _ hty hbd,
      mclA2RGB10ToRGB_10u16u_C4P4R_eq _ _ _ _ _ _ (by omega) (by omega)
        (by rw [hroi]; exact hw) (by rw [hroi]; exact hh)]
    simp only [hstep, hroi, hsh]
    rfl
  generalize (fread_at r.m_file r.m_file_size
        ((if r.m_intl then f / 2 else f) * (r.m_Meta.step * r.m_source_pixel_size))
        r.mem r.m_Meta.data r.m_source_pixel_size r.m_Meta.step).1 = m1 at hmem
  have e1 : h * (2 * w) = 2 * (h * w) := by ring
  have e2 : w * h = h * w := Nat.mul_comm w h
  have d1 : (r.m_planes 1).data = (r.m_planes 0).data + 2 * (h * w) := by rw [h1]; simp [e1]
  have d2 : (r.m_planes 2).data = (r.m_planes 0).data + 4 * (h * w) := by
    rw [h2]; simp only [e1]; ring
  have d3 : (r.m_planes 3).data = (r.m_planes 0).data + 6 * (h * w) := by
    rw [h3]; simp only [e1]; ring
  have hd : r.m_Meta.data + 4 * (h * w) ≤ (r.m_planes 0).data
      ∨ (r.m_planes 0).data + 8 * (h * w) ≤ r.m_Meta.data := by
    unfold disjointRanges at hdisj
    rw [e2] at hdisj
    exact hdisj
  have hyw : y * w + w ≤ h * w := mul_step y h w hy
  have hval := y410Rows_value r.m_Meta.data w (r.m_planes 3).data (r.m_planes 2).data
    (r.m_planes 1).data (r.m_planes 0).data w w h (le_refl w) (le_refl w) m1
    (by unfold disjointRanges; omega) (by unfold disjointRanges; omega)
    (by unfold disjointRanges; omega) (by unfold disjointRanges; omega)
    (by unfold disjointRanges; omega) (by unfold disjointRanges; omega)
    (by unfold disjointRanges; omega) (by unfold disjointRanges; omega)
    (by unfold disjointRanges; omega) (by unfold disjointRanges; omega)
    h (le_refl h) x y hx hy
  rw [← hmem] at hval
  have hsrc : read32 r'.mem (r.m_Meta.data + 4 * (y * w + x))
      = read32 m1 (r.m_Meta.data + 4 * (y * w) + 4 * x) := by
    have ea : r.m_Meta.data + 4 * (y * w + x) = r.m_Meta.data + 4 * (y * w) + 4 * x := by ring
    rw [ea, hmem]
    apply read32_congr
    intro k hk
    exact y410Rows_frame _ _ _ _ _ _ _ _ _ (le_refl w) _ _ (by omega) (by omega) (by omega)
      (by omega)
  have hs : ∀ k, k < 4 → sample16 r'.mem (r'.m_planes k) x y
      = read16 r'.mem ((r.m_planes k).data + 2 * (y * w) + 2 * x) := by
    intro k hk
    unfold sample16
    rw [hplanes]
    have : (r.m_planes k).step = 2 * w := by rw [hpl k hk]
    rw [this, hsh]
  intro v
  have hv : v = read32 m1 (r.m_Meta.data + 4 * (y * w) + 4 * x) := hsrc
  rw [hv, hs 0 (by norm_num), hs 1 (by norm_num), hs 2 (by norm_num), hs 3 (by norm_num)]
  exact ⟨hval.2.1, hval.1, hval.2.2.1, hval.2.2.2⟩

theorem C11_a2rgb10_demux_witness :
    ((A2RGB10_reader 2 2).m_type = .A2RGB10P ∨ (A2RGB10_reader 2 2).m_type = .A2RGB10I)
    ∧ sample16 (CRGBReader.ReadRawFrame (A2RGB10_reader 2 2) 0).1.mem
          ((CRGBReader.ReadRawFrame (A2RGB10_reader 2 2) 0).1.m_planes 0) 1 1
        = read32 (CRGBReader.ReadRawFrame (A2RGB10_reader 2 2) 0).1.mem
            ((A2RGB10_reader 2 2).m_Meta.data + 4 * (1 * 2 + 1)) % 2 ^ 10 :=
  ⟨Or.inl rfl,
    (C11_a2rgb10_demux (A2RGB10_reader 2 2) 0 2 2 (Or.inl rfl) rfl rfl (by norm_num)
      (by norm_num) (by decide) (Or.inl (by decide)) (by decide) 1 1 (by norm_num)
      (by norm_num)).1⟩

/-! ## Overflow of the 16-bit squared difference -/

/-- C15: the claim fails on the code.  For the sample pair `(65535, 0)` the
`int` product `(a - b) * (a - b)` wraps to `-131071`; on a 2x1 plane pair with
samples `(65535, 1000)` against `(0, 0)` `mclNormDiff_L2_16u_C1R` returns
`sqrt(868929)`, not `sqrt(65535^2 + 1000^2)`. -/
theorem C15_overflow :
    sqDiffInt32 65535 0 = -131071
    ∧ read16 overflow_mem 0 = 65535 ∧ read16 overflow_mem 2 = 1000
    ∧ mclNormDiff_L2_16u_C1R overflow_mem 0 4 (fun _ => 0) 0 4 ⟨2, 1⟩ 0
        = (.MCL_ERR_NONE, Real.sqrt 868929)
    ∧ Real.sqrt 868929 ≠ Real.sqrt (65535 ^ 2 + 1000 ^ 2) := by
  refine ⟨by decide, by decide, by decide, ?_, ?_⟩
  · rw [mclNormDiff_L2_16u_C1R_eq _ _ _ _ _ _ _ _ (by norm_num) (by norm_num)]
    simp only [Finset.sum_range_one, Finset.sum_range_succ, Finset.sum_range_zero, zero_add]
    have h1 : sqDiffInt32 (read16 overflow_mem (2 * (0 * (4 >>> 1)) + 2 * 0))
        (read16 (fun _ => 0) (2 * (0 * (4 >>> 1)) + 2 * 0)) = -131071 := by decide
    have h2 : sqDiffInt32 (read16 overflow_mem (2 * (0 * (4 >>> 1)) + 2 * 1))
        (read16 (fun _ => 0) (2 * (0 * (4 >>> 1)) + 2 * 1)) = 1000000 := by decide
    rw [h1, h2]
    norm_num
  · intro h
    have h1 := Real.sqrt_inj (by norm_num : (0 : ℝ) ≤ 868929)
      (by norm_num : (0 : ℝ) ≤ 65535 ^ 2 + 1000 ^ 2)
    rw [h1] at h
    norm_num at h

/-! ## Chroma class of the tags, bit depths of the helpers -/

/-- A quantity every step of a loop leaves alone is left alone by the loop. -/
theorem forLoop_inv {σ α : Type} (n : Nat) (step : Nat → σ → σ) (g : σ → α)
    (h : ∀ w, w < n → ∀ s, g (step w s) = g s) (s : σ) : g (forLoop n step s) = g s := by
  induction n with
  | zero => rfl
  | succ n ih =>
    rw [forLoop_succ, h n (by omega)]
    exact ih (fun w hw => h w (by omega))

/-- A quantity every step of a nested loop leaves alone is left alone by the
nested loop. -/
theorem forLoop2_inv {σ α : Type} (H W : Nat) (step : Nat → Nat → σ → σ) (g : σ → α)
    (h : ∀ y x, y < H → x < W → ∀ s, g (step y x s) = g s) (s : σ) :
    g (forLoop H (fun y s => forLoop W (step y) s) s) = g s :=
  forLoop_inv H (fun y s => forLoop W (step y) s) g
    (fun y hy s => forLoop_inv W (step y) g (fun x hx => h y x hy hx) s) s

/-- What step `x` establishes, computed from a quantity `f` of the state before
it, survives the loop when the other steps leave `f` and the observation alone. -/
theorem forLoop_value {σ α : Type} (n : Nat) (step : Nat → σ → σ) (obs f : σ → α) (x : Nat)
    (hx : x < n) (h1 : ∀ s, obs (step x s) = f s)
    (h2 : ∀ w, w < n → w ≠ x → ∀ s, f (step w s) = f s)
    (h3 : ∀ w, w < n → w ≠ x → ∀ s, obs (step w s) = obs s) (s : σ) :
    obs (forLoop n step s) = f s := by
  induction n with
  | zero => omega
  | succ n ih =>
    rw [forLoop_succ]
    by_cases hxn : x = n
    · subst hxn
      rw [h1]
      exact forLoop_inv x step f (fun w hw => h2 w (by omega) (by omega)) s
    · rw [h3 n (by omega) (fun h => hxn h.symm)]
      exact ih (by omega) (fun w hw => h2 w (by omega)) (fun w hw => h3 w (by omega))

/-- The nested form of `forLoop_value`. -/
theorem forLoop2_value {σ α : Type} (H W : Nat) (step : Nat → Nat → σ → σ) (obs f : σ → α)
    (y x : Nat) (hy : y < H) (hx : x < W) (h1 : ∀ s, obs (step y x s) = f s)
    (h2 : ∀ h w, h < H → w < W → (h ≠ y ∨ w ≠ x) → ∀ s, f (step h w s) = f s)
    (h3 : ∀ h w, h < H → w < W → (h ≠ y ∨ w ≠ x) → ∀ s, obs (step h w s) = obs s) (s : σ) :
    obs (forLoop H (fun h s => forLoop W (step h) s) s) = f s :=
  forLoop_value H (fun h s => forLoop W (step h) s) obs f y hy
    (fun s => forLoop_value W (step y) obs f x hx h1
      (fun w hw hne => h2 y w hy hw (Or.inr hne))
      (fun w hw hne => h3 y w hy hw (Or.inr hne)) s)
    (fun h hh hne s => forLoop_inv W (step h) f (fun w hw => h2 h w hh hw (Or.inl hne)) s)
    (fun h hh hne s => forLoop_inv W (step h) obs (fun w hw => h3 h w hh hw (Or.inl hne)) s) s

/-! ## Cells of a plane -/

theorem cell_lt (h H w W s : Nat) (hh : h < H) (hw : w < W) (hs : W ≤ s) :
    h * s + w < H * s := by
  have := mul_step h H s hh
  omega

theorem cell_ne (h y w x W s : Nat) (hw : w < W) (hx : x < W) (hs : W ≤ s)
    (hne : h ≠ y ∨ w ≠ x) : h * s + w ≠ y * s + x := by
  rcases Nat.lt_trichotomy h y with hlt | heq | hgt
  · have := mul_step h y s hlt
    omega
  · subst heq
    rcases hne with hne | hne
    · exact absurd rfl hne
    · omega
  · have := mul_step y h s hgt
    omega

theorem read8_write8_other (m : Mem) (p v a : Nat) (h : a ≠ p) :
    read8 (write8 m p v) a = read8 m a := by
  apply read8_congr
  rw [write8_apply, if_neg h]

theorem read8_mod (m : Mem) (p : Nat) : read8 m p % 256 = read8 m p :=
  Nat.mod_eq_of_lt (read8_lt m p)

theorem read16_mod (m : Mem) (p : Nat) : read16 m p % 65536 = read16 m p :=
  Nat.mod_eq_of_lt (read16_lt m p)

theorem ne_of_disjoint (P la Q lb a b : Nat) (h : disjointRanges P la Q lb) (ha1 : P ≤ a)
    (ha2 : a < P + la) (hb1 : Q ≤ b) (hb2 : b < Q + lb) : a ≠ b := by
  unfold disjointRanges at h
  omega

theorem sep2_of_disjoint (P la Q lb a b : Nat) (h : disjointRanges P la Q lb) (ha1 : P ≤ a)
    (ha2 : a + 2 ≤ P + la) (hb1 : Q ≤ b) (hb2 : b + 2 ≤ Q + lb) : a + 2 ≤ b ∨ b + 2 ≤ a := by
  unfold disjointRanges at h
  omega

/-! ## NV12 demux, 8-bit -/

theorem nv12_8u_eq (m : Mem) (pSrcY srcYStep pSrcUV srcUVStep : Nat) (PDst dstStep : Nat → Nat)
    (roi : ImageSize) (hw : 2 ≤ roi.width) (hh : 2 ≤ roi.height) :
    mclYCbCr420ToYCrCb420_8u_P2P3R m pSrcY srcYStep pSrcUV srcUVStep PDst dstStep roi
      = (.MCL_ERR_NONE,
          forLoop (roi.height >>> 1) (fun h m => forLoop (roi.width >>> 1) (fun w m =>
            write8 (write8 m (PDst 1 + h * dstStep 1 + w) (read8 m (pSrcUV + h * srcUVStep + 2 * w)))
              (PDst 2 + h * dstStep 2 + w)
              (read8 (write8 m (PDst 1 + h * dstStep 1 + w)
                (read8 m (pSrcUV + h * srcUVStep + 2 * w))) (pSrcUV + h * srcUVStep + 2 * w + 1)))
            m)
          (forLoop roi.height (fun h m => forLoop roi.width (fun w m =>
            write8 m (PDst 0 + h * dstStep 0 + w) (read8 m (pSrcY + h * srcYStep + w))) m) m)) := by
  unfold mclYCbCr420ToYCrCb420_8u_P2P3R
  rw [if_neg (by omega)]

theorem nv12_16u_eq (m : Mem) (pSrcY srcYStep pSrcUV srcUVStep : Nat) (PDst dstStep : Nat → Nat)
    (roi : ImageSize) (hw : 2 ≤ roi.width) (hh : 2 ≤ roi.height) :
    mclYCbCr420ToYCrCb420_16u_P2P3R m pSrcY srcYStep pSrcUV srcUVStep PDst dstStep roi
      = (.MCL_ERR_NONE,
          forLoop (roi.height >>> 1) (fun h m => forLoop (roi.width >>> 1) (fun w m =>
            write16 (write16 m (PDst 1 + 2 * (h * (dstStep 1 >>> 1)) + 2 * w)
                (read16 m (pSrcUV + 2 * (h * (srcUVStep >>> 1)) + 2 * (2 * w))))
              (PDst 2 + 2 * (h * (dstStep 2 >>> 1)) + 2 * w)
              (read16 (write16 m (PDst 1 + 2 * (h * (dstStep 1 >>> 1)) + 2 * w)
                (read16 m (pSrcUV + 2 * (h * (srcUVStep >>> 1)) + 2 * (2 * w))))
                (pSrcUV + 2 * (h * (srcUVStep >>> 1)) + 2 * (2 * w + 1))))
            m)
          (forLoop roi.height (fun h m => forLoop roi.width (fun w m =>
            write16 m (PDst 0 + 2 * (h * (dstStep 0 >>> 1)) + 2 * w)
              (read16 m (pSrcY + 2 * (h * (srcYStep >>> 1)) + 2 * w))) m) m)) := by
  unfold mclYCbCr420ToYCrCb420_16u_P2P3R
  rw [if_neg (by omega)]

/-- The loops of the 8-bit NV12 kernel, with strides `e0`, `e1`, `e2` of the
destinations and `eY`, `eUV` of the sources (in samples), on planes that do not
overlap: luma is copied, the plane at `P1` gets the first sample of each chroma
pair and the plane at `P2` the second. -/
theorem nv12_8u_loops (m : Mem) (pSrcY eY pSrcUV eUV P0 P1 P2 e0 e1 e2 : Nat)
    (W H : Nat)
    (hd0 : W ≤ e0) (hd1 : W / 2 ≤ e1) (hd2 : W / 2 ≤ e2)
    (hsY : W ≤ eY) (hsUV : 2 * (W / 2) ≤ eUV)
    (h01 : disjointRanges P0 (H * e0) P1 (H / 2 * e1))
    (h02 : disjointRanges P0 (H * e0) P2 (H / 2 * e2))
    (h12 : disjointRanges P1 (H / 2 * e1) P2 (H / 2 * e2))
    (h0Y : disjointRanges P0 (H * e0) pSrcY (H * eY))
    (h0C : disjointRanges P0 (H * e0) pSrcUV (H / 2 * eUV))
    (h1C : disjointRanges P1 (H / 2 * e1) pSrcUV (H / 2 * eUV))
    (h2C : disjointRanges P2 (H / 2 * e2) pSrcUV (H / 2 * eUV)) :
    let m' := forLoop (H / 2) (fun h m => forLoop (W / 2) (fun w m =>
        write8 (write8 m (P1 + h * e1 + w)
            (read8 m (pSrcUV + h * eUV + 2 * w)))
          (P2 + h * e2 + w)
          (read8 (write8 m (P1 + h * e1 + w)
            (read8 m (pSrcUV + h * eUV + 2 * w)))
            (pSrcUV + h * eUV + 2 * w + 1))) m)
      (forLoop H (fun h m => forLoop W (fun w m =>
        write8 m (P0 + h * e0 + w) (read8 m (pSrcY + h * eY + w))) m) m)
    (∀ x y, x < W → y < H →
        read8 m' (P0 + y * e0 + x) = read8 m (pSrcY + y * eY + x))
    ∧ (∀ x y, x < W / 2 → y < H / 2 →
        read8 m' (P1 + y * e1 + x) = read8 m (pSrcUV + y * eUV + 2 * x)
        ∧ read8 m' (P2 + y * e2 + x)
            = read8 m (pSrcUV + y * eUV + 2 * x + 1)) := by
  intro m'
  have hluma : ∀ x y, x < W → y < H →
      read8 (forLoop H (fun h m => forLoop W (fun w m =>
        write8 m (P0 + h * e0 + w) (read8 m (pSrcY + h * eY + w))) m) m)
        (P0 + y * e0 + x) = read8 m (pSrcY + y * eY + x) := by
    intro x y hx hy
    have c0 := cell_lt y H x W e0 hy hx hd0
    have cY := cell_lt y H x W eY hy hx hsY
    exact forLoop2_value H W
      (fun h w m => write8 m (P0 + h * e0 + w) (read8 m (pSrcY + h * eY + w)))
      (fun m => read8 m (P0 + y * e0 + x))
      (fun m => read8 m (pSrcY + y * eY + x))
      y x hy hx
      (fun s => by
        show read8 (write8 s _ _) _ = _
        rw [read8_write8_same, read8_mod])
      (fun h w hh' hw' _ s => by
        have := cell_lt h H w W e0 hh' hw' hd0
        exact read8_write8_other _ _ _ _ (ne_of_disjoint _ _ _ _ _ _ (disjointRanges_symm _ _ _ _ h0Y)
          (by omega) (by omega) (by omega) (by omega)))
      (fun h w hh' hw' hne s => by
        have := cell_ne h y w x W e0 hw' hx hd0 hne
        exact read8_write8_other _ _ _ _ (by omega)) m
  have hsrc : ∀ a, pSrcUV ≤ a → a < pSrcUV + H / 2 * eUV →
      read8 (forLoop H (fun h m => forLoop W (fun w m =>
        write8 m (P0 + h * e0 + w) (read8 m (pSrcY + h * eY + w))) m) m) a
        = read8 m a := by
    intro a ha1 ha2
    exact forLoop2_inv H W
      (fun h w m => write8 m (P0 + h * e0 + w) (read8 m (pSrcY + h * eY + w)))
      (fun m => read8 m a)
      (fun h w hh' hw' s => by
        have := cell_lt h H w W e0 hh' hw' hd0
        exact read8_write8_other _ _ _ _ (ne_of_disjoint _ _ _ _ _ _ (disjointRanges_symm _ _ _ _ h0C)
          (by omega) (by omega) (by omega) (by omega))) m
  have hm' : m' = forLoop (H / 2) (fun h m => forLoop (W / 2) (fun w m =>
        write8 (write8 m (P1 + h * e1 + w)
            (read8 m (pSrcUV + h * eUV + 2 * w)))
          (P2 + h * e2 + w)
          (read8 (write8 m (P1 + h * e1 + w)
            (read8 m (pSrcUV + h * eUV + 2 * w)))
            (pSrcUV + h * eUV + 2 * w + 1))) m)
      (forLoop H (fun h m => forLoop W (fun w m =>
        write8 m (P0 + h * e0 + w) (read8 m (pSrcY + h * eY + w))) m) m) :=
    rfl
  generalize forLoop H (fun h m => forLoop W (fun w m =>
        write8 m (P0 + h * e0 + w) (read8 m (pSrcY + h * eY + w))) m) m = m1
    at hluma hsrc hm'
  rw [hm']
  refine ⟨?_, ?_⟩
  · intro x y hx hy
    rw [← hluma x y hx hy]
    have c0 := cell_lt y H x W e0 hy hx hd0
    exact forLoop2_inv (H / 2) (W / 2)
      (fun h w m =>
        write8 (write8 m (P1 + h * e1 + w)
            (read8 m (pSrcUV + h * eUV + 2 * w)))
          (P2 + h * e2 + w)
          (read8 (write8 m (P1 + h * e1 + w)
            (read8 m (pSrcUV + h * eUV + 2 * w)))
            (pSrcUV + h * eUV + 2 * w + 1)))
      (fun m => read8 m (P0 + y * e0 + x))
      (fun h w hh' hw' s => by
        have := cell_lt h (H / 2) w (W / 2) e1 hh' hw' hd1
        have := cell_lt h (H / 2) w (W / 2) e2 hh' hw' hd2
        show read8 (write8 (write8 s _ _) _ _) _ = _
        rw [read8_write8_other _ _ _ _ (ne_of_disjoint _ _ _ _ _ _ h02 (by omega) (by omega) (by omega) (by omega)),
          read8_write8_other _ _ _ _ (ne_of_disjoint _ _ _ _ _ _ h01 (by omega) (by omega) (by omega) (by omega))])
      m1
  · intro x y hx hy
    have c1 := cell_lt y (H / 2) x (W / 2) e1 hy hx hd1
    have c2 := cell_lt y (H / 2) x (W / 2) e2 hy hx hd2
    have cs := mul_step y (H / 2) eUV hy
    constructor
    · rw [← hsrc (pSrcUV + y * eUV + 2 * x) (by omega) (by omega)]
      exact forLoop2_value (H / 2) (W / 2)
        (fun h w m =>
        write8 (write8 m (P1 + h * e1 + w)
            (read8 m (pSrcUV + h * eUV + 2 * w)))
          (P2 + h * e2 + w)
          (read8 (write8 m (P1 + h * e1 + w)
            (read8 m (pSrcUV + h * eUV + 2 * w)))
            (pSrcUV + h * eUV + 2 * w + 1)))
        (fun m => read8 m (P1 + y * e1 + x))
        (fun m => read8 m (pSrcUV + y * eUV + 2 * x)) y x hy hx
        (fun s => by
          show read8 (write8 (write8 s _ _) _ _) _ = _
          rw [read8_write8_other _ _ _ _ (ne_of_disjoint _ _ _ _ _ _ h12 (by omega) (by omega) (by omega)
            (by omega)), read8_write8_same, read8_mod])
        (fun h w hh' hw' _ s => by
          have := cell_lt h (H / 2) w (W / 2) e1 hh' hw' hd1
          have := cell_lt h (H / 2) w (W / 2) e2 hh' hw' hd2
          have := mul_step h (H / 2) eUV hh'
          show read8 (write8 (write8 s _ _) _ _) _ = _
          rw [read8_write8_other _ _ _ _ (ne_of_disjoint _ _ _ _ _ _ (disjointRanges_symm _ _ _ _ h2C)
              (by omega) (by omega) (by omega) (by omega)),
            read8_write8_other _ _ _ _ (ne_of_disjoint _ _ _ _ _ _ (disjointRanges_symm _ _ _ _ h1C)
              (by omega) (by omega) (by omega) (by omega))])
        (fun h w hh' hw' hne s => by
          have := cell_ne h y w x (W / 2) e1 hw' hx hd1 hne
          have := cell_lt h (H / 2) w (W / 2) e2 hh' hw' hd2
          show read8 (write8 (write8 s _ _) _ _) _ = _
          rw [read8_write8_other _ _ _ _ (ne_of_disjoint _ _ _ _ _ _ h12 (by omega) (by omega) (by omega)
              (by omega)),
            read8_write8_other _ _ _ _ (by omega)])
        m1
    · rw [← hsrc (pSrcUV + y * eUV + 2 * x + 1) (by omega) (by omega)]
      exact forLoop2_value (H / 2) (W / 2)
        (fun h w m =>
        write8 (write8 m (P1 + h * e1 + w)
            (read8 m (pSrcUV + h * eUV + 2 * w)))
          (P2 + h * e2 + w)
          (read8 (write8 m (P1 + h * e1 + w)
            (read8 m (pSrcUV + h * eUV + 2 * w)))
            (pSrcUV + h * eUV + 2 * w + 1)))
        (fun m => read8 m (P2 + y * e2 + x))
        (fun m => read8 m (pSrcUV + y * eUV + 2 * x + 1)) y x hy hx
        (fun s => by
          show read8 (write8 (write8 s _ _) _ _) _ = _
          rw [read8_write8_same, read8_write8_other _ _ _ _ (ne_of_disjoint _ _ _ _ _ _ (disjointRanges_symm _ _ _ _ h1C)
            (by omega) (by omega) (by omega) (by omega)), read8_mod])
        (fun h w hh' hw' _ s => by
          have := cell_lt h (H / 2) w (W / 2) e1 hh' hw' hd1
          have := cell_lt h (H / 2) w (W / 2) e2 hh' hw' hd2
          have := mul_step h (H / 2) eUV hh'
          show read8 (write8 (write8 s _ _) _ _) _ = _
          rw [read8_write8_other _ _ _ _ (ne_of_disjoint _ _ _ _ _ _ (disjointRanges_symm _ _ _ _ h2C)
              (by omega) (by omega) (by omega) (by omega)),
            read8_write8_other _ _ _ _ (ne_of_disjoint _ _ _ _ _ _ (disjointRanges_symm _ _ _ _ h1C)
              (by omega) (by omega) (by omega) (by omega))])
        (fun h w hh' hw' hne s => by
          have := cell_ne h y w x (W / 2) e2 hw' hx hd2 hne
          have := cell_lt h (H / 2) w (W / 2) e1 hh' hw' hd1
          show read8 (write8 (write8 s _ _) _ _) _ = _
          rw [read8_write8_other _ _ _ _ (by omega),
            read8_write8_other _ _ _ _ (ne_of_disjoint _ _ _ _ _ _ (disjointRanges_symm _ _ _ _ h12)
              (by omega) (by omega) (by omega) (by omega))])
        m1

/-- The loops of the 16-bit NV12 kernel, with strides `e0`, `e1`, `e2` of the
destinations and `eY`, `eUV` of the sources (in samples), on planes that do not
overlap: luma is copied, the plane at `P1` gets the first sample of each chroma
pair and the plane at `P2` the second. -/
theorem nv12_16u_loops (m : Mem) (pSrcY eY pSrcUV eUV P0 P1 P2 e0 e1 e2 : Nat)
    (W H : Nat)
    (hd0 : W ≤ e0) (hd1 : W / 2 ≤ e1) (hd2 : W / 2 ≤ e2)
    (hsY : W ≤ eY) (hsUV : 2 * (W / 2) ≤ eUV)
    (h01 : disjointRanges P0 (2 * (H * e0)) P1 (2 * (H / 2 * e1)))
    (h02 : disjointRanges P0 (2 * (H * e0)) P2 (2 * (H / 2 * e2)))
    (h12 : disjointRanges P1 (2 * (H / 2 * e1)) P2 (2 * (H / 2 * e2)))
    (h0Y : disjointRanges P0 (2 * (H * e0)) pSrcY (2 * (H * eY)))
    (h0C : disjointRanges P0 (2 * (H * e0)) pSrcUV (2 * (H / 2 * eUV)))
    (h1C : disjointRanges P1 (2 * (H / 2 * e1)) pSrcUV (2 * (H / 2 * eUV)))
    (h2C : disjointRanges P2 (2 * (H / 2 * e2)) pSrcUV (2 * (H / 2 * eUV))) :
    let m' := forLoop (H / 2) (fun h m => forLoop (W / 2) (fun w m =>
        write16 (write16 m (P1 + 2 * (h * e1) + 2 * w)
            (read16 m (pSrcUV + 2 * (h * eUV) + 2 * (2 * w))))
          (P2 + 2 * (h * e2) + 2 * w)
          (read16 (write16 m (P1 + 2 * (h * e1) + 2 * w)
            (read16 m (pSrcUV + 2 * (h * eUV) + 2 * (2 * w))))
            (pSrcUV + 2 * (h * eUV) + 2 * (2 * w + 1)))) m)
      (forLoop H (fun h m => forLoop W (fun w m =>
        write16 m (P0 + 2 * (h * e0) + 2 * w) (read16 m (pSrcY + 2 * (h * eY) + 2 * w))) m) m)
    (∀ x y, x < W → y < H →
        read16 m' (P0 + 2 * (y * e0) + 2 * x) = read16 m (pSrcY + 2 * (y * eY) + 2 * x))
    ∧ (∀ x y, x < W / 2 → y < H / 2 →
        read16 m' (P1 + 2 * (y * e1) + 2 * x) = read16 m (pSrcUV + 2 * (y * eUV) + 2 * (2 * x))
        ∧ read16 m' (P2 + 2 * (y * e2) + 2 * x)
            = read16 m (pSrcUV + 2 * (y * eUV) + 2 * (2 * x + 1))) := by
  intro m'
  have hluma : ∀ x y, x < W → y < H →
      read16 (forLoop H (fun h m => forLoop W (fun w m =>
        write16 m (P0 + 2 * (h * e0) + 2 * w) (read16 m (pSrcY + 2 * (h * eY) + 2 * w))) m) m)
        (P0 + 2 * (y * e0) + 2 * x) = read16 m (pSrcY + 2 * (y * eY) + 2 * x) := by
    intro x y hx hy
    have c0 := cell_lt y H x W e0 hy hx hd0
    have cY := cell_lt y H x W eY hy hx hsY
    exact forLoop2_value H W
      (fun h w m => write16 m (P0 + 2 * (h * e0) + 2 * w) (read16 m (pSrcY + 2 * (h * eY) + 2 * w)))
      (fun m => read16 m (P0 + 2 * (y * e0) + 2 * x))
      (fun m => read16 m (pSrcY + 2 * (y * eY) + 2 * x))
      y x hy hx
      (fun s => by
        show read16 (write16 s _ _) _ = _
        rw [read16_write16_same, read16_mod])
      (fun h w hh' hw' _ s => by
        have := cell_lt h H w W e0 hh' hw' hd0
        exact read16_write16_other _ _ _ _ (sep2_of_disjoint _ _ _ _ _ _ (disjointRanges_symm _ _ _ _ h0Y)
          (by omega) (by omega) (by omega) (by omega)))
      (fun h w hh' hw' hne s => by
        have := cell_ne h y w x W e0 hw' hx hd0 hne
        exact read16_write16_other _ _ _ _ (by omega)) m
  have hsrc : ∀ a, pSrcUV ≤ a → a + 2 ≤ pSrcUV + 2 * (H / 2 * eUV) →
      read16 (forLoop H (fun h m => forLoop W (fun w m =>
        write16 m (P0 + 2 * (h * e0) + 2 * w) (read16 m (pSrcY + 2 * (h * eY) + 2 * w))) m) m) a
        = read16 m a := by
    intro a ha1 ha2
    exact forLoop2_inv H W
      (fun h w m => write16 m (P0 + 2 * (h * e0) + 2 * w) (read16 m (pSrcY + 2 * (h * eY) + 2 * w)))
      (fun m => read16 m a)
      (fun h w hh' hw' s => by
        have := cell_lt h H w W e0 hh' hw' hd0
        exact read16_write16_other _ _ _ _ (sep2_of_disjoint _ _ _ _ _ _ (disjointRanges_symm _ _ _ _ h0C)
          (by omega) (by omega) (by omega) (by omega))) m
  have hm' : m' = forLoop (H / 2) (fun h m => forLoop (W / 2) (fun w m =>
        write16 (write16 m (P1 + 2 * (h * e1) + 2 * w)
            (read16 m (pSrcUV + 2 * (h * eUV) + 2 * (2 * w))))
          (P2 + 2 * (h * e2) + 2 * w)
          (read16 (write16 m (P1 + 2 * (h * e1) + 2 * w)
            (read16 m (pSrcUV + 2 * (h * eUV) + 2 * (2 * w))))
            (pSrcUV + 2 * (h * eUV) + 2 * (2 * w + 1)))) m)
      (forLoop H (fun h m => forLoop W (fun w m =>
        write16 m (P0 + 2 * (h * e0) + 2 * w) (read16 m (pSrcY + 2 * (h * eY) + 2 * w))) m) m) :=
    rfl
  generalize forLoop H (fun h m => forLoop W (fun w m =>
        write16 m (P0 + 2 * (h * e0) + 2 * w) (read16 m (pSrcY + 2 * (h * eY) + 2 * w))) m) m = m1
    at hluma hsrc hm'
  rw [hm']
  refine ⟨?_, ?_⟩
  · intro x y hx hy
    rw [← hluma x y hx hy]
    have c0 := cell_lt y H x W e0 hy hx hd0
    exact forLoop2_inv (H / 2) (W / 2)
      (fun h w m =>
        write16 (write16 m (P1 + 2 * (h * e1) + 2 * w)
            (read16 m (pSrcUV + 2 * (h * eUV) + 2 * (2 * w))))
          (P2 + 2 * (h * e2) + 2 * w)
          (read16 (write16 m (P1 + 2 * (h * e1) + 2 * w)
            (read16 m (pSrcUV + 2 * (h * eUV) + 2 * (2 * w))))
            (pSrcUV + 2 * (h * eUV) + 2 * (2 * w + 1))))
      (fun m => read16 m (P0 + 2 * (y * e0) + 2 * x))
      (fun h w hh' hw' s => by
        have := cell_lt h (H / 2) w (W / 2) e1 hh' hw' hd1
        have := cell_lt h (H / 2) w (W / 2) e2 hh' hw' hd2
        show read16 (write16 (write16 s _ _) _ _) _ = _
        rw [read16_write16_other _ _ _ _ (sep2_of_disjoint _ _ _ _ _ _ h02 (by omega) (by omega) (by omega) (by omega)),
          read16_write16_other _ _ _ _ (sep2_of_disjoint _ _ _ _ _ _ h01 (by omega) (by omega) (by omega) (by omega))])
      m1
  · intro x y hx hy
    have c1 := cell_lt y (H / 2) x (W / 2) e1 hy hx hd1
    have c2 := cell_lt y (H / 2) x (W / 2) e2 hy hx hd2
    have cs := mul_step y (H / 2) eUV hy
    constructor
    · rw [← hsrc (pSrcUV + 2 * (y * eUV) + 2 * (2 * x)) (by omega) (by omega)]
      exact forLoop2_value (H / 2) (W / 2)
        (fun h w m =>
        write16 (write16 m (P1 + 2 * (h * e1) + 2 * w)
            (read16 m (pSrcUV + 2 * (h * eUV) + 2 * (2 * w))))
          (P2 + 2 * (h * e2) + 2 * w)
          (read16 (write16 m (P1 + 2 * (h * e1) + 2 * w)
            (read16 m (pSrcUV + 2 * (h * eUV) + 2 * (2 * w))))
            (pSrcUV + 2 * (h * eUV) + 2 * (2 * w + 1))))
        (fun m => read16 m (P1 + 2 * (y * e1) + 2 * x))
        (fun m => read16 m (pSrcUV + 2 * (y * eUV) + 2 * (2 * x))) y x hy hx
        (fun s => by
          show read16 (write16 (write16 s _ _) _ _) _ = _
          rw [read16_write16_other _ _ _ _ (sep2_of_disjoint _ _ _ _ _ _ h12 (by omega) (by omega) (by omega)
            (by omega)), read16_write16_same, read16_mod])
        (fun h w hh' hw' _ s => by
          have := cell_lt h (H / 2) w (W / 2) e1 hh' hw' hd1
          have := cell_lt h (H / 2) w (W / 2) e2 hh' hw' hd2
          have := mul_step h (H / 2) eUV hh'
          show read16 (write16 (write16 s _ _) _ _) _ = _
          rw [read16_write16_other _ _ _ _ (sep2_of_disjoint _ _ _ _ _ _ (disjointRanges_symm _ _ _ _ h2C)
              (by omega) (by omega) (by omega) (by omega)),
            read16_write16_other _ _ _ _ (sep2_of_disjoint _ _ _ _ _ _ (disjointRanges_symm _ _ _ _ h1C)
              (by omega) (by omega) (by omega) (by omega))])
        (fun h w hh' hw' hne s => by
          have := cell_ne h y w x (W / 2) e1 hw' hx hd1 hne
          have := cell_lt h (H / 2) w (W / 2) e2 hh' hw' hd2
          show read16 (write16 (write16 s _ _) _ _) _ = _
          rw [read16_write16_other _ _ _ _ (sep2_of_disjoint _ _ _ _ _ _ h12 (by omega) (by omega) (by omega)
              (by omega)),
            read16_write16_other _ _ _ _ (by omega)])
        m1
    · rw [← hsrc (pSrcUV + 2 * (y * eUV) + 2 * (2 * x + 1)) (by omega) (by omega)]
      exact forLoop2_value (H / 2) (W / 2)
        (fun h w m =>
        write16 (write16 m (P1 + 2 * (h * e1) + 2 * w)
            (read16 m (pSrcUV + 2 * (h * eUV) + 2 * (2 * w))))
          (P2 + 2 * (h * e2) + 2 * w)
          (read16 (write16 m (P1 + 2 * (h * e1) + 2 * w)
            (read16 m (pSrcUV + 2 * (h * eUV) + 2 * (2 * w))))
            (pSrcUV + 2 * (h * eUV) + 2 * (2 * w + 1))))
        (fun m => read16 m (P2 + 2 * (y * e2) + 2 * x))
        (fun m => read16 m (pSrcUV + 2 * (y * eUV) + 2 * (2 * x + 1))) y x hy hx
        (fun s => by
          show read16 (write16 (write16 s _ _) _ _) _ = _
          rw [read16_write16_same, read16_write16_other _ _ _ _ (sep2_of_disjoint _ _ _ _ _ _ (disjointRanges_symm _ _ _ _ h1C)
            (by omega) (by omega) (by omega) (by omega)), read16_mod])
        (fun h w hh' hw' _ s => by
          have := cell_lt h (H / 2) w (W / 2) e1 hh' hw' hd1
          have := cell_lt h (H / 2) w (W / 2) e2 hh' hw' hd2
          have := mul_step h (H / 2) eUV hh'
          show read16 (write16 (write16 s _ _) _ _) _ = _
          rw [read16_write16_other _ _ _ _ (sep2_of_disjoint _ _ _ _ _ _ (disjointRanges_symm _ _ _ _ h2C)
              (by omega) (by omega) (by omega) (by omega)),
            read16_write16_other _ _ _ _ (sep2_of_disjoint _ _ _ _ _ _ (disjointRanges_symm _ _ _ _ h1C)
              (by omega) (by omega) (by omega) (by omega))])
        (fun h w hh' hw' hne s => by
          have := cell_ne h y w x (W / 2) e2 hw' hx hd2 hne
          have := cell_lt h (H / 2) w (W / 2) e1 hh' hw' hd1
          show read16 (write16 (write16 s _ _) _ _) _ = _
          rw [read16_write16_other _ _ _ _ (by omega),
            read16_write16_other _ _ _ _ (sep2_of_disjoint _ _ _ _ _ _ (disjointRanges_symm _ _ _ _ h12)
              (by omega) (by omega) (by omega) (by omega))])
        m1

/-- C12: NV12 demux, for every `w, h >= 2` and planes that do not overlap.
The 8-bit kernel and its 16-bit twin return `MCL_ERR_NONE`, copy every luma
sample (`dst0(x, y) = Y(x, y)`), give the plane passed as `PDst[1]` the first
sample `UV(2x, y)` of each interleaved pair and the plane passed as `PDst[2]`
the second, `UV(2x+1, y)`, for `x < w/2`, `y < h/2`; `CYUVReader::ReadRawFrame`
passes `m_planes[k].data` as `PDst[k]`, so plane 1 of the frame is U and plane 2
is V. -/
theorem C12_nv12_demux (m : Mem) (pSrcY sY pSrcUV sUV : Nat) (PDst dstStep : Nat → Nat)
    (W H : Nat) (hw : 2 ≤ W) (hh : 2 ≤ H) :
    (nv12Layout 1 pSrcY sY pSrcUV sUV PDst dstStep W H →
      let r := mclYCbCr420ToYCrCb420_8u_P2P3R m pSrcY sY pSrcUV sUV PDst dstStep ⟨W, H⟩
      let dst := fun k => (⟨PDst k, dstStep k, ⟨W, H⟩⟩ : SImage)
      r.1 = .MCL_ERR_NONE
      ∧ (∀ x y, x < W → y < H →
          sample8 r.2 (dst 0) x y = sample8 m ⟨pSrcY, sY, ⟨W, H⟩⟩ x y)
      ∧ (∀ x y, x < W / 2 → y < H / 2 →
          sample8 r.2 (dst 1) x y = sample8 m ⟨pSrcUV, sUV, ⟨W, H⟩⟩ (2 * x) y
          ∧ sample8 r.2 (dst 2) x y = sample8 m ⟨pSrcUV, sUV, ⟨W, H⟩⟩ (2 * x + 1) y))
    ∧ (nv12Layout 2 pSrcY (sY >>> 1) pSrcUV (sUV >>> 1) PDst (fun k => dstStep k >>> 1) W H →
      let r := mclYCbCr420ToYCrCb420_16u_P2P3R m pSrcY sY pSrcUV sUV PDst dstStep ⟨W, H⟩
      let dst := fun k => (⟨PDst k, dstStep k, ⟨W, H⟩⟩ : SImage)
      r.1 = .MCL_ERR_NONE
      ∧ (∀ x y, x < W → y < H →
          sample16 r.2 (dst 0) x y = sample16 m ⟨pSrcY, sY, ⟨W, H⟩⟩ x y)
      ∧ (∀ x y, x < W / 2 → y < H / 2 →
          sample16 r.2 (dst 1) x y = sample16 m ⟨pSrcUV, sUV, ⟨W, H⟩⟩ (2 * x) y
          ∧ sample16 r.2 (dst 2) x y = sample16 m ⟨pSrcUV, sUV, ⟨W, H⟩⟩ (2 * x + 1) y))
    ∧ (∀ r : CReader, r.m_type = .NV12P ∨ r.m_type = .NV12I →
        (r.m_bd = .D008 →
          CYUVReader.demux r m = (mclYCbCr420ToYCrCb420_8u_P2P3R m r.m_Meta.data
            (r.m_planes 0).step (r.m_Meta.data + (r.m_planes 0).step * (r.m_planes 0).roi.height)
            (r.m_planes 0).step (fun k => (r.m_planes k).data) (fun k => (r.m_planes k).step)
            (r.m_planes 0).roi).2)
        ∧ (r.m_bd = .D010 →
          CYUVReader.demux r m = (mclYCbCr420ToYCrCb420_16u_P2P3R m r.m_Meta.data
            (r.m_planes 0).step (r.m_Meta.data + (r.m_planes 0).step * (r.m_planes 0).roi.height)
            (r.m_planes 0).step (fun k => (r.m_planes k).data) (fun k => (r.m_planes k).step)
            (r.m_planes 0).roi).2)) := by
  refine ⟨?_, ?_, ?_⟩
  · rintro ⟨hd0, hd1, hd2, hsY, hsUV, h01, h02, h12, h0Y, h0C, h1C, h2C⟩
    simp only [one_mul] at h01 h02 h12 h0Y h0C h1C h2C
    intro r dst
    have hr : r = _ := nv12_8u_eq m pSrcY sY pSrcUV sUV PDst dstStep ⟨W, H⟩ hw hh
    have hl := nv12_8u_loops m pSrcY sY pSrcUV sUV (PDst 0) (PDst 1) (PDst 2) (dstStep 0)
      (dstStep 1) (dstStep 2) W H hd0 hd1 hd2 hsY hsUV h01 h02 h12 h0Y h0C h1C h2C
    simp only [Nat.shiftRight_eq_div_pow, pow_one] at hr
    rw [hr]
    exact ⟨rfl, hl.1, hl.2⟩
  · rintro ⟨hd0, hd1, hd2, hsY, hsUV, h01, h02, h12, h0Y, h0C, h1C, h2C⟩
    intro r dst
    have hr : r = _ := nv12_16u_eq m pSrcY sY pSrcUV sUV PDst dstStep ⟨W, H⟩ hw hh
    have hl := nv12_16u_loops m pSrcY (sY >>> 1) pSrcUV (sUV >>> 1) (PDst 0) (PDst 1) (PDst 2)
      (dstStep 0 >>> 1) (dstStep 1 >>> 1) (dstStep 2 >>> 1) W H hd0 hd1 hd2 hsY hsUV h01 h02 h12
      h0Y h0C h1C h2C
    have e1 : ∀ n : Nat, n >>> 1 = n / 2 := fun n => by
      rw [Nat.shiftRight_eq_div_pow, pow_one]
    rw [e1 H, e1 W] at hr
    rw [hr]
    exact ⟨rfl, hl.1, hl.2⟩
  · intro r hty
    unfold CYUVReader.demux mclYCbCr420ToYCrCb420_P2P3R
    rcases hty with h | h
    · constructor
      · intro hbd
        simp [h, hbd]
      · intro hbd
        simp [h, hbd]
    · constructor
      · intro hbd
        simp [h, hbd]
      · intro hbd
        simp [h, hbd]

theorem C12_nv12_demux_witness :
    nv12Layout 1 0 4 8 4 nv12_dst nv12_steps 4 2
    ∧ sample8 (mclYCbCr420ToYCrCb420_8u_P2P3R nv12_mem 0 4 8 4 nv12_dst nv12_steps ⟨4, 2⟩).2
        ⟨nv12_dst 2, nv12_steps 2, ⟨4, 2⟩⟩ 1 0 = 12 := by
  have hl : nv12Layout 1 0 4 8 4 nv12_dst nv12_steps 4 2 := by
    unfold nv12Layout disjointRanges
    decide
  have h := ((C12_nv12_demux nv12_mem 0 4 8 4 nv12_dst nv12_steps 4 2 (by norm_num)
    (by norm_num)).1 hl).2.2 1 0 (by norm_num) (by norm_num)
  exact ⟨hl, h.2.trans (by decide)⟩

/-! ## Order of names, values and averages of the `PSNR` evaluator -/

theorem collect_map {α β : Type} (n : Nat) (p : Nat → Bool) (f : Nat → α) (g : α → β) :
    (collect n p f).map g = collect n p (fun i => g (f i)) := by
  unfold collect
  rw [List.map_map]
  rfl

theorem keys_map {β : Type} (ev : CMetricEvaluator) (g : String × Nat → β) :
    (CPSNREvaluator.keys ev).map g
      = collect (ev.m_num_planes + 1) (ev.has MASK_MSE) (fun i => g ("MSE", i))
        ++ collect (ev.m_num_planes + 1) (ev.has MASK_PSNR) (fun i => g ("PSNR", i))
        ++ collect (ev.m_num_planes + 1) (ev.has MASK_APSNR) (fun i => g ("APSNR", i)) := by
  unfold CPSNREvaluator.keys
  rw [List.map_append, List.map_append, collect_map, collect_map, collect_map]

theorem outVals_keys (ev : CMetricEvaluator) :
    CPSNREvaluator.outVals ev = (CPSNREvaluator.keys ev).map (CPSNREvaluator.keyValue ev) := by
  rw [keys_map, collect_succ ev.m_num_planes (ev.has MASK_MSE)]
  unfold CPSNREvaluator.outVals
  congr 1
  congr 1
  congr 1
  all_goals first
    | (apply collect_congr
       intro i hi _
       simp [CPSNREvaluator.keyValue, hi])
    | simp [CPSNREvaluator.keyValue]

theorem outIncs_keys (ev : CMetricEvaluator) :
    CPSNREvaluator.outIncs ev = (CPSNREvaluator.keys ev).map (CPSNREvaluator.keyInc ev) := by
  rw [keys_map, collect_succ ev.m_num_planes (ev.has MASK_MSE)]
  unfold CPSNREvaluator.outIncs
  congr 1
  congr 1
  congr 1
  all_goals first
    | (apply collect_congr
       intro i hi _
       simp [CPSNREvaluator.keyInc, CPSNREvaluator.keyValue, hi])
    | simp [CPSNREvaluator.keyInc, CPSNREvaluator.keyValue]

/-- C20 as stated fails at its last part: for `psnr y` on scenario S2 the second
value appended is the PSNR of plane Y, at least 10, while the second
running-average slot, 0 before the call, holds 1 (the MSE) after it. -/
theorem C20_counterexample :
    ∃ v a : ℝ, (CPSNREvaluator.ComputeMetrics S2_evaluator [] [0, 0]).1[1]? = some v
      ∧ (CPSNREvaluator.ComputeMetrics S2_evaluator [] [0, 0]).2[1]? = some a
      ∧ a ≠ 0 + v := by
  have hfs : CPSNREvaluator.finalSums S2_evaluator 0 = 1 := by
    rw [finalSums_plane S2_evaluator 0 (by decide) (Or.inl (by decide)),
      planeSums_of_has S2_evaluator 0 (by decide) (by decide),
      planeValue_D008 S2_evaluator 0 8 8 0 rfl rfl (by norm_num) (by norm_num)]
    have hS : sumSqDiff (sample8 S2_evaluator.m_i1.mem (S2_evaluator.m_i1.GetFrame 0))
        (sample8 S2_evaluator.m_i2.mem (S2_evaluator.m_i2.GetFrame 0)) 8 8 = 64 := by
      decide
    rw [hS]
    norm_num
  have hv := outVals_psnr S2_evaluator [] [0, 0] 0 (by decide) (by decide)
  have hidx : ([] : List ℝ).length + CPSNREvaluator.psnrIndex S2_evaluator 0 = 1 := by decide
  rw [hidx, hfs] at hv
  have hi := outIncs_psnr S2_evaluator 0 (by decide) (by decide)
  have hidx' : CPSNREvaluator.psnrIndex S2_evaluator 0 = 1 := by decide
  rw [hidx', hfs] at hi
  have ha : (CPSNREvaluator.ComputeMetrics S2_evaluator [] [0, 0]).2[1]? = some 1 := by
    rw [ComputeMetrics_avg, addList_getElem?]
    have hlen : (CPSNREvaluator.outIncs S2_evaluator).length = 2 := by
      rw [outIncs_length]
      decide
    rw [if_pos (by rw [hlen]; simp)]
    rw [List.getD_eq_getElem?_getD]
    simp only [List.length_nil, Nat.sub_zero]
    rw [hi]
    simp
  refine ⟨_, 1, hv, ha, ?_⟩
  have hb : MaxError S2_evaluator.m_i1.GetBitDepth = 255 := rfl
  rw [hb, MSEToPSNR_pos _ _ (by norm_num)]
  have hlog : (1 : ℝ) ≤ Real.logb 10 (255 * 255 / 1) := by
    rw [Real.le_logb_iff_rpow_le (by norm_num) (by norm_num)]
    norm_num
  have hmin : (10 : ℝ) ≤ min (10 * Real.logb 10 (255 * 255 / 1)) 1000 :=
    le_min (by linarith) (by norm_num)
  intro h
  linarith

/-- C20 (amended): the names `InitComputationParams` registers for the `PSNR`
evaluator, the values `ComputeMetrics` appends for one frame and the
running-average slots it adds to are in one-to-one, same-order correspondence:
all three follow the entries `keys` (for each metric in the order MSE, PSNR,
APSNR the planes whose mask has the metric bit, in plane order, under the name
`<plane letter>-<METRIC>`, then the overall entry under the bare `<METRIC>`).
The slot of the `k`-th entry accumulates the appended value for an MSE or APSNR
entry and the MSE of the entry, not the appended PSNR value, for a PSNR entry;
no other slot changes. -/
theorem C20_order (ev0 : CMetricEvaluator) (cmps : Component) (st : List String)
    (oflag : List Bool) (avg0 val avg : List ℝ) :
    let init := ev0.InitComputationParams CPSNREvaluator.metrics cmps st oflag avg0
    let ev := init.1
    let out := CPSNREvaluator.ComputeMetrics ev val avg
    init.2.1 = st ++ (CPSNREvaluator.keys ev).map (fun k => entryName cmps k.1 k.2)
    ∧ init.2.2.2 = avg0 ++ (CPSNREvaluator.keys ev).map (fun _ => (0 : ℝ))
    ∧ out.1 = val ++ (CPSNREvaluator.keys ev).map (CPSNREvaluator.keyValue ev)
    ∧ (∀ k key, (CPSNREvaluator.keys ev)[k]? = some key →
        out.2[val.length + k]?
          = avg[val.length + k]?.map (fun a => a + CPSNREvaluator.keyInc ev key))
    ∧ (∀ j, j < val.length ∨ val.length + (CPSNREvaluator.keys ev).length ≤ j →
        out.2[j]? = avg[j]?)
    ∧ (∀ i, CPSNREvaluator.keyInc ev ("MSE", i) = CPSNREvaluator.keyValue ev ("MSE", i)
        ∧ CPSNREvaluator.keyInc ev ("APSNR", i) = CPSNREvaluator.keyValue ev ("APSNR", i)
        ∧ CPSNREvaluator.keyInc ev ("PSNR", i) = CPSNREvaluator.finalSums ev i
        ∧ CPSNREvaluator.keyValue ev ("PSNR", i)
            = MSEToPSNR (CPSNREvaluator.finalSums ev i) (MaxError ev.m_i1.GetBitDepth)) := by
  intro init ev out
  obtain ⟨hn, _, hst, havg⟩ := InitComputationParams_PSNR ev0 cmps st oflag avg0
  have hn' : ev.m_num_planes = cmps.length - 1 := hn
  have hlen : (CPSNREvaluator.outIncs ev).length = (CPSNREvaluator.keys ev).length := by
    rw [outIncs_keys, List.length_map]
  refine ⟨?_, ?_, ?_, ?_, ?_, ?_⟩
  · rw [keys_map, hn', ← List.append_assoc, ← List.append_assoc]
    exact hst
  · rw [keys_map, hn', ← List.append_assoc, ← List.append_assoc]
    exact havg
  · show (CPSNREvaluator.ComputeMetrics ev val avg).1 = _
    rw [ComputeMetrics_val, outVals_keys]
  · intro k key hk
    have hklt : k < (CPSNREvaluator.keys ev).length := by
      by_contra hcon
      rw [List.getElem?_eq_none (by omega)] at hk
      cases hk
    show (CPSNREvaluator.ComputeMetrics ev val avg).2[val.length + k]? = _
    rw [ComputeMetrics_avg, addList_getElem?, if_pos (by rw [hlen]; omega)]
    have hget : (CPSNREvaluator.outIncs ev).getD (val.length + k - val.length) 0
        = CPSNREvaluator.keyInc ev key := by
      rw [Nat.add_sub_cancel_left, List.getD_eq_getElem?_getD, outIncs_keys,
        List.getElem?_map, hk]
      rfl
    rw [hget]
  · intro j hj
    show (CPSNREvaluator.ComputeMetrics ev val avg).2[j]? = _
    rw [ComputeMetrics_avg, addList_getElem?, if_neg (by rw [hlen]; omega)]
  · intro i
    refine ⟨?_, ?_, ?_, ?_⟩
    · simp [CPSNREvaluator.keyInc]
    · simp [CPSNREvaluator.keyInc]
    · simp [CPSNREvaluator.keyInc]
    · simp [CPSNREvaluator.keyValue]

theorem C20_order_witness :
    (S2_evaluator.InitComputationParams CPSNREvaluator.metrics psnr_y_cmps [] [] []).2.1
      = ["Y-MSE", "Y-PSNR"] :=
  (C20_order S2_evaluator psnr_y_cmps [] [] [] [] []).1.trans (by decide)

/-! ## The `float` kernels -/

/-- A loop nest that stores `val h w` at `P + h * s + w` leaves `val y x` in
cell `(y, x)`, for rows that do not overlap. -/
theorem fill_value (H W P s : Nat) (val : Nat → Nat → ℝ) (d : FBuf) (x y : Nat) (hx : x < W)
    (hy : y < H) (hs : W ≤ s) :
    forLoop H (fun h d => forLoop W (fun w d => Function.update d (P + h * s + w) (val h w)) d)
      d (P + y * s + x) = val y x :=
  @forLoop2_value FBuf ℝ H W (fun h w d => Function.update d (P + h * s + w) (val h w))
    (fun d => d (P + y * s + x)) (fun _ => val y x) y x hy hx
    (fun _ => Function.update_same _ _ _)
    (fun _ _ _ _ _ _ => rfl)
    (fun h w _ hw hne d => by
      have := cell_ne h y w x W s hw hx hs hne
      exact Function.update_noteq (by omega) _ _) d

theorem and_one_of_odd (K : Nat) (hK : K % 2 = 1) : ¬ (K &&& 0x1 = 0) := by
  rw [Nat.and_one_is_mod]
  omega

theorem convert_value (m : Mem) (img : SImage) (dst : FBuf) (P dstStep : Nat)
    (bd : EBitDepth) (hbd : bd = .D008 ∨ bd = .D010) (hW : 1 ≤ img.roi.width)
    (hH : 1 ≤ img.roi.height) (hs : img.roi.width ≤ dstStep >>> 2) (x y : Nat)
    (hx : x < img.roi.width) (hy : y < img.roi.height) :
    (mclConvert__u32f_C1R m img.data img.step dst P dstStep img.roi bd).2
        (P + y * (dstStep >>> 2) + x) = sampleR bd m img x y := by
  rcases hbd with h | h
  · subst h
    show (mclConvert_8u32f_C1R m img.data img.step dst P dstStep img.roi).2 _ = _
    unfold mclConvert_8u32f_C1R
    rw [if_neg (by omega)]
    exact fill_value img.roi.height img.roi.width P (dstStep >>> 2)
      (fun h w => ((read8 m (img.data + h * img.step + w) : Nat) : ℝ)) dst x y hx hy hs
  · subst h
    show (mclConvert_16u32f_C1R m img.data img.step dst P dstStep img.roi).2 _ = _
    unfold mclConvert_16u32f_C1R
    rw [if_neg (by omega)]
    exact fill_value img.roi.height img.roi.width P (dstStep >>> 2)
      (fun h w => ((read16 m (img.data + 2 * (h * (img.step >>> 1)) + 2 * w) : Nat) : ℝ))
      dst x y hx hy hs

theorem sqr_value (src : FBuf) (pSrc srcStep : Nat) (dst : FBuf) (P dstStep : Nat)
    (roi : ImageSize) (hW : 1 ≤ roi.width) (hH : 1 ≤ roi.height)
    (hs : roi.width ≤ dstStep >>> 2) (x y : Nat) (hx : x < roi.width) (hy : y < roi.height) :
    (mclSqr_32f_C1R src pSrc srcStep dst P dstStep roi).2 (P + y * (dstStep >>> 2) + x)
      = src (pSrc + y * (srcStep >>> 2) + x) * src (pSrc + y * (srcStep >>> 2) + x) := by
  unfold mclSqr_32f_C1R
  rw [if_neg (by omega)]
  exact fill_value roi.height roi.width P (dstStep >>> 2)
    (fun h w => src (pSrc + h * (srcStep >>> 2) + w) * src (pSrc + h * (srcStep >>> 2) + w))
    dst x y hx hy hs

theorem mul_value (src1 : FBuf) (pSrc1 srcStep1 : Nat) (src2 : FBuf) (pSrc2 srcStep2 : Nat)
    (dst : FBuf) (P dstStep : Nat) (roi : ImageSize) (hW : 1 ≤ roi.width)
    (hH : 1 ≤ roi.height) (hs : roi.width ≤ dstStep >>> 2) (x y : Nat) (hx : x < roi.width)
    (hy : y < roi.height) :
    (mclMul_32f_C1R src1 pSrc1 srcStep1 src2 pSrc2 srcStep2 dst P dstStep roi).2
        (P + y * (dstStep >>> 2) + x)
      = src1 (pSrc1 + y * (srcStep1 >>> 2) + x) * src2 (pSrc2 + y * (srcStep2 >>> 2) + x) := by
  unfold mclMul_32f_C1R
  rw [if_neg (by omega)]
  exact fill_value roi.height roi.width P (dstStep >>> 2)
    (fun h w => src1 (pSrc1 + h * (srcStep1 >>> 2) + w) * src2 (pSrc2 + h * (srcStep2 >>> 2) + w))
    dst x y hx hy hs

theorem filterRow_value (src : FBuf) (pSrc srcStep : Nat) (dst : FBuf) (P dstStep : Nat)
    (roi : ImageSize) (krn : FBuf) (pk K anchor : Nat) (hW : 1 ≤ roi.width)
    (hH : 1 ≤ roi.height) (hK : K % 2 = 1) (hs : roi.width ≤ dstStep >>> 2) (x y : Nat)
    (hx : x < roi.width) (hy : y < roi.height) :
    (mclFilterRow_32f_C1R src pSrc srcStep dst P dstStep roi krn pk K anchor).2
        (P + y * (dstStep >>> 2) + x)
      = ∑ i in Finset.range K,
          krn (pk + i) * src (pSrc + y * (srcStep >>> 2) + x + i - (K >>> 1)) := by
  unfold mclFilterRow_32f_C1R
  have hK1 : ¬ (K < 1 ∨ K &&& 0x1 = 0) := by
    intro h
    rcases h with h | h
    · omega
    · exact and_one_of_odd K hK h
  rw [if_neg (by omega), if_neg hK1]
  simp only [forLoop_add_sum, zero_add]
  exact fill_value roi.height roi.width P (dstStep >>> 2)
    (fun h w => ∑ i in Finset.range K,
      krn (pk + i) * src (pSrc + h * (srcStep >>> 2) + w + i - (K >>> 1)))
    dst x y hx hy hs

theorem filterColumn_value (src : FBuf) (pSrc srcStep : Nat) (dst : FBuf) (P dstStep : Nat)
    (roi : ImageSize) (krn : FBuf) (pk K anchor : Nat) (hW : 1 ≤ roi.width)
    (hH : 1 ≤ roi.height) (hK : K % 2 = 1) (hs : roi.width ≤ dstStep >>> 2) (x y : Nat)
    (hx : x < roi.width) (hy : y < roi.height) :
    (mclFilterColumn_32f_C1R src pSrc srcStep dst P dstStep roi krn pk K anchor).2
        (P + y * (dstStep >>> 2) + x)
      = ∑ i in Finset.range K, krn (pk + i)
          * src (pSrc + y * (srcStep >>> 2) + x + i * (srcStep >>> 2)
              - (K >>> 1) * (srcStep >>> 2)) := by
  unfold mclFilterColumn_32f_C1R
  have hK1 : ¬ (K < 1 ∨ K &&& 0x1 = 0) := by
    intro h
    rcases h with h | h
    · omega
    · exact and_one_of_odd K hK h
  rw [if_neg (by omega), if_neg hK1]
  simp only [forLoop_add_sum, zero_add]
  exact fill_value roi.height roi.width P (dstStep >>> 2)
    (fun h w => ∑ i in Finset.range K, krn (pk + i)
      * src (pSrc + h * (srcStep >>> 2) + w + i * (srcStep >>> 2) - (K >>> 1) * (srcStep >>> 2)))
    dst x y hx hy hs

theorem mul4_div (j e : Nat) : j * (4 * e) / 4 = j * e := by
  rw [Nat.mul_left_comm]
  exact Nat.mul_div_cancel_left _ (by norm_num)

theorem shr2_mul4 (e : Nat) : (4 * e) >>> 2 = e := by
  rw [Nat.shiftRight_eq_div_pow]
  omega

/-- One filter pass: for a buffer that holds `z` on the plane, the pass leaves
the window sums of `z` in the cells of the filtered region, whatever `tmp`
held. -/
theorem filterPass_value (ev : CSSIMEvaluator) (i e W H : Nat) (buf tmp : FBuf)
    (z : Nat → Nat → ℝ) (hstep : ev.m_step = 4 * e) (hWe : W ≤ e)
    (hkx : ev.mc_ksz (ev.m_xkidx i) % 2 = 1) (hky : ev.mc_ksz (ev.m_ykidx i) % 2 = 1)
    (hcx : clearBit0 (ev.mc_ksz (ev.m_xkidx i)) = ev.mc_ksz (ev.m_xkidx i) - 1)
    (hcy : clearBit0 (ev.mc_ksz (ev.m_ykidx i)) = ev.mc_ksz (ev.m_ykidx i) - 1)
    (hyH : ev.mc_ksz (ev.m_ykidx i) ≤ H)
    (hbuf : ∀ x y, x < W → y < H → buf (0 + y * e + x) = z x y) (x y : Nat)
    (hx : x < W - (ev.mc_ksz (ev.m_xkidx i) - 1)) (hy : y < H - (ev.mc_ksz (ev.m_ykidx i) - 1)) :
    (CSSIMEvaluator.filterPass ev i ⟨W, H⟩ buf tmp).1
        (ev.mc_ksz (ev.m_xkidx i) >>> 1 + ev.mc_ksz (ev.m_ykidx i) >>> 1 * e + y * e + x)
      = windowSum (ev.mc_ksz (ev.m_xkidx i)) (ev.mc_ksz (ev.m_ykidx i)) (ev.wx i) (ev.wy i)
          z x y := by
  unfold CSSIMEvaluator.filterPass
  simp only [hstep, mul4_div, hcx, hcy]
  generalize hkxe : ev.mc_ksz (ev.m_xkidx i) = kx at *
  generalize hkye : ev.mc_ksz (ev.m_ykidx i) = ky at *
  have hfw : W - (kx - 1) ≤ (4 * e) >>> 2 := by
    rw [shr2_mul4]
    omega
  have hcol := filterColumn_value
    (mclFilterRow_32f_C1R buf (kx >>> 1) (4 * e) tmp (kx >>> 1) (4 * e)
      ⟨W - (kx - 1), H⟩ ev.m_kernel_values (ev.mc_krn (ev.m_xkidx i)) kx (kx >>> 1)).2
    (kx >>> 1 + ky >>> 1 * e) (4 * e) buf (kx >>> 1 + ky >>> 1 * e) (4 * e)
    ⟨W - (kx - 1), H - (ky - 1)⟩ ev.m_kernel_values (ev.mc_krn (ev.m_ykidx i)) ky (ky >>> 1)
    (by show 1 ≤ W - (kx - 1); omega) (by show 1 ≤ H - (ky - 1); omega) hky hfw x y hx hy
  rw [shr2_mul4] at hcol
  rw [hcol]
  unfold windowSum
  apply Finset.sum_congr rfl
  intro j hj
  have hj' : j < ky := Finset.mem_range.mp hj
  congr 1
  have hidx : kx >>> 1 + ky >>> 1 * e + y * e + x + j * e - ky >>> 1 * e
      = kx >>> 1 + (y + j) * e + x := by
    rw [Nat.add_mul]
    omega
  rw [hidx]
  have hrow := filterRow_value buf (kx >>> 1) (4 * e) tmp (kx >>> 1) (4 * e)
    ⟨W - (kx - 1), H⟩ ev.m_kernel_values (ev.mc_krn (ev.m_xkidx i)) kx (kx >>> 1)
    (by show 1 ≤ W - (kx - 1); omega) (by show 1 ≤ H; omega) hkx hfw x (y + j) hx
    (by show y + j < H; omega)
  rw [shr2_mul4] at hrow
  rw [hrow]
  apply Finset.sum_congr rfl
  intro t ht
  have ht' : t < kx := Finset.mem_range.mp ht
  congr 1
  have hidx2 : kx >>> 1 + (y + j) * e + x + t - kx >>> 1 = 0 + (y + j) * e + (x + t) := by
    omega
  rw [hidx2]
  exact hbuf (x + t) (y + j) (by omega) (by omega)

theorem testFastSSIM_value (s1 s2 s3 s4 s5 dst : FBuf) (P e fw fh : Nat) (C1 C2 : ℝ)
    (hfw : fw ≤ e) (x y : Nat) (hx : x < fw) (hy : y < fh) :
    CSSIMEvaluator.testFastSSIM_32f s1 P (4 * e) s2 P (4 * e) s3 P (4 * e) s4 P (4 * e)
        s5 P (4 * e) dst P (4 * e) ⟨fw, fh⟩ C1 C2 (P + y * e + x)
      = CSSIMEvaluator.ssimPixel (s1 (P + y * e + x)) (s2 (P + y * e + x))
          (s3 (P + y * e + x)) (s4 (P + y * e + x)) (s5 (P + y * e + x)) C1 (C2 + C1) := by
  unfold CSSIMEvaluator.testFastSSIM_32f
  simp only [mul4_div]
  exact fill_value fh fw P e
    (fun h w => CSSIMEvaluator.ssimPixel (s1 (P + h * e + w)) (s2 (P + h * e + w))
      (s3 (P + h * e + w)) (s4 (P + h * e + w)) (s5 (P + h * e + w)) C1 (C2 + C1))
    dst x y hx hy hfw

theorem mean_value (src : FBuf) (P e fw fh : Nat) (v0 : ℝ) (hfw : 1 ≤ fw) (hfh : 1 ≤ fh) :
    (mclMean_32f_C1R src P (4 * e) ⟨fw, fh⟩ v0).2
      = (∑ h in Finset.range fh, ∑ w in Finset.range fw, src (P + h * e + w))
          / ((fw * fh : Nat) : ℝ) := by
  unfold mclMean_32f_C1R
  rw [if_neg (by show ¬ (fw < 1 ∨ fh < 1); omega)]
  simp only [shr2_mul4, forLoop_rows_cols_sum, zero_add]

theorem planeStep_val (ev : CSSIMEvaluator) (i : Nat) (st : SSIMState) :
    (CSSIMEvaluator.planeStep ev i st).val
      = st.val ++ (if ev.base.has MASK_SSIM i then [(CSSIMEvaluator.planeStep ev i st).idx i]
          else []) := by
  unfold CSSIMEvaluator.planeStep CMetricEvaluator.has
  by_cases h : ev.base.c_mask i &&& MASK_SSIM ≠ 0
  · rw [if_pos h]
    simp [h]
  · rw [if_neg h]
    simp [h]

/-- Value `testFastSSIM_32f` leaves in the cell of output pixel `(x, y)` of
plane `i`, for a plane at least as large as the filter window and no wider than
the buffers. -/
theorem planeStep_tmp (ev : CSSIMEvaluator) (i e W H : Nat) (st : SSIMState)
    (hmask : ev.base.c_mask i &&& MASK_SSIM ≠ 0)
    (hbd : ev.base.m_i1.GetBitDepth = .D008 ∨ ev.base.m_i1.GetBitDepth = .D010)
    (hroi1 : (ev.base.m_i1.GetFrame i).roi = ⟨W, H⟩)
    (hroi2 : (ev.base.m_i2.GetFrame i).roi = ⟨W, H⟩)
    (hstep : ev.m_step = 4 * e) (hWe : W ≤ e)
    (hkx : ev.mc_ksz (ev.m_xkidx i) % 2 = 1) (hky : ev.mc_ksz (ev.m_ykidx i) % 2 = 1)
    (hcx : clearBit0 (ev.mc_ksz (ev.m_xkidx i)) = ev.mc_ksz (ev.m_xkidx i) - 1)
    (hcy : clearBit0 (ev.mc_ksz (ev.m_ykidx i)) = ev.mc_ksz (ev.m_ykidx i) - 1)
    (hxW : ev.mc_ksz (ev.m_xkidx i) ≤ W) (hyH : ev.mc_ksz (ev.m_ykidx i) ≤ H) (x y : Nat)
    (hx' : x < W - (ev.mc_ksz (ev.m_xkidx i) - 1))
    (hy' : y < H - (ev.mc_ksz (ev.m_ykidx i) - 1)) :
    (CSSIMEvaluator.planeStep ev i st).bufs.m_tmp
        (ev.mc_ksz (ev.m_xkidx i) >>> 1 + ev.mc_ksz (ev.m_ykidx i) >>> 1 * e + y * e + x)
      = ev.pixelValue i x y := by
  have hW1 : 1 ≤ W := by omega
  have hH1 : 1 ≤ H := by omega
  have he : W ≤ (4 * e) >>> 2 := by rw [shr2_mul4]; exact hWe
  unfold CSSIMEvaluator.planeStep
  rw [if_pos hmask]
  simp only [hroi1, hroi2, hstep, mul4_div, hcx, hcy]
  rw [testFastSSIM_value _ _ _ _ _ _ _ _ _ _ _ _ (by omega) x y hx' hy']
  have hA : ∀ u v, u < W → v < H →
      (mclConvert__u32f_C1R ev.base.m_i1.mem (ev.base.m_i1.GetFrame i).data
        (ev.base.m_i1.GetFrame i).step st.bufs.m_mu1 0 (4 * e) ⟨W, H⟩
        ev.base.m_i1.GetBitDepth).2 (0 + v * e + u)
      = sampleR ev.base.m_i1.GetBitDepth ev.base.m_i1.mem (ev.base.m_i1.GetFrame i) u v := by
    intro u v hu hv
    have := convert_value ev.base.m_i1.mem (ev.base.m_i1.GetFrame i) st.bufs.m_mu1 0 (4 * e)
      ev.base.m_i1.GetBitDepth hbd (by rw [hroi1]; exact hW1) (by rw [hroi1]; exact hH1)
      (by rw [hroi1]; exact he) u v (by rw [hroi1]; exact hu) (by rw [hroi1]; exact hv)
    rw [shr2_mul4, hroi1] at this
    exact this
  have hB : ∀ u v, u < W → v < H →
      (mclConvert__u32f_C1R ev.base.m_i2.mem (ev.base.m_i2.GetFrame i).data
        (ev.base.m_i2.GetFrame i).step st.bufs.m_mu2 0 (4 * e) ⟨W, H⟩
        ev.base.m_i1.GetBitDepth).2 (0 + v * e + u)
      = sampleR ev.base.m_i1.GetBitDepth ev.base.m_i2.mem (ev.base.m_i2.GetFrame i) u v := by
    intro u v hu hv
    have := convert_value ev.base.m_i2.mem (ev.base.m_i2.GetFrame i) st.bufs.m_mu2 0 (4 * e)
      ev.base.m_i1.GetBitDepth hbd (by rw [hroi2]; exact hW1) (by rw [hroi2]; exact hH1)
      (by rw [hroi2]; exact he) u v (by rw [hroi2]; exact hu) (by rw [hroi2]; exact hv)
    rw [shr2_mul4, hroi2] at this
    exact this
  unfold CSSIMEvaluator.pixelValue
  simp only []
  rw [filterPass_value ev i e W H _ _ _ hstep hWe hkx hky hcx hcy hyH hA x y hx' hy',
    filterPass_value ev i e W H _ _ _ hstep hWe hkx hky hcx hcy hyH hB x y hx' hy']
  have hAA : ∀ u v, u < W → v < H →
      (mclSqr_32f_C1R (mclConvert__u32f_C1R ev.base.m_i1.mem (ev.base.m_i1.GetFrame i).data
        (ev.base.m_i1.GetFrame i).step st.bufs.m_mu1 0 (4 * e) ⟨W, H⟩
        ev.base.m_i1.GetBitDepth).2 0 (4 * e) st.bufs.m_mu1_sq 0 (4 * e) ⟨W, H⟩).2
        (0 + v * e + u)
      = sampleR ev.base.m_i1.GetBitDepth ev.base.m_i1.mem (ev.base.m_i1.GetFrame i) u v
        * sampleR ev.base.m_i1.GetBitDepth ev.base.m_i1.mem (ev.base.m_i1.GetFrame i) u v := by
    intro u v hu hv
    have := sqr_value (mclConvert__u32f_C1R ev.base.m_i1.mem (ev.base.m_i1.GetFrame i).data
        (ev.base.m_i1.GetFrame i).step st.bufs.m_mu1 0 (4 * e) ⟨W, H⟩
        ev.base.m_i1.GetBitDepth).2 0 (4 * e) st.bufs.m_mu1_sq 0 (4 * e) ⟨W, H⟩ hW1 hH1 he
        u v hu hv
    rw [shr2_mul4, hA u v hu hv] at this
    exact this
  have hBB : ∀ u v, u < W → v < H →
      (mclSqr_32f_C1R (mclConvert__u32f_C1R ev.base.m_i2.mem (ev.base.m_i2.GetFrame i).data
        (ev.base.m_i2.GetFrame i).step st.bufs.m_mu2 0 (4 * e) ⟨W, H⟩
        ev.base.m_i1.GetBitDepth).2 0 (4 * e) st.bufs.m_mu2_sq 0 (4 * e) ⟨W, H⟩).2
        (0 + v * e + u)
      = sampleR ev.base.m_i1.GetBitDepth ev.base.m_i2.mem (ev.base.m_i2.GetFrame i) u v
        * sampleR ev.base.m_i1.GetBitDepth ev.base.m_i2.mem (ev.base.m_i2.GetFrame i) u v := by
    intro u v hu hv
    have := sqr_value (mclConvert__u32f_C1R ev.base.m_i2.mem (ev.base.m_i2.GetFrame i).data
        (ev.base.m_i2.GetFrame i).step st.bufs.m_mu2 0 (4 * e) ⟨W, H⟩
        ev.base.m_i1.GetBitDepth).2 0 (4 * e) st.bufs.m_mu2_sq 0 (4 * e) ⟨W, H⟩ hW1 hH1 he
        u v hu hv
    rw [shr2_mul4, hB u v hu hv] at this
    exact this
  have hAB : ∀ u v, u < W → v < H →
      (mclMul_32f_C1R (mclConvert__u32f_C1R ev.base.m_i1.mem (ev.base.m_i1.GetFrame i).data
        (ev.base.m_i1.GetFrame i).step st.bufs.m_mu1 0 (4 * e) ⟨W, H⟩
        ev.base.m_i1.GetBitDepth).2 0 (4 * e)
        (mclConvert__u32f_C1R ev.base.m_i2.mem (ev.base.m_i2.GetFrame i).data
        (ev.base.m_i2.GetFrame i).step st.bufs.m_mu2 0 (4 * e) ⟨W, H⟩
        ev.base.m_i1.GetBitDepth).2 0 (4 * e) st.bufs.m_mu1_mu2 0 (4 * e) ⟨W, H⟩).2
        (0 + v * e + u)
      = sampleR ev.base.m_i1.GetBitDepth ev.base.m_i1.mem (ev.base.m_i1.GetFrame i) u v
        * sampleR ev.base.m_i1.GetBitDepth ev.base.m_i2.mem (ev.base.m_i2.GetFrame i) u v := by
    intro u v hu hv
    have := mul_value (mclConvert__u32f_C1R ev.base.m_i1.mem (ev.base.m_i1.GetFrame i).data
        (ev.base.m_i1.GetFrame i).step st.bufs.m_mu1 0 (4 * e) ⟨W, H⟩
        ev.base.m_i1.GetBitDepth).2 0 (4 * e)
        (mclConvert__u32f_C1R ev.base.m_i2.mem (ev.base.m_i2.GetFrame i).data
        (ev.base.m_i2.GetFrame i).step st.bufs.m_mu2 0 (4 * e) ⟨W, H⟩
        ev.base.m_i1.GetBitDepth).2 0 (4 * e) st.bufs.m_mu1_mu2 0 (4 * e) ⟨W, H⟩ hW1 hH1 he
        u v hu hv
    rw [shr2_mul4, hA u v hu hv, hB u v hu hv] at this
    exact this
  rw [filterPass_value ev i e W H _ _ _ hstep hWe hkx hky hcx hcy hyH hAA x y hx' hy',
    filterPass_value ev i e W H _ _ _ hstep hWe hkx hky hcx hcy hyH hBB x y hx' hy',
    filterPass_value ev i e W H _ _ _ hstep hWe hkx hky hcx hcy hyH hAB x y hx' hy']


/-- Closed form of the value the plane loop computes for plane `i`, for a plane
at least as large as the filter window and no wider than the buffers. -/
theorem planeStep_idx (ev : CSSIMEvaluator) (i e W H : Nat) (st : SSIMState)
    (hmask : ev.base.c_mask i &&& MASK_SSIM ≠ 0)
    (hbd : ev.base.m_i1.GetBitDepth = .D008 ∨ ev.base.m_i1.GetBitDepth = .D010)
    (hroi1 : (ev.base.m_i1.GetFrame i).roi = ⟨W, H⟩)
    (hroi2 : (ev.base.m_i2.GetFrame i).roi = ⟨W, H⟩)
    (hstep : ev.m_step = 4 * e) (hWe : W ≤ e)
    (hkx : ev.mc_ksz (ev.m_xkidx i) % 2 = 1) (hky : ev.mc_ksz (ev.m_ykidx i) % 2 = 1)
    (hcx : clearBit0 (ev.mc_ksz (ev.m_xkidx i)) = ev.mc_ksz (ev.m_xkidx i) - 1)
    (hcy : clearBit0 (ev.mc_ksz (ev.m_ykidx i)) = ev.mc_ksz (ev.m_ykidx i) - 1)
    (hxW : ev.mc_ksz (ev.m_xkidx i) ≤ W) (hyH : ev.mc_ksz (ev.m_ykidx i) ≤ H) :
    (CSSIMEvaluator.planeStep ev i st).idx i = ev.planeSSIM i := by
  have hpix := planeStep_tmp ev i e W H st hmask hbd hroi1 hroi2 hstep hWe hkx hky hcx hcy
    hxW hyH
  unfold CSSIMEvaluator.planeStep at hpix ⊢
  rw [if_pos hmask] at hpix ⊢
  simp only [Function.update_same, hroi1, hroi2, hstep, mul4_div, hcx, hcy] at hpix ⊢
  rw [mean_value _ _ _ _ _ _ (by omega) (by omega)]
  unfold CSSIMEvaluator.planeSSIM
  simp only [hroi1]
  congr 1
  apply Finset.sum_congr rfl
  intro y hy
  apply Finset.sum_congr rfl
  intro x hx
  exact hpix x y (Finset.mem_range.mp hx) (Finset.mem_range.mp hy)

theorem planeStep_idx_small (ev : CSSIMEvaluator) (i : Nat) (st : SSIMState)
    (hmask : ev.base.c_mask i &&& MASK_SSIM ≠ 0)
    (hsmall : (ev.base.m_i1.GetFrame i).roi.width - clearBit0 (ev.mc_ksz (ev.m_xkidx i)) < 1
      ∨ (ev.base.m_i1.GetFrame i).roi.height - clearBit0 (ev.mc_ksz (ev.m_ykidx i)) < 1) :
    (CSSIMEvaluator.planeStep ev i st).idx i = st.idx i := by
  unfold CSSIMEvaluator.planeStep
  rw [if_pos hmask]
  simp only [Function.update_same]
  unfold mclMean_32f_C1R
  rw [if_pos hsmall]

theorem planeStep_idx_other (ev : CSSIMEvaluator) (i k : Nat) (st : SSIMState) (hk : k ≠ i) :
    (CSSIMEvaluator.planeStep ev k st).idx i = st.idx i := by
  unfold CSSIMEvaluator.planeStep
  by_cases h : ev.base.c_mask k &&& MASK_SSIM ≠ 0
  · rw [if_pos h]
    exact Function.update_noteq (fun h => hk h.symm) _ _
  · rw [if_neg h]

theorem planeLoop_val (ev : CSSIMEvaluator) (n : Nat) (st : SSIMState) :
    (forLoop n (CSSIMEvaluator.planeStep ev) st).val
      = st.val ++ collect n (ev.base.has MASK_SSIM)
          (fun k => (forLoop (k + 1) (CSSIMEvaluator.planeStep ev) st).idx k) := by
  induction n with
  | zero => simp [forLoop, collect_zero]
  | succ n ih =>
    rw [forLoop_succ, planeStep_val, ih, collect_succ, List.append_assoc]
    rfl

/-- The value of plane `i` is appended at position `ssimIndex`. -/
theorem SSIM_ComputeMetrics_plane (ev : CSSIMEvaluator) (bufs : SSIMBuffers) (val avg : List ℝ)
    (i : Nat) (hi : i < ev.base.m_num_planes) (hmask : ev.base.has MASK_SSIM i = true) (v : ℝ)
    (hv : ∀ st : SSIMState, st.idx i = 0 → (CSSIMEvaluator.planeStep ev i st).idx i = v) :
    (ev.ComputeMetrics bufs val avg).1[val.length + ev.ssimIndex i]? = some v := by
  have hloop := planeLoop_val ev ev.base.m_num_planes
    { bufs := bufs, idx := fun _ => 0, val := val, avg := avg, j := val.length }
  have hget := collect_getElem? ev.base.m_num_planes (ev.base.has MASK_SSIM)
    (fun k => (forLoop (k + 1) (CSSIMEvaluator.planeStep ev)
      { bufs := bufs, idx := fun _ => 0, val := val, avg := avg, j := val.length }).idx k)
    i hi hmask
  have hlt := filter_range_length_lt (ev.base.has MASK_SSIM) i ev.base.m_num_planes hi hmask
  have hval : (forLoop (i + 1) (CSSIMEvaluator.planeStep ev)
      { bufs := bufs, idx := fun _ => 0, val := val, avg := avg, j := val.length }).idx i = v := by
    rw [forLoop_succ]
    apply hv
    exact forLoop_inv i (CSSIMEvaluator.planeStep ev) (fun s => s.idx i)
      (fun w hw s => planeStep_idx_other ev i w s (by omega)) _
  simp only [hval] at hget
  have hkey : (forLoop ev.base.m_num_planes (CSSIMEvaluator.planeStep ev)
      { bufs := bufs, idx := fun _ => 0, val := val, avg := avg, j := val.length }).val[
        val.length + ev.ssimIndex i]? = some v := by
    rw [hloop]
    show (val ++ _)[val.length + ev.ssimIndex i]? = _
    rw [List.getElem?_append_right (by omega), Nat.add_sub_cancel_left]
    exact hget
  have hlen : val.length + ev.ssimIndex i
      < (forLoop ev.base.m_num_planes (CSSIMEvaluator.planeStep ev)
        { bufs := bufs, idx := fun _ => 0, val := val, avg := avg, j := val.length }).val.length := by
    by_contra hcon
    rw [List.getElem?_eq_none (by omega)] at hkey
    cases hkey
  unfold CSSIMEvaluator.ComputeMetrics CSSIMEvaluator.ComputeMetricsState
  by_cases ho : ev.base.c_mask ev.base.m_num_planes &&& MASK_SSIM ≠ 0
  · simp only [if_pos ho]
    rw [List.getElem?_append_left hlen]
    exact hkey
  · simp only [if_neg ho]
    exact hkey

theorem FLT_EPSILON_pos : 0 < FLT_EPSILON := by
  unfold FLT_EPSILON
  positivity

theorem ssimPixel_self (M S C1 C2 : ℝ) : CSSIMEvaluator.ssimPixel M M S S S C1 C2 = 1 := by
  unfold CSSIMEvaluator.ssimPixel
  simp only []
  split_ifs with h1 h2
  · exact div_self (ne_of_gt (lt_of_lt_of_le FLT_EPSILON_pos h1))
  · exact div_self (ne_of_gt (lt_of_lt_of_le FLT_EPSILON_pos h2))
  · rfl

theorem windowSum_congr (kx ky : Nat) (wx wy : Nat → ℝ) (z z' : Nat → Nat → ℝ) (x y : Nat)
    (h : ∀ i j, i < kx → j < ky → z (x + i) (y + j) = z' (x + i) (y + j)) :
    windowSum kx ky wx wy z x y = windowSum kx ky wx wy z' x y := by
  unfold windowSum
  apply Finset.sum_congr rfl
  intro j hj
  congr 1
  apply Finset.sum_congr rfl
  intro i hi
  rw [h i j (Finset.mem_range.mp hi) (Finset.mem_range.mp hj)]

/-! ## The evaluator `AllocateResourses` leaves -/

theorem kidx_loop (cc : EChromaType) (intl : Bool) (n j : Nat) (s : (Nat → Nat) × (Nat → Nat)) :
    (forLoop n (fun i (s : (Nat → Nat) × (Nat → Nat)) =>
      let s :=
        if i ≠ 0 then
          match cc with
          | .C444 => s
          | .C422 => (Function.update s.1 i (s.1 i + 1), s.2)
          | .C420 => (Function.update s.1 i (s.1 i + 1), Function.update s.2 i (s.2 i + 1))
        else s
      if intl then (s.1, Function.update s.2 i (s.2 i + 1)) else s) s).1 j ≤ s.1 j + 1
    ∧ (forLoop n (fun i (s : (Nat → Nat) × (Nat → Nat)) =>
      let s :=
        if i ≠ 0 then
          match cc with
          | .C444 => s
          | .C422 => (Function.update s.1 i (s.1 i + 1), s.2)
          | .C420 => (Function.update s.1 i (s.1 i + 1), Function.update s.2 i (s.2 i + 1))
        else s
      if intl then (s.1, Function.update s.2 i (s.2 i + 1)) else s) s).2 j ≤ s.2 j + 2
    ∧ (n ≤ j → (forLoop n (fun i (s : (Nat → Nat) × (Nat → Nat)) =>
      let s :=
        if i ≠ 0 then
          match cc with
          | .C444 => s
          | .C422 => (Function.update s.1 i (s.1 i + 1), s.2)
          | .C420 => (Function.update s.1 i (s.1 i + 1), Function.update s.2 i (s.2 i + 1))
        else s
      if intl then (s.1, Function.update s.2 i (s.2 i + 1)) else s) s) = s
        ∨ (forLoop n (fun i (s : (Nat → Nat) × (Nat → Nat)) =>
      let s :=
        if i ≠ 0 then
          match cc with
          | .C444 => s
          | .C422 => (Function.update s.1 i (s.1 i + 1), s.2)
          | .C420 => (Function.update s.1 i (s.1 i + 1), Function.update s.2 i (s.2 i + 1))
        else s
      if intl then (s.1, Function.update s.2 i (s.2 i + 1)) else s) s).1 j = s.1 j
        ∧ (forLoop n (fun i (s : (Nat → Nat) × (Nat → Nat)) =>
      let s :=
        if i ≠ 0 then
          match cc with
          | .C444 => s
          | .C422 => (Function.update s.1 i (s.1 i + 1), s.2)
          | .C420 => (Function.update s.1 i (s.1 i + 1), Function.update s.2 i (s.2 i + 1))
        else s
      if intl then (s.1, Function.update s.2 i (s.2 i + 1)) else s) s).2 j = s.2 j) := by
  induction n with
  | zero => exact ⟨Nat.le_succ _, by show s.2 j ≤ s.2 j + 2; omega, fun _ => Or.inl rfl⟩
  | succ n ih =>
    rw [forLoop_succ]
    obtain ⟨h1, h2, h3⟩ := ih
    generalize forLoop n _ s = r at h1 h2 h3 ⊢
    by_cases hj : j = n
    · subst hj
      have h3' : r.1 j = s.1 j ∧ r.2 j = s.2 j := by
        rcases h3 (le_refl _) with h | h
        · rw [h]
          exact ⟨rfl, rfl⟩
        · exact h
      refine ⟨?_, ?_, fun h => by omega⟩
      · cases cc <;> cases intl <;> by_cases h0 : j = 0 <;>
          simp [h0, Function.update_same] at h3' ⊢ <;> omega
      · cases cc <;> cases intl <;> by_cases h0 : j = 0 <;>
          simp [h0, Function.update_same] at h3' ⊢ <;> omega
    · have hne : j ≠ n := hj
      have e : ∀ (f : Nat → Nat) (v : Nat), Function.update f n v j = f j :=
        fun f v => Function.update_noteq hne _ _
      have h3' : n + 1 ≤ j → r.1 j = s.1 j ∧ r.2 j = s.2 j := by
        intro h
        rcases h3 (by omega) with h | h
        · rw [h]
          exact ⟨rfl, rfl⟩
        · exact h
      refine ⟨?_, ?_, fun h => Or.inr ?_⟩
      · cases cc <;> cases intl <;> by_cases h0 : n = 0 <;>
          first
          | (subst h0
             simp [e]
             try omega)
          | (simp [e, h0]
             try omega)
      · cases cc <;> cases intl <;> by_cases h0 : n = 0 <;>
          first
          | (subst h0
             simp [e]
             try omega)
          | (simp [e, h0]
             try omega)
      · have h4 := h3' h
        cases cc <;> cases intl <;> by_cases h0 : n = 0 <;>
          first
          | (subst h0
             simp [e, h4.1, h4.2])
          | simp [e, h0, h4.1, h4.2]

theorem create_kidx (base : CMetricEvaluator) (kv : FBuf) (i : Nat) :
    (((CSSIMEvaluator.create base kv).AllocateResourses).m_xkidx i = 0
      ∨ ((CSSIMEvaluator.create base kv).AllocateResourses).m_xkidx i = 1)
    ∧ (((CSSIMEvaluator.create base kv).AllocateResourses).m_ykidx i = 0
      ∨ ((CSSIMEvaluator.create base kv).AllocateResourses).m_ykidx i = 1
      ∨ ((CSSIMEvaluator.create base kv).AllocateResourses).m_ykidx i = 2) := by
  have h := kidx_loop (get_chromaclass base.m_i1.GetSqType) base.m_i1.GetInterlaced 4 i
    (fun _ => 0, fun _ => 0)
  have hx : ((CSSIMEvaluator.create base kv).AllocateResourses).m_xkidx i ≤ 1 := h.1
  have hy : ((CSSIMEvaluator.create base kv).AllocateResourses).m_ykidx i ≤ 2 := h.2.1
  omega

theorem create_step (base : CMetricEvaluator) (kv : FBuf) :
    ((CSSIMEvaluator.create base kv).AllocateResourses).m_step
      = 4 * (base.m_i1.GetFrame 0).roi.width := by
  show (base.m_i1.GetFrame 0).roi.width <<< 2 = _
  rw [Nat.shiftLeft_eq]
  omega

theorem create_ksz (base : CMetricEvaluator) (kv : FBuf) (k : Nat) :
    ((CSSIMEvaluator.create base kv).AllocateResourses).mc_ksz k
      = if k = 0 then 11 else if k = 1 then 7 else if k = 2 then 5 else 0 := rfl

theorem create_krn (base : CMetricEvaluator) (kv : FBuf) (k : Nat) :
    ((CSSIMEvaluator.create base kv).AllocateResourses).mc_krn k
      = if k = 0 then 0 else if k = 1 then 11 else if k = 2 then 18 else 0 := rfl

/-- The horizontal window of a plane has 11 or 7 taps. -/
theorem create_kx (base : CMetricEvaluator) (kv : FBuf) (i : Nat) :
    ((CSSIMEvaluator.create base kv).AllocateResourses).mc_ksz
        (((CSSIMEvaluator.create base kv).AllocateResourses).m_xkidx i) = 11
    ∨ ((CSSIMEvaluator.create base kv).AllocateResourses).mc_ksz
        (((CSSIMEvaluator.create base kv).AllocateResourses).m_xkidx i) = 7 := by
  rcases (create_kidx base kv i).1 with h | h
  · left
    rw [h]
    rfl
  · right
    rw [h]
    rfl

/-- The vertical window of a plane has 11, 7 or 5 taps. -/
theorem create_ky (base : CMetricEvaluator) (kv : FBuf) (i : Nat) :
    ((CSSIMEvaluator.create base kv).AllocateResourses).mc_ksz
        (((CSSIMEvaluator.create base kv).AllocateResourses).m_ykidx i) = 11
    ∨ ((CSSIMEvaluator.create base kv).AllocateResourses).mc_ksz
        (((CSSIMEvaluator.create base kv).AllocateResourses).m_ykidx i) = 7
    ∨ ((CSSIMEvaluator.create base kv).AllocateResourses).mc_ksz
        (((CSSIMEvaluator.create base kv).AllocateResourses).m_ykidx i) = 5 := by
  rcases (create_kidx base kv i).2 with h | h | h
  · left
    rw [h]
    rfl
  · right
    left
    rw [h]
    rfl
  · right
    right
    rw [h]
    rfl

theorem ksz_facts (k : Nat) (h : k = 11 ∨ k = 7 ∨ k = 5) :
    k % 2 = 1 ∧ clearBit0 k = k - 1 ∧ 5 ≤ k ∧ k ≤ 11 := by
  rcases h with h | h | h <;> subst h <;> decide

/-- Value of plane `i` for the evaluator `AllocateResourses` leaves, for a
plane at least as large as its filter window and no wider than plane 0. -/
theorem create_planeStep_idx (base : CMetricEvaluator) (kv : FBuf) (i : Nat) (st : SSIMState)
    (hmask : base.has MASK_SSIM i = true)
    (hbd : base.m_i1.GetBitDepth = .D008 ∨ base.m_i1.GetBitDepth = .D010)
    (hroi : (base.m_i2.GetFrame i).roi = (base.m_i1.GetFrame i).roi)
    (hWe : (base.m_i1.GetFrame i).roi.width ≤ (base.m_i1.GetFrame 0).roi.width)
    (hxW : ((CSSIMEvaluator.create base kv).AllocateResourses).mc_ksz
        (((CSSIMEvaluator.create base kv).AllocateResourses).m_xkidx i)
      ≤ (base.m_i1.GetFrame i).roi.width)
    (hyH : ((CSSIMEvaluator.create base kv).AllocateResourses).mc_ksz
        (((CSSIMEvaluator.create base kv).AllocateResourses).m_ykidx i)
      ≤ (base.m_i1.GetFrame i).roi.height) :
    (CSSIMEvaluator.planeStep ((CSSIMEvaluator.create base kv).AllocateResourses) i st).idx i
      = ((CSSIMEvaluator.create base kv).AllocateResourses).planeSSIM i := by
  have hkx := ksz_facts _ ((create_kx base kv i).elim Or.inl (fun h => Or.inr (Or.inl h)))
  have hky := ksz_facts _ (create_ky base kv i)
  have hmask' : base.c_mask i &&& MASK_SSIM ≠ 0 := by
    simpa [CMetricEvaluator.has] using hmask
  exact planeStep_idx ((CSSIMEvaluator.create base kv).AllocateResourses) i
    (base.m_i1.GetFrame 0).roi.width (base.m_i1.GetFrame i).roi.width
    (base.m_i1.GetFrame i).roi.height st hmask' hbd rfl hroi (create_step base kv) hWe
    hkx.1 hky.1 hkx.2.1 hky.2.1 hxW hyH

/-! ## SSIM of a plane against itself -/

/-- C18 as stated fails for planes smaller than the filter window: for `ssim y`
on a 4x4 8-bit plane compared against itself (scenario S1) the value
`ComputeMetrics` appends is 0, not 1. -/
theorem C18_counterexample :
    S1_ssim_evaluator.m_i2 = S1_ssim_evaluator.m_i1
    ∧ (S1_ssim_evaluator.m_i1.GetFrame 0).roi = ⟨4, 4⟩
    ∧ ∃ v : ℝ, (((CSSIMEvaluator.create S1_ssim_evaluator (fun _ => 0)).AllocateResourses
        ).ComputeMetrics zeroBuffers [] []).1[0]? = some v ∧ v ≠ 1 := by
  refine ⟨rfl, rfl, 0, ?_, by norm_num⟩
  have h := SSIM_ComputeMetrics_plane
    ((CSSIMEvaluator.create S1_ssim_evaluator (fun _ => 0)).AllocateResourses)
    zeroBuffers [] [] 0 (show 0 < S1_ssim_evaluator.m_num_planes by decide)
    (show S1_ssim_evaluator.has MASK_SSIM 0 = true by decide) 0
    (fun st h0 => by
      rw [planeStep_idx_small _ 0 st (show S1_ssim_evaluator.c_mask 0 &&& MASK_SSIM ≠ 0 by decide)
        (Or.inl (by decide))]
      exact h0)
  exact h

/-- C18 (amended): for the evaluator `AllocateResourses` leaves, bit depth 8 or
10, and a plane `i` with the SSIM bit that is compared against itself (the two
readers give the same size and the same samples), is no wider than plane 0 and
is at least as large as the filter window of the plane (11, 7 or 5 taps in each
direction), the plane SSIM `ComputeMetrics` appends is exactly 1. -/
theorem C18_ssim_identity (base : CMetricEvaluator) (kv : FBuf) (ev : CSSIMEvaluator)
    (hev : ev = (CSSIMEvaluator.create base kv).AllocateResourses) (bufs : SSIMBuffers)
    (val avg : List ℝ) (i : Nat) (hi : i < base.m_num_planes)
    (hmask : base.has MASK_SSIM i = true)
    (hbd : base.m_i1.GetBitDepth = .D008 ∨ base.m_i1.GetBitDepth = .D010)
    (hroi : (base.m_i2.GetFrame i).roi = (base.m_i1.GetFrame i).roi)
    (hsame : ∀ x y, x < (base.m_i1.GetFrame i).roi.width →
      y < (base.m_i1.GetFrame i).roi.height →
      sampleAt base.m_i1.GetBitDepth base.m_i2.mem (base.m_i2.GetFrame i) x y
        = sampleAt base.m_i1.GetBitDepth base.m_i1.mem (base.m_i1.GetFrame i) x y)
    (hWe : (base.m_i1.GetFrame i).roi.width ≤ (base.m_i1.GetFrame 0).roi.width)
    (hxW : ev.mc_ksz (ev.m_xkidx i) ≤ (base.m_i1.GetFrame i).roi.width)
    (hyH : ev.mc_ksz (ev.m_ykidx i) ≤ (base.m_i1.GetFrame i).roi.height) :
    (ev.ComputeMetrics bufs val avg).1[val.length + ev.ssimIndex i]? = some 1 := by
  subst hev
  apply SSIM_ComputeMetrics_plane _ bufs val avg i hi hmask 1
  intro st _
  rw [create_planeStep_idx base kv i st hmask hbd hroi hWe hxW hyH]
  have hkx := (ksz_facts _ ((create_kx base kv i).elim Or.inl (fun h => Or.inr (Or.inl h)))).2.2.1
  have hky := (ksz_facts _ (create_ky base kv i)).2.2.1
  generalize hevd : (CSSIMEvaluator.create base kv).AllocateResourses = ev at hxW hyH hkx hky
  have hb : ev.base = base := by rw [← hevd]; rfl
  unfold CSSIMEvaluator.planeSSIM
  simp only [hb]
  have hpix : ∀ x y, x < (base.m_i1.GetFrame i).roi.width - (ev.mc_ksz (ev.m_xkidx i) - 1) →
      y < (base.m_i1.GetFrame i).roi.height - (ev.mc_ksz (ev.m_ykidx i) - 1) →
      ev.pixelValue i x y = 1 := by
    intro x y hx hy
    have hS : ∀ u v, u < ev.mc_ksz (ev.m_xkidx i) → v < ev.mc_ksz (ev.m_ykidx i) →
        sampleR base.m_i1.GetBitDepth base.m_i2.mem (base.m_i2.GetFrame i) (x + u) (y + v)
          = sampleR base.m_i1.GetBitDepth base.m_i1.mem (base.m_i1.GetFrame i) (x + u)
              (y + v) := by
      intro u v hu hv
      unfold sampleR
      rw [hsame (x + u) (y + v) (by omega) (by omega)]
    unfold CSSIMEvaluator.pixelValue
    simp only [hb]
    rw [windowSum_congr _ _ _ _
        (sampleR base.m_i1.GetBitDepth base.m_i2.mem (base.m_i2.GetFrame i))
        (sampleR base.m_i1.GetBitDepth base.m_i1.mem (base.m_i1.GetFrame i)) x y hS,
      windowSum_congr _ _ _ _
        (fun u v => sampleR base.m_i1.GetBitDepth base.m_i2.mem (base.m_i2.GetFrame i) u v
          * sampleR base.m_i1.GetBitDepth base.m_i2.mem (base.m_i2.GetFrame i) u v)
        (fun u v => sampleR base.m_i1.GetBitDepth base.m_i1.mem (base.m_i1.GetFrame i) u v
          * sampleR base.m_i1.GetBitDepth base.m_i1.mem (base.m_i1.GetFrame i) u v) x y
        (fun u v hu hv => by simp only [hS u v hu hv]),
      windowSum_congr _ _ _ _
        (fun u v => sampleR base.m_i1.GetBitDepth base.m_i1.mem (base.m_i1.GetFrame i) u v
          * sampleR base.m_i1.GetBitDepth base.m_i2.mem (base.m_i2.GetFrame i) u v)
        (fun u v => sampleR base.m_i1.GetBitDepth base.m_i1.mem (base.m_i1.GetFrame i) u v
          * sampleR base.m_i1.GetBitDepth base.m_i1.mem (base.m_i1.GetFrame i) u v) x y
        (fun u v hu hv => by simp only [hS u v hu hv])]
    exact ssimPixel_self _ _ _ _
  rw [Finset.sum_congr rfl (fun y hy => Finset.sum_congr rfl (fun x hx =>
    hpix x y (Finset.mem_range.mp hx) (Finset.mem_range.mp hy)))]
  have hfw : 1 ≤ (base.m_i1.GetFrame i).roi.width - (ev.mc_ksz (ev.m_xkidx i) - 1) := by omega
  have hfh : 1 ≤ (base.m_i1.GetFrame i).roi.height - (ev.mc_ksz (ev.m_ykidx i) - 1) := by omega
  generalize (base.m_i1.GetFrame i).roi.width - (ev.mc_ksz (ev.m_xkidx i) - 1) = fw at hfw
  generalize (base.m_i1.GetFrame i).roi.height - (ev.mc_ksz (ev.m_ykidx i) - 1) = fh at hfh
  simp only [Finset.sum_const, Finset.card_range, nsmul_eq_mul, mul_one]
  have hfw' : (0 : ℝ) < fw := by exact_mod_cast hfw
  have hfh' : (0 : ℝ) < fh := by exact_mod_cast hfh
  push_cast
  field_simp
  ring

theorem C18_ssim_identity_witness :
    (((CSSIMEvaluator.create (column_evaluator 5 5) (fun _ => 0)).AllocateResourses
      ).ComputeMetrics zeroBuffers [] []).1[0]? = some 1 :=
  C18_ssim_identity (column_evaluator 5 5) (fun _ => 0) _ rfl zeroBuffers [] [] 0
    (by decide) (by decide) (Or.inl rfl) rfl (fun _ _ _ _ => rfl) (le_refl _)
    (by decide) (by decide)

/-! ## Bit depths 12 and 16 -/

theorem gauss_first (K : Nat) (sigma : ℝ) (p : Nat) (a : FBuf) (n : Nat) :
    forLoop n (fun i (s : FBuf × ℝ) =>
      let val : ℝ := (((i : Int) - ((K / 2 : Nat) : Int) : Int) : ℝ)
      let a := Function.update s.1 (p + i)
        (Real.exp (-(val * val) / (2 * sigma * sigma)))
      (a, s.2 + a (p + i))) (a, (0 : ℝ))
    = (fun q => if p ≤ q ∧ q < p + n then gaussTap K sigma (q - p) else a q,
        ∑ t in Finset.range n, gaussTap K sigma t) := by
  induction n with
  | zero =>
    show (a, (0 : ℝ)) = _
    congr 1
    funext q
    rw [if_neg (by omega)]
  | succ n ih =>
    rw [forLoop_succ, ih]
    simp only [Function.update_same]
    rw [Finset.sum_range_succ]
    congr 1
    funext q
    by_cases hq : q = p + n
    · subst hq
      rw [Function.update_same, if_pos (by omega), Nat.add_sub_cancel_left]
      rfl
    · rw [Function.update_noteq hq]
      by_cases h : p ≤ q ∧ q < p + n
      · rw [if_pos h, if_pos (by omega)]
      · rw [if_neg h, if_neg (by omega)]

theorem GaussianKernel_value (K : Nat) (sigma : ℝ) (p : Nat) (a : FBuf) (t : Nat) (ht : t < K) :
    CSSIMEvaluator.GaussianKernel K sigma p a (p + t)
      = gaussTap K sigma t / ∑ u in Finset.range K, gaussTap K sigma u := by
  unfold CSSIMEvaluator.GaussianKernel
  rw [gauss_first]
  simp only []
  have h := @forLoop_value FBuf ℝ K
    (fun i a => Function.update a (p + i)
      (a (p + i) / ∑ u in Finset.range K, gaussTap K sigma u))
    (fun a => a (p + t)) (fun a => a (p + t) / ∑ u in Finset.range K, gaussTap K sigma u)
    t ht (fun s => Function.update_same _ _ _)
    (fun w _ hne s => by
      show Function.update s (p + w) _ (p + t) / _ = _
      rw [Function.update_noteq (by omega)])
    (fun w _ hne s => Function.update_noteq (by omega) _ _)
    (fun q => if p ≤ q ∧ q < p + K then gaussTap K sigma (q - p) else a q)
  rw [h]
  simp only []
  rw [if_pos (by omega), Nat.add_sub_cancel_left]

theorem GaussianKernel_other (K : Nat) (sigma : ℝ) (p : Nat) (a : FBuf) (q : Nat)
    (hq : q < p ∨ p + K ≤ q) : CSSIMEvaluator.GaussianKernel K sigma p a q = a q := by
  unfold CSSIMEvaluator.GaussianKernel
  rw [gauss_first]
  simp only []
  have h := @forLoop_inv FBuf ℝ K
    (fun i a => Function.update a (p + i)
      (a (p + i) / ∑ u in Finset.range K, gaussTap K sigma u))
    (fun a => a q)
    (fun w hw s => Function.update_noteq (by omega) _ _)
    (fun q => if p ≤ q ∧ q < p + K then gaussTap K sigma (q - p) else a q)
  rw [h]
  simp only []
  rw [if_neg (by omega)]

theorem gaussTap_pos (K : Nat) (sigma : ℝ) (t : Nat) : 0 < gaussTap K sigma t :=
  Real.exp_pos _

theorem gaussSum_pos (K : Nat) (sigma : ℝ) (hK : 1 ≤ K) :
    0 < ∑ u in Finset.range K, gaussTap K sigma u :=
  Finset.sum_pos (fun u _ => gaussTap_pos K sigma u) ⟨0, Finset.mem_range.mpr (by omega)⟩

/-- Taps that are the Gaussian taps over their sum are not negative and add up
to 1. -/
theorem normalised_taps (K : Nat) (sigma : ℝ) (w : Nat → ℝ) (hK : 1 ≤ K)
    (h : ∀ t, t < K → w t = gaussTap K sigma t / ∑ u in Finset.range K, gaussTap K sigma u) :
    (∀ t, t < K → 0 ≤ w t) ∧ ∑ t in Finset.range K, w t = 1 := by
  have hS := gaussSum_pos K sigma hK
  constructor
  · intro t ht
    rw [h t ht]
    exact div_nonneg (le_of_lt (gaussTap_pos K sigma t)) (le_of_lt hS)
  · rw [Finset.sum_congr rfl (fun t ht => h t (Finset.mem_range.mp ht)), ← Finset.sum_div]
    exact div_self (ne_of_gt hS)

theorem create_kernel_values (base : CMetricEvaluator) (kv : FBuf) :
    ((CSSIMEvaluator.create base kv).AllocateResourses).m_kernel_values
      = CSSIMEvaluator.GaussianKernel 5 (3 / 8) 18
          (CSSIMEvaluator.GaussianKernel 7 (3 / 4) 11
            (CSSIMEvaluator.GaussianKernel 11 (3 / 2) 0 kv)) := rfl

theorem create_taps0 (base : CMetricEvaluator) (kv : FBuf) (t : Nat) (ht : t < 11) :
    ((CSSIMEvaluator.create base kv).AllocateResourses).m_kernel_values (0 + t)
      = gaussTap 11 (3 / 2) t / ∑ u in Finset.range 11, gaussTap 11 (3 / 2) u := by
  rw [create_kernel_values, GaussianKernel_other 5 _ 18 _ _ (by omega),
    GaussianKernel_other 7 _ 11 _ _ (by omega), GaussianKernel_value 11 _ 0 _ t ht]

theorem create_taps1 (base : CMetricEvaluator) (kv : FBuf) (t : Nat) (ht : t < 7) :
    ((CSSIMEvaluator.create base kv).AllocateResourses).m_kernel_values (11 + t)
      = gaussTap 7 (3 / 4) t / ∑ u in Finset.range 7, gaussTap 7 (3 / 4) u := by
  rw [create_kernel_values, GaussianKernel_other 5 _ 18 _ _ (by omega),
    GaussianKernel_value 7 _ 11 _ t ht]

theorem create_taps2 (base : CMetricEvaluator) (kv : FBuf) (t : Nat) (ht : t < 5) :
    ((CSSIMEvaluator.create base kv).AllocateResourses).m_kernel_values (18 + t)
      = gaussTap 5 (3 / 8) t / ∑ u in Finset.range 5, gaussTap 5 (3 / 8) u := by
  rw [create_kernel_values, GaussianKernel_value 5 _ 18 _ t ht]

/-- The taps of each of the three kernels are not negative and add up to 1. -/
theorem create_weights (base : CMetricEvaluator) (kv : FBuf) (k : Nat) (hk : k ≤ 2) :
    (∀ t, t < ((CSSIMEvaluator.create base kv).AllocateResourses).mc_ksz k →
      0 ≤ ((CSSIMEvaluator.create base kv).AllocateResourses).m_kernel_values
        (((CSSIMEvaluator.create base kv).AllocateResourses).mc_krn k + t))
    ∧ ∑ t in Finset.range (((CSSIMEvaluator.create base kv).AllocateResourses).mc_ksz k),
        ((CSSIMEvaluator.create base kv).AllocateResourses).m_kernel_values
          (((CSSIMEvaluator.create base kv).AllocateResourses).mc_krn k + t) = 1 := by
  rcases (show k = 0 ∨ k = 1 ∨ k = 2 by omega) with h | h | h
  · subst h
    exact normalised_taps 11 (3 / 2) _ (by norm_num) (create_taps0 base kv)
  · subst h
    exact normalised_taps 7 (3 / 4) _ (by norm_num) (create_taps1 base kv)
  · subst h
    exact normalised_taps 5 (3 / 8) _ (by norm_num) (create_taps2 base kv)

/-! ## Range of the per-pixel value -/

/-- Weighted form of Jensen's inequality for the square. -/
theorem wsum_sq_le {ι : Type} (s : Finset ι) (w a : ι → ℝ) (hw : ∀ p ∈ s, 0 ≤ w p)
    (h1 : ∑ p in s, w p = 1) :
    (∑ p in s, w p * a p) ^ 2 ≤ ∑ p in s, w p * (a p * a p) := by
  have hnn : 0 ≤ ∑ p in s, w p * (a p - ∑ q in s, w q * a q) ^ 2 :=
    Finset.sum_nonneg (fun p hp => mul_nonneg (hw p hp) (sq_nonneg _))
  have key : ∀ M : ℝ, ∑ p in s, w p * (a p - M) ^ 2
      = ∑ p in s, w p * (a p * a p) - 2 * M * (∑ p in s, w p * a p)
        + M ^ 2 * ∑ p in s, w p := by
    intro M
    rw [Finset.mul_sum, Finset.mul_sum, ← Finset.sum_sub_distrib, ← Finset.sum_add_distrib]
    apply Finset.sum_congr rfl
    intro p _
    ring
  rw [key, h1] at hnn
  nlinarith

theorem windowSum_eq (kx ky : Nat) (wx wy : Nat → ℝ) (z : Nat → Nat → ℝ) (x y : Nat) :
    windowSum kx ky wx wy z x y
      = ∑ p in Finset.range ky ×ˢ Finset.range kx,
          (wy p.1 * wx p.2) * z (x + p.2) (y + p.1) := by
  unfold windowSum
  rw [Finset.sum_product]
  apply Finset.sum_congr rfl
  intro j _
  rw [Finset.mul_sum]
  apply Finset.sum_congr rfl
  intro i _
  ring

theorem ssimPixel_bounds (Mx My Sx2 Sy2 Sxy C1 c2 : ℝ) (hMx : 0 ≤ Mx) (hMy : 0 ≤ My)
    (h2 : (Mx + My) ^ 2 ≤ Sx2 + Sy2 + 2 * Sxy) (h3 : (Mx - My) ^ 2 ≤ Sx2 + Sy2 - 2 * Sxy)
    (hC1 : 0 < C1) (hc2 : 0 ≤ c2) :
    -1 ≤ CSSIMEvaluator.ssimPixel Mx My Sx2 Sy2 Sxy C1 (c2 + C1)
    ∧ CSSIMEvaluator.ssimPixel Mx My Sx2 Sy2 Sxy C1 (c2 + C1) ≤ 1 := by
  unfold CSSIMEvaluator.ssimPixel
  simp only []
  have hp := mul_nonneg hMx hMy
  have ht1 : 0 < Mx * My + Mx * My + C1 := by linarith
  have h13 : Mx * My + Mx * My + C1 ≤ Mx * Mx + My * My + C1 := by
    nlinarith [sq_nonneg (Mx - My)]
  have ht3 : 0 < Mx * Mx + My * My + C1 := lt_of_lt_of_le ht1 h13
  have h24 : Sxy + Sxy - (Mx * My + Mx * My + C1) + (c2 + C1)
      ≤ Sx2 + Sy2 - (Mx * Mx + My * My + C1) + (c2 + C1) := by nlinarith
  have h24' : -(Sx2 + Sy2 - (Mx * Mx + My * My + C1) + (c2 + C1))
      ≤ Sxy + Sxy - (Mx * My + Mx * My + C1) + (c2 + C1) := by nlinarith
  generalize Mx * My + Mx * My + C1 = t1 at *
  generalize Mx * Mx + My * My + C1 = t3 at *
  generalize Sxy + Sxy - t1 + (c2 + C1) = t2 at *
  generalize Sx2 + Sy2 - t3 + (c2 + C1) = t4 at *
  split_ifs with c1 c3
  · have hpos : 0 < t4 * t3 := lt_of_lt_of_le FLT_EPSILON_pos c1
    have ht4 : 0 < t4 := by
      by_contra hcon
      have : t4 * t3 ≤ 0 := mul_nonpos_of_nonpos_of_nonneg (le_of_not_lt hcon) (le_of_lt ht3)
      linarith
    constructor
    · rw [le_div_iff₀ hpos]
      nlinarith
    · rw [div_le_one hpos]
      nlinarith
  · constructor
    · have : 0 ≤ t1 / t3 := div_nonneg (le_of_lt ht1) (le_of_lt ht3)
      linarith
    · rw [div_le_one ht3]
      exact h13
  · constructor <;> norm_num

theorem sampleR_nonneg (bd : EBitDepth) (m : Mem) (img : SImage) (x y : Nat) :
    0 ≤ sampleR bd m img x y := by
  unfold sampleR
  exact Nat.cast_nonneg _

/-- The value `testFastSSIM_32f` computes lies in `[-1, 1]` for taps that are
not negative and add up to 1 and constants `C1 > 0`, `C2 >= 0`. -/
theorem pixelValue_bounds (ev : CSSIMEvaluator) (i x y : Nat)
    (hwx : ∀ t, t < ev.mc_ksz (ev.m_xkidx i) → 0 ≤ ev.wx i t)
    (hsx : ∑ t in Finset.range (ev.mc_ksz (ev.m_xkidx i)), ev.wx i t = 1)
    (hwy : ∀ t, t < ev.mc_ksz (ev.m_ykidx i) → 0 ≤ ev.wy i t)
    (hsy : ∑ t in Finset.range (ev.mc_ksz (ev.m_ykidx i)), ev.wy i t = 1)
    (hC1 : 0 < ev.m_ssim_c1) (hc2 : 0 ≤ ev.m_ssim_c2) :
    -1 ≤ ev.pixelValue i x y ∧ ev.pixelValue i x y ≤ 1 := by
  unfold CSSIMEvaluator.pixelValue
  simp only [windowSum_eq]
  generalize hA : sampleR ev.base.m_i1.GetBitDepth ev.base.m_i1.mem (ev.base.m_i1.GetFrame i)
    = A
  generalize hB : sampleR ev.base.m_i1.GetBitDepth ev.base.m_i2.mem (ev.base.m_i2.GetFrame i)
    = B
  have hAn : ∀ u v, 0 ≤ A u v := fun u v => by rw [← hA]; exact sampleR_nonneg _ _ _ u v
  have hBn : ∀ u v, 0 ≤ B u v := fun u v => by rw [← hB]; exact sampleR_nonneg _ _ _ u v
  generalize hs : Finset.range (ev.mc_ksz (ev.m_ykidx i))
    ×ˢ Finset.range (ev.mc_ksz (ev.m_xkidx i)) = s
  have hw : ∀ p ∈ s, 0 ≤ ev.wy i p.1 * ev.wx i p.2 := by
    intro p hp
    rw [← hs, Finset.mem_product, Finset.mem_range, Finset.mem_range] at hp
    exact mul_nonneg (hwy p.1 hp.1) (hwx p.2 hp.2)
  have h1 : ∑ p in s, ev.wy i p.1 * ev.wx i p.2 = 1 := by
    rw [← hs, Finset.sum_product]
    simp only [← Finset.mul_sum, hsx, mul_one, hsy]
  have hJp := wsum_sq_le s (fun p => ev.wy i p.1 * ev.wx i p.2)
    (fun p => A (x + p.2) (y + p.1) + B (x + p.2) (y + p.1)) hw h1
  have hJm := wsum_sq_le s (fun p => ev.wy i p.1 * ev.wx i p.2)
    (fun p => A (x + p.2) (y + p.1) - B (x + p.2) (y + p.1)) hw h1
  have e1 : ∑ p in s, ev.wy i p.1 * ev.wx i p.2
        * (A (x + p.2) (y + p.1) + B (x + p.2) (y + p.1))
      = ∑ p in s, ev.wy i p.1 * ev.wx i p.2 * A (x + p.2) (y + p.1)
        + ∑ p in s, ev.wy i p.1 * ev.wx i p.2 * B (x + p.2) (y + p.1) := by
    rw [← Finset.sum_add_distrib]
    exact Finset.sum_congr rfl (fun p _ => by ring)
  have e2 : ∑ p in s, ev.wy i p.1 * ev.wx i p.2
        * (A (x + p.2) (y + p.1) - B (x + p.2) (y + p.1))
      = ∑ p in s, ev.wy i p.1 * ev.wx i p.2 * A (x + p.2) (y + p.1)
        - ∑ p in s, ev.wy i p.1 * ev.wx i p.2 * B (x + p.2) (y + p.1) := by
    rw [← Finset.sum_sub_distrib]
    exact Finset.sum_congr rfl (fun p _ => by ring)
  have e3 : ∑ p in s, ev.wy i p.1 * ev.wx i p.2
        * ((A (x + p.2) (y + p.1) + B (x + p.2) (y + p.1))
          * (A (x + p.2) (y + p.1) + B (x + p.2) (y + p.1)))
      = ∑ p in s, ev.wy i p.1 * ev.wx i p.2 * (A (x + p.2) (y + p.1) * A (x + p.2) (y + p.1))
        + ∑ p in s, ev.wy i p.1 * ev.wx i p.2 * (B (x + p.2) (y + p.1) * B (x + p.2) (y + p.1))
        + 2 * ∑ p in s, ev.wy i p.1 * ev.wx i p.2
            * (A (x + p.2) (y + p.1) * B (x + p.2) (y + p.1)) := by
    rw [Finset.mul_sum, ← Finset.sum_add_distrib, ← Finset.sum_add_distrib]
    exact Finset.sum_congr rfl (fun p _ => by ring)
  have e4 : ∑ p in s, ev.wy i p.1 * ev.wx i p.2
        * ((A (x + p.2) (y + p.1) - B (x + p.2) (y + p.1))
          * (A (x + p.2) (y + p.1) - B (x + p.2) (y + p.1)))
      = ∑ p in s, ev.wy i p.1 * ev.wx i p.2 * (A (x + p.2) (y + p.1) * A (x + p.2) (y + p.1))
        + ∑ p in s, ev.wy i p.1 * ev.wx i p.2 * (B (x + p.2) (y + p.1) * B (x + p.2) (y + p.1))
        - 2 * ∑ p in s, ev.wy i p.1 * ev.wx i p.2
            * (A (x + p.2) (y + p.1) * B (x + p.2) (y + p.1)) := by
    rw [Finset.mul_sum, ← Finset.sum_add_distrib, ← Finset.sum_sub_distrib]
    exact Finset.sum_congr rfl (fun p _ => by ring)
  simp only [] at hJp hJm
  rw [e1, e3] at hJp
  rw [e2, e4] at hJm
  exact ssimPixel_bounds _ _ _ _ _ _ _
    (Finset.sum_nonneg (fun p hp => mul_nonneg (hw p hp) (hAn _ _)))
    (Finset.sum_nonneg (fun p hp => mul_nonneg (hw p hp) (hBn _ _))) hJp hJm hC1 hc2

theorem mean_bounds (f : Nat → Nat → ℝ) (fw fh : Nat) (hfw : 1 ≤ fw) (hfh : 1 ≤ fh)
    (h : ∀ x y, x < fw → y < fh → -1 ≤ f x y ∧ f x y ≤ 1) :
    -1 ≤ (∑ y in Finset.range fh, ∑ x in Finset.range fw, f x y) / ((fw * fh : Nat) : ℝ)
    ∧ (∑ y in Finset.range fh, ∑ x in Finset.range fw, f x y) / ((fw * fh : Nat) : ℝ) ≤ 1 := by
  have hpos : (0 : ℝ) < ((fw * fh : Nat) : ℝ) := by
    have : 0 < fw * fh := Nat.mul_pos (by omega) (by omega)
    exact_mod_cast this
  have hup : ∑ y in Finset.range fh, ∑ x in Finset.range fw, f x y
      ≤ ∑ _y in Finset.range fh, ∑ _x in Finset.range fw, (1 : ℝ) :=
    Finset.sum_le_sum (fun y hy => Finset.sum_le_sum (fun x hx =>
      (h x y (Finset.mem_range.mp hx) (Finset.mem_range.mp hy)).2))
  have hlo : ∑ _y in Finset.range fh, ∑ _x in Finset.range fw, (-1 : ℝ)
      ≤ ∑ y in Finset.range fh, ∑ x in Finset.range fw, f x y :=
    Finset.sum_le_sum (fun y hy => Finset.sum_le_sum (fun x hx =>
      (h x y (Finset.mem_range.mp hx) (Finset.mem_range.mp hy)).1))
  simp only [Finset.sum_const, Finset.card_range, nsmul_eq_mul, mul_one, mul_neg] at hup hlo
  have hc : ((fw * fh : Nat) : ℝ) = (fh : ℝ) * (fw : ℝ) := by
    push_cast
    ring
  constructor
  · rw [le_div_iff₀ hpos, hc]
    linarith
  · rw [div_le_one hpos, hc]
    exact hup

theorem create_constants (base : CMetricEvaluator) (kv : FBuf) :
    0 < ((CSSIMEvaluator.create base kv).AllocateResourses).m_ssim_c1
    ∧ 0 ≤ ((CSSIMEvaluator.create base kv).AllocateResourses).m_ssim_c2 := by
  have hM : 0 < MaxError base.m_i1.GetBitDepth := by
    cases base.m_i1.GetBitDepth <;> simp [MaxError]
  constructor
  · show 0 < 1 / 10000 * MaxError base.m_i1.GetBitDepth * MaxError base.m_i1.GetBitDepth
    positivity
  · show 0 ≤ 9 / 10000 * MaxError base.m_i1.GetBitDepth * MaxError base.m_i1.GetBitDepth
    positivity

/-- Every per-pixel value of the evaluator `AllocateResourses` leaves lies in
`[-1, 1]`. -/
theorem create_pixelValue_bounds (base : CMetricEvaluator) (kv : FBuf) (i x y : Nat) :
    -1 ≤ ((CSSIMEvaluator.create base kv).AllocateResourses).pixelValue i x y
    ∧ ((CSSIMEvaluator.create base kv).AllocateResourses).pixelValue i x y ≤ 1 := by
  have hx := create_weights base kv
    (((CSSIMEvaluator.create base kv).AllocateResourses).m_xkidx i)
    (by have := (create_kidx base kv i).1; omega)
  have hy := create_weights base kv
    (((CSSIMEvaluator.create base kv).AllocateResourses).m_ykidx i)
    (by have := (create_kidx base kv i).2; omega)
  have hc := create_constants base kv
  exact pixelValue_bounds _ i x y hx.1 hx.2 hy.1 hy.2 hc.1 hc.2

/-! ## Two planes with a negative SSIM -/

theorem gaussTap_le_one (K : Nat) (sigma : ℝ) (t : Nat) : gaussTap K sigma t ≤ 1 := by
  unfold gaussTap
  simp only []
  apply Real.exp_le_one_iff.mpr
  apply div_nonpos_of_nonpos_of_nonneg
  · exact neg_nonpos.mpr (mul_self_nonneg _)
  · nlinarith [mul_self_nonneg sigma]

theorem gaussTap_mid : gaussTap 11 (3 / 2) 5 = 1 := by
  unfold gaussTap
  norm_num

theorem gaussTap_next : 7 / 9 ≤ gaussTap 11 (3 / 2) 4 := by
  have h : gaussTap 11 (3 / 2) 4 = Real.exp (-(2 / 9)) := by
    unfold gaussTap
    norm_num
  rw [h]
  have := Real.add_one_le_exp (-(2 / 9) : ℝ)
  linarith

theorem gaussSum_bounds :
    1 ≤ ∑ u in Finset.range 11, gaussTap 11 (3 / 2) u
    ∧ ∑ u in Finset.range 11, gaussTap 11 (3 / 2) u ≤ 11 := by
  constructor
  · have h := Finset.single_le_sum
      (fun u _ => le_of_lt (gaussTap_pos 11 (3 / 2) u))
      (Finset.mem_range.mpr (show 5 < 11 by norm_num))
    rw [gaussTap_mid] at h
    exact h
  · have h := Finset.sum_le_sum (fun u (_ : u ∈ Finset.range 11) => gaussTap_le_one 11 (3 / 2) u)
    simp only [Finset.sum_const, Finset.card_range, nsmul_eq_mul, mul_one] at h
    exact_mod_cast h

theorem ssimPixel_neg (a b c : ℝ) (ha : 0 ≤ a) (ha1 : a ≤ 1) (hb : 0 ≤ b) (hb1 : b ≤ 1)
    (hab : 45 / 100000 < a * b) :
    CSSIMEvaluator.ssimPixel (a * 255) (b * 255) (a * 65025) (b * 65025) (c * 0)
      (1 / 10000 * 255 * 255) (9 / 10000 * 255 * 255 + 1 / 10000 * 255 * 255) < 0 := by
  unfold CSSIMEvaluator.ssimPixel
  simp only []
  have ht1 : 0 < a * 255 * (b * 255) + a * 255 * (b * 255) + 1 / 10000 * 255 * 255 := by
    nlinarith
  have ht2 : c * 0 + c * 0 - (a * 255 * (b * 255) + a * 255 * (b * 255) + 1 / 10000 * 255 * 255)
      + (9 / 10000 * 255 * 255 + 1 / 10000 * 255 * 255) < 0 := by
    nlinarith
  have ht3 : 6 ≤ a * 255 * (a * 255) + b * 255 * (b * 255) + 1 / 10000 * 255 * 255 := by
    nlinarith [mul_self_nonneg a, mul_self_nonneg b]
  have ht4 : 58 ≤ a * 65025 + b * 65025
      - (a * 255 * (a * 255) + b * 255 * (b * 255) + 1 / 10000 * 255 * 255)
      + (9 / 10000 * 255 * 255 + 1 / 10000 * 255 * 255) := by
    nlinarith [mul_nonneg ha (sub_nonneg.mpr ha1), mul_nonneg hb (sub_nonneg.mpr hb1)]
  generalize a * 255 * (b * 255) + a * 255 * (b * 255) + 1 / 10000 * 255 * 255 = t1 at *
  generalize a * 255 * (a * 255) + b * 255 * (b * 255) + 1 / 10000 * 255 * 255 = t3 at *
  generalize c * 0 + c * 0 - t1 + (9 / 10000 * 255 * 255 + 1 / 10000 * 255 * 255) = t2 at *
  generalize a * 65025 + b * 65025 - t3 + (9 / 10000 * 255 * 255 + 1 / 10000 * 255 * 255)
    = t4 at *
  have hpos : 0 < t4 * t3 := by nlinarith
  have heps : t4 * t3 ≥ FLT_EPSILON := by
    unfold FLT_EPSILON
    have : (1 : ℝ) / 2 ^ 23 ≤ 1 := by norm_num
    nlinarith
  rw [if_pos heps]
  exact div_neg_of_neg_of_pos (mul_neg_of_neg_of_pos ht2 ht1) hpos

theorem windowSum_column (kx ky : Nat) (wx wy : Nat → ℝ) (c : Nat) (hc : c < kx) (v : ℝ)
    (hsy : ∑ t in Finset.range ky, wy t = 1) (z : Nat → Nat → ℝ)
    (hz : ∀ i j, i < kx → j < ky → z (0 + i) (0 + j) = if i = c then v else 0) :
    windowSum kx ky wx wy z 0 0 = wx c * v := by
  unfold windowSum
  have inner : ∀ j, j ∈ Finset.range ky →
      wy j * ∑ i in Finset.range kx, wx i * z (0 + i) (0 + j) = wy j * (wx c * v) := by
    intro j hj
    congr 1
    rw [Finset.sum_eq_single c]
    · rw [hz c j hc (Finset.mem_range.mp hj), if_pos rfl]
    · intro i hi hne
      rw [hz i j (Finset.mem_range.mp hi) (Finset.mem_range.mp hj), if_neg hne, mul_zero]
    · intro h
      exact absurd (Finset.mem_range.mpr hc) h
  rw [Finset.sum_congr rfl inner, ← Finset.sum_mul, hsy, one_mul]

theorem column_sample (c u v : Nat) (hu : u < 11) :
    sampleR .D008 (column_reader c).mem ((column_reader c).GetFrame 0) u v
      = if u = c then 255 else 0 := by
  show (((if (0 + v * 11 + u) % 11 = c then 255 else 0) % 256 : Nat) : ℝ) = _
  have h : (0 + v * 11 + u) % 11 = u := by omega
  rw [h]
  split_ifs <;> norm_num

/-- The only per-pixel value of the column planes 5 and 4 is negative. -/
theorem column_pixelValue :
    ((CSSIMEvaluator.create (column_evaluator 5 4) (fun _ => 0)).AllocateResourses).pixelValue
      0 0 0 < 0 := by
  have hw := create_weights (column_evaluator 5 4) (fun _ => 0) 0 (by norm_num)
  have hS := gaussSum_bounds
  have hSpos : (0 : ℝ) < ∑ u in Finset.range 11, gaussTap 11 (3 / 2) u := by linarith [hS.1]
  have h5 : ((CSSIMEvaluator.create (column_evaluator 5 4) (fun _ => 0)).AllocateResourses).wx
      0 5 = 1 / ∑ u in Finset.range 11, gaussTap 11 (3 / 2) u := by
    have := create_taps0 (column_evaluator 5 4) (fun _ => 0) 5 (by norm_num)
    rw [gaussTap_mid] at this
    exact this
  have h4 : ((CSSIMEvaluator.create (column_evaluator 5 4) (fun _ => 0)).AllocateResourses).wx
      0 4 = gaussTap 11 (3 / 2) 4 / ∑ u in Finset.range 11, gaussTap 11 (3 / 2) u :=
    create_taps0 (column_evaluator 5 4) (fun _ => 0) 4 (by norm_num)
  have hkx : ((CSSIMEvaluator.create (column_evaluator 5 4) (fun _ => 0)).AllocateResourses
      ).mc_ksz (((CSSIMEvaluator.create (column_evaluator 5 4) (fun _ => 0)).AllocateResourses
        ).m_xkidx 0) = 11 := by decide
  have hky : ((CSSIMEvaluator.create (column_evaluator 5 4) (fun _ => 0)).AllocateResourses
      ).mc_ksz (((CSSIMEvaluator.create (column_evaluator 5 4) (fun _ => 0)).AllocateResourses
        ).m_ykidx 0) = 11 := by decide
  have hsy : ∑ t in Finset.range 11,
      ((CSSIMEvaluator.create (column_evaluator 5 4) (fun _ => 0)).AllocateResourses).wy 0 t
      = 1 := hw.2
  have hA : ∀ u v, u < 11 →
      sampleR ((CSSIMEvaluator.create (column_evaluator 5 4) (fun _ => 0)).AllocateResourses).base.m_i1.GetBitDepth
        ((CSSIMEvaluator.create (column_evaluator 5 4) (fun _ => 0)).AllocateResourses).base.m_i1.mem
        (((CSSIMEvaluator.create (column_evaluator 5 4) (fun _ => 0)).AllocateResourses).base.m_i1.GetFrame 0) u v
      = if u = 5 then 255 else 0 := fun u v hu => column_sample 5 u v hu
  have hB : ∀ u v, u < 11 →
      sampleR ((CSSIMEvaluator.create (column_evaluator 5 4) (fun _ => 0)).AllocateResourses).base.m_i1.GetBitDepth
        ((CSSIMEvaluator.create (column_evaluator 5 4) (fun _ => 0)).AllocateResourses).base.m_i2.mem
        (((CSSIMEvaluator.create (column_evaluator 5 4) (fun _ => 0)).AllocateResourses).base.m_i2.GetFrame 0) u v
      = if u = 4 then 255 else 0 := fun u v hu => column_sample 4 u v hu
  unfold CSSIMEvaluator.pixelValue
  simp only []
  rw [hkx, hky]
  rw [windowSum_column 11 11 _ _ 5 (by norm_num) 255 hsy _
      (fun i j hi _ => by rw [hA (0 + i) (0 + j) (by omega)]; simp),
    windowSum_column 11 11 _ _ 4 (by norm_num) 255 hsy _
      (fun i j hi _ => by rw [hB (0 + i) (0 + j) (by omega)]; simp),
    windowSum_column 11 11 _ _ 5 (by norm_num) 65025 hsy _
      (fun i j hi _ => by
        rw [hA (0 + i) (0 + j) (by omega)]
        simp only [zero_add]
        split_ifs <;> norm_num),
    windowSum_column 11 11 _ _ 4 (by norm_num) 65025 hsy _
      (fun i j hi _ => by
        rw [hB (0 + i) (0 + j) (by omega)]
        simp only [zero_add]
        split_ifs <;> norm_num),
    windowSum_column 11 11 _ _ 5 (by norm_num) 0 hsy _
      (fun i j hi _ => by
        rw [hA (0 + i) (0 + j) (by omega), hB (0 + i) (0 + j) (by omega)]
        simp only [zero_add]
        split_ifs <;> first | omega | norm_num)]
  have hc1 : ((CSSIMEvaluator.create (column_evaluator 5 4) (fun _ => 0)).AllocateResourses
      ).m_ssim_c1 = 1 / 10000 * 255 * 255 := rfl
  have hc2 : ((CSSIMEvaluator.create (column_evaluator 5 4) (fun _ => 0)).AllocateResourses
      ).m_ssim_c2 = 9 / 10000 * 255 * 255 := rfl
  rw [hc1, hc2]
  apply ssimPixel_neg
  · rw [h5]
    positivity
  · rw [h5, div_le_one hSpos]
    exact hS.1
  · rw [h4]
    exact div_nonneg (le_of_lt (gaussTap_pos _ _ _)) (le_of_lt hSpos)
  · rw [h4, div_le_one hSpos]
    exact le_trans (gaussTap_le_one _ _ _) hS.1
  · rw [h5, h4, div_mul_div_comm, lt_div_iff₀ (mul_pos hSpos hSpos)]
    have := gaussTap_next
    nlinarith [hS.1, hS.2]

/-- C19 as stated fails at the lower end: for `ssim y` on two 8-bit 11x11 planes,
one 255 in column 5 and the other 255 in column 4 (0 elsewhere), the only
per-pixel value `testFastSSIM_32f` writes and the plane SSIM `ComputeMetrics`
appends are negative. -/
theorem C19_counterexample :
    (CSSIMEvaluator.planeStep
        ((CSSIMEvaluator.create (column_evaluator 5 4) (fun _ => 0)).AllocateResourses) 0
        ⟨zeroBuffers, fun _ => 0, [], [], 0⟩).bufs.m_tmp 60 < 0
    ∧ ∃ v : ℝ, (((CSSIMEvaluator.create (column_evaluator 5 4) (fun _ => 0)).AllocateResourses
        ).ComputeMetrics zeroBuffers [] []).1[0]? = some v ∧ v < 0 := by
  have hpv := column_pixelValue
  constructor
  · have h := planeStep_tmp
      ((CSSIMEvaluator.create (column_evaluator 5 4) (fun _ => 0)).AllocateResourses) 0 11 11 11
      ⟨zeroBuffers, fun _ => 0, [], [], 0⟩ (by decide) (Or.inl rfl) rfl rfl rfl (le_refl _)
      (by decide) (by decide) (by decide) (by decide) (by decide) (by decide) 0 0
      (by decide) (by decide)
    have hcell : ((CSSIMEvaluator.create (column_evaluator 5 4) (fun _ => 0)).AllocateResourses
        ).mc_ksz (((CSSIMEvaluator.create (column_evaluator 5 4) (fun _ => 0)).AllocateResourses
          ).m_xkidx 0) >>> 1
        + ((CSSIMEvaluator.create (column_evaluator 5 4) (fun _ => 0)).AllocateResourses
        ).mc_ksz (((CSSIMEvaluator.create (column_evaluator 5 4) (fun _ => 0)).AllocateResourses
          ).m_ykidx 0) >>> 1 * 11 + 0 * 11 + 0 = 60 := by decide
    rw [hcell] at h
    rw [h]
    exact hpv
  · refine ⟨_, SSIM_ComputeMetrics_plane _ zeroBuffers [] [] 0 (by decide) (by decide) _
      (fun st _ => create_planeStep_idx (column_evaluator 5 4) (fun _ => 0) 0 st (by decide)
        (Or.inl rfl) rfl (le_refl _) (by decide) (by decide)), ?_⟩
    have hfw : (((CSSIMEvaluator.create (column_evaluator 5 4) (fun _ => 0)).AllocateResourses
        ).base.m_i1.GetFrame 0).roi.width
        - (((CSSIMEvaluator.create (column_evaluator 5 4) (fun _ => 0)).AllocateResourses
        ).mc_ksz (((CSSIMEvaluator.create (column_evaluator 5 4) (fun _ => 0)).AllocateResourses
          ).m_xkidx 0) - 1) = 1 := by decide
    have hfh : (((CSSIMEvaluator.create (column_evaluator 5 4) (fun _ => 0)).AllocateResourses
        ).base.m_i1.GetFrame 0).roi.height
        - (((CSSIMEvaluator.create (column_evaluator 5 4) (fun _ => 0)).AllocateResourses
        ).mc_ksz (((CSSIMEvaluator.create (column_evaluator 5 4) (fun _ => 0)).AllocateResourses
          ).m_ykidx 0) - 1) = 1 := by decide
    unfold CSSIMEvaluator.planeSSIM
    simp only [hfw, hfh, Finset.sum_range_one, Nat.mul_one, Nat.cast_one, div_one]
    exact hpv

/-- C19 (amended): for the evaluator `AllocateResourses` leaves and a pair of
equal-size 8-bit planes of at least 11x11 samples (plane `i` of the two readers,
no wider than plane 0), every per-pixel value `testFastSSIM_32f` writes is the
quotient `pixelValue` of the window sums, which nothing clamps, and evaluated
in exact arithmetic it lies in `[-1, 1]`, and so does the plane SSIM
`ComputeMetrics` appends (the mean of these values).  The operations on
`float` are exact here: the rounding of single precision, under which the
cancellation in `t4` can leave a value of the code slightly above 1, is not
part of the statement. -/
theorem C19_ssim_range (base : CMetricEvaluator) (kv : FBuf) (ev : CSSIMEvaluator)
    (hev : ev = (CSSIMEvaluator.create base kv).AllocateResourses) (bufs : SSIMBuffers)
    (val avg : List ℝ) (i : Nat) (hi : i < base.m_num_planes)
    (hmask : base.has MASK_SSIM i = true) (hbd : base.m_i1.GetBitDepth = .D008)
    (hroi : (base.m_i2.GetFrame i).roi = (base.m_i1.GetFrame i).roi)
    (hWe : (base.m_i1.GetFrame i).roi.width ≤ (base.m_i1.GetFrame 0).roi.width)
    (hW : 11 ≤ (base.m_i1.GetFrame i).roi.width)
    (hH : 11 ≤ (base.m_i1.GetFrame i).roi.height) :
    (∀ (st : SSIMState) (x y : Nat),
      x < (base.m_i1.GetFrame i).roi.width - (ev.mc_ksz (ev.m_xkidx i) - 1) →
      y < (base.m_i1.GetFrame i).roi.height - (ev.mc_ksz (ev.m_ykidx i) - 1) →
      (CSSIMEvaluator.planeStep ev i st).bufs.m_tmp
          (ev.mc_ksz (ev.m_xkidx i) >>> 1
            + ev.mc_ksz (ev.m_ykidx i) >>> 1 * (base.m_i1.GetFrame 0).roi.width
            + y * (base.m_i1.GetFrame 0).roi.width + x) = ev.pixelValue i x y
      ∧ (-1 : ℝ) ≤ (CSSIMEvaluator.planeStep ev i st).bufs.m_tmp
          (ev.mc_ksz (ev.m_xkidx i) >>> 1
            + ev.mc_ksz (ev.m_ykidx i) >>> 1 * (base.m_i1.GetFrame 0).roi.width
            + y * (base.m_i1.GetFrame 0).roi.width + x)
      ∧ (CSSIMEvaluator.planeStep ev i st).bufs.m_tmp
          (ev.mc_ksz (ev.m_xkidx i) >>> 1
            + ev.mc_ksz (ev.m_ykidx i) >>> 1 * (base.m_i1.GetFrame 0).roi.width
            + y * (base.m_i1.GetFrame 0).roi.width + x) ≤ 1)
    ∧ ∃ v : ℝ, (ev.ComputeMetrics bufs val avg).1[val.length + ev.ssimIndex i]? = some v
        ∧ -1 ≤ v ∧ v ≤ 1 := by
  subst hev
  have hkx := ksz_facts _ ((create_kx base kv i).elim Or.inl (fun h => Or.inr (Or.inl h)))
  have hky := ksz_facts _ (create_ky base kv i)
  have hmask' : base.c_mask i &&& MASK_SSIM ≠ 0 := by
    simpa [CMetricEvaluator.has] using hmask
  have hxW := le_trans hkx.2.2.2 hW
  have hyH := le_trans hky.2.2.2 hH
  refine ⟨fun st x y hx hy => ?_, _, SSIM_ComputeMetrics_plane _ bufs val avg i hi hmask _
    (fun st _ => create_planeStep_idx base kv i st hmask (Or.inl hbd) hroi hWe hxW hyH), ?_⟩
  · have e := planeStep_tmp _ i (base.m_i1.GetFrame 0).roi.width
      (base.m_i1.GetFrame i).roi.width
      (base.m_i1.GetFrame i).roi.height st hmask' (Or.inl hbd) rfl hroi (create_step base kv)
      hWe hkx.1 hky.1 hkx.2.1 hky.2.1 hxW hyH x y hx hy
    refine ⟨e, ?_⟩
    rw [e]
    exact create_pixelValue_bounds base kv i x y
  · unfold CSSIMEvaluator.planeSSIM
    exact mean_bounds
      (fun x y => ((CSSIMEvaluator.create base kv).AllocateResourses).pixelValue i x y) _ _
      (by
        have h5 := hkx.2.2.1
        show 1 ≤ (base.m_i1.GetFrame i).roi.width - _
        omega)
      (by
        have h5 := hky.2.2.1
        show 1 ≤ (base.m_i1.GetFrame i).roi.height - _
        omega)
      (fun x y _ _ => create_pixelValue_bounds base kv i x y)

theorem C19_ssim_range_witness :
    ∃ v : ℝ, (((CSSIMEvaluator.create (column_evaluator 5 4) (fun _ => 0)).AllocateResourses
        ).ComputeMetrics zeroBuffers [] []).1[0]? = some v ∧ -1 ≤ v ∧ v ≤ 1 :=
  (C19_ssim_range (column_evaluator 5 4) (fun _ => 0) _ rfl zeroBuffers [] [] 0
    (by decide) (by decide) rfl rfl (le_refl _) (by decide) (by decide)).2

/-! ## The artifact counter of the MS-SSIM pixel loop -/

theorem pixelStep_artf (Mx My Sx2 Sy2 Sxy C1 C2 : ℝ) (a : SSIMAcc) :
    (CMSSIMEvaluator.pixelStep Mx My Sx2 Sy2 Sxy C1 C2 a).artf
      = if (ssimTerms Mx My Sx2 Sy2 Sxy C1 C2).1 * (ssimTerms Mx My Sx2 Sy2 Sxy C1 C2).2.1
            / ((ssimTerms Mx My Sx2 Sy2 Sxy C1 C2).2.2.1
                * (ssimTerms Mx My Sx2 Sy2 Sxy C1 C2).2.2.2) < 3 / 10
        then a.artf + 1 else a.artf := rfl

/-- C29 as stated fails: for a pixel of a white 8-bit window against a black one
(`Mx = 255`, `My = 0`, `Sx2 = 65025`, `Sy2 = Sxy = 0`, the constants of bit
depth 8) the terms have `t3 * t4 ≠ 0` and the cs term `t2 / t4` is 1, not below
0.3, yet the counter is incremented. -/
theorem C29_counterexample :
    (ssimTerms 255 0 65025 0 0 (1 / 10000 * 255 * 255)
        (9 / 10000 * 255 * 255 + 1 / 10000 * 255 * 255)).2.2.1
      * (ssimTerms 255 0 65025 0 0 (1 / 10000 * 255 * 255)
        (9 / 10000 * 255 * 255 + 1 / 10000 * 255 * 255)).2.2.2 ≠ 0
    ∧ ¬ ((ssimTerms 255 0 65025 0 0 (1 / 10000 * 255 * 255)
        (9 / 10000 * 255 * 255 + 1 / 10000 * 255 * 255)).2.1
      / (ssimTerms 255 0 65025 0 0 (1 / 10000 * 255 * 255)
        (9 / 10000 * 255 * 255 + 1 / 10000 * 255 * 255)).2.2.2 < 3 / 10)
    ∧ (CMSSIMEvaluator.pixelStep 255 0 65025 0 0 (1 / 10000 * 255 * 255)
        (9 / 10000 * 255 * 255 + 1 / 10000 * 255 * 255) ⟨0, 0, 0⟩).artf = 0 + 1 := by
  refine ⟨?_, ?_, ?_⟩
  · unfold ssimTerms
    norm_num
  · unfold ssimTerms
    norm_num
  · rw [pixelStep_artf, if_pos]
    unfold ssimTerms
    norm_num

/-- C29 (amended): in the pixel loop of `getSSIMIndexes_32f_R`, for every output
pixel with terms `t1`, `t2`, `t3`, `t4` (`t3 * t4 ≠ 0`), the artifact counter is
incremented exactly when the SSIM term `(t1 * t2) / (t3 * t4)` is below 0.3; it
is left as it is otherwise. -/
theorem C29_artifact_counter (Mx My Sx2 Sy2 Sxy C1 C2 : ℝ) (a : SSIMAcc)
    (_h : (ssimTerms Mx My Sx2 Sy2 Sxy C1 C2).2.2.1
      * (ssimTerms Mx My Sx2 Sy2 Sxy C1 C2).2.2.2 ≠ 0) :
    ((CMSSIMEvaluator.pixelStep Mx My Sx2 Sy2 Sxy C1 C2 a).artf = a.artf + 1
      ↔ (ssimTerms Mx My Sx2 Sy2 Sxy C1 C2).1 * (ssimTerms Mx My Sx2 Sy2 Sxy C1 C2).2.1
          / ((ssimTerms Mx My Sx2 Sy2 Sxy C1 C2).2.2.1
              * (ssimTerms Mx My Sx2 Sy2 Sxy C1 C2).2.2.2) < 3 / 10)
    ∧ ((CMSSIMEvaluator.pixelStep Mx My Sx2 Sy2 Sxy C1 C2 a).artf = a.artf
      ↔ ¬ ((ssimTerms Mx My Sx2 Sy2 Sxy C1 C2).1 * (ssimTerms Mx My Sx2 Sy2 Sxy C1 C2).2.1
          / ((ssimTerms Mx My Sx2 Sy2 Sxy C1 C2).2.2.1
              * (ssimTerms Mx My Sx2 Sy2 Sxy C1 C2).2.2.2) < 3 / 10)) := by
  rw [pixelStep_artf]
  by_cases hc : (ssimTerms Mx My Sx2 Sy2 Sxy C1 C2).1 * (ssimTerms Mx My Sx2 Sy2 Sxy C1 C2).2.1
      / ((ssimTerms Mx My Sx2 Sy2 Sxy C1 C2).2.2.1
          * (ssimTerms Mx My Sx2 Sy2 Sxy C1 C2).2.2.2) < 3 / 10
  · rw [if_pos hc]
    constructor
    · exact ⟨fun _ => hc, fun _ => rfl⟩
    · constructor
      · intro h1
        omega
      · intro h1
        exact absurd hc h1
  · rw [if_neg hc]
    constructor
    · constructor
      · intro h1
        omega
      · intro h1
        exact absurd h1 hc
    · exact ⟨fun _ => hc, fun _ => rfl⟩

theorem C29_artifact_counter_witness :
    (CMSSIMEvaluator.pixelStep 255 0 65025 0 0 (1 / 10000 * 255 * 255)
        (9 / 10000 * 255 * 255 + 1 / 10000 * 255 * 255) ⟨0, 0, 0⟩).artf = 0 + 1
      ↔ (ssimTerms 255 0 65025 0 0 (1 / 10000 * 255 * 255)
            (9 / 10000 * 255 * 255 + 1 / 10000 * 255 * 255)).1
          * (ssimTerms 255 0 65025 0 0 (1 / 10000 * 255 * 255)
            (9 / 10000 * 255 * 255 + 1 / 10000 * 255 * 255)).2.1
          / ((ssimTerms 255 0 65025 0 0 (1 / 10000 * 255 * 255)
            (9 / 10000 * 255 * 255 + 1 / 10000 * 255 * 255)).2.2.1
            * (ssimTerms 255 0 65025 0 0 (1 / 10000 * 255 * 255)
            (9 / 10000 * 255 * 255 + 1 / 10000 * 255 * 255)).2.2.2) < 3 / 10 :=
  (C29_artifact_counter 255 0 65025 0 0 (1 / 10000 * 255 * 255)
    (9 / 10000 * 255 * 255 + 1 / 10000 * 255 * 255) ⟨0, 0, 0⟩
    (by unfold ssimTerms; norm_num)).1

/-! ## `parse_metrics` on a token that starts with a plane letter -/

/-- C27 (the code does not do what the claim says): on a YUV source the
arguments `psnr y uqi y` make `parse_metrics` return 0 with the PSNR and MSE
bits on plane Y and on plane U and the UQI bit nowhere: after the plane `y` the
token `uqi` is taken for plane U, because only its first character is compared
with the plane letter.  The same happens in the build without the token `uqi`. -/
theorem C27_parse_metrics :
    parse_metrics true (INIT_YUV [])
        ["metrics_calc_lite", "-i1", "a.yuv", "-i2", "b.yuv", "-w", "8", "-h", "8",
          "psnr", "y", "uqi", "y"] 9
      = some (0, [('Y', MASK_PSNR ||| MASK_MSE), ('U', MASK_PSNR ||| MASK_MSE), ('V', 0),
          ('O', 0)])
    ∧ parse_metrics false (INIT_YUV [])
        ["metrics_calc_lite", "-i1", "a.yuv", "-i2", "b.yuv", "-w", "8", "-h", "8",
          "psnr", "y", "uqi", "y"] 9
      = some (0, [('Y', MASK_PSNR ||| MASK_MSE), ('U', MASK_PSNR ||| MASK_MSE), ('V', 0),
          ('O', 0)])
    ∧ (MASK_PSNR ||| MASK_MSE) &&& MASK_UQI = 0 := by
  refine ⟨by decide, by decide, by decide⟩

/-! ## Values and names of the `UQI` evaluator -/

theorem mask_absorb_UQI (x : Nat) (h : MASK_UQI &&& x ≠ 0) : x ||| MASK_UQI = x :=
  or_two_pow_of_and_ne_zero x 6 h

/-- What `InitComputationParams` leaves for an evaluator with one metric. -/
theorem InitComputationParams_one (ev0 : CMetricEvaluator) (cmps : Component) (mask : Nat)
    (name : String) (hP : ∀ x, mask &&& x ≠ 0 → x ||| mask = x)
    (st : List String) (oflag : List Bool) (avg : List ℝ) :
    let r := ev0.InitComputationParams [⟨name, mask, mask⟩] cmps st oflag avg
    r.1.m_num_planes = cmps.length - 1
    ∧ (∀ i, r.1.c_mask i
        = if i = cmps.length - 1 then (cmps.at (cmps.length - 1)).2
          else if i < cmps.length - 1 then (cmps.at i).2 ||| (cmps.at (cmps.length - 1)).2
          else ev0.c_mask i)
    ∧ r.2.1 = st ++ collect (cmps.length - 1 + 1) (r.1.has mask) (entryName cmps name) := by
  intro r
  have hr : r = ev0.InitComputationParams [⟨name, mask, mask⟩] cmps st oflag avg := rfl
  unfold CMetricEvaluator.InitComputationParams at hr
  simp only [List.length_cons, List.length_nil, forLoop, List.getD_cons_zero] at hr
  rw [initMetric_eq cmps mask name hP, initMask_eq] at hr
  rw [hr]
  refine ⟨rfl, ?_, rfl⟩
  intro i
  simp only []
  by_cases hi : i = cmps.length - 1
  · subst hi
    simp
  · rw [Function.update_noteq hi]
    simp [hi]

/-- The values `CUQIEvaluator::ComputeMetrics` appends: one per plane 0, 1, 2
with the UQI bit, then the overall value if the overall mask has the bit. -/
theorem CUQI_ComputeMetrics_length (ev : CMetricEvaluator) (Q : Nat → ℝ) (val avg : List ℝ) :
    (CUQIEvaluator.ComputeMetrics ev Q val avg).1.length
      = val.length + (collect 3 (ev.has MASK_UQI) Q).length
        + (if ev.has MASK_UQI ev.m_num_planes then 1 else 0) := by
  unfold CUQIEvaluator.ComputeMetrics
  simp only [forLoop, collect_succ, collect_zero, CMetricEvaluator.has]
  by_cases h0 : ev.c_mask 0 &&& MASK_UQI ≠ 0 <;> by_cases h1 : ev.c_mask 1 &&& MASK_UQI ≠ 0 <;>
    by_cases h2 : ev.c_mask 2 &&& MASK_UQI ≠ 0 <;>
    by_cases hn : ev.c_mask ev.m_num_planes &&& MASK_UQI ≠ 0 <;>
    simp [h0, h1, h2, hn]

/-- C21 (the code does not do what the claim says for 4 planes): for an RGB
source with `-alpha` and the selection `uqi all`, `InitComputationParams`
registers five names for UQI (`B-UQI`, `G-UQI`, `R-UQI`, `A-UQI`, `UQI`) while
`CUQIEvaluator::ComputeMetrics` appends four values per frame, whatever the
quality indexes are: its plane loop stops at plane 2. -/
theorem C21_uqi_values (base : CMetricEvaluator) (Q : Nat → ℝ) (avg : List ℝ) :
    parse_metrics true (INIT_RGB [] true)
        ["metrics_calc_lite", "-i1", "a.rgb", "-i2", "b.rgb", "-w", "8", "-h", "8",
          "-st", "rgb32p", "-alpha", "uqi", "all"] 12
      = some (0, [('B', MASK_UQI), ('G', MASK_UQI), ('R', MASK_UQI), ('A', MASK_UQI),
          ('O', MASK_UQI)])
    ∧ (base.InitComputationParams CUQIEvaluator.metrics
        [('B', MASK_UQI), ('G', MASK_UQI), ('R', MASK_UQI), ('A', MASK_UQI), ('O', MASK_UQI)]
        [] [] []).2.1 = ["B-UQI", "G-UQI", "R-UQI", "A-UQI", "UQI"]
    ∧ (CUQIEvaluator.ComputeMetrics
        (base.InitComputationParams CUQIEvaluator.metrics
          [('B', MASK_UQI), ('G', MASK_UQI), ('R', MASK_UQI), ('A', MASK_UQI), ('O', MASK_UQI)]
          [] [] []).1 Q [] avg).1.length = 4 := by
  obtain ⟨hn, hm, hnames⟩ := InitComputationParams_one base
    [('B', MASK_UQI), ('G', MASK_UQI), ('R', MASK_UQI), ('A', MASK_UQI), ('O', MASK_UQI)]
    MASK_UQI "UQI" mask_absorb_UQI [] [] []
  have hm' : ∀ i, i ≤ 4 → (base.InitComputationParams [⟨"UQI", MASK_UQI, MASK_UQI⟩]
      [('B', MASK_UQI), ('G', MASK_UQI), ('R', MASK_UQI), ('A', MASK_UQI), ('O', MASK_UQI)]
      [] [] []).1.c_mask i = MASK_UQI := by
    intro i hi
    have := hm i
    interval_cases i <;> exact this.trans (by simp [Component.at])
  have hhas : ∀ i, i ≤ 4 → (base.InitComputationParams [⟨"UQI", MASK_UQI, MASK_UQI⟩]
      [('B', MASK_UQI), ('G', MASK_UQI), ('R', MASK_UQI), ('A', MASK_UQI), ('O', MASK_UQI)]
      [] [] []).1.has MASK_UQI i = true := by
    intro i hi
    unfold CMetricEvaluator.has
    rw [hm' i hi]
    decide
  have h4 : (base.InitComputationParams [⟨"UQI", MASK_UQI, MASK_UQI⟩]
      [('B', MASK_UQI), ('G', MASK_UQI), ('R', MASK_UQI), ('A', MASK_UQI), ('O', MASK_UQI)]
      [] [] []).1.m_num_planes = 4 := hn
  refine ⟨by decide, ?_, ?_⟩
  · show (base.InitComputationParams [⟨"UQI", MASK_UQI, MASK_UQI⟩]
      [('B', MASK_UQI), ('G', MASK_UQI), ('R', MASK_UQI), ('A', MASK_UQI), ('O', MASK_UQI)]
      [] [] []).2.1 = _
    refine hnames.trans ?_
    simp only [List.length_cons, List.length_nil, collect_succ, collect_zero,
      hhas 0 (by norm_num), hhas 1 (by norm_num), hhas 2 (by norm_num), hhas 3 (by norm_num),
      hhas 4 (by norm_num)]
    decide
  · show (CUQIEvaluator.ComputeMetrics (base.InitComputationParams [⟨"UQI", MASK_UQI, MASK_UQI⟩]
      [('B', MASK_UQI), ('G', MASK_UQI), ('R', MASK_UQI), ('A', MASK_UQI), ('O', MASK_UQI)]
      [] [] []).1 Q [] avg).1.length = 4
    rw [CUQI_ComputeMetrics_length]
    simp only [collect_succ, collect_zero, hhas 0 (by norm_num), hhas 1 (by norm_num),
      hhas 2 (by norm_num)]
    rw [h4, hhas 4 (by norm_num)]
    rfl

/-! ## Plane layout of the packed 10-bit tags with bit depth 8 -/

/-- C30 (the code does not do what the claim says): the options
`-st y410p -bd 8` (and `-st a2rgb10p -bd 8`) leave the tag Y410P (A2RGB10P)
with the bit depth `D008`; with them, for every `w, h >= 1` (here `w + 1`,
`h + 1`), `OpenReadFile` succeeds, the buffer behind `m_planes[0].data` has
`4 * w * h` bytes and the plane views 2 and 3, of non-zero size, start at its
end and after it: they lie outside the buffer that owns them. -/
theorem C30_plane_layout (mem : Mem) (f : (Nat → Nat) × Nat) (a_meta a_planes w h order
    RShift : Nat) :
    (parse_fourcc "y410p" .D008).1 = .Y410P
    ∧ (parse_fourcc "a2rgb10p" .D008).1 = .A2RGB10P
    ∧ mclMalloc ((w + 1) * (h + 1) * 4) .D008 a_planes
        = some (a_planes, (w + 1) * (h + 1) * 4)
    ∧ (CYUVReader.OpenReadFile (CReader.fresh mem) (some f) a_meta a_planes (w + 1) (h + 1)
        .Y410P order .D008 RShift).1 = .MCL_ERR_NONE
    ∧ (CYUVReader.OpenReadFile (CReader.fresh mem) (some f) a_meta a_planes (w + 1) (h + 1)
        .Y410P order .D008 RShift).2.m_planes 2
      = ⟨a_planes + (w + 1) * (h + 1) * 4, (w + 1) * 2, ⟨w + 1, h + 1⟩⟩
    ∧ ¬ planeInBuffer a_planes ((w + 1) * (h + 1) * 4) 1
        ((CYUVReader.OpenReadFile (CReader.fresh mem) (some f) a_meta a_planes (w + 1)
          (h + 1) .Y410P order .D008 RShift).2.m_planes 2)
    ∧ ¬ planeInBuffer a_planes ((w + 1) * (h + 1) * 4) 1
        ((CYUVReader.OpenReadFile (CReader.fresh mem) (some f) a_meta a_planes (w + 1)
          (h + 1) .Y410P order .D008 RShift).2.m_planes 3)
    ∧ (CRGBReader.OpenReadFile (CReader.fresh mem) (some f) a_meta a_planes (w + 1) (h + 1)
        .A2RGB10P order .D008 RShift).1 = .MCL_ERR_NONE
    ∧ (CRGBReader.OpenReadFile (CReader.fresh mem) (some f) a_meta a_planes (w + 1) (h + 1)
        .A2RGB10P order .D008 RShift).2.m_planes 2
      = ⟨a_planes + (w + 1) * (h + 1) * 4, (w + 1) * 2, ⟨w + 1, h + 1⟩⟩
    ∧ ¬ planeInBuffer a_planes ((w + 1) * (h + 1) * 4) 1
        ((CRGBReader.OpenReadFile (CReader.fresh mem) (some f) a_meta a_planes (w + 1)
          (h + 1) .A2RGB10P order .D008 RShift).2.m_planes 2)
    ∧ ¬ planeInBuffer a_planes ((w + 1) * (h + 1) * 4) 1
        ((CRGBReader.OpenReadFile (CReader.fresh mem) (some f) a_meta a_planes (w + 1)
          (h + 1) .A2RGB10P order .D008 RShift).2.m_planes 3)
    ∧ main.optionLoop
        ["metrics_calc_lite", "-i1", "a.yuv", "-i2", "b.yuv", "-w", "8", "-h", "8",
          "-st", "y410p", "-bd", "8", "psnr", "y"] 15 main.init
      = .done { main.init with
          input_name1 := "a.yuv", input_name2 := "b.yuv", w := 8, h := 8
          sq1_type := .Y410P, sq2_type := .Y410P, bd := .D008, cur_param := 13 }
    ∧ main.optionLoop
        ["metrics_calc_lite", "-i1", "a.yuv", "-i2", "b.yuv", "-w", "8", "-h", "8",
          "-st", "a2rgb10p", "-bd", "8", "psnr", "b"] 15 main.init
      = .done { main.init with
          input_name1 := "a.yuv", input_name2 := "b.yuv", w := 8, h := 8
          sq1_type := .A2RGB10P, sq2_type := .A2RGB10P, bd := .D008, cur_param := 13 } := by
  have hY2 : (CYUVReader.OpenReadFile (CReader.fresh mem) (some f) a_meta a_planes (w + 1)
      (h + 1) .Y410P order .D008 RShift).2.m_planes 2
      = ⟨a_planes + (w + 1) * (h + 1) * 4, (w + 1) * 2, ⟨w + 1, h + 1⟩⟩ := by
    simp [CYUVReader.OpenReadFile, CYUVReader.OpenReadFileWith, get_chromaclass, mclMalloc,
      planeAfter, Function.update]
    ring
  have hY3 : (CYUVReader.OpenReadFile (CReader.fresh mem) (some f) a_meta a_planes (w + 1)
      (h + 1) .Y410P order .D008 RShift).2.m_planes 3
      = ⟨a_planes + (w + 1) * (h + 1) * 6, (w + 1) * 2, ⟨w + 1, h + 1⟩⟩ := by
    simp [CYUVReader.OpenReadFile, CYUVReader.OpenReadFileWith, get_chromaclass, mclMalloc,
      planeAfter, Function.update]
    ring
  have hR2 : (CRGBReader.OpenReadFile (CReader.fresh mem) (some f) a_meta a_planes (w + 1)
      (h + 1) .A2RGB10P order .D008 RShift).2.m_planes 2
      = ⟨a_planes + (w + 1) * (h + 1) * 4, (w + 1) * 2, ⟨w + 1, h + 1⟩⟩ := by
    simp [CRGBReader.OpenReadFile, CRGBReader.OpenReadFileWith, mclMalloc, planeAfter,
      Function.update]
    ring
  have hR3 : (CRGBReader.OpenReadFile (CReader.fresh mem) (some f) a_meta a_planes (w + 1)
      (h + 1) .A2RGB10P order .D008 RShift).2.m_planes 3
      = ⟨a_planes + (w + 1) * (h + 1) * 6, (w + 1) * 2, ⟨w + 1, h + 1⟩⟩ := by
    simp [CRGBReader.OpenReadFile, CRGBReader.OpenReadFileWith, mclMalloc, planeAfter,
      Function.update]
    ring
  have hout : ∀ k : Nat, 4 ≤ k →
      ¬ planeInBuffer a_planes ((w + 1) * (h + 1) * 4) 1
        ⟨a_planes + (w + 1) * (h + 1) * k, (w + 1) * 2, ⟨w + 1, h + 1⟩⟩ := by
    intro k hk hin
    unfold planeInBuffer at hin
    have h2 := hin.2
    simp only [] at h2
    have h4 : (w + 1) * (h + 1) * 4 ≤ (w + 1) * (h + 1) * k := Nat.mul_le_mul_left _ hk
    omega
  refine ⟨by decide, by decide, rfl, rfl, hY2, ?_, ?_, rfl, hR2, ?_, ?_, by decide!, by decide!⟩
  · rw [hY2]
    exact hout 4 (le_refl _)
  · rw [hY3]
    exact hout 6 (by norm_num)
  · rw [hR2]
    exact hout 4 (le_refl _)
  · rw [hR3]
    exact hout 6 (by norm_num)

/-! ## The loops of `main` end within the iterations granted -/

theorem advances_ite {c : Prop} [Decidable c] {cur : Nat} {x y : OptionStep}
    (hx : x.advances cur) (hy : y.advances cur) : (if c then x else y).advances cur := by
  split <;> assumption

theorem optionSt_advances (argv : List String) (a : MainVars) :
    (main.optionSt argv a).advances a.cur_param := by
  unfold main.optionSt
  simp only []
  split_ifs <;> simp [OptionStep.advances]

theorem optionStep_advances (argv : List String) (a : MainVars) :
    (main.optionStep argv a).advances a.cur_param := by
  unfold main.optionStep
  repeat' apply advances_ite
  all_goals first
    | exact optionSt_advances argv a
    | (show a.cur_param < _; simp; done)
    | (show a.cur_param < _; split_ifs <;> simp)
    | trivial

theorem optionLoop_fuel (argv : List String) :
    ∀ (fuel : Nat) (a : MainVars), argv.length ≤ a.cur_param + fuel →
      main.optionLoop argv fuel a ≠ .fuel := by
  intro fuel
  induction fuel with
  | zero =>
    intro a h
    unfold main.optionLoop
    rw [if_neg (by omega)]
    simp
  | succ fuel ih =>
    intro a h
    unfold main.optionLoop
    by_cases hc : a.cur_param < argv.length
    · rw [if_pos hc]
      simp only []
      have hadv := optionStep_advances argv a
      cases hs : main.optionStep argv a with
      | next a' =>
        simp only []
        rw [hs] at hadv
        have : a.cur_param < a'.cur_param := hadv
        exact ih a' (by omega)
      | stop a' => simp
      | exit code printed => simp
      | undefined => simp
    · rw [if_neg hc]
      simp

theorem metricLoop_length (full : Bool) :
    ∀ (args : List String) (cm : Nat) (nm : Bool),
      (parse_metrics.metricLoop full args cm nm).1.length ≤ args.length
      ∧ ((parse_metrics.metricLoop full args cm nm).2.2 = false →
          nm = false ∨ (parse_metrics.metricLoop full args cm nm).1.length < args.length) := by
  intro args
  induction args with
  | nil => intro cm nm; simp [parse_metrics.metricLoop]
  | cons tok t ih =>
    intro cm nm
    cases t with
    | nil => simp [parse_metrics.metricLoop]
    | cons nxt rest =>
      rw [parse_metrics.metricLoop]
      cases hm : metricToken full tok with
      | none => simp
      | some m =>
        simp only []
        have := ih (cm ||| m) false
        constructor
        · have := this.1
          simp only [List.length_cons] at this ⊢
          omega
        · intro _
          right
          have := this.1
          simp only [List.length_cons] at this ⊢
          omega

theorem planeLoop_length (cm : Nat) :
    ∀ (args : List String) (cmps : Component) (np : Bool),
      (parse_metrics.planeLoop cm args cmps np).1.length ≤ args.length
      ∧ ((parse_metrics.planeLoop cm args cmps np).2.2 = false →
          np = false ∨ (parse_metrics.planeLoop cm args cmps np).1.length < args.length) := by
  intro args
  induction args with
  | nil => intro cmps np; simp [parse_metrics.planeLoop]
  | cons tok rest ih =>
    intro cmps np
    rw [parse_metrics.planeLoop]
    split_ifs
    all_goals first
      | exact ⟨Nat.le_succ_of_le (ih _ false).1, fun _ => Or.inr (Nat.lt_succ_of_le (ih _ false).1)⟩
      | simp

theorem parse_metrics_loop_fuel (full : Bool) :
    ∀ (fuel : Nat) (cmps : Component) (args : List String), args.length ≤ fuel →
      (parse_metrics.loop full fuel cmps args).isSome = true := by
  intro fuel
  induction fuel with
  | zero =>
    intro cmps args h
    cases args with
    | nil => simp [parse_metrics.loop]
    | cons x t => simp at h
  | succ fuel ih =>
    intro cmps args h
    cases args with
    | nil => simp [parse_metrics.loop]
    | cons tok rest =>
      rw [parse_metrics.loop]
      simp only []
      have hm := metricLoop_length full (tok :: rest) 0 true
      split_ifs with h1 h2
      · rfl
      · rfl
      · have hp := planeLoop_length (parse_metrics.metricLoop full (tok :: rest) 0 true).2.1
          (parse_metrics.metricLoop full (tok :: rest) 0 true).1 cmps true
        apply ih
        have h1' : (parse_metrics.metricLoop full (tok :: rest) 0 true).2.2 = false := by
          simpa using h1
        have h2' : (parse_metrics.planeLoop (parse_metrics.metricLoop full (tok :: rest) 0 true).2.1
            (parse_metrics.metricLoop full (tok :: rest) 0 true).1 cmps true).2.2 = false := by
          simpa using h2
        have h3 := hp.1
        have h4 := hm.1
        rcases hp.2 h2' with h5 | h5
        · exact absurd h5 (by simp)
        · simp only [List.length_cons] at h h3 h4 h5
          omega

theorem parse_metrics_fuel (full : Bool) (cmps : Component) (argv : List String) (curc : Nat) :
    (parse_metrics full cmps argv curc).isSome = true := by
  unfold parse_metrics
  apply parse_metrics_loop_fuel
  simp

theorem compute_fuel (env : Env) (reader1 reader2 : CReader) (cmps : Component) (a : MainVars)
    (fm_count : Int) (printed : List Nat) :
    main.compute env reader1 reader2 cmps a fm_count printed ≠ .fuel := by
  unfold main.compute
  simp only []
  split_ifs <;> simp

theorem sources_fuel (env : Env) (cmps : Component) (a : MainVars) :
    main.sources env cmps a ≠ .fuel := by
  unfold main.sources
  simp only []
  split_ifs
  · simp
  · simp
  · simp
  · simp
  · split
    · simp
    · simp
    · exact compute_fuel _ _ _ _ _ _ _

theorem checks_fuel (env : Env) (argv : List String) (a : MainVars) :
    main.checks env argv a ≠ .fuel := by
  unfold main.checks
  simp only []
  generalize (if is_rgb a.sq1_type = true then INIT_RGB [] a.alpha_channel else INIT_YUV [])
    = cmps0
  split_ifs
  · simp
  · simp
  · split
    · rename_i h
      have := parse_metrics_fuel env.full cmps0 argv a.cur_param
      rw [h] at this
      simp at this
    · split_ifs
      · simp
      · simp
      · simp
      · exact sources_fuel _ _ _

/-- The iterations granted to the loops of `main` suffice: every run returns,
ends in an exception or is undefined. -/
theorem main_fuel (env : Env) (argv : List String) : main env argv ≠ .fuel := by
  unfold main
  split
  · rename_i h
    exact absurd h (optionLoop_fuel argv _ _ (by simp [main.init]))
  · simp
  · simp
  · exact checks_fuel _ _ _

/-! ## The schedule of `main` -/

theorem frameLoop_fst (a : MainVars) :
    ∀ (k : Nat) (f1 f2 : Int),
      (main.frameLoop a k f1 f2).map Prod.fst
        = indexStream a.seek_from1 a.seek_to1 a.fm1_step k f1 := by
  intro k
  induction k with
  | zero => intro f1 f2; rfl
  | succ k ih =>
    intro f1 f2
    simp only [main.frameLoop, indexStream, List.map_cons, ih]

theorem frameLoop_snd (a : MainVars) :
    ∀ (k : Nat) (f1 f2 : Int),
      (main.frameLoop a k f1 f2).map Prod.snd
        = indexStream a.seek_from2 a.seek_to2 a.fm2_step k f2 := by
  intro k
  induction k with
  | zero => intro f1 f2; rfl
  | succ k ih =>
    intro f1 f2
    simp only [main.frameLoop, indexStream, List.map_cons, ih]

theorem frameLoop_length (a : MainVars) :
    ∀ (k : Nat) (f1 f2 : Int), (main.frameLoop a k f1 f2).length = k := by
  intro k
  induction k with
  | zero => intro f1 f2; rfl
  | succ k ih =>
    intro f1 f2
    simp only [main.frameLoop, List.length_cons, ih]

/-- Without a seek position on the way, the indexes of a source are
`f, f + step, f + 2 * step, ...`. -/
theorem indexStream_strided (seek_from seek_to step : Int) :
    ∀ (k : Nat) (f : Int),
      (∀ i : Nat, i < k → f + i * step ≠ seek_from) →
      (∀ i : Nat, i < k → -2 ^ 31 ≤ f + i * step ∧ f + i * step < 2 ^ 31) →
      indexStream seek_from seek_to step k f = (List.range k).map (fun (i : Nat) => f + (i : Int) * step) := by
  intro k
  induction k with
  | zero => intro f _ _; rfl
  | succ k ih =>
    intro f hne hr
    have h0 : f ≠ seek_from := by simpa using hne 0 (Nat.succ_pos k)
    rw [indexStream, List.range_succ_eq_map]
    simp only [if_neg h0, List.map_cons, List.map_map, Nat.cast_zero, zero_mul, add_zero]
    congr 1
    by_cases hk : k = 0
    · subst hk
      rfl
    · have h1 := hr 1 (by omega)
      simp only [Nat.cast_one, one_mul] at h1
      rw [wrapInt32_of_range _ h1.1 h1.2, ih (f + step)]
      · apply List.map_congr_left
        intro i _
        simp only [Function.comp, Nat.succ_eq_add_one, Nat.cast_add, Nat.cast_one]
        ring
      · intro i hi
        have := hne (i + 1) (by omega)
        intro h
        apply this
        rw [← h]
        push_cast
        ring
      · intro i hi
        have := hr (i + 1) (by omega)
        have e : f + step + (i : Int) * step = f + ((i + 1 : Nat) : Int) * step := by
          push_cast
          ring
        rw [e]
        exact this

/-- With step 1 and a seek from `sfrom` back to `sto`, a source that stands at
`sto + r` reads `sto + (r + i) mod (sfrom - sto)` in iteration `i`. -/
theorem indexStream_seek (sfrom sto : Int) (hlt : sto < sfrom) (hlo : -2 ^ 31 ≤ sto)
    (hhi : sfrom < 2 ^ 31) :
    ∀ (k : Nat) (r : Int), 0 ≤ r → r ≤ sfrom - sto →
      indexStream sfrom sto 1 k (sto + r)
        = (List.range k).map (fun (i : Nat) => sto + (r + (i : Int)) % (sfrom - sto)) := by
  intro k
  induction k with
  | zero => intro r _ _; rfl
  | succ k ih =>
    intro r hr0 hr1
    have hp : 0 < sfrom - sto := by omega
    rw [indexStream, List.range_succ_eq_map]
    simp only [List.map_cons, List.map_map, Nat.cast_zero, add_zero]
    by_cases hr : r = sfrom - sto
    · have e : sto + r = sfrom := by omega
      rw [if_pos e, hr, Int.emod_self, add_zero]
      congr 1
      have hw : wrapInt32 (sto + 1) = sto + 1 := wrapInt32_of_range _ (by omega) (by omega)
      rw [hw, ih 1 (by omega) (by omega)]
      apply List.map_congr_left
      intro i _
      simp only [Function.comp, Nat.succ_eq_add_one, Nat.cast_add, Nat.cast_one]
      congr 1
      have : sfrom - sto + ((i : Int) + 1) = (1 + (i : Int)) + 1 * (sfrom - sto) := by ring
      rw [this, Int.add_mul_emod_self]
    · have e : sto + r ≠ sfrom := by omega
      have hlt' : r < sfrom - sto := by omega
      rw [if_neg e, Int.emod_eq_of_lt hr0 hlt']
      congr 1
      have hw : wrapInt32 (sto + r + 1) = sto + (r + 1) := by
        rw [wrapInt32_of_range _ (by omega) (by omega)]
        ring
      rw [hw, ih (r + 1) (by omega) (by omega)]
      apply List.map_congr_left
      intro i _
      simp only [Function.comp, Nat.succ_eq_add_one, Nat.cast_add, Nat.cast_one]
      congr 2
      ring

theorem ceil_div (m d : Int) (hd : 1 ≤ d) :
    ⌈(m : ℚ) / (d : ℚ)⌉ = (m - 1) / d + 1 := by
  have hd0 : (0 : ℚ) < (d : ℚ) := by exact_mod_cast (by omega : (0 : Int) < d)
  have h1 := Int.ediv_add_emod (m - 1) d
  have h2 := Int.emod_nonneg (m - 1) (by omega : d ≠ 0)
  have h3 := Int.emod_lt_of_pos (m - 1) (by omega : (0 : Int) < d)
  rw [Int.ceil_eq_iff]
  constructor
  · rw [lt_div_iff₀ hd0]
    have : ((m - 1) / d + 1 - 1) * d < m := by
      have e : ((m - 1) / d + 1 - 1) * d = d * ((m - 1) / d) := by ring
      rw [e]
      omega
    exact_mod_cast this
  · rw [div_le_iff₀ hd0]
    have : m ≤ ((m - 1) / d + 1) * d := by
      have e : ((m - 1) / d + 1) * d = d * ((m - 1) / d) + d := by ring
      rw [e]
      omega
    exact_mod_cast this

theorem stdMinI_eq (a b : Int) : stdMinI a b = min a b := by
  unfold stdMinI
  split_ifs with h
  · exact (min_eq_right (le_of_lt h)).symm
  · exact (min_eq_left (not_lt.mp h)).symm

/-- The clamp of lines 1524-1529 on a triple whose arithmetic stays within
`int`: the count, limited to the frames from `first` on in steps of `step`. -/
theorem clamp_strided (count first step frames n : Int) (hc : 1 ≤ count) (hs : 1 ≤ step)
    (hf0 : 0 ≤ first) (hfn : first < n) (hn : n < 2 ^ 31)
    (hov : first + (count - 1) * step + 1 < 2 ^ 31) :
    main.clamp count first step frames n = some (min count ((n - first - 1) / step + 1)) := by
  have hprod : 0 ≤ (count - 1) * step := mul_nonneg (by omega) (by omega)
  have hcs : count - 1 ≤ (count - 1) * step := by nlinarith
  unfold main.clamp
  rw [if_neg (by omega)]
  simp only []
  have w1 : wrapInt32 (count - 1) = count - 1 := wrapInt32_of_range _ (by omega) (by omega)
  have w2 : wrapInt32 ((count - 1) * step) = (count - 1) * step :=
    wrapInt32_of_range _ (by omega) (by omega)
  have w3 : wrapInt32 (first + (count - 1) * step) = first + (count - 1) * step :=
    wrapInt32_of_range _ (by omega) (by omega)
  have w4 : wrapInt32 (first + (count - 1) * step + 1) = first + (count - 1) * step + 1 :=
    wrapInt32_of_range _ (by omega) (by omega)
  rw [w1, w2, w3, w4, stdMinI_eq]
  have hq0 : 0 ≤ (n - first - 1) / step := Int.ediv_nonneg (by omega) (by omega)
  have hqn : (n - first - 1) / step ≤ n - first - 1 :=
    Int.ediv_le_self _ (by omega)
  by_cases hle : first + (count - 1) * step + 1 ≤ n
  · rw [min_eq_left hle]
    have e1 : first + (count - 1) * step + 1 - first = (count - 1) * step + 1 := by ring
    have w5 : wrapInt32 (first + (count - 1) * step + 1 - first) = (count - 1) * step + 1 := by
      rw [e1]
      exact wrapInt32_of_range _ (by omega) (by omega)
    have w6 : wrapInt32 ((count - 1) * step + 1 - 1) = (count - 1) * step := by
      rw [add_sub_cancel_right]
      exact w2
    rw [w5, w6]
    unfold divI
    rw [if_neg (by omega)]
    simp only []
    rw [Int.tdiv_eq_ediv hprod (by omega), Int.mul_ediv_cancel _ (by omega : step ≠ 0)]
    have w7 : wrapInt32 (count - 1 + 1) = count := by
      rw [sub_add_cancel]
      exact wrapInt32_of_range _ (by omega) (by omega)
    rw [w7]
    congr 1
    have : count - 1 ≤ (n - first - 1) / step := by
      rw [Int.le_ediv_iff_mul_le (by omega)]
      omega
    rw [min_eq_left (by omega)]
  · rw [min_eq_right (by omega)]
    have w5 : wrapInt32 (n - first) = n - first := wrapInt32_of_range _ (by omega) (by omega)
    have w6 : wrapInt32 (n - first - 1) = n - first - 1 :=
      wrapInt32_of_range _ (by omega) (by omega)
    rw [w5, w6]
    unfold divI
    rw [if_neg (by omega)]
    simp only []
    rw [Int.tdiv_eq_ediv (by omega) (by omega)]
    have w7 : wrapInt32 ((n - first - 1) / step + 1) = (n - first - 1) / step + 1 :=
      wrapInt32_of_range _ (by omega) (by omega)
    rw [w7]
    congr 1
    have : (n - first - 1) / step < count - 1 := by
      apply Int.ediv_lt_of_lt_mul (by omega)
      omega
    rw [min_eq_right (by omega)]

/-- Every index of the clamped window lies inside the source. -/
theorem clamp_index_lt (first step n i : Int) (hs : 1 ≤ step)
    (hi : i < (n - first - 1) / step + 1) : first + i * step < n := by
  have h1 : i ≤ (n - first - 1) / step := by omega
  rw [Int.le_ediv_iff_mul_le (by omega)] at h1
  omega

/-- The clamp of a source is defined when its count is negative or its step is
positive. -/
theorem clamp_defined (cntr frst step frames framesK : Int) (h : cntr < 0 ∨ 1 ≤ step) :
    ∃ c, main.clamp cntr frst step frames framesK = some c := by
  unfold main.clamp
  by_cases hc : cntr < 0
  · exact ⟨frames, by rw [if_pos hc]⟩
  · have hs : 1 ≤ step := by
      rcases h with h | h
      · exact absurd h hc
      · exact h
    rw [if_neg hc]
    simp only [divI]
    rw [if_neg (by omega)]
    exact ⟨_, rfl⟩

theorem schedule_strided (a : MainVars) (n n2 c1 c2 : Int) (hn : 0 < n) (hn2 : 0 < n2)
    (h1 : a.fm1_frst < n) (h2 : a.fm2_frst < n2)
    (hc1 : main.clamp a.fm1_cntr a.fm1_frst a.fm1_step (stdMinI n n2) n = some c1)
    (hc2 : main.clamp a.fm2_cntr a.fm2_frst a.fm2_step (stdMinI n n2) n2 = some c2)
    (hs1 : a.seek_num1 = 0) (hs2 : a.seek_num2 = 0) :
    main.schedule a n n2
      = .ready { a with fm1_cntr := c1, fm2_cntr := c2, seek_num1 := 0, seek_num2 := 0 }
          (stdMinI c1 c2) [] := by
  have hfr : ¬ stdMinI n n2 = 0 := by
    rw [stdMinI_eq]
    have := lt_min hn hn2
    omega
  have hst : main.seekStage a c1 c2 n n2
      = { a with fm1_cntr := c1, fm2_cntr := c2, seek_num1 := 0, seek_num2 := 0 } := by
    simp [main.seekStage, main.seekSchedule1, main.seekSchedule2, main.seekCheck, hs1, hs2]
  unfold main.schedule
  simp only []
  rw [if_neg hfr, if_neg (by omega), if_neg (by omega), hc1, hc2]
  simp only [hst]
  simp [main.seekCheck, hs1, hs2]

/-- The indexes of a strided window as the frame loop computes them. -/
theorem strided_indexes (sfrom sto count first step n fm : Int) (hs : 1 ≤ step)
    (hf0 : 0 ≤ first) (hn : n < 2 ^ 31) (hseek : sfrom = -1)
    (hfm : fm ≤ min count ((n - first - 1) / step + 1)) :
    indexStream sfrom sto step fm.toNat first
      = (List.range fm.toNat).map (fun (i : Nat) => first + (i : Int) * step) := by
  have hle : min count ((n - first - 1) / step + 1) ≤ (n - first - 1) / step + 1 :=
    min_le_right _ _
  have hidx : ∀ i : Nat, i < fm.toNat →
      0 ≤ first + (i : Int) * step ∧ first + (i : Int) * step < n := by
    intro i hi
    rw [Int.lt_toNat] at hi
    constructor
    · have : 0 ≤ (i : Int) * step := mul_nonneg (by omega) (by omega)
      omega
    · exact clamp_index_lt first step n i hs (by omega)
  apply indexStream_strided
  · intro i hi
    have := (hidx i hi).1
    rw [hseek]
    omega
  · intro i hi
    have := hidx i hi
    constructor <;> omega

/-- C22 as stated fails: the values `count = 1073741825`, `first = 0`,
`step = 4` on a source of 100 frames satisfy `count >= 1`, `step >= 1`,
`0 <= first < n`, and `min(count, ceil((n - first) / step))` is 25; the product
`(count - 1) * step` is `2^32`, which wraps to 0, so the count `main` computes
is 1 and the run with `-fs 1073741825 0 4` reads one frame. -/
theorem C22_counterexample :
    ((1 : Int) ≤ 1073741825 ∧ (1 : Int) ≤ 4 ∧ (0 : Int) ≤ 0 ∧ (0 : Int) < 100)
    ∧ min (1073741825 : Int) ⌈((100 - 0 : Int) : ℚ) / ((4 : Int) : ℚ)⌉ = 25
    ∧ main.clamp 1073741825 0 4 100 100 = some 1
    ∧ main (scenarioEnv false 9600 9600)
        ["metrics_calc_lite", "-i1", "a.yuv", "-i2", "b.yuv", "-w", "8", "-h", "8",
          "-fs", "1073741825", "0", "4", "psnr", "y"]
      = .returned ⟨0, [], ["Y-MSE", "Y-PSNR"], [.PSNR], [0], [(0, 0)]⟩ := by
  refine ⟨by decide, ?_, by decide!, by decide!⟩
  rw [ceil_div (100 - 0) 4 (by decide)]
  decide

/-- C22 (amended): when `main` reaches the schedule with no `-numseekframe`
option, for each source of `n` frames whose `-fs` values are `count >= 1`,
`step >= 1` and `0 <= first < n`, with `first + (count - 1) * step + 1` a value
an `int` holds, the count `main` computes for the source is
`min(count, ceil((n - first) / step))`, every index `first + i * step` below
that count is `< n`, and the frame loop reads the source at `first + i * step`
in iteration `i`.  On two 100-frame sources `-fs 1000 0 1` makes the frame loop
run exactly 100 times, on the frames 0 to 99. -/
theorem C22_strided_window (a : MainVars) (n1 n2 : Int) (hn1 : 0 < n1) (hn2 : 0 < n2)
    (hf1 : a.fm1_frst < n1) (hf2 : a.fm2_frst < n2)
    (hd1 : a.fm1_cntr < 0 ∨ 1 ≤ a.fm1_step) (hd2 : a.fm2_cntr < 0 ∨ 1 ≤ a.fm2_step)
    (hseek : a.seek_num1 = 0 ∧ a.seek_num2 = 0 ∧ a.seek_from1 = -1 ∧ a.seek_from2 = -1) :
    (∃ a' fm_count,
      main.schedule a n1 n2 = .ready a' fm_count []
      ∧ fm_count = min a'.fm1_cntr a'.fm2_cntr
      ∧ (stridedWindow a.fm1_cntr a.fm1_frst a.fm1_step n1 →
          a'.fm1_cntr = min a.fm1_cntr ⌈((n1 - a.fm1_frst : Int) : ℚ) / (a.fm1_step : ℚ)⌉
          ∧ (∀ i : Int, 0 ≤ i → i < a'.fm1_cntr → a.fm1_frst + i * a.fm1_step < n1)
          ∧ (main.frameLoop a' fm_count.toNat a'.fm1_frst a'.fm2_frst).map Prod.fst
              = (List.range fm_count.toNat).map
                  (fun (i : Nat) => a.fm1_frst + (i : Int) * a.fm1_step))
      ∧ (stridedWindow a.fm2_cntr a.fm2_frst a.fm2_step n2 →
          a'.fm2_cntr = min a.fm2_cntr ⌈((n2 - a.fm2_frst : Int) : ℚ) / (a.fm2_step : ℚ)⌉
          ∧ (∀ i : Int, 0 ≤ i → i < a'.fm2_cntr → a.fm2_frst + i * a.fm2_step < n2)
          ∧ (main.frameLoop a' fm_count.toNat a'.fm1_frst a'.fm2_frst).map Prod.snd
              = (List.range fm_count.toNat).map
                  (fun (i : Nat) => a.fm2_frst + (i : Int) * a.fm2_step)))
    ∧ main (scenarioEnv false 9600 9600)
        ["metrics_calc_lite", "-i1", "a.yuv", "-i2", "b.yuv", "-w", "8", "-h", "8",
          "-fs", "1000", "0", "1", "psnr", "y"]
      = .returned ⟨0, [], ["Y-MSE", "Y-PSNR"], [.PSNR], [0],
          (List.range 100).map (fun (i : Nat) => ((i : Int), (i : Int)))⟩ := by
  refine ⟨?_, by decide!⟩
  obtain ⟨c1, hc1⟩ := clamp_defined a.fm1_cntr a.fm1_frst a.fm1_step (stdMinI n1 n2) n1 hd1
  obtain ⟨c2, hc2⟩ := clamp_defined a.fm2_cntr a.fm2_frst a.fm2_step (stdMinI n1 n2) n2 hd2
  have hsched := schedule_strided a n1 n2 c1 c2 hn1 hn2 hf1 hf2 hc1 hc2 hseek.1 hseek.2.1
  refine ⟨_, _, hsched, stdMinI_eq _ _, ?_, ?_⟩
  · rintro ⟨hc, hs, hf0, hfn, hn, hov⟩
    have e := clamp_strided a.fm1_cntr a.fm1_frst a.fm1_step (stdMinI n1 n2) n1 hc hs hf0 hfn hn hov
    rw [hc1] at e
    have e1 : c1 = min a.fm1_cntr ((n1 - a.fm1_frst - 1) / a.fm1_step + 1) := Option.some.inj e
    have hle : c1 ≤ (n1 - a.fm1_frst - 1) / a.fm1_step + 1 := by
      rw [e1]
      exact min_le_right _ _
    refine ⟨?_, ?_, ?_⟩
    · show c1 = _
      rw [e1, ceil_div (n1 - a.fm1_frst) a.fm1_step hs]
    · intro i _ hi
      exact clamp_index_lt a.fm1_frst a.fm1_step n1 i hs (lt_of_lt_of_le hi hle)
    · rw [frameLoop_fst]
      exact strided_indexes _ _ a.fm1_cntr a.fm1_frst a.fm1_step n1 _ hs hf0 hn hseek.2.2.1
        (by rw [stdMinI_eq, ← e1]; exact min_le_left _ _)
  · rintro ⟨hc, hs, hf0, hfn, hn, hov⟩
    have e := clamp_strided a.fm2_cntr a.fm2_frst a.fm2_step (stdMinI n1 n2) n2 hc hs hf0 hfn hn hov
    rw [hc2] at e
    have e1 : c2 = min a.fm2_cntr ((n2 - a.fm2_frst - 1) / a.fm2_step + 1) := Option.some.inj e
    have hle : c2 ≤ (n2 - a.fm2_frst - 1) / a.fm2_step + 1 := by
      rw [e1]
      exact min_le_right _ _
    refine ⟨?_, ?_, ?_⟩
    · show c2 = _
      rw [e1, ceil_div (n2 - a.fm2_frst) a.fm2_step hs]
    · intro i _ hi
      exact clamp_index_lt a.fm2_frst a.fm2_step n2 i hs (lt_of_lt_of_le hi hle)
    · rw [frameLoop_snd]
      exact strided_indexes _ _ a.fm2_cntr a.fm2_frst a.fm2_step n2 _ hs hf0 hn hseek.2.2.2
        (by rw [stdMinI_eq, ← e1]; exact min_le_right _ _)

theorem C22_strided_window_witness :
    main.optionLoop
        ["metrics_calc_lite", "-i1", "a.yuv", "-i2", "b.yuv", "-w", "8", "-h", "8",
          "-fs", "1000", "0", "1", "psnr", "y"] 15 main.init
      = .done { fs_vars with input_name1 := "a.yuv", input_name2 := "b.yuv", w := 8, h := 8,
                             cur_param := 13 }
    ∧ (∃ a' fm_count,
      main.schedule fs_vars 100 100 = .ready a' fm_count []
      ∧ fm_count = min a'.fm1_cntr a'.fm2_cntr
      ∧ (a'.fm1_cntr = min fs_vars.fm1_cntr
            ⌈((100 - fs_vars.fm1_frst : Int) : ℚ) / (fs_vars.fm1_step : ℚ)⌉
          ∧ (∀ i : Int, 0 ≤ i → i < a'.fm1_cntr →
              fs_vars.fm1_frst + i * fs_vars.fm1_step < 100)
          ∧ (main.frameLoop a' fm_count.toNat a'.fm1_frst a'.fm2_frst).map Prod.fst
              = (List.range fm_count.toNat).map
                  (fun (i : Nat) => fs_vars.fm1_frst + (i : Int) * fs_vars.fm1_step))
      ∧ (a'.fm2_cntr = min fs_vars.fm2_cntr
            ⌈((100 - fs_vars.fm2_frst : Int) : ℚ) / (fs_vars.fm2_step : ℚ)⌉
          ∧ (∀ i : Int, 0 ≤ i → i < a'.fm2_cntr →
              fs_vars.fm2_frst + i * fs_vars.fm2_step < 100)
          ∧ (main.frameLoop a' fm_count.toNat a'.fm1_frst a'.fm2_frst).map Prod.snd
              = (List.range fm_count.toNat).map
                  (fun (i : Nat) => fs_vars.fm2_frst + (i : Int) * fs_vars.fm2_step)))
    ∧ main (scenarioEnv false 9600 9600)
        ["metrics_calc_lite", "-i1", "a.yuv", "-i2", "b.yuv", "-w", "8", "-h", "8",
          "-fs", "1000", "0", "1", "psnr", "y"]
      = .returned ⟨0, [], ["Y-MSE", "Y-PSNR"], [.PSNR], [0],
          (List.range 100).map (fun (i : Nat) => ((i : Int), (i : Int)))⟩ := by
  have h := C22_strided_window fs_vars 100 100 (by decide) (by decide) (by decide) (by decide)
    (by decide) (by decide) (by decide)
  obtain ⟨⟨a', fm_count, h1, h2, h3, h4⟩, h5⟩ := h
  exact ⟨by decide!,
    ⟨a', fm_count, h1, h2, h3 (by unfold stridedWindow; decide),
      h4 (by unfold stridedWindow; decide)⟩, h5⟩

/-- A valid seek specification of the first source: what lines 1538-1564 leave
in the variables of that source. -/
theorem seekStage_source1 (a : MainVars) (c1 c2 n n2 : Int)
    (h : seekSpec a.seek_from1 a.seek_to1 a.seek_num1 n) :
    (main.seekStage a c1 c2 n n2).fm1_cntr = (a.seek_from1 - a.seek_to1) * (a.seek_num1 + 1)
    ∧ (main.seekStage a c1 c2 n n2).seek_from1 = a.seek_from1
    ∧ (main.seekStage a c1 c2 n n2).seek_to1 = a.seek_to1
    ∧ (main.seekStage a c1 c2 n n2).fm1_step = a.fm1_step
    ∧ (main.seekStage a c1 c2 n n2).fm1_frst = a.seek_to1 := by
  obtain ⟨hfrom1, hfromn, hto0, hto, hnum, hn, hov⟩ := h
  have hprod : 0 ≤ (a.seek_from1 - a.seek_to1) * (a.seek_num1 + 1) :=
    mul_nonneg (by omega) (by omega)
  have hnum1 : a.seek_num1 + 1 ≤ (a.seek_from1 - a.seek_to1) * (a.seek_num1 + 1) := by
    nlinarith
  have w1 : wrapInt32 (a.seek_from1 - a.seek_to1) = a.seek_from1 - a.seek_to1 :=
    wrapInt32_of_range _ (by omega) (by omega)
  have w2 : wrapInt32 (a.seek_num1 + 1) = a.seek_num1 + 1 :=
    wrapInt32_of_range _ (by omega) (by omega)
  have w3 : wrapInt32 ((a.seek_from1 - a.seek_to1) * (a.seek_num1 + 1))
      = (a.seek_from1 - a.seek_to1) * (a.seek_num1 + 1) :=
    wrapInt32_of_range _ (by omega) (by omega)
  have hs1 : main.seekCheck a.seek_from1 a.seek_to1 a.seek_num1 n = (a.seek_num1, []) := by
    unfold main.seekCheck
    rw [if_pos (by omega), if_neg (by omega)]
  have hpos : a.seek_num1 > 0 := by omega
  have hne : ¬ a.seek_num1 = 0 := by omega
  unfold main.seekStage main.seekSchedule2 main.seekSchedule1
  simp only [hs1, if_pos hpos, w1, w2, w3]
  refine ⟨?_, ?_, ?_, ?_, ?_⟩ <;> split_ifs <;> rfl

/-- A valid seek specification of the second source: what lines 1538-1564
leave in the variables of that source. -/
theorem seekStage_source2 (a : MainVars) (c1 c2 n1 n : Int)
    (h : seekSpec a.seek_from2 a.seek_to2 a.seek_num2 n) :
    (main.seekStage a c1 c2 n1 n).fm2_cntr = (a.seek_from2 - a.seek_to2) * (a.seek_num2 + 1)
    ∧ (main.seekStage a c1 c2 n1 n).seek_from2 = a.seek_from2
    ∧ (main.seekStage a c1 c2 n1 n).seek_to2 = a.seek_to2
    ∧ (main.seekStage a c1 c2 n1 n).fm2_step = a.fm2_step
    ∧ (main.seekStage a c1 c2 n1 n).fm2_frst = a.seek_to2 := by
  obtain ⟨hfrom1, hfromn, hto0, hto, hnum, hn, hov⟩ := h
  have hprod : 0 ≤ (a.seek_from2 - a.seek_to2) * (a.seek_num2 + 1) :=
    mul_nonneg (by omega) (by omega)
  have hnum1 : a.seek_num2 + 1 ≤ (a.seek_from2 - a.seek_to2) * (a.seek_num2 + 1) := by
    nlinarith
  have w1 : wrapInt32 (a.seek_from2 - a.seek_to2) = a.seek_from2 - a.seek_to2 :=
    wrapInt32_of_range _ (by omega) (by omega)
  have w2 : wrapInt32 (a.seek_num2 + 1) = a.seek_num2 + 1 :=
    wrapInt32_of_range _ (by omega) (by omega)
  have w3 : wrapInt32 ((a.seek_from2 - a.seek_to2) * (a.seek_num2 + 1))
      = (a.seek_from2 - a.seek_to2) * (a.seek_num2 + 1) :=
    wrapInt32_of_range _ (by omega) (by omega)
  have hs2 : main.seekCheck a.seek_from2 a.seek_to2 a.seek_num2 n = (a.seek_num2, []) := by
    unfold main.seekCheck
    rw [if_pos (by omega), if_neg (by omega)]
  have hpos : a.seek_num2 > 0 := by omega
  have hne : ¬ a.seek_num2 = 0 := by omega
  unfold main.seekStage main.seekSchedule2 main.seekSchedule1
  simp only [hs2]
  refine ⟨?_, ?_, ?_, ?_, ?_⟩ <;> split_ifs <;> simp_all

/-- The schedule stage of a run without a `-fs` option on two sources that are
not empty. -/
theorem schedule_seek (a : MainVars) (n1 n2 : Int) (hn1 : 0 < n1) (hn2 : 0 < n2)
    (hfs : a.fm1_cntr = -1 ∧ a.fm1_frst = 0 ∧ a.fm2_cntr = -1 ∧ a.fm2_frst = 0) :
    main.schedule a n1 n2
      = .ready (main.seekStage a (stdMinI n1 n2) (stdMinI n1 n2) n1 n2)
          (stdMinI (main.seekStage a (stdMinI n1 n2) (stdMinI n1 n2) n1 n2).fm1_cntr
            (main.seekStage a (stdMinI n1 n2) (stdMinI n1 n2) n1 n2).fm2_cntr)
          ((main.seekCheck a.seek_from1 a.seek_to1 a.seek_num1 n1).2
            ++ (main.seekCheck a.seek_from2 a.seek_to2 a.seek_num2 n2).2) := by
  obtain ⟨h1, h2, h4, h5⟩ := hfs
  have hfr : ¬ stdMinI n1 n2 = 0 := by
    rw [stdMinI_eq]
    have := lt_min hn1 hn2
    omega
  have hc1 : main.clamp a.fm1_cntr a.fm1_frst a.fm1_step (stdMinI n1 n2) n1
      = some (stdMinI n1 n2) := by
    unfold main.clamp
    rw [if_pos (by omega)]
  have hc2 : main.clamp a.fm2_cntr a.fm2_frst a.fm2_step (stdMinI n1 n2) n2
      = some (stdMinI n1 n2) := by
    unfold main.clamp
    rw [if_pos (by omega)]
  unfold main.schedule
  simp only []
  rw [if_neg hfr, if_neg (by omega), if_neg (by omega), hc1, hc2]

/-- C23 as stated fails: on a source of 10 frames the values `from = 4`,
`to = 0`, `iterations = 1073741823` satisfy `1 <= from <= n`, `0 <= to < from`,
`iterations >= 1`, and `(from - to) * (iterations + 1)` is `2^32`; the count
`main` schedules is that product wrapped to 32 bits, 0, and the run with
`-numseekframe1 4 0 1073741823` reads no frame. -/
theorem C23_counterexample :
    ((1 : Int) ≤ 4 ∧ (4 : Int) ≤ 10 ∧ (0 : Int) ≤ 0 ∧ (0 : Int) < 4 ∧ (1 : Int) ≤ 1073741823)
    ∧ ((4 : Int) - 0) * (1073741823 + 1) = 2 ^ 32
    ∧ main.schedule seek_overflow_vars 10 10
        = .ready { seek_overflow_vars with fm1_cntr := 0, fm1_frst := 0, fm2_cntr := 10 } 0 []
    ∧ main (scenarioEnv false 960 960)
        ["metrics_calc_lite", "-i1", "a.yuv", "-i2", "b.yuv", "-w", "8", "-h", "8",
          "-numseekframe1", "4", "0", "1073741823", "psnr", "y"]
      = .returned ⟨0, [], ["Y-MSE", "Y-PSNR"], [.PSNR], [0], []⟩ := by
  refine ⟨by decide, by decide, by decide!, by decide!⟩

/-- C23 (amended): when `main` reaches the schedule with no `-fs` option (so
the steps are 1), for each source of `n` frames whose `-numseekframe` values
are `1 <= from <= n`, `0 <= to < from` and `iterations >= 1`, with
`(from - to) * (iterations + 1)` a value an `int` holds, the scheduled count of
the source is `(from - to) * (iterations + 1)` and the frame loop reads the
source at `to + (i mod (from - to))` in iteration `i`; every such index lies in
`[to, from - 1]` and is `< n`.  With `-numseekframe1 5 2 1` on two 10-frame
sources the frame loop runs `(5 - 2) * (1 + 1) = 6` times and reads the first
source at 2, 3, 4, 2, 3, 4. -/
theorem C23_seek_schedule (a : MainVars) (n1 n2 : Int) (hn1 : 0 < n1) (hn2 : 0 < n2)
    (hfs : a.fm1_cntr = -1 ∧ a.fm1_frst = 0 ∧ a.fm1_step = 1
      ∧ a.fm2_cntr = -1 ∧ a.fm2_frst = 0 ∧ a.fm2_step = 1) :
    (∃ a' fm_count printed,
      main.schedule a n1 n2 = .ready a' fm_count printed
      ∧ fm_count = min a'.fm1_cntr a'.fm2_cntr
      ∧ (seekSpec a.seek_from1 a.seek_to1 a.seek_num1 n1 →
          a'.fm1_cntr = (a.seek_from1 - a.seek_to1) * (a.seek_num1 + 1)
          ∧ (main.frameLoop a' fm_count.toNat a'.fm1_frst a'.fm2_frst).map Prod.fst
              = (List.range fm_count.toNat).map
                  (fun (i : Nat) => a.seek_to1 + (i : Int) % (a.seek_from1 - a.seek_to1)))
      ∧ (seekSpec a.seek_from2 a.seek_to2 a.seek_num2 n2 →
          a'.fm2_cntr = (a.seek_from2 - a.seek_to2) * (a.seek_num2 + 1)
          ∧ (main.frameLoop a' fm_count.toNat a'.fm1_frst a'.fm2_frst).map Prod.snd
              = (List.range fm_count.toNat).map
                  (fun (i : Nat) => a.seek_to2 + (i : Int) % (a.seek_from2 - a.seek_to2))))
    ∧ (∀ sfrom sto num n i : Int, seekSpec sfrom sto num n →
        sto ≤ sto + i % (sfrom - sto) ∧ sto + i % (sfrom - sto) ≤ sfrom - 1
        ∧ sto + i % (sfrom - sto) < n)
    ∧ main (scenarioEnv false 960 960)
        ["metrics_calc_lite", "-i1", "a.yuv", "-i2", "b.yuv", "-w", "8", "-h", "8",
          "-numseekframe1", "5", "2", "1", "psnr", "y"]
      = .returned ⟨0, [], ["Y-MSE", "Y-PSNR"], [.PSNR], [0],
          [(2, 0), (3, 1), (4, 2), (2, 3), (3, 4), (4, 5)]⟩ := by
  refine ⟨?_, ?_, by decide!⟩
  · obtain ⟨h1, h2, h3, h4, h5, h6⟩ := hfs
    have hsched := schedule_seek a n1 n2 hn1 hn2 ⟨h1, h2, h4, h5⟩
    refine ⟨_, _, _, hsched, stdMinI_eq _ _, ?_, ?_⟩
    · intro hspec
      have hst := seekStage_source1 a (stdMinI n1 n2) (stdMinI n1 n2) n1 n2 hspec
      obtain ⟨hfrom1, hfromn, hto0, hto, hnum, hn, hov⟩ := hspec
      refine ⟨hst.1, ?_⟩
      rw [frameLoop_fst, hst.2.1, hst.2.2.1, hst.2.2.2.1, hst.2.2.2.2, h3]
      have := indexStream_seek a.seek_from1 a.seek_to1 hto (by omega) (by omega)
        (stdMinI (main.seekStage a (stdMinI n1 n2) (stdMinI n1 n2) n1 n2).fm1_cntr
          (main.seekStage a (stdMinI n1 n2) (stdMinI n1 n2) n1 n2).fm2_cntr).toNat
        0 (le_refl 0) (by omega)
      simpa using this
    · intro hspec
      have hst := seekStage_source2 a (stdMinI n1 n2) (stdMinI n1 n2) n1 n2 hspec
      obtain ⟨hfrom1, hfromn, hto0, hto, hnum, hn, hov⟩ := hspec
      refine ⟨hst.1, ?_⟩
      rw [frameLoop_snd, hst.2.1, hst.2.2.1, hst.2.2.2.1, hst.2.2.2.2, h6]
      have := indexStream_seek a.seek_from2 a.seek_to2 hto (by omega) (by omega)
        (stdMinI (main.seekStage a (stdMinI n1 n2) (stdMinI n1 n2) n1 n2).fm1_cntr
          (main.seekStage a (stdMinI n1 n2) (stdMinI n1 n2) n1 n2).fm2_cntr).toNat
        0 (le_refl 0) (by omega)
      simpa using this
  · rintro sfrom sto num n i ⟨hfrom1, hfromn, hto0, hto, hnum, hn, hov⟩
    have hp : 0 < sfrom - sto := by omega
    have h1 := Int.emod_nonneg i (by omega : sfrom - sto ≠ 0)
    have h2 := Int.emod_lt_of_pos i hp
    refine ⟨by omega, by omega, by omega⟩

theorem C23_seek_schedule_witness :
    main.optionLoop
        ["metrics_calc_lite", "-i1", "a.yuv", "-i2", "b.yuv", "-w", "8", "-h", "8",
          "-numseekframe1", "5", "2", "1", "psnr", "y"] 15 main.init
      = .done { seek_vars with input_name1 := "a.yuv", input_name2 := "b.yuv", w := 8, h := 8,
                               cur_param := 13 }
    ∧ (∃ a' fm_count printed,
      main.schedule seek_vars 10 10 = .ready a' fm_count printed
      ∧ fm_count = min a'.fm1_cntr a'.fm2_cntr
      ∧ a'.fm1_cntr = (seek_vars.seek_from1 - seek_vars.seek_to1) * (seek_vars.seek_num1 + 1)
      ∧ (main.frameLoop a' fm_count.toNat a'.fm1_frst a'.fm2_frst).map Prod.fst
          = (List.range fm_count.toNat).map
              (fun (i : Nat) =>
                seek_vars.seek_to1 + (i : Int) % (seek_vars.seek_from1 - seek_vars.seek_to1)))
    ∧ (∀ i : Int,
        seek_vars.seek_to1
          ≤ seek_vars.seek_to1 + i % (seek_vars.seek_from1 - seek_vars.seek_to1)
        ∧ seek_vars.seek_to1 + i % (seek_vars.seek_from1 - seek_vars.seek_to1)
          ≤ seek_vars.seek_from1 - 1
        ∧ seek_vars.seek_to1 + i % (seek_vars.seek_from1 - seek_vars.seek_to1) < 10)
    ∧ main (scenarioEnv false 960 960)
        ["metrics_calc_lite", "-i1", "a.yuv", "-i2", "b.yuv", "-w", "8", "-h", "8",
          "-numseekframe1", "5", "2", "1", "psnr", "y"]
      = .returned ⟨0, [], ["Y-MSE", "Y-PSNR"], [.PSNR], [0],
          [(2, 0), (3, 1), (4, 2), (2, 3), (3, 4), (4, 5)]⟩ := by
  have h := C23_seek_schedule seek_vars 10 10 (by decide) (by decide) (by decide)
  have hspec : seekSpec seek_vars.seek_from1 seek_vars.seek_to1 seek_vars.seek_num1 10 := by
    unfold seekSpec
    decide
  obtain ⟨⟨a', fm_count, printed, h1, h2, h3, _⟩, h5, h6⟩ := h
  exact ⟨by decide!, ⟨a', fm_count, printed, h1, h2, (h3 hspec).1, (h3 hspec).2⟩,
    fun i => h5 _ _ _ _ i hspec, h6⟩

/-! ## A seek range that is out of bounds -/

/-- C24 (the code does not do what the claim says): on two 10-frame sources the
options `-numseekframe1 5 200 1` give a range that is out of bounds (`to >= n`);
`main` prints the warning (entry 12 of `errors_table`) and goes on, yet when the
index of the first source reaches `from = 5` the frame loop sets it to
`to = 200`: the indexes passed to `ReadRawFrame` are 0, 1, 2, 3, 4, 200, 201,
202, 203, 204 and not those of the run without the option, 0 to 9.  With
`from = 0` the index is reset in the first iteration. -/
theorem C24_seek_out_of_bounds :
    main (scenarioEnv false 960 960)
        ["metrics_calc_lite", "-i1", "a.yuv", "-i2", "b.yuv", "-w", "8", "-h", "8",
          "-numseekframe1", "5", "200", "1", "psnr", "y"]
      = .returned ⟨0, [12], ["Y-MSE", "Y-PSNR"], [.PSNR], [0],
          [(0, 0), (1, 1), (2, 2), (3, 3), (4, 4), (200, 5), (201, 6), (202, 7), (203, 8),
            (204, 9)]⟩
    ∧ main (scenarioEnv false 960 960)
        ["metrics_calc_lite", "-i1", "a.yuv", "-i2", "b.yuv", "-w", "8", "-h", "8",
          "-numseekframe1", "0", "3", "1", "psnr", "y"]
      = .returned ⟨0, [12], ["Y-MSE", "Y-PSNR"], [.PSNR], [0],
          [(3, 0), (4, 1), (5, 2), (6, 3), (7, 4), (8, 5), (9, 6), (10, 7), (11, 8), (12, 9)]⟩
    ∧ main (scenarioEnv false 960 960)
        ["metrics_calc_lite", "-i1", "a.yuv", "-i2", "b.yuv", "-w", "8", "-h", "8", "psnr", "y"]
      = .returned ⟨0, [], ["Y-MSE", "Y-PSNR"], [.PSNR], [0],
          [(0, 0), (1, 1), (2, 2), (3, 3), (4, 4), (5, 5), (6, 6), (7, 7), (8, 8), (9, 9)]⟩ := by
  refine ⟨by decide!, by decide!, by decide!⟩

/-! ## `-fs` after `-numseekframe` -/

/-- C25 (the code does not do what the claim says): `-numseekframe1 5 2 1`
followed by `-fs 10 0 1` is accepted: `main` prints nothing, returns 0 and runs
the frame loop on the seek schedule.  In the other order it prints entry 11 of
`errors_table` and returns -11. -/
theorem C25_fs_after_numseekframe :
    main (scenarioEnv false 960 960)
        ["metrics_calc_lite", "-i1", "a.yuv", "-i2", "b.yuv", "-w", "8", "-h", "8",
          "-numseekframe1", "5", "2", "1", "-fs", "10", "0", "1", "psnr", "y"]
      = .returned ⟨0, [], ["Y-MSE", "Y-PSNR"], [.PSNR], [0],
          [(2, 0), (3, 1), (4, 2), (2, 3), (3, 4), (4, 5)]⟩
    ∧ main (scenarioEnv false 960 960)
        ["metrics_calc_lite", "-i1", "a.yuv", "-i2", "b.yuv", "-w", "8", "-h", "8",
          "-fs", "10", "0", "1", "-numseekframe1", "5", "2", "1", "psnr", "y"]
      = .returned ⟨-11, [11], [], [], [], []⟩ := by
  refine ⟨by decide!, by decide!⟩

/-! ## Sources of different chroma classes -/

/-- C26 (the code does not do what the claim says): with the sequence types
`i420p` and `i444p`, of different chroma classes, and the selection
`psnr overall`, `main` does not return -9: it registers `U-MSE`, `V-MSE`,
`U-PSNR`, `V-PSNR` beside the entries of plane Y and of overall, returns 0 and
calls `ComputeMetrics` for each of the 10 frames.  With `psnr u` it returns
-9. -/
theorem C26_chroma_classes :
    get_chromaclass .I420P ≠ get_chromaclass .I444P
    ∧ main (scenarioEnv false 960 1920)
        ["metrics_calc_lite", "-i1", "a.yuv", "-i2", "b.yuv", "-w", "8", "-h", "8",
          "-st", "i420p", "i444p", "psnr", "overall"]
      = .returned ⟨0, [],
          ["Y-MSE", "U-MSE", "V-MSE", "MSE", "Y-PSNR", "U-PSNR", "V-PSNR", "PSNR"], [.PSNR], [0],
          [(0, 0), (1, 1), (2, 2), (3, 3), (4, 4), (5, 5), (6, 6), (7, 7), (8, 8), (9, 9)]⟩
    ∧ main (scenarioEnv false 960 1920)
        ["metrics_calc_lite", "-i1", "a.yuv", "-i2", "b.yuv", "-w", "8", "-h", "8",
          "-st", "i420p", "i444p", "psnr", "u"]
      = .returned ⟨-9, [9], [], [], [], []⟩ := by
  refine ⟨by decide, by decide!, by decide!⟩

/-! ## A status of `AllocateResourses` other than -2 -/

/-- C28 (the code does not do what the claim says): in the build with the
MS-SSIM evaluator, on 8x8 sources and `ssim y`, `AllocateResourses` returns -3
(the frame is smaller than 176x176); in the other build, when the fourth buffer
of `CSSIMEvaluator` cannot be allocated, it returns -4.  In both runs `main`
prints no entry of `errors_table`, returns 0 and calls `ComputeMetrics` for each
of the 10 frames.  Only the status -2 stops it (return value -13). -/
theorem C28_allocation_status :
    main (scenarioEnv true 960 960)
        ["metrics_calc_lite", "-i1", "a.yuv", "-i2", "b.yuv", "-w", "8", "-h", "8", "ssim", "y"]
      = .returned ⟨0, [], ["Y-SSIM"], [.MSSIM], [-3],
          [(0, 0), (1, 1), (2, 2), (3, 3), (4, 4), (5, 5), (6, 6), (7, 7), (8, 8), (9, 9)]⟩
    ∧ main (failingEnv 960 960)
        ["metrics_calc_lite", "-i1", "a.yuv", "-i2", "b.yuv", "-w", "8", "-h", "8", "ssim", "y"]
      = .returned ⟨0, [], ["Y-SSIM"], [.SSIM], [-4],
          [(0, 0), (1, 1), (2, 2), (3, 3), (4, 4), (5, 5), (6, 6), (7, 7), (8, 8), (9, 9)]⟩
    ∧ main { scenarioEnv true 960 960 with im1 := false }
        ["metrics_calc_lite", "-i1", "a.yuv", "-i2", "b.yuv", "-w", "8", "-h", "8", "ssim", "y"]
      = .returned ⟨-13, [13], ["Y-SSIM"], [.MSSIM], [-2], []⟩ := by
  refine ⟨by decide!, by decide!, by decide!⟩

/-! ## The frame cache of `ReadRawFrame` -/

theorem YUVReadRawFrame_hit (r : CReader) (f : Nat)
    (h : r.m_cur_frame = wrapInt32 ((if r.m_intl then f >>> 1 else f : Nat) : Int)) :
    CYUVReader.ReadRawFrame r f
      = ({ r with
            m_bottom := if r.m_intl then r.m_field_order ^^^ (f &&& 0x1) else r.m_bottom },
          false) := by
  unfold CYUVReader.ReadRawFrame
  simp only []
  rw [if_neg (not_not.mpr h)]

theorem RGBReadRawFrame_hit (r : CReader) (f : Nat)
    (h : r.m_cur_frame = wrapInt32 ((if r.m_intl then f >>> 1 else f : Nat) : Int)) :
    CRGBReader.ReadRawFrame r f
      = ({ r with
            m_bottom := if r.m_intl then r.m_field_order ^^^ (f &&& 0x1) else r.m_bottom },
          false) := by
  unfold CRGBReader.ReadRawFrame
  simp only []
  rw [if_neg (not_not.mpr h)]

theorem YUVReadRawFrame_cached (r : CReader) (f : Nat) :
    (CYUVReader.ReadRawFrame r f).1.m_cur_frame
        = wrapInt32 ((if r.m_intl then f >>> 1 else f : Nat) : Int)
    ∧ (CYUVReader.ReadRawFrame r f).1.m_intl = r.m_intl
    ∧ (CYUVReader.ReadRawFrame r f).1.m_field_order = r.m_field_order := by
  unfold CYUVReader.ReadRawFrame
  simp only []
  by_cases h : r.m_cur_frame = wrapInt32 ((if r.m_intl then f >>> 1 else f : Nat) : Int)
  · rw [if_neg (not_not.mpr h)]
    exact ⟨h, rfl, rfl⟩
  · rw [if_pos h]
    exact ⟨rfl, rfl, rfl⟩

theorem RGBReadRawFrame_cached (r : CReader) (f : Nat) :
    (CRGBReader.ReadRawFrame r f).1.m_cur_frame
        = wrapInt32 ((if r.m_intl then f >>> 1 else f : Nat) : Int)
    ∧ (CRGBReader.ReadRawFrame r f).1.m_intl = r.m_intl
    ∧ (CRGBReader.ReadRawFrame r f).1.m_field_order = r.m_field_order := by
  unfold CRGBReader.ReadRawFrame
  simp only []
  by_cases h : r.m_cur_frame = wrapInt32 ((if r.m_intl then f >>> 1 else f : Nat) : Int)
  · rw [if_neg (not_not.mpr h)]
    exact ⟨h, rfl, rfl⟩
  · rw [if_pos h]
    exact ⟨rfl, rfl, rfl⟩

theorem write8_at (m : Mem) (p v q : Nat) :
    write8 m p v q = if q = p then v % 256 else m q := by
  unfold write8
  rw [Function.update_apply]

/-- Memory after the byte copies of a read of `n` bytes to `ptr`. -/
theorem forLoop_write8 (file : Nat → Nat) (pos ptr n : Nat) (m : Mem) (p : Nat) :
    forLoop n (fun k m => write8 m (ptr + k) (file (pos + k))) m p
      = if ptr ≤ p ∧ p < ptr + n then file (pos + (p - ptr)) % 256 else m p := by
  induction n with
  | zero =>
    have : ¬ (ptr ≤ p ∧ p < ptr + 0) := by omega
    simp only [forLoop, if_neg this]
  | succ n ih =>
    show write8 (forLoop n (fun k m => write8 m (ptr + k) (file (pos + k))) m) (ptr + n)
      (file (pos + n)) p = _
    rw [write8_at]
    by_cases hp : p = ptr + n
    · subst hp
      have e : ptr + n - ptr = n := by omega
      rw [if_pos rfl, if_pos ⟨by omega, by omega⟩, e]
    · rw [if_neg hp, ih]
      by_cases hr : ptr ≤ p ∧ p < ptr + n
      · rw [if_pos hr, if_pos ⟨hr.1, by omega⟩]
      · rw [if_neg hr, if_neg (by omega)]

/-- What `fread_at` reads: the number of complete elements between `pos` and the
end of the file, at most `count`, and their bytes at `ptr`. -/
theorem fread_at_spec (file : Nat → Nat) (file_size pos : Nat) (m : Mem) (ptr size count : Nat) :
    (fread_at file file_size pos m ptr size count).2
        = (if size = 0 then 0 else min count ((file_size - pos) / size))
    ∧ ∀ p, (fread_at file file_size pos m ptr size count).1 p
        = if ptr ≤ p
            ∧ p < ptr + (if size = 0 then 0 else min count ((file_size - pos) / size)) * size
          then file (pos + (p - ptr)) % 256 else m p := by
  refine ⟨rfl, fun p => ?_⟩
  unfold fread_at
  simp only []
  rw [forLoop_write8]

/-- The types `CYUVReader::ReadRawFrame` reads straight into the planes: its
`switch` has no case for them. -/
theorem demux_planar (r : CReader) (m : Mem)
    (hty : r.m_type = .I420P ∨ r.m_type = .I420I ∨ r.m_type = .YV12P ∨ r.m_type = .YV12I
      ∨ r.m_type = .I422P ∨ r.m_type = .I422I ∨ r.m_type = .I444P ∨ r.m_type = .I444I
      ∨ r.m_type = .I410P ∨ r.m_type = .I410I) :
    CYUVReader.demux r m = m := by
  unfold CYUVReader.demux
  rcases hty with h | h | h | h | h | h | h | h | h | h <;> rw [h]

/-- `OpenReadFile` leaves `m_cur_frame` as the constructor set it. -/
theorem RGBOpenReadFile_cur_frame (malloc : Nat → EBitDepth → Nat → Option (Nat × Nat))
    (r : CReader) (file : Option ((Nat → Nat) × Nat))
    (a_meta a_planes w h : Nat) (type : ESequenceType) (order : Nat) (bd : EBitDepth)
    (RShift : Nat) :
    (CRGBReader.OpenReadFileWith malloc r file a_meta a_planes w h type order bd
        RShift).2.m_cur_frame = r.m_cur_frame := by
  unfold CRGBReader.OpenReadFileWith
  cases file with
  | none => rfl
  | some f =>
    simp only []
    cases malloc (w * h * 4) bd a_meta with
    | none => rfl
    | some pm =>
      simp only []
      cases malloc (w * h * 4) bd a_planes with
      | none => rfl
      | some pp => rfl

theorem YUVOpenReadFile_cur_frame (malloc : Nat → EBitDepth → Nat → Option (Nat × Nat))
    (r : CReader) (file : Option ((Nat → Nat) × Nat))
    (a_meta a_planes w h : Nat) (type : ESequenceType) (order : Nat) (bd : EBitDepth)
    (RShift : Nat) :
    (CYUVReader.OpenReadFileWith malloc r file a_meta a_planes w h type order bd
        RShift).2.m_cur_frame = r.m_cur_frame := by
  unfold CYUVReader.OpenReadFileWith
  cases file with
  | none => rfl
  | some f =>
    cases type <;> simp only [get_chromaclass] <;> generalize malloc _ bd a_meta = o1 <;>
      cases o1 <;>
      first
      | rfl
      | (simp only []
         generalize malloc _ bd a_planes = o2
         cases o2 <;> rfl)

/-- C31 (the code does not do what the claim says for the index 4294967295):
`ReadRawFrame(f)` of either reader, with the frame index `f >> 1` of an
interlaced source and `f` of a progressive one, compares `(int32_t)index` with
`m_cur_frame`.  When they are equal the call changes nothing but `m_bottom`
(the memory, hence every sample, is as before; no seek, no read, no shift) and
returns false; for an interlaced source `m_bottom` becomes
`m_field_order ^ (f & 1)`.  Otherwise the memory becomes the frame read at
`index * frame size`, converted by the `switch` on the type and shifted plane
by plane, `m_cur_frame` becomes `(int32_t)index` and the value returned tells
whether the read was short; so a call for a field `g` of the frame the previous
call asked for finds the frame cached, and the shift is applied once for the
frame.  The read puts byte `pos + k` of the file at `m_Meta.data + k` for
every `k` below the number of bytes of the complete elements read, `min(step,
(size - pos) / pixel size)` elements, and leaves the other bytes; for a planar
YUV type without right shift these are the bytes of the memory after the
call.  An index below `2 ^ 31`, and every index of an interlaced source, is
its own `(int32_t)` value, and there the comparison is the one of the claim.
The index 4294967295 of a progressive source is not: `(int32_t)4294967295` is
`-1`, the value of `m_cur_frame` before the first read, which `OpenReadFile`
keeps, so the first call with this index reads nothing, leaves the reader as
it was and returns false.  `-fs 5 -1 1` passes this index first: `-1` is below
the number of frames and is converted to `uint32_t` at the call. -/
theorem C31_frame_cache (r : CReader) (f g : Nat) :
    (r.m_cur_frame = wrapInt32 ((if r.m_intl then f >>> 1 else f : Nat) : Int) →
      CYUVReader.ReadRawFrame r f
          = ({ r with
                m_bottom :=
                  if r.m_intl then r.m_field_order ^^^ (f &&& 0x1) else r.m_bottom },
              false)
        ∧ CRGBReader.ReadRawFrame r f
          = ({ r with
                m_bottom :=
                  if r.m_intl then r.m_field_order ^^^ (f &&& 0x1) else r.m_bottom },
              false))
    ∧ (r.m_cur_frame ≠ wrapInt32 ((if r.m_intl then f >>> 1 else f : Nat) : Int) →
      CYUVReader.ReadRawFrame r f
          = ({ r with
                mem :=
                  (mclRShiftC_C1IR r.m_RShift
                    (mclRShiftC_C1IR r.m_RShift
                      (mclRShiftC_C1IR r.m_RShift
                        (CYUVReader.demux r
                          (fread_at r.m_file r.m_file_size
                            ((if r.m_intl then f >>> 1 else f)
                              * (r.m_Meta.step * r.m_source_pixel_size))
                            r.mem r.m_Meta.data r.m_source_pixel_size r.m_Meta.step).1)
                        (r.m_planes 0).data (r.m_planes 0).step (r.m_planes 0).roi r.m_bd).2
                      (r.m_planes 1).data (r.m_planes 1).step (r.m_planes 1).roi r.m_bd).2
                    (r.m_planes 2).data (r.m_planes 2).step (r.m_planes 2).roi r.m_bd).2
                m_bottom :=
                  if r.m_intl then r.m_field_order ^^^ (f &&& 0x1) else r.m_bottom
                m_cur_frame := wrapInt32 ((if r.m_intl then f >>> 1 else f : Nat) : Int) },
              decide ((fread_at r.m_file r.m_file_size
                  ((if r.m_intl then f >>> 1 else f) * (r.m_Meta.step * r.m_source_pixel_size))
                  r.mem r.m_Meta.data r.m_source_pixel_size r.m_Meta.step).2 ≠ r.m_Meta.step))
        ∧ CRGBReader.ReadRawFrame r f
          = ({ r with
                mem :=
                  (mclRShiftC_C1IR r.m_RShift
                    (mclRShiftC_C1IR r.m_RShift
                      (mclRShiftC_C1IR r.m_RShift
                        (mclRShiftC_C1IR r.m_RShift
                          (CRGBReader.demux r
                            (fread_at r.m_file r.m_file_size
                              ((if r.m_intl then f >>> 1 else f)
                                * (r.m_Meta.step * r.m_source_pixel_size))
                              r.mem r.m_Meta.data r.m_source_pixel_size r.m_Meta.step).1)
                          (r.m_planes 0).data (r.m_planes 0).step (r.m_planes 0).roi r.m_bd).2
                        (r.m_planes 1).data (r.m_planes 1).step (r.m_planes 1).roi r.m_bd).2
                      (r.m_planes 2).data (r.m_planes 2).step (r.m_planes 2).roi r.m_bd).2
                    (r.m_planes 3).data (r.m_planes 3).step (r.m_planes 3).roi r.m_bd).2
                m_bottom :=
                  if r.m_intl then r.m_field_order ^^^ (f &&& 0x1) else r.m_bottom
                m_cur_frame := wrapInt32 ((if r.m_intl then f >>> 1 else f : Nat) : Int) },
              decide ((fread_at r.m_file r.m_file_size
                  ((if r.m_intl then f >>> 1 else f) * (r.m_Meta.step * r.m_source_pixel_size))
                  r.mem r.m_Meta.data r.m_source_pixel_size r.m_Meta.step).2 ≠ r.m_Meta.step)))
    ∧ ((if r.m_intl then g >>> 1 else g) = (if r.m_intl then f >>> 1 else f) →
      CYUVReader.ReadRawFrame (CYUVReader.ReadRawFrame r f).1 g
          = ({ (CYUVReader.ReadRawFrame r f).1 with
                m_bottom :=
                  if r.m_intl then r.m_field_order ^^^ (g &&& 0x1)
                  else (CYUVReader.ReadRawFrame r f).1.m_bottom },
              false)
        ∧ CRGBReader.ReadRawFrame (CRGBReader.ReadRawFrame r f).1 g
          = ({ (CRGBReader.ReadRawFrame r f).1 with
                m_bottom :=
                  if r.m_intl then r.m_field_order ^^^ (g &&& 0x1)
                  else (CRGBReader.ReadRawFrame r f).1.m_bottom },
              false))
    ∧ (∀ pos p,
        (fread_at r.m_file r.m_file_size pos r.mem r.m_Meta.data r.m_source_pixel_size
            r.m_Meta.step).2
          = (if r.m_source_pixel_size = 0 then 0
              else min r.m_Meta.step ((r.m_file_size - pos) / r.m_source_pixel_size))
        ∧ (fread_at r.m_file r.m_file_size pos r.mem r.m_Meta.data r.m_source_pixel_size
            r.m_Meta.step).1 p
          = if r.m_Meta.data ≤ p
              ∧ p < r.m_Meta.data
                  + (if r.m_source_pixel_size = 0 then 0
                      else min r.m_Meta.step ((r.m_file_size - pos) / r.m_source_pixel_size))
                    * r.m_source_pixel_size
            then r.m_file (pos + (p - r.m_Meta.data)) % 256 else r.mem p)
    ∧ (r.m_cur_frame ≠ wrapInt32 ((if r.m_intl then f >>> 1 else f : Nat) : Int) →
        r.m_RShift = 0 →
        (r.m_type = .I420P ∨ r.m_type = .I420I ∨ r.m_type = .YV12P ∨ r.m_type = .YV12I
          ∨ r.m_type = .I422P ∨ r.m_type = .I422I ∨ r.m_type = .I444P ∨ r.m_type = .I444I
          ∨ r.m_type = .I410P ∨ r.m_type = .I410I) →
        (CYUVReader.ReadRawFrame r f).2
          = decide ((if r.m_source_pixel_size = 0 then 0
              else min r.m_Meta.step
                ((r.m_file_size
                    - (if r.m_intl then f >>> 1 else f)
                      * (r.m_Meta.step * r.m_source_pixel_size))
                  / r.m_source_pixel_size)) ≠ r.m_Meta.step)
        ∧ ∀ p, (CYUVReader.ReadRawFrame r f).1.mem p
          = if r.m_Meta.data ≤ p
              ∧ p < r.m_Meta.data
                  + (if r.m_source_pixel_size = 0 then 0
                      else min r.m_Meta.step
                        ((r.m_file_size
                            - (if r.m_intl then f >>> 1 else f)
                              * (r.m_Meta.step * r.m_source_pixel_size))
                          / r.m_source_pixel_size))
                    * r.m_source_pixel_size
            then r.m_file
              ((if r.m_intl then f >>> 1 else f) * (r.m_Meta.step * r.m_source_pixel_size)
                + (p - r.m_Meta.data)) % 256
            else r.mem p)
    ∧ ((if r.m_intl then f >>> 1 else f) < 2 ^ 31 →
        wrapInt32 ((if r.m_intl then f >>> 1 else f : Nat) : Int)
          = ((if r.m_intl then f >>> 1 else f : Nat) : Int))
    ∧ (r.m_intl = true → f < 2 ^ 32 →
        wrapInt32 ((if r.m_intl then f >>> 1 else f : Nat) : Int) = ((f >>> 1 : Nat) : Int))
    ∧ (r.m_cur_frame = -1 → r.m_intl = false →
        r.m_cur_frame ≠ ((4294967295 : Nat) : Int)
        ∧ CYUVReader.ReadRawFrame r 4294967295 = (r, false)
        ∧ CRGBReader.ReadRawFrame r 4294967295 = (r, false))
    ∧ (∀ file a_meta a_planes w h type order bd RShift,
        (CYUVReader.OpenReadFile r file a_meta a_planes w h type order bd RShift).2.m_cur_frame
          = r.m_cur_frame
        ∧ (CRGBReader.OpenReadFile r file a_meta a_planes w h type order bd
            RShift).2.m_cur_frame = r.m_cur_frame)
    ∧ (CReader.fresh r.mem).m_cur_frame = -1
    ∧ ((-1 : Int) % 2 ^ 32).toNat = 4294967295
    ∧ main (scenarioEnv false 960 960)
        ["metrics_calc_lite", "-i1", "a.yuv", "-i2", "b.yuv", "-w", "8", "-h", "8",
          "-fs", "5", "-1", "1", "psnr", "y"]
      = .returned ⟨0, [], ["Y-MSE", "Y-PSNR"], [.PSNR], [0],
          [(-1, -1), (0, 0), (1, 1), (2, 2), (3, 3)]⟩ := by
  have hfresh : ∀ q : CReader, q.m_cur_frame = -1 → q.m_intl = false →
      q.m_cur_frame = wrapInt32 ((if q.m_intl then 4294967295 >>> 1 else 4294967295 : Nat) : Int)
      := by
    intro q h1 h2
    rw [h1, h2]
    decide
  refine ⟨fun h => ⟨YUVReadRawFrame_hit r f h, RGBReadRawFrame_hit r f h⟩, fun h => ⟨?_, ?_⟩,
    fun h => ⟨?_, ?_⟩, fun pos p => ⟨rfl, (fread_at_spec _ _ _ _ _ _ _).2 p⟩,
    fun h hrs hty => ⟨?_, fun p => ?_⟩, fun h => ?_,
    fun hi hf => ?_, fun h1 h2 => ⟨by rw [h1]; decide, ?_, ?_⟩,
    fun file a_meta a_planes w h type order bd RShift =>
      ⟨YUVOpenReadFile_cur_frame mclMalloc r file a_meta a_planes w h type order bd RShift,
        RGBOpenReadFile_cur_frame mclMalloc r file a_meta a_planes w h type order bd RShift⟩,
    rfl, by decide, by decide!⟩
  · unfold CYUVReader.ReadRawFrame
    simp only []
    rw [if_pos h]
  · unfold CRGBReader.ReadRawFrame
    simp only []
    rw [if_pos h]
  · obtain ⟨h1, h2, h3⟩ := YUVReadRawFrame_cached r f
    have := YUVReadRawFrame_hit (CYUVReader.ReadRawFrame r f).1 g (by rw [h1, h2, h])
    rw [this]
    simp only [h2, h3]
  · obtain ⟨h1, h2, h3⟩ := RGBReadRawFrame_cached r f
    have := RGBReadRawFrame_hit (CRGBReader.ReadRawFrame r f).1 g (by rw [h1, h2, h])
    rw [this]
    simp only [h2, h3]
  · unfold CYUVReader.ReadRawFrame
    simp only []
    rw [if_pos h]
    try rfl
  · have hm : (CYUVReader.ReadRawFrame r f).1.mem
        = (fread_at r.m_file r.m_file_size
            ((if r.m_intl then f >>> 1 else f) * (r.m_Meta.step * r.m_source_pixel_size))
            r.mem r.m_Meta.data r.m_source_pixel_size r.m_Meta.step).1 := by
      unfold CYUVReader.ReadRawFrame
      simp only []
      rw [if_pos h]
      simp only [hrs, mclRShiftC_C1IR_zero, demux_planar r _ hty]
    rw [hm]
    exact (fread_at_spec _ _ _ _ _ _ _).2 p
  · generalize (if r.m_intl = true then f >>> 1 else f) = i at h ⊢
    exact wrapInt32_of_range _ (by omega) (by omega)
  · simp only [hi, if_true, Nat.shiftRight_eq_div_pow, pow_one]
    exact wrapInt32_of_range _ (by omega) (by omega)
  · have hn : ¬ (r.m_intl = true) := by rw [h2]; decide
    rw [YUVReadRawFrame_hit r 4294967295 (hfresh r h1 h2), if_neg hn]
  · have hn : ¬ (r.m_intl = true) := by rw [h2]; decide
    rw [RGBReadRawFrame_hit r 4294967295 (hfresh r h1 h2), if_neg hn]

theorem C31_frame_cache_witness :
    (CYUVReader.ReadRawFrame (S2_reader 0) 0).2 = false
    ∧ (CYUVReader.ReadRawFrame (CYUVReader.ReadRawFrame S4_reader 2).1 3).1.mem
        = (CYUVReader.ReadRawFrame S4_reader 2).1.mem
    ∧ (CYUVReader.ReadRawFrame (CYUVReader.ReadRawFrame S4_reader 2).1 3).1.m_bottom = 0
    ∧ (CYUVReader.ReadRawFrame S4_reader 2).1.m_cur_frame = 1
    ∧ (CYUVReader.ReadRawFrame S4_reader 0).2 = false
    ∧ (CYUVReader.ReadRawFrame S4_reader 0).1.mem 5 = 5
    ∧ (CYUVReader.ReadRawFrame S4_reader 0).1.mem 767 = 4
    ∧ (CYUVReader.ReadRawFrame S4_reader 0).1.mem 768 = 0
    ∧ (CYUVReader.ReadRawFrame S4_reader 2).2 = true
    ∧ (CYUVReader.ReadRawFrame S4_reader 2).1.mem 5 = 0
    ∧ CYUVReader.ReadRawFrame fresh_I420_reader 4294967295
        = (fresh_I420_reader, false) := by
  refine ⟨?_, ?_, ?_, ?_, ?_, ?_, ?_, ?_, ?_, ?_, ?_⟩
  · rw [((C31_frame_cache (S2_reader 0) 0 0).1 (by decide)).1]
  · rw [((C31_frame_cache S4_reader 2 3).2.2.1 (by decide)).1]
  · rw [((C31_frame_cache S4_reader 2 3).2.2.1 (by decide)).1]
    decide
  · rw [((C31_frame_cache S4_reader 2 3).2.1 (by decide)).1]
    decide
  · rw [((C31_frame_cache S4_reader 0 0).2.2.2.2.1 (by decide) rfl (by decide)).1]
    decide
  · rw [((C31_frame_cache S4_reader 0 0).2.2.2.2.1 (by decide) rfl (by decide)).2 5]
    decide
  · rw [((C31_frame_cache S4_reader 0 0).2.2.2.2.1 (by decide) rfl (by decide)).2 767]
    decide
  · rw [((C31_frame_cache S4_reader 0 0).2.2.2.2.1 (by decide) rfl (by decide)).2 768]
    decide
  · rw [((C31_frame_cache S4_reader 2 0).2.2.2.2.1 (by decide) rfl (by decide)).1]
    decide
  · rw [((C31_frame_cache S4_reader 2 0).2.2.2.2.1 (by decide) rfl (by decide)).2 5]
    decide
  · exact ((C31_frame_cache fresh_I420_reader 0 0).2.2.2.2.2.2.2.1 (by decide) rfl).2.1

/-! ## The kernel indexes `AllocateResourses` selects -/

theorem kidx_loop_eq (cc : EChromaType) (intl : Bool) (n j : Nat) (s : (Nat → Nat) × (Nat → Nat)) :
    (forLoop n (fun i (s : (Nat → Nat) × (Nat → Nat)) =>
      let s :=
        if i ≠ 0 then
          match cc with
          | .C444 => s
          | .C422 => (Function.update s.1 i (s.1 i + 1), s.2)
          | .C420 => (Function.update s.1 i (s.1 i + 1), Function.update s.2 i (s.2 i + 1))
        else s
      if intl then (s.1, Function.update s.2 i (s.2 i + 1)) else s) s).1 j
        = s.1 j + (if j < n ∧ j ≠ 0 ∧ (cc = .C420 ∨ cc = .C422) then 1 else 0)
    ∧ (forLoop n (fun i (s : (Nat → Nat) × (Nat → Nat)) =>
      let s :=
        if i ≠ 0 then
          match cc with
          | .C444 => s
          | .C422 => (Function.update s.1 i (s.1 i + 1), s.2)
          | .C420 => (Function.update s.1 i (s.1 i + 1), Function.update s.2 i (s.2 i + 1))
        else s
      if intl then (s.1, Function.update s.2 i (s.2 i + 1)) else s) s).2 j
        = s.2 j + (if j < n ∧ j ≠ 0 ∧ cc = .C420 then 1 else 0)
          + (if j < n ∧ intl = true then 1 else 0) := by
  induction n with
  | zero => simp [forLoop]
  | succ n ih =>
    rw [forLoop_succ]
    obtain ⟨h1, h2⟩ := ih
    generalize forLoop n _ s = r at h1 h2 ⊢
    by_cases hj : j = n
    · subst hj
      simp only [lt_self_iff_false, false_and, if_false, Nat.add_zero] at h1 h2
      cases cc <;> cases intl <;> by_cases h0 : j = 0 <;>
        first
        | (subst h0
           simp [Function.update_same, h1, h2])
        | simp [h0, Function.update_same, h1, h2]
    · have e : ∀ (f : Nat → Nat) (v : Nat), Function.update f n v j = f j :=
        fun f v => Function.update_noteq hj _ _
      have hlt : j < n + 1 ↔ j < n := by omega
      simp only [hlt]
      rw [← h1, ← h2]
      cases cc <;> cases intl <;> by_cases h0 : n = 0 <;>
        first
        | (subst h0
           simp [e])
        | simp [e, h0]

/-- C32: the kernel indexes after one call of `AllocateResourses` on an
evaluator just constructed (both arrays zero), for `CSSIMEvaluator` (planes 0
to 3) and for `CMSSIMEvaluator` (the planes of the source): `m_xkidx[p]` is 1
when `p != 0` and the chroma class is C420 or C422 and 0 otherwise,
`m_ykidx[p]` is 1 when `p != 0` and the class is C420, plus 1 when the source is
interlaced.  Every index is at most 2, an index of the three kernels. -/
theorem C32_kernel_selection (base : CMetricEvaluator) (kv : FBuf) (p : Nat) :
    (p < 4 →
      ((CSSIMEvaluator.create base kv).AllocateResourses).m_xkidx p
          = (if p ≠ 0 ∧ (get_chromaclass base.m_i1.GetSqType = .C420
              ∨ get_chromaclass base.m_i1.GetSqType = .C422) then 1 else 0)
        ∧ ((CSSIMEvaluator.create base kv).AllocateResourses).m_ykidx p
          = (if p ≠ 0 ∧ get_chromaclass base.m_i1.GetSqType = .C420 then 1 else 0)
            + (if base.m_i1.GetInterlaced = true then 1 else 0))
    ∧ (p < base.m_num_planes →
      (CMSSIMEvaluator.AllocateResourses.kidx base (fun _ => 0, fun _ => 0)).1 p
          = (if p ≠ 0 ∧ (get_chromaclass base.m_i1.GetSqType = .C420
              ∨ get_chromaclass base.m_i1.GetSqType = .C422) then 1 else 0)
        ∧ (CMSSIMEvaluator.AllocateResourses.kidx base (fun _ => 0, fun _ => 0)).2 p
          = (if p ≠ 0 ∧ get_chromaclass base.m_i1.GetSqType = .C420 then 1 else 0)
            + (if base.m_i1.GetInterlaced = true then 1 else 0))
    ∧ ((CSSIMEvaluator.create base kv).AllocateResourses).m_xkidx p ≤ 2
    ∧ ((CSSIMEvaluator.create base kv).AllocateResourses).m_ykidx p ≤ 2
    ∧ (CMSSIMEvaluator.AllocateResourses.kidx base (fun _ => 0, fun _ => 0)).1 p ≤ 2
    ∧ (CMSSIMEvaluator.AllocateResourses.kidx base (fun _ => 0, fun _ => 0)).2 p ≤ 2 := by
  have hS := kidx_loop_eq (get_chromaclass base.m_i1.GetSqType) base.m_i1.GetInterlaced 4 p
    (fun _ => 0, fun _ => 0)
  have hM := kidx_loop_eq (get_chromaclass base.m_i1.GetSqType) base.m_i1.GetInterlaced
    base.m_num_planes p (fun _ => 0, fun _ => 0)
  have hSx : ((CSSIMEvaluator.create base kv).AllocateResourses).m_xkidx p
      = 0 + (if p < 4 ∧ p ≠ 0 ∧ (get_chromaclass base.m_i1.GetSqType = .C420
          ∨ get_chromaclass base.m_i1.GetSqType = .C422) then 1 else 0) := hS.1
  have hSy : ((CSSIMEvaluator.create base kv).AllocateResourses).m_ykidx p
      = 0 + (if p < 4 ∧ p ≠ 0 ∧ get_chromaclass base.m_i1.GetSqType = .C420 then 1 else 0)
        + (if p < 4 ∧ base.m_i1.GetInterlaced = true then 1 else 0) := hS.2
  have hMx : (CMSSIMEvaluator.AllocateResourses.kidx base (fun _ => 0, fun _ => 0)).1 p
      = 0 + (if p < base.m_num_planes ∧ p ≠ 0 ∧ (get_chromaclass base.m_i1.GetSqType = .C420
          ∨ get_chromaclass base.m_i1.GetSqType = .C422) then 1 else 0) := hM.1
  have hMy : (CMSSIMEvaluator.AllocateResourses.kidx base (fun _ => 0, fun _ => 0)).2 p
      = 0 + (if p < base.m_num_planes ∧ p ≠ 0 ∧ get_chromaclass base.m_i1.GetSqType = .C420
          then 1 else 0)
        + (if p < base.m_num_planes ∧ base.m_i1.GetInterlaced = true then 1 else 0) := hM.2
  refine ⟨fun hp => ?_, fun hp => ?_, ?_, ?_, ?_, ?_⟩
  · rw [hSx, hSy]
    simp [hp]
  · rw [hMx, hMy]
    simp [hp]
  · rw [hSx]
    split_ifs <;> omega
  · rw [hSy]
    split_ifs <;> omega
  · rw [hMx]
    split_ifs <;> omega
  · rw [hMy]
    split_ifs <;> omega

theorem C32_kernel_selection_witness :
    ((CSSIMEvaluator.create S4_evaluator (fun _ => 0)).AllocateResourses).m_xkidx 1 = 1
    ∧ ((CSSIMEvaluator.create S4_evaluator (fun _ => 0)).AllocateResourses).m_ykidx 1 = 2
    ∧ (CMSSIMEvaluator.AllocateResourses.kidx S4_evaluator (fun _ => 0, fun _ => 0)).1 2 = 1
    ∧ (CMSSIMEvaluator.AllocateResourses.kidx S4_evaluator (fun _ => 0, fun _ => 0)).2 2 = 2 := by
  have h := C32_kernel_selection S4_evaluator (fun _ => 0) 1
  have h2 := C32_kernel_selection S4_evaluator (fun _ => 0) 2
  refine ⟨?_, ?_, ?_, ?_⟩
  · rw [(h.1 (by decide)).1]
    decide
  · rw [(h.1 (by decide)).2]
    decide
  · rw [(h2.2.1 (by decide)).1]
    decide
  · rw [(h2.2.1 (by decide)).2]
    decide

/-! ## The bands of the MS-SSIM evaluator -/

theorem patch_cnt_clamp (C : Int) (threads : Option Int) (H : Int) (hH : 1 ≤ H) (hC : 1 ≤ C)
    (ht : ∀ t, threads = some t → 1 ≤ t) :
    CMSSIMEvaluator.patch_cnt C threads H
      = min (max (H / 64) 1) (threads.elim C (fun t => min C t)) := by
  unfold CMSSIMEvaluator.patch_cnt
  simp only [min_patch_height]
  rw [Int.tdiv_eq_ediv (by omega) (by norm_num)]
  cases threads with
  | none =>
    simp only [min_def, max_def, Option.elim]
    split_ifs <;> omega
  | some t =>
    have := ht t rfl
    simp only [min_def, max_def, Option.elim]
    split_ifs <;> omega

theorem patch_cnt_bounds (C : Int) (threads : Option Int) (H : Int) (hH : 1 ≤ H) (hC : 1 ≤ C)
    (ht : ∀ t, threads = some t → 1 ≤ t) :
    1 ≤ CMSSIMEvaluator.patch_cnt C threads H
    ∧ CMSSIMEvaluator.patch_cnt C threads H ≤ H
    ∧ (64 ≤ H → 64 * CMSSIMEvaluator.patch_cnt C threads H ≤ H) := by
  rw [patch_cnt_clamp C threads H hH hC ht]
  cases threads with
  | none =>
    simp only [min_def, max_def, Option.elim]
    split_ifs <;> omega
  | some t =>
    have := ht t rfl
    simp only [min_def, max_def, Option.elim]
    split_ifs <;> omega

theorem band_sum (n : Nat) (ph L : Int) (h : Int → Int)
    (hr : ∀ r : Nat, r < n → h (r : Int) = ph) (hl : h (n : Int) = L) :
    (∑ r in Finset.range (n + 1), h (r : Int)) = (n : Int) * ph + L := by
  rw [Finset.sum_range_succ, hl]
  congr 1
  rw [Finset.sum_congr rfl (fun r hr' => hr r (Finset.mem_range.mp hr'))]
  simp

/-- C33: the bands of lines 1017-1048, for a valid region of `H >= 1` rows
(`H = ds_roi.height - ksz_y + 1`) and `C >= 1` contexts (`omp_get_max_threads()`,
in a build that has it, at least 1).  `patch_cnt` is `H div 64` clamped to
`1..C` (to `1..min C threads` in a build with `_OPENMP`) and `patch_height` is
`H div patch_cnt`.  Band `r` starts at row `r * patch_height` of the valid
region (`y_offset` less the half window) and has at least one row; each band
but the last ends where the next starts, the last ends at row `H`, a band ends
no later than any later band starts, the heights sum to `H`, and each is at
least 64 when `H >= 64`. -/
theorem C33_band_partition (H ksz_y C : Int) (threads : Option Int)
    (hH : 1 ≤ H) (hC : 1 ≤ C) (ht : ∀ t, threads = some t → 1 ≤ t) :
    (threads = none → CMSSIMEvaluator.patch_cnt C threads H = min (max (H / 64) 1) C)
    ∧ (∀ t, threads = some t →
        CMSSIMEvaluator.patch_cnt C threads H = min (max (H / 64) 1) (min C t))
    ∧ 1 ≤ CMSSIMEvaluator.patch_cnt C threads H
    ∧ CMSSIMEvaluator.patch_height C threads H = H / CMSSIMEvaluator.patch_cnt C threads H
    ∧ (∀ r, CMSSIMEvaluator.y_offset ksz_y (CMSSIMEvaluator.patch_height C threads H) r
          - (ksz_y >>> 1)
        = r * CMSSIMEvaluator.patch_height C threads H)
    ∧ (∀ r, 0 ≤ r → r < CMSSIMEvaluator.patch_cnt C threads H →
        1 ≤ CMSSIMEvaluator.band_height (H + ksz_y - 1) ksz_y
          (CMSSIMEvaluator.patch_cnt C threads H) (CMSSIMEvaluator.patch_height C threads H) r)
    ∧ (∀ r, 0 ≤ r → r < CMSSIMEvaluator.patch_cnt C threads H - 1 →
        r * CMSSIMEvaluator.patch_height C threads H
          + CMSSIMEvaluator.band_height (H + ksz_y - 1) ksz_y
              (CMSSIMEvaluator.patch_cnt C threads H)
              (CMSSIMEvaluator.patch_height C threads H) r
        = (r + 1) * CMSSIMEvaluator.patch_height C threads H)
    ∧ (CMSSIMEvaluator.patch_cnt C threads H - 1) * CMSSIMEvaluator.patch_height C threads H
        + CMSSIMEvaluator.band_height (H + ksz_y - 1) ksz_y
            (CMSSIMEvaluator.patch_cnt C threads H) (CMSSIMEvaluator.patch_height C threads H)
            (CMSSIMEvaluator.patch_cnt C threads H - 1)
      = H
    ∧ (∀ r r2, 0 ≤ r → r < r2 → r2 < CMSSIMEvaluator.patch_cnt C threads H →
        r * CMSSIMEvaluator.patch_height C threads H
          + CMSSIMEvaluator.band_height (H + ksz_y - 1) ksz_y
              (CMSSIMEvaluator.patch_cnt C threads H)
              (CMSSIMEvaluator.patch_height C threads H) r
        ≤ r2 * CMSSIMEvaluator.patch_height C threads H)
    ∧ (∑ r in Finset.range (CMSSIMEvaluator.patch_cnt C threads H).toNat,
        CMSSIMEvaluator.band_height (H + ksz_y - 1) ksz_y
          (CMSSIMEvaluator.patch_cnt C threads H) (CMSSIMEvaluator.patch_height C threads H)
          (r : Int)) = H
    ∧ (64 ≤ H → ∀ r, 0 ≤ r → r < CMSSIMEvaluator.patch_cnt C threads H →
        64 ≤ CMSSIMEvaluator.band_height (H + ksz_y - 1) ksz_y
          (CMSSIMEvaluator.patch_cnt C threads H)
          (CMSSIMEvaluator.patch_height C threads H) r) := by
  obtain ⟨hc1, hcH, hc64⟩ := patch_cnt_bounds C threads H hH hC ht
  have hclamp := patch_cnt_clamp C threads H hH hC ht
  have hph : CMSSIMEvaluator.patch_height C threads H
      = H / CMSSIMEvaluator.patch_cnt C threads H := Int.tdiv_eq_ediv (by omega) (by omega)
  rw [hph]
  generalize CMSSIMEvaluator.patch_cnt C threads H = cnt at hc1 hcH hc64 hclamp ⊢
  have hmul : cnt * (H / cnt) ≤ H := Int.mul_ediv_self_le (by omega)
  have hph1 : 1 ≤ H / cnt := Int.le_ediv_of_mul_le (by omega) (by omega)
  have hlast : ∀ r, 0 ≤ r → r ≤ cnt - 1 → r * (H / cnt) + (H / cnt) ≤ H := by
    intro r _ hr
    have : (r + 1) * (H / cnt) ≤ cnt * (H / cnt) :=
      Int.mul_le_mul_of_nonneg_right (by omega) (by omega)
    have e : (r + 1) * (H / cnt) = r * (H / cnt) + H / cnt := by ring
    omega
  have hband : ∀ r, r ≠ cnt - 1 →
      CMSSIMEvaluator.band_height (H + ksz_y - 1) ksz_y cnt (H / cnt) r = H / cnt := by
    intro r hr
    unfold CMSSIMEvaluator.band_height
    rw [if_pos hr]
  have hbandl : CMSSIMEvaluator.band_height (H + ksz_y - 1) ksz_y cnt (H / cnt) (cnt - 1)
      = H - (cnt - 1) * (H / cnt) := by
    unfold CMSSIMEvaluator.band_height
    rw [if_neg (not_not.mpr rfl)]
    ring
  refine ⟨?_, ?_, hc1, rfl, ?_, ?_, ?_, ?_, ?_, ?_, ?_⟩
  · intro h
    rw [hclamp, h]
    rfl
  · intro t h
    rw [hclamp, h]
    rfl
  · intro r
    unfold CMSSIMEvaluator.y_offset
    ring
  · intro r h0 hr
    by_cases hl : r = cnt - 1
    · rw [hl, hbandl]
      have := hlast (cnt - 1) (by omega) (le_refl _)
      omega
    · rw [hband r hl]
      exact hph1
  · intro r h0 hr
    rw [hband r (by omega)]
    ring
  · rw [hbandl]
    ring
  · intro r r2 h0 h1 h2
    rw [hband r (by omega)]
    have : (r + 1) * (H / cnt) ≤ r2 * (H / cnt) :=
      Int.mul_le_mul_of_nonneg_right (by omega) (by omega)
    have e : (r + 1) * (H / cnt) = r * (H / cnt) + H / cnt := by ring
    omega
  · obtain ⟨n, hn⟩ : ∃ n : Nat, cnt = (n : Int) + 1 := ⟨(cnt - 1).toNat, by omega⟩
    have hN : cnt.toNat = n + 1 := by omega
    rw [hN, band_sum n (H / cnt) (H - (cnt - 1) * (H / cnt))]
    · have : ((n : Int)) = cnt - 1 := by omega
      rw [this]
      ring
    · intro r hr
      exact hband _ (by omega)
    · have : ((n : Int)) = cnt - 1 := by omega
      rw [this]
      exact hbandl
  · intro h64 r h0 hr
    have hq : 64 ≤ H / cnt := Int.le_ediv_of_mul_le (by omega) (by have := hc64 h64; omega)
    by_cases hl : r = cnt - 1
    · rw [hl, hbandl]
      have := hlast (cnt - 1) (by omega) (le_refl _)
      omega
    · rw [hband r hl]
      exact hq

theorem C33_band_partition_witness :
    CMSSIMEvaluator.patch_cnt 8 (some 4) 1070 = 4
    ∧ CMSSIMEvaluator.patch_height 8 (some 4) 1070 = 267
    ∧ (∑ r in Finset.range (CMSSIMEvaluator.patch_cnt 8 (some 4) 1070).toNat,
        CMSSIMEvaluator.band_height (1070 + 11 - 1) 11
          (CMSSIMEvaluator.patch_cnt 8 (some 4) 1070)
          (CMSSIMEvaluator.patch_height 8 (some 4) 1070) (r : Int)) = 1070
    ∧ CMSSIMEvaluator.band_height 1080 11 4 267 3 = 269 :=
  ⟨by decide, by decide,
    (C33_band_partition 1070 11 8 (some 4) (by decide) (by decide)
      (fun t ht => by cases ht; decide)).2.2.2.2.2.2.2.2.2.1,
    by decide⟩

/-! ## The MSE bit under the PSNR bits -/

theorem and_two_pow_ne_zero_iff (m k : Nat) : m &&& 2 ^ k ≠ 0 ↔ m.testBit k = true := by
  rw [Nat.and_two_pow]
  cases m.testBit k <;> simp

theorem mseWithPsnr_iff (m : Nat) :
    mseWithPsnr m ↔ ((m.testBit 0 = true ∨ m.testBit 1 = true) → m.testBit 2 = true) := by
  unfold mseWithPsnr MASK_PSNR MASK_APSNR MASK_MSE
  rw [Nat.one_shiftLeft, Nat.one_shiftLeft, Nat.one_shiftLeft, and_two_pow_ne_zero_iff,
    and_two_pow_ne_zero_iff, and_two_pow_ne_zero_iff]

theorem mseWithPsnr_or (a b : Nat) (ha : mseWithPsnr a) (hb : mseWithPsnr b) :
    mseWithPsnr (a ||| b) := by
  rw [mseWithPsnr_iff] at ha hb ⊢
  simp only [Nat.testBit_or, Bool.or_eq_true]
  rintro ((h | h) | (h | h))
  · exact Or.inl (ha (Or.inl h))
  · exact Or.inr (hb (Or.inl h))
  · exact Or.inl (ha (Or.inr h))
  · exact Or.inr (hb (Or.inr h))

theorem mseWithPsnr_zero : mseWithPsnr 0 := by
  unfold mseWithPsnr
  simp

theorem metricToken_mseWithPsnr (full : Bool) (s : String) (m : Nat)
    (h : metricToken full s = some m) : mseWithPsnr m := by
  unfold metricToken at h
  split_ifs at h <;>
    (cases h
     unfold mseWithPsnr
     decide)

theorem metricLoop_mseWithPsnr (full : Bool) :
    ∀ (args : List String) (cm : Nat) (nm : Bool), mseWithPsnr cm →
      mseWithPsnr (parse_metrics.metricLoop full args cm nm).2.1 := by
  intro args
  induction args with
  | nil => intro cm nm h; simpa [parse_metrics.metricLoop] using h
  | cons tok t ih =>
    intro cm nm h
    cases t with
    | nil => simpa [parse_metrics.metricLoop] using h
    | cons nxt rest =>
      rw [parse_metrics.metricLoop]
      cases hm : metricToken full tok with
      | none => simpa using h
      | some m =>
        simp only []
        exact ih (cm ||| m) false (mseWithPsnr_or cm m h (metricToken_mseWithPsnr full tok m hm))

theorem orAt_mseWithPsnr (cm : Nat) (hcm : mseWithPsnr cm) :
    ∀ (cmps : Component) (i : Nat), (∀ e ∈ cmps, mseWithPsnr e.2) →
      ∀ e ∈ cmps.orAt i cm, mseWithPsnr e.2 := by
  intro cmps
  induction cmps with
  | nil => intro i _ e he; simp [Component.orAt] at he
  | cons x t ih =>
    intro i h e he
    obtain ⟨c, m⟩ := x
    cases i with
    | zero =>
      simp only [Component.orAt, List.mem_cons] at he
      rcases he with he | he
      · rw [he]
        exact mseWithPsnr_or m cm (h (c, m) (List.mem_cons_self _ _)) hcm
      · exact h e (List.mem_cons_of_mem _ he)
    | succ i =>
      simp only [Component.orAt, List.mem_cons] at he
      rcases he with he | he
      · rw [he]
        exact h (c, m) (List.mem_cons_self _ _)
      · exact ih i (fun e he => h e (List.mem_cons_of_mem _ he)) e he

theorem planeLoop_mseWithPsnr (cm : Nat) (hcm : mseWithPsnr cm) :
    ∀ (args : List String) (cmps : Component) (np : Bool), (∀ e ∈ cmps, mseWithPsnr e.2) →
      ∀ e ∈ (parse_metrics.planeLoop cm args cmps np).2.1, mseWithPsnr e.2 := by
  intro args
  induction args with
  | nil => intro cmps np h; simpa [parse_metrics.planeLoop] using h
  | cons tok rest ih =>
    intro cmps np h
    rw [parse_metrics.planeLoop]
    split_ifs
    · exact ih _ false (orAt_mseWithPsnr cm hcm cmps 0 h)
    · exact ih _ false (orAt_mseWithPsnr cm hcm cmps 1 h)
    · exact ih _ false (orAt_mseWithPsnr cm hcm cmps 2 h)
    · exact ih _ false (orAt_mseWithPsnr cm hcm cmps _ h)
    · apply ih _ false
      intro e he
      obtain ⟨p, hp, rfl⟩ := List.mem_map.mp he
      exact mseWithPsnr_or p.2 cm (h p hp) hcm
    · exact h

theorem parse_metrics_loop_mseWithPsnr (full : Bool) :
    ∀ (fuel : Nat) (cmps : Component) (args : List String) (r : Int × Component),
      (∀ e ∈ cmps, mseWithPsnr e.2) → parse_metrics.loop full fuel cmps args = some r →
      ∀ e ∈ r.2, mseWithPsnr e.2 := by
  intro fuel
  induction fuel with
  | zero =>
    intro cmps args r h hr
    cases args with
    | nil =>
      simp only [parse_metrics.loop, Option.some.injEq] at hr
      rw [← hr]
      exact h
    | cons x t => simp [parse_metrics.loop] at hr
  | succ fuel ih =>
    intro cmps args r h hr
    cases args with
    | nil =>
      simp only [parse_metrics.loop, Option.some.injEq] at hr
      rw [← hr]
      exact h
    | cons tok rest =>
      rw [parse_metrics.loop] at hr
      simp only [] at hr
      have hcm := metricLoop_mseWithPsnr full (tok :: rest) 0 true mseWithPsnr_zero
      have hp := planeLoop_mseWithPsnr _ hcm
        (parse_metrics.metricLoop full (tok :: rest) 0 true).1 cmps true h
      split_ifs at hr with h1 h2
      · simp only [Option.some.injEq] at hr
        rw [← hr]
        exact h
      · simp only [Option.some.injEq] at hr
        rw [← hr]
        exact hp
      · exact ih _ _ r hp hr

theorem at_mseWithPsnr (cmps : Component) (h : ∀ e ∈ cmps, mseWithPsnr e.2) (i : Nat) :
    mseWithPsnr (cmps.at i).2 := by
  unfold Component.at
  by_cases hi : i < cmps.length
  · rw [List.getD_eq_getElem _ _ hi]
    exact h _ (List.getElem_mem _)
  · rw [List.getD_eq_default _ _ (by omega)]
    exact mseWithPsnr_zero

/-- The sources with four planes are 4:4:4: `main` takes the component vector of
five entries only for an RGB type. -/
theorem is_rgb_C444 (t : ESequenceType) (h : is_rgb t = true) : get_chromaclass t = .C444 := by
  cases t <;> simp [is_rgb] at h <;> rfl

/-- C36: let `parse_metrics` return 0 with the component vector `out`, from a
vector `cmps` whose masks have the MSE bit under every PSNR or APSNR bit (the
vector of zero masks `main` passes is one).  Then every entry of `out` that has
the PSNR or the APSNR bit has the MSE bit.  Consequently, for the PSNR
evaluator initialised with `out` (at most three planes, or a 4:4:4 source: the
evaluators `main` builds, see `is_rgb_C444`) and every plane `i` with the PSNR
(APSNR) bit in `c_mask`, one call of `ComputeMetrics` appends the MSE of the
plane, the value `planeValue` it computed in this call, and the PSNR (APSNR) it
appends for the plane is `MSEToPSNR` of that same value. -/
theorem C36_psnr_from_mse (full : Bool) (cmps out : Component) (argv : List String) (curc : Nat)
    (h0 : ∀ e ∈ cmps, (e.2 &&& MASK_PSNR ≠ 0 ∨ e.2 &&& MASK_APSNR ≠ 0) → e.2 &&& MASK_MSE ≠ 0)
    (hret : parse_metrics full cmps argv curc = some (0, out)) :
    (∀ e ∈ out, (e.2 &&& MASK_PSNR ≠ 0 ∨ e.2 &&& MASK_APSNR ≠ 0) → e.2 &&& MASK_MSE ≠ 0)
    ∧ ∀ (ev0 : CMetricEvaluator) (st : List String) (oflag : List Bool) (avgs val avg : List ℝ)
        (i : Nat),
        i < (ev0.InitComputationParams CPSNREvaluator.metrics out st oflag avgs).1.m_num_planes →
        ((ev0.InitComputationParams CPSNREvaluator.metrics out st oflag avgs).1.m_num_planes ≤ 3
          ∨ get_chromaclass ev0.m_i1.GetSqType = .C444) →
        ((ev0.InitComputationParams CPSNREvaluator.metrics out st oflag avgs).1.has MASK_PSNR i
            = true →
          (CPSNREvaluator.ComputeMetrics
              (ev0.InitComputationParams CPSNREvaluator.metrics out st oflag avgs).1 val avg).1[
              val.length + CPSNREvaluator.mseIndex
                (ev0.InitComputationParams CPSNREvaluator.metrics out st oflag avgs).1 i]?
            = some (CPSNREvaluator.planeValue
                (ev0.InitComputationParams CPSNREvaluator.metrics out st oflag avgs).1 i 0)
          ∧ (CPSNREvaluator.ComputeMetrics
              (ev0.InitComputationParams CPSNREvaluator.metrics out st oflag avgs).1 val avg).1[
              val.length + CPSNREvaluator.psnrIndex
                (ev0.InitComputationParams CPSNREvaluator.metrics out st oflag avgs).1 i]?
            = some (MSEToPSNR (CPSNREvaluator.planeValue
                (ev0.InitComputationParams CPSNREvaluator.metrics out st oflag avgs).1 i 0)
                (MaxError ev0.m_i1.GetBitDepth)))
        ∧ ((ev0.InitComputationParams CPSNREvaluator.metrics out st oflag avgs).1.has MASK_APSNR i
            = true →
          (CPSNREvaluator.ComputeMetrics
              (ev0.InitComputationParams CPSNREvaluator.metrics out st oflag avgs).1 val avg).1[
              val.length + CPSNREvaluator.mseIndex
                (ev0.InitComputationParams CPSNREvaluator.metrics out st oflag avgs).1 i]?
            = some (CPSNREvaluator.planeValue
                (ev0.InitComputationParams CPSNREvaluator.metrics out st oflag avgs).1 i 0)
          ∧ (CPSNREvaluator.ComputeMetrics
              (ev0.InitComputationParams CPSNREvaluator.metrics out st oflag avgs).1 val avg).1[
              val.length + CPSNREvaluator.apsnrIndex
                (ev0.InitComputationParams CPSNREvaluator.metrics out st oflag avgs).1 i]?
            = some (MSEToPSNR (CPSNREvaluator.planeValue
                (ev0.InitComputationParams CPSNREvaluator.metrics out st oflag avgs).1 i 0)
                (MaxError ev0.m_i1.GetBitDepth))) := by
  have hout : ∀ e ∈ out, mseWithPsnr e.2 :=
    parse_metrics_loop_mseWithPsnr full argv.length cmps (argv.drop curc) (0, out) h0 hret
  refine ⟨hout, ?_⟩
  intro ev0 st oflag avgs val avg i hi hn
  obtain ⟨hnum, hmask, -, -⟩ := InitComputationParams_PSNR ev0 out st oflag avgs
  generalize hev : (ev0.InitComputationParams CPSNREvaluator.metrics out st oflag avgs).1 = ev
    at hi hn hnum hmask ⊢
  have hr1 : ev.m_i1 = ev0.m_i1 := by rw [← hev]; rfl
  have hinv : mseWithPsnr (ev.c_mask i) := by
    rw [hmask i, if_neg (by omega), if_pos (by omega)]
    exact mseWithPsnr_or _ _ (at_mseWithPsnr out hout i) (at_mseWithPsnr out hout _)
  have hn' : ev.m_num_planes ≤ 3 ∨ get_chromaclass ev.m_i1.GetSqType = .C444 := by
    rw [hr1]
    exact hn
  have hfin := finalSums_plane ev i hi hn'
  have key : ∀ hm : ev.has MASK_MSE i = true,
      CPSNREvaluator.finalSums ev i = CPSNREvaluator.planeValue ev i 0 := fun hm =>
    hfin.trans (planeSums_of_has ev i hi hm)
  refine ⟨fun hp => ?_, fun hp => ?_⟩
  · have hm : ev.has MASK_MSE i = true := by
      rw [has_iff] at hp ⊢
      exact hinv (Or.inl hp)
    refine ⟨?_, ?_⟩
    · rw [outVals_mse ev val avg i hi hm, planeSums_of_has ev i hi hm]
    · rw [outVals_psnr ev val avg i (by omega) hp, key hm, hr1]
  · have hm : ev.has MASK_MSE i = true := by
      rw [has_iff] at hp ⊢
      exact hinv (Or.inr hp)
    refine ⟨?_, ?_⟩
    · rw [outVals_mse ev val avg i hi hm, planeSums_of_has ev i hi hm]
    · rw [outVals_apsnr ev val avg i (by omega) hp, key hm, hr1]

theorem C36_psnr_from_mse_witness :
    parse_metrics false (INIT_YUV [])
        ["metrics_calc_lite", "-i1", "a.yuv", "-i2", "b.yuv", "-w", "8", "-h", "8", "psnr", "y"] 9
      = some (0, psnr_y_cmps)
    ∧ ∀ e ∈ psnr_y_cmps,
        (e.2 &&& MASK_PSNR ≠ 0 ∨ e.2 &&& MASK_APSNR ≠ 0) → e.2 &&& MASK_MSE ≠ 0 :=
  ⟨by decide,
    (C36_psnr_from_mse false (INIT_YUV []) psnr_y_cmps
      ["metrics_calc_lite", "-i1", "a.yuv", "-i2", "b.yuv", "-w", "8", "-h", "8", "psnr", "y"] 9
      (by decide) (by decide)).1⟩

/-! ## A selection that builds no evaluator -/

/-- C38 (the code does not do what the claim says): on an RGB source with
`-alpha` the component vector has five entries and the selection `psnr overall`
sets the fifth alone, so the check of the metric set passes; `all_metrics`
joins the entries 0 to 3 only, so `main` constructs no evaluator, registers no
metric name, returns 0 and runs the frame loop over the 10 frames with nothing
to compute, in either build.  Without `-alpha` the same selection constructs the
PSNR evaluator. -/
theorem C38_no_evaluator :
    parse_metrics false (INIT_RGB [] true)
        ["metrics_calc_lite", "-i1", "a.yuv", "-i2", "b.yuv", "-w", "8", "-h", "8",
          "-st", "rgb32p", "-alpha", "psnr", "overall"] 12
      = some (0, [('B', 0), ('G', 0), ('R', 0), ('A', 0), ('O', MASK_PSNR ||| MASK_MSE)])
    ∧ main.evaluators false
        [('B', 0), ('G', 0), ('R', 0), ('A', 0), ('O', MASK_PSNR ||| MASK_MSE)] = []
    ∧ main (scenarioEnv false 2560 2560)
        ["metrics_calc_lite", "-i1", "a.yuv", "-i2", "b.yuv", "-w", "8", "-h", "8",
          "-st", "rgb32p", "-alpha", "psnr", "overall"]
      = .returned ⟨0, [], [], [], [],
          [(0, 0), (1, 1), (2, 2), (3, 3), (4, 4), (5, 5), (6, 6), (7, 7), (8, 8), (9, 9)]⟩
    ∧ main (scenarioEnv true 2560 2560)
        ["metrics_calc_lite", "-i1", "a.yuv", "-i2", "b.yuv", "-w", "8", "-h", "8",
          "-st", "rgb32p", "-alpha", "psnr", "overall"]
      = .returned ⟨0, [], [], [], [],
          [(0, 0), (1, 1), (2, 2), (3, 3), (4, 4), (5, 5), (6, 6), (7, 7), (8, 8), (9, 9)]⟩
    ∧ main (scenarioEnv false 2560 2560)
        ["metrics_calc_lite", "-i1", "a.yuv", "-i2", "b.yuv", "-w", "8", "-h", "8",
          "-st", "rgb32p", "psnr", "overall"]
      = .returned ⟨0, [],
          ["B-MSE", "G-MSE", "R-MSE", "MSE", "B-PSNR", "G-PSNR", "R-PSNR", "PSNR"], [.PSNR], [0],
          [(0, 0), (1, 1), (2, 2), (3, 3), (4, 4), (5, 5), (6, 6), (7, 7), (8, 8), (9, 9)]⟩ := by
  refine ⟨by decide, by decide, by decide!, by decide!, by decide!⟩

/-! ## A seek range that goes forward -/

/-- C39 (the code does not do what the claim says): on two 10-frame sources the
range `from = 2`, `to = 5`, `iterations = 1` passes the validation of `main`
(`1 <= from <= n`, `0 <= to <= n - 1`), and the count scheduled is
`(2 - 5) * (1 + 1) = -6`: `fm_count` is -6 and the run with
`-numseekframe1 2 5 1` ends in the exception the constructor of `all_values`
throws.  With `from = to = 2` the count and `fm_count` are 0 and the frame loop
does not run. -/
theorem C39_seek_count :
    ((1 : Int) ≤ 2 ∧ (2 : Int) ≤ 10 ∧ (0 : Int) ≤ 5 ∧ (5 : Int) ≤ 10 - 1 ∧ (1 : Int) ≤ 1)
    ∧ main.schedule seek_forward_vars 10 10
        = .ready { seek_forward_vars with fm1_cntr := -6, fm1_frst := 5, fm2_cntr := 10 } (-6) []
    ∧ main (scenarioEnv false 960 960)
        ["metrics_calc_lite", "-i1", "a.yuv", "-i2", "b.yuv", "-w", "8", "-h", "8",
          "-numseekframe1", "2", "5", "1", "psnr", "y"]
      = .exception
    ∧ main (scenarioEnv false 960 960)
        ["metrics_calc_lite", "-i1", "a.yuv", "-i2", "b.yuv", "-w", "8", "-h", "8",
          "-numseekframe1", "2", "2", "1", "psnr", "y"]
      = .returned ⟨0, [], ["Y-MSE", "Y-PSNR"], [.PSNR], [0], []⟩ := by
  refine ⟨by decide, by decide!, by decide!, by decide!⟩

/-! ## A step of zero -/

/-- C40 (the code does not do what the claim says): `-fs 5 0 0` is accepted
(`count = 5 >= 0`, `first = 0` below the 10 frames of the sources) and reaches
the clamp with `fm_step = 0`: the division `(last - first - 1) / fm_step` has
the divisor zero and the run is undefined.  A step that is not a number, which
`atoi` converts to 0, does the same, and so does `-fs1`.  With the step 2 the
run reads the frames 0, 2, 4, 6, 8. -/
theorem C40_zero_step :
    main.clamp 5 0 0 10 10 = none
    ∧ main (scenarioEnv false 960 960)
        ["metrics_calc_lite", "-i1", "a.yuv", "-i2", "b.yuv", "-w", "8", "-h", "8",
          "-fs", "5", "0", "0", "psnr", "y"]
      = .undefined
    ∧ main (scenarioEnv false 960 960)
        ["metrics_calc_lite", "-i1", "a.yuv", "-i2", "b.yuv", "-w", "8", "-h", "8",
          "-fs", "5", "0", "x", "psnr", "y"]
      = .undefined
    ∧ main (scenarioEnv false 960 960)
        ["metrics_calc_lite", "-i1", "a.yuv", "-i2", "b.yuv", "-w", "8", "-h", "8",
          "-fs1", "5", "0", "0", "psnr", "y"]
      = .undefined
    ∧ main (scenarioEnv false 960 960)
        ["metrics_calc_lite", "-i1", "a.yuv", "-i2", "b.yuv", "-w", "8", "-h", "8",
          "-fs", "5", "0", "2", "psnr", "y"]
      = .returned ⟨0, [], ["Y-MSE", "Y-PSNR"], [.PSNR], [0],
          [(0, 0), (2, 2), (4, 4), (6, 6), (8, 8)]⟩ := by
  refine ⟨by decide, by decide!, by decide!, by decide!, by decide!⟩

/-! ## The minimum frame size of the MS-SSIM evaluator -/

/-- C34 (the code does not do what the claim says): on two I420 sources of
176x176 pixels with `mssim u` the check of `AllocateResourses` passes (status
0, the class C420 leaves the minimum at 176x176), plane U has 88x88 samples and
the kernel index 1 in both directions, and in iteration 4 of the loop over the
scales its size is 5x5: `i_width` and `i_height` are `5 - mc_ksz[1] + 1`, which
is -1 for the kernel size 7, and the only band of the scale has -1 rows.  On
I444 sources of the same size, whose plane U has 176x176
samples, the check fails (status -3). -/
theorem C34_min_frame_size :
    main (scenarioEnv true 46464 46464)
        ["metrics_calc_lite", "-i1", "a.yuv", "-i2", "b.yuv", "-w", "176", "-h", "176",
          "mssim", "u"]
      = .returned ⟨0, [], ["U-MSSIM"], [.MSSIM], [0], [(0, 0)]⟩
    ∧ CMSSIMEvaluator.AllocateResourses.status
        (mssim_evaluator .I420P 46464 [('Y', 0), ('U', MASK_MSSIM), ('V', 0), ('O', 0)])
        true true true = 0
    ∧ ((mssim_evaluator .I420P 46464
          [('Y', 0), ('U', MASK_MSSIM), ('V', 0), ('O', 0)]).m_i1.GetFrame 1).roi = ⟨88, 88⟩
    ∧ (CMSSIMEvaluator.AllocateResourses.kidx
          (mssim_evaluator .I420P 46464 [('Y', 0), ('U', MASK_MSSIM), ('V', 0), ('O', 0)])
          (fun _ => 0, fun _ => 0)).1 1 = 1
    ∧ (CMSSIMEvaluator.AllocateResourses.kidx
          (mssim_evaluator .I420P 46464 [('Y', 0), ('U', MASK_MSSIM), ('V', 0), ('O', 0)])
          (fun _ => 0, fun _ => 0)).2 1 = 1
    ∧ (∀ mc_ksz : Nat → Int,
        CMSSIMEvaluator.i_width
            (mssim_evaluator .I420P 46464 [('Y', 0), ('U', MASK_MSSIM), ('V', 0), ('O', 0)])
            mc_ksz
            (CMSSIMEvaluator.AllocateResourses.kidx
              (mssim_evaluator .I420P 46464 [('Y', 0), ('U', MASK_MSSIM), ('V', 0), ('O', 0)])
              (fun _ => 0, fun _ => 0)).1 1 4
          = 5 - mc_ksz 1 + 1
        ∧ CMSSIMEvaluator.i_height
            (mssim_evaluator .I420P 46464 [('Y', 0), ('U', MASK_MSSIM), ('V', 0), ('O', 0)])
            mc_ksz
            (CMSSIMEvaluator.AllocateResourses.kidx
              (mssim_evaluator .I420P 46464 [('Y', 0), ('U', MASK_MSSIM), ('V', 0), ('O', 0)])
              (fun _ => 0, fun _ => 0)).2 1 4
          = 5 - mc_ksz 1 + 1)
    ∧ ((5 : Int) - 7 + 1 = -1
      ∧ CMSSIMEvaluator.patch_cnt 1 none (-1) = 1
      ∧ CMSSIMEvaluator.band_height 5 7 1 (CMSSIMEvaluator.patch_height 1 none (-1)) 0 = -1)
    ∧ main (scenarioEnv true 92928 92928)
        ["metrics_calc_lite", "-i1", "a.yuv", "-i2", "b.yuv", "-w", "176", "-h", "176",
          "-st", "i444p", "mssim", "u"]
      = .returned ⟨0, [], ["U-MSSIM"], [.MSSIM], [-3], [(0, 0)]⟩ := by
  have hroi : ((mssim_evaluator .I420P 46464
      [('Y', 0), ('U', MASK_MSSIM), ('V', 0), ('O', 0)]).m_i1.GetFrame 1).roi = ⟨88, 88⟩ := by
    decide!
  have hx : (CMSSIMEvaluator.AllocateResourses.kidx
      (mssim_evaluator .I420P 46464 [('Y', 0), ('U', MASK_MSSIM), ('V', 0), ('O', 0)])
      (fun _ => 0, fun _ => 0)).1 1 = 1 := by decide!
  have hy : (CMSSIMEvaluator.AllocateResourses.kidx
      (mssim_evaluator .I420P 46464 [('Y', 0), ('U', MASK_MSSIM), ('V', 0), ('O', 0)])
      (fun _ => 0, fun _ => 0)).2 1 = 1 := by decide!
  refine ⟨by decide!, by decide!, hroi, hx, hy, fun mc_ksz => ⟨?_, ?_⟩,
    ⟨by decide, by decide, by decide⟩, by decide!⟩
  · unfold CMSSIMEvaluator.i_width
    rw [hroi, hx]
    rfl
  · unfold CMSSIMEvaluator.i_height
    rw [hroi, hy]
    rfl

/-! ## The blocks of the MWDVQM evaluator -/

/-- C35 (the code does not do what the claim says for 16-bit samples): element
`(y, x)` of the 8x8 block converted for the block index `(m, k)` is, for 8-bit
samples, the sample in row `8m + y` and column `8k + x` of the plane; for
16-bit samples (byte stride `2 * s`) it is the sample in row `8m + y` and column
`4k + x`, because the pointer of the block is advanced by `8 * k` bytes, which
are `4 * k` samples.  So the blocks `(m, k)` and `(m, k + 1)` of a 16-bit plane
share the columns `4k + 4` to `4k + 7`. -/
theorem C35_block_addressing (mem : Mem) (fb : FBuf) (d s : Nat) (roi : ImageSize) (m k : Nat)
    (x y : Fin 8) :
    CMWDVQMEvaluator.convertBlock .D008 mem ⟨d, s, roi⟩ m k fb (y.val * 8 + x.val)
        = (sample8 mem ⟨d, s, roi⟩ (8 * k + x.val) (8 * m + y.val) : ℝ)
    ∧ CMWDVQMEvaluator.convertBlock .D010 mem ⟨d, 2 * s, roi⟩ m k fb (y.val * 8 + x.val)
        = (sample16 mem ⟨d, 2 * s, roi⟩ (4 * k + x.val) (8 * m + y.val) : ℝ)
    ∧ CMWDVQMEvaluator.convertBlock .D010 mem ⟨d, 2 * s, roi⟩ m (k + 1) fb (y.val * 8 + 0)
        = CMWDVQMEvaluator.convertBlock .D010 mem ⟨d, 2 * s, roi⟩ m k fb (y.val * 8 + 4) := by
  have h16 : ∀ (k x y : Nat), x < 8 → y < 8 →
      CMWDVQMEvaluator.convertBlock .D010 mem ⟨d, 2 * s, roi⟩ m k fb (y * 8 + x)
        = (sample16 mem ⟨d, 2 * s, roi⟩ (4 * k + x) (8 * m + y) : ℝ) := by
    intro k x y hx hy
    unfold CMWDVQMEvaluator.convertBlock mclConvert_16u32f_C1R
    simp only []
    rw [if_neg (by decide)]
    have e : (8 * 4) >>> 2 = 8 := by decide
    simp only [e]
    have := fill_value 8 8 0 8
      (fun h w => ((read16 mem (CMWDVQMEvaluator.blockPtr ⟨d, 2 * s, roi⟩ m k
        + 2 * (h * ((2 * s) >>> 1)) + 2 * w) : Nat) : ℝ)) fb x y hx hy (le_refl _)
    simp only [Nat.zero_add] at this ⊢
    rw [this]
    unfold sample16 CMWDVQMEvaluator.blockPtr
    simp only [Nat.shiftLeft_eq, Nat.shiftRight_eq_div_pow]
    congr 2
    have : 2 * s / 2 ^ 1 = s := by omega
    rw [this]
    ring
  refine ⟨?_, h16 k x.val y.val x.isLt y.isLt, ?_⟩
  · unfold CMWDVQMEvaluator.convertBlock mclConvert_8u32f_C1R
    simp only []
    rw [if_neg (by decide)]
    have e : (8 * 4) >>> 2 = 8 := by decide
    simp only [e]
    have := fill_value 8 8 0 8
      (fun h w => ((read8 mem (CMWDVQMEvaluator.blockPtr ⟨d, s, roi⟩ m k + h * s + w) : Nat) : ℝ))
      fb x.val y.val x.isLt y.isLt (le_refl _)
    simp only [Nat.zero_add] at this ⊢
    rw [this]
    unfold sample8 CMWDVQMEvaluator.blockPtr
    simp only [Nat.shiftLeft_eq]
    congr 2
    ring
  · rw [h16 (k + 1) 0 y.val (by decide) y.isLt, h16 k 4 y.val (by decide) y.isLt]
    have e : 4 * (k + 1) + 0 = 4 * k + 4 := by ring
    rw [e]

/-! ## The overall value of the UQI evaluator with four planes -/

/-- C37 (the code does not do what the claim says for the UQI evaluator with
four planes): on an RGB source with `-alpha` and `uqi b overall`,
`InitComputationParams` sets `c_mask[p] = cmps[p] | cmps[overall]`, the UQI bit,
on the four planes and registers `G-UQI`, `R-UQI`, `A-UQI` with the output flag
off; `CUQIEvaluator::ComputeMetrics` then appends the quality indexes of the
planes 0, 1, 2 and the overall value `(Q 0 + Q 1 + Q 2 + 0) / 4`: the term of
plane 3, which the overall value aggregates, was not computed in the call (it
is the initial 0 of `sum[3]`, whatever `Q 3` is). -/
theorem C37_overall_planes (Q : Nat → ℝ) (avg : List ℝ) :
    parse_metrics true (INIT_RGB [] true)
        ["metrics_calc_lite", "-i1", "a.rgb", "-i2", "b.rgb", "-w", "8", "-h", "8",
          "-st", "rgb32p", "-alpha", "uqi", "b", "overall"] 12
      = some (0, uqi_b_overall_cmps)
    ∧ main.evaluators true uqi_b_overall_cmps = [.UQI]
    ∧ uqi_rgba_evaluator.m_num_planes = 4
    ∧ (uqi_rgba_evaluator.c_mask 0
          = (uqi_b_overall_cmps.at 0).2 ||| (uqi_b_overall_cmps.at 4).2
      ∧ uqi_rgba_evaluator.c_mask 1
          = (uqi_b_overall_cmps.at 1).2 ||| (uqi_b_overall_cmps.at 4).2
      ∧ uqi_rgba_evaluator.c_mask 2
          = (uqi_b_overall_cmps.at 2).2 ||| (uqi_b_overall_cmps.at 4).2
      ∧ uqi_rgba_evaluator.c_mask 3
          = (uqi_b_overall_cmps.at 3).2 ||| (uqi_b_overall_cmps.at 4).2
      ∧ uqi_rgba_evaluator.c_mask 3 = MASK_UQI)
    ∧ (({ m_num_planes := 0
          c_mask := fun _ => 0
          m_i1 := uqi_rgba_evaluator.m_i1
          m_i2 := uqi_rgba_evaluator.m_i2 } : CMetricEvaluator).InitComputationParams
        CUQIEvaluator.metrics uqi_b_overall_cmps [] [] []).2.1
      = ["B-UQI", "G-UQI", "R-UQI", "A-UQI", "UQI"]
    ∧ (({ m_num_planes := 0
          c_mask := fun _ => 0
          m_i1 := uqi_rgba_evaluator.m_i1
          m_i2 := uqi_rgba_evaluator.m_i2 } : CMetricEvaluator).InitComputationParams
        CUQIEvaluator.metrics uqi_b_overall_cmps [] [] []).2.2.1
      = [true, false, false, false, true]
    ∧ (CUQIEvaluator.ComputeMetrics uqi_rgba_evaluator Q [] avg).1
      = [Q 0, Q 1, Q 2, (Q 0 + Q 1 + Q 2 + 0) / 4] := by
  have hn : uqi_rgba_evaluator.m_num_planes = 4 := by decide!
  have h0 : uqi_rgba_evaluator.c_mask 0 = MASK_UQI := by decide!
  have h1 : uqi_rgba_evaluator.c_mask 1 = MASK_UQI := by decide!
  have h2 : uqi_rgba_evaluator.c_mask 2 = MASK_UQI := by decide!
  have h3 : uqi_rgba_evaluator.c_mask 3 = MASK_UQI := by decide!
  have h4 : uqi_rgba_evaluator.c_mask 4 = MASK_UQI := by decide!
  have hc : get_chromaclass uqi_rgba_evaluator.m_i1.GetSqType = .C444 := by decide!
  refine ⟨by decide, by decide, hn, ⟨h0.trans (by decide), h1.trans (by decide),
    h2.trans (by decide), h3.trans (by decide), h3⟩, by decide!, by decide!, ?_⟩
  unfold CUQIEvaluator.ComputeMetrics
  have hU : MASK_UQI &&& MASK_UQI ≠ 0 := by decide
  simp only [forLoop, h0, h1, h2, hn, h4, hc, hU, ne_eq, not_false_eq_true, if_true]
  simp

/-! ## The scales a frame of the minimum size supports -/

theorem ds_roi_eq (roi : ImageSize) (k : Nat) :
    CMSSIMEvaluator.ds_roi roi k = ⟨roi.width >>> k, roi.height >>> k⟩ := by
  induction k with
  | zero => rfl
  | succ k ih =>
    rw [CMSSIMEvaluator.ds_roi, ih]
    simp only []
    rw [← Nat.shiftRight_add, ← Nat.shiftRight_add]

theorem shiftRight_ge (w ksz k : Nat) (hk : k ≤ 4) (hw : 16 * ksz ≤ w) : ksz ≤ w >>> k := by
  rw [Nat.shiftRight_eq_div_pow, Nat.le_div_iff_mul_le (by positivity)]
  have : 2 ^ k ≤ 2 ^ 4 := Nat.pow_le_pow_right (by norm_num) hk
  nlinarith

/-- A plane at least 16 times as wide and as high as its kernels has a valid
region of at least one column and one row in each of the five iterations. -/
theorem scale_extent (ev : CMetricEvaluator) (mc_ksz : Nat → Int) (xk yk : Nat → Nat)
    (i k : Nat) (kx ky : Nat) (hk : k ≤ 4) (hx : mc_ksz (xk i) = kx) (hy : mc_ksz (yk i) = ky)
    (hw : 16 * kx ≤ (ev.m_i1.GetFrame i).roi.width)
    (hh : 16 * ky ≤ (ev.m_i1.GetFrame i).roi.height) :
    1 ≤ CMSSIMEvaluator.i_width ev mc_ksz xk i k
    ∧ 1 ≤ CMSSIMEvaluator.i_height ev mc_ksz yk i k := by
  unfold CMSSIMEvaluator.i_width CMSSIMEvaluator.i_height
  rw [ds_roi_eq, hx, hy]
  have h1 := shiftRight_ge _ kx k hk hw
  have h2 := shiftRight_ge _ ky k hk hh
  simp only []
  constructor <;> omega

/-- What the check of `AllocateResourses` ensures when the status is 0: plane 0
is at least 176x176, and with a chroma plane active at least 352 wide for C422
and 352x352 for C444. -/
theorem status_zero_size (ev : CMetricEvaluator) (im1 pSpec pBuffer : Bool)
    (h : CMSSIMEvaluator.AllocateResourses.status ev im1 pSpec pBuffer = 0) :
    176 ≤ (ev.m_i1.GetFrame 0).roi.width ∧ 176 ≤ (ev.m_i1.GetFrame 0).roi.height
    ∧ ((ev.c_mask 1 &&& (MASK_MSSIM ||| MASK_SSIM ||| MASK_ARTIFACTS) ≠ 0
          ∨ ev.c_mask 2 &&& (MASK_MSSIM ||| MASK_SSIM ||| MASK_ARTIFACTS) ≠ 0) →
        (get_chromaclass ev.m_i1.GetSqType = .C422 → 352 ≤ (ev.m_i1.GetFrame 0).roi.width)
        ∧ (get_chromaclass ev.m_i1.GetSqType = .C444 →
            352 ≤ (ev.m_i1.GetFrame 0).roi.width ∧ 352 ≤ (ev.m_i1.GetFrame 0).roi.height)) := by
  unfold CMSSIMEvaluator.AllocateResourses.status at h
  simp only [] at h
  split_ifs at h with h1 h2 h3 h4 h5 h6 h7 h8
  · cases hc : get_chromaclass ev.m_i1.GetSqType <;> simp only [hc, not_or, not_lt] at h3 <;>
      refine ⟨by omega, by omega, fun _ => ⟨fun h422 => ?_, fun h444 => ?_⟩⟩ <;>
      first
        | omega
        | exact ⟨by omega, by omega⟩
        | cases h422
        | cases h444
  · simp only [not_or, not_lt] at h6
    exact ⟨h6.1, h6.2, fun hh => absurd hh h2⟩

/-! ## Selections that build an evaluator -/

theorem tokenMask_zero (full : Bool) : tokenMask full 0 := by
  refine ⟨by simp, by norm_num, fun _ => by norm_num⟩

theorem tokenMask_or (full : Bool) (a b : Nat) (ha : tokenMask full a) (hb : tokenMask full b) :
    tokenMask full (a ||| b) := by
  refine ⟨?_, Nat.or_lt_two_pow ha.2.1 hb.2.1, fun h => Nat.or_lt_two_pow (ha.2.2 h) (hb.2.2 h)⟩
  simp only [Nat.testBit_or, Bool.or_eq_true]
  rintro (h | h)
  · rcases ha.1 h with h' | h'
    · exact Or.inl (Or.inl h')
    · exact Or.inr (Or.inl h')
  · rcases hb.1 h with h' | h'
    · exact Or.inl (Or.inr h')
    · exact Or.inr (Or.inr h')

theorem metricToken_tokenMask (full : Bool) (s : String) (m : Nat)
    (h : metricToken full s = some m) : tokenMask full m := by
  unfold metricToken at h
  split_ifs at h with h1 h2 h3 h4 h5 h6 h7 <;> cases h
  · exact ⟨by decide, by decide, fun _ => by decide⟩
  · exact ⟨by decide, by decide, fun _ => by decide⟩
  · exact ⟨by decide, by decide, fun _ => by decide⟩
  · exact ⟨by decide, by decide, fun hf => by rw [h4.1] at hf; cases hf⟩
  · exact ⟨by decide, by decide, fun hf => by rw [h5.1] at hf; cases hf⟩
  · exact ⟨by decide, by decide, fun hf => by rw [h6.1] at hf; cases hf⟩
  · exact ⟨by decide, by decide, fun hf => by rw [h7.1] at hf; cases hf⟩

/-- An invariant of masks that holds of 0 and of the mask of each token and is
kept by `|`, holds of `cm` after the first inner loop of `parse_metrics`. -/
theorem metricLoop_inv (full : Bool) (P : Nat → Prop) (hor : ∀ a b, P a → P b → P (a ||| b))
    (htok : ∀ s m, metricToken full s = some m → P m) :
    ∀ (args : List String) (cm : Nat) (nm : Bool), P cm →
      P (parse_metrics.metricLoop full args cm nm).2.1 := by
  intro args
  induction args with
  | nil => intro cm nm h; simpa [parse_metrics.metricLoop] using h
  | cons tok t ih =>
    intro cm nm h
    cases t with
    | nil => simpa [parse_metrics.metricLoop] using h
    | cons nxt rest =>
      rw [parse_metrics.metricLoop]
      cases hm : metricToken full tok with
      | none => simpa using h
      | some m =>
        simp only []
        exact ih (cm ||| m) false (hor cm m h (htok tok m hm))

theorem orAt_inv (P : Nat → Prop) (hor : ∀ a b, P a → P b → P (a ||| b)) (cm : Nat)
    (hcm : P cm) :
    ∀ (cmps : Component) (i : Nat), (∀ e ∈ cmps, P e.2) →
      (∀ e ∈ cmps.orAt i cm, P e.2) ∧ (cmps.orAt i cm).length = cmps.length := by
  intro cmps
  induction cmps with
  | nil => intro i _; simp [Component.orAt]
  | cons x t ih =>
    intro i h
    obtain ⟨c, m⟩ := x
    cases i with
    | zero =>
      refine ⟨fun e he => ?_, rfl⟩
      simp only [Component.orAt, List.mem_cons] at he
      rcases he with he | he
      · rw [he]
        exact hor m cm (h (c, m) (List.mem_cons_self _ _)) hcm
      · exact h e (List.mem_cons_of_mem _ he)
    | succ i =>
      have ih' := ih i (fun e he => h e (List.mem_cons_of_mem _ he))
      refine ⟨fun e he => ?_, by simp only [Component.orAt, List.length_cons, ih'.2]⟩
      simp only [Component.orAt, List.mem_cons] at he
      rcases he with he | he
      · rw [he]
        exact h (c, m) (List.mem_cons_self _ _)
      · exact ih'.1 e he

theorem planeLoop_inv (P : Nat → Prop) (hor : ∀ a b, P a → P b → P (a ||| b)) (cm : Nat)
    (hcm : P cm) :
    ∀ (args : List String) (cmps : Component) (np : Bool), (∀ e ∈ cmps, P e.2) →
      (∀ e ∈ (parse_metrics.planeLoop cm args cmps np).2.1, P e.2)
      ∧ (parse_metrics.planeLoop cm args cmps np).2.1.length = cmps.length := by
  intro args
  induction args with
  | nil => intro cmps np h; exact ⟨by simpa [parse_metrics.planeLoop] using h, rfl⟩
  | cons tok rest ih =>
    intro cmps np h
    rw [parse_metrics.planeLoop]
    split_ifs
    · have := orAt_inv P hor cm hcm cmps 0 h
      have := ih _ false this.1
      exact ⟨this.1, by omega⟩
    · have := orAt_inv P hor cm hcm cmps 1 h
      have := ih _ false this.1
      exact ⟨this.1, by omega⟩
    · have := orAt_inv P hor cm hcm cmps 2 h
      have := ih _ false this.1
      exact ⟨this.1, by omega⟩
    · have := orAt_inv P hor cm hcm cmps (cmps.length - 1) h
      have := ih _ false this.1
      exact ⟨this.1, by omega⟩
    · have hm : ∀ e ∈ cmps.map (fun p => (p.1, p.2 ||| cm)), P e.2 := by
        intro e he
        obtain ⟨p, hp, rfl⟩ := List.mem_map.mp he
        exact hor p.2 cm (h p hp) hcm
      have := ih _ false hm
      exact ⟨this.1, by rw [this.2, List.length_map]⟩
    · exact ⟨h, rfl⟩

theorem parse_metrics_loop_inv (full : Bool) (P : Nat → Prop) (h0 : P 0)
    (hor : ∀ a b, P a → P b → P (a ||| b)) (htok : ∀ s m, metricToken full s = some m → P m) :
    ∀ (fuel : Nat) (cmps : Component) (args : List String) (r : Int × Component),
      (∀ e ∈ cmps, P e.2) → parse_metrics.loop full fuel cmps args = some r →
      (∀ e ∈ r.2, P e.2) ∧ r.2.length = cmps.length := by
  intro fuel
  induction fuel with
  | zero =>
    intro cmps args r h hr
    cases args with
    | nil =>
      simp only [parse_metrics.loop, Option.some.injEq] at hr
      rw [← hr]
      exact ⟨h, rfl⟩
    | cons x t => simp [parse_metrics.loop] at hr
  | succ fuel ih =>
    intro cmps args r h hr
    cases args with
    | nil =>
      simp only [parse_metrics.loop, Option.some.injEq] at hr
      rw [← hr]
      exact ⟨h, rfl⟩
    | cons tok rest =>
      rw [parse_metrics.loop] at hr
      simp only [] at hr
      have hcm := metricLoop_inv full P hor htok (tok :: rest) 0 true h0
      have hp := planeLoop_inv P hor _ hcm
        (parse_metrics.metricLoop full (tok :: rest) 0 true).1 cmps true h
      split_ifs at hr with h1 h2
      · simp only [Option.some.injEq] at hr
        rw [← hr]
        exact ⟨h, rfl⟩
      · simp only [Option.some.injEq] at hr
        rw [← hr]
        exact hp
      · have := ih _ _ r hp.1 hr
        exact ⟨this.1, by rw [this.2, hp.2]⟩

theorem and_ne_zero_of_testBit (m mask k : Nat) (hmask : mask.testBit k = true)
    (h : m.testBit k = true) : m &&& mask ≠ 0 := by
  intro h0
  have : (m &&& mask).testBit k = true := by simp [Nat.testBit_and, h, hmask]
  rw [h0] at this
  simp at this

theorem tokenMask_evaluator (full : Bool) (m : Nat) (h : tokenMask full m) (hne : m ≠ 0) :
    m &&& (MASK_PSNR ||| MASK_APSNR) ≠ 0
    ∨ (full = true ∧ (m &&& (MASK_SSIM ||| MASK_MSSIM ||| MASK_ARTIFACTS) ≠ 0
        ∨ m &&& MASK_MWDVQM ≠ 0 ∨ m &&& MASK_UQI ≠ 0))
    ∨ (full = false ∧ m &&& MASK_SSIM ≠ 0) := by
  obtain ⟨k, hk⟩ := Nat.ne_zero_implies_bit_true hne
  have hk8 : k < 8 := by
    by_contra hc
    have : m < 2 ^ k := lt_of_lt_of_le h.2.1 (Nat.pow_le_pow_right (by norm_num) (by omega))
    rw [Nat.testBit_lt_two_pow this] at hk
    cases hk
  have hP : m.testBit 0 = true ∨ m.testBit 1 = true →
      m &&& (MASK_PSNR ||| MASK_APSNR) ≠ 0 := by
    rintro (h0 | h1)
    · exact and_ne_zero_of_testBit m _ 0 (by decide) h0
    · exact and_ne_zero_of_testBit m _ 1 (by decide) h1
  cases full with
  | false =>
    have hk4 : k < 4 := by
      by_contra hc
      have : m < 2 ^ k :=
        lt_of_lt_of_le (h.2.2 rfl) (Nat.pow_le_pow_right (by norm_num) (by omega))
      rw [Nat.testBit_lt_two_pow this] at hk
      cases hk
    interval_cases k
    · exact Or.inl (hP (Or.inl hk))
    · exact Or.inl (hP (Or.inr hk))
    · exact Or.inl (hP (h.1 hk))
    · exact Or.inr (Or.inr ⟨rfl, and_ne_zero_of_testBit m _ 3 (by decide) hk⟩)
  | true =>
    interval_cases k
    · exact Or.inl (hP (Or.inl hk))
    · exact Or.inl (hP (Or.inr hk))
    · exact Or.inl (hP (h.1 hk))
    · exact Or.inr (Or.inl ⟨rfl, Or.inl (and_ne_zero_of_testBit m _ 3 (by decide) hk)⟩)
    · exact Or.inr (Or.inl ⟨rfl, Or.inl (and_ne_zero_of_testBit m _ 4 (by decide) hk)⟩)
    · exact Or.inr (Or.inl ⟨rfl, Or.inr (Or.inl (and_ne_zero_of_testBit m _ 5 (by decide) hk))⟩)
    · exact Or.inr (Or.inl ⟨rfl, Or.inr (Or.inr (and_ne_zero_of_testBit m _ 6 (by decide) hk))⟩)
    · exact Or.inr (Or.inl ⟨rfl, Or.inl (and_ne_zero_of_testBit m _ 7 (by decide) hk)⟩)

/-- With a component vector of four entries (a YUV source, or an RGB source
without `-alpha`), every argument list on which `parse_metrics` returns 0 and
which passes the check of the metric set makes `main` construct an evaluator. -/
theorem evaluators_ne_nil (full : Bool) (cmps out : Component) (argv : List String) (curc : Nat)
    (hz : ∀ e ∈ cmps, e.2 = 0) (hlen : cmps.length = 4)
    (hret : parse_metrics full cmps argv curc = some (0, out))
    (hne : out.foldl (fun m c => (m ||| c.2) % 256) 0 ≠ 0) :
    main.evaluators full out ≠ [] := by
  have hinv := parse_metrics_loop_inv full (tokenMask full) (tokenMask_zero full)
    (tokenMask_or full) (metricToken_tokenMask full) argv.length cmps (argv.drop curc) (0, out)
    (fun e he => by rw [hz e he]; exact tokenMask_zero full) hret
  obtain ⟨hP, hl⟩ := hinv
  simp only [] at hP hl
  rw [hlen] at hl
  match out, hl, hP, hne with
  | [a, b, c, d], _, hP, hne =>
    have ha := hP a (by simp)
    have hb := hP b (by simp)
    have hc := hP c (by simp)
    have hd := hP d (by simp)
    have hall := tokenMask_or full _ _ (tokenMask_or full _ _ (tokenMask_or full _ _ ha hb) hc) hd
    have hfold : List.foldl (fun m c => (m ||| c.2) % 256) 0 [a, b, c, d]
        = a.2 ||| b.2 ||| c.2 ||| d.2 := by
      have h1 : a.2 < 256 := ha.2.1
      have h2 : a.2 ||| b.2 < 256 := (tokenMask_or full _ _ ha hb).2.1
      have h3 : a.2 ||| b.2 ||| c.2 < 256 :=
        (tokenMask_or full _ _ (tokenMask_or full _ _ ha hb) hc).2.1
      have h4 : a.2 ||| b.2 ||| c.2 ||| d.2 < 256 := hall.2.1
      simp only [List.foldl, Nat.zero_or, Nat.mod_eq_of_lt h1, Nat.mod_eq_of_lt h2,
        Nat.mod_eq_of_lt h3, Nat.mod_eq_of_lt h4]
    rw [hfold] at hne
    have hev := tokenMask_evaluator full _ hall hne
    unfold main.evaluators
    have e0 : (Component.at [a, b, c, d] 0).2 = a.2 := rfl
    have e1 : (Component.at [a, b, c, d] 1).2 = b.2 := rfl
    have e2 : (Component.at [a, b, c, d] 2).2 = c.2 := rfl
    have e3 : (Component.at [a, b, c, d] 3).2 = d.2 := rfl
    simp only [e0, e1, e2, e3]
    rcases hev with h | ⟨hf, h⟩ | ⟨hf, h⟩
    · simp [h]
    · subst hf
      rcases h with h | h | h <;> simp [h]
    · subst hf
      simp [h]

end MCL
